import Mathlib

/-!
# Venus HFI response handling (`driver/vidc/src/venus_hfi_response.c`)

A shallow embedding of the response path of the video driver: packet
validation, the session and system pipelines, the buffer handlers, the
reconciliation pass `handle_dequeue_buffers` and the deferred work queue.

Conventions of the embedding

* Memory is a byte map `Mem`; a pointer is the `Nat` address it holds, `0` is
  `NULL`.  Pointer arithmetic is addition on addresses (C gives no meaning to a
  pointer that leaves the address space, so addresses do not wrap).  A `u32`
  is a `Nat` below `2 ^ 32`; every field read from memory is one by
  construction (`read32`), and `u32` subtraction is written with `% 2 ^ 32`.
  Multi-byte fields are little endian, as on the arm64 targets of the driver.
* The headers `hfi_packet.h`, `hfi_command.h`, `hfi_property.h` and
  `msm_vidc_internal.h` are not part of the sources at hand.  The struct
  layouts and the numeric constants they define are the fields of the
  parameter `K : hfi_defs`.  The one layout fact taken from the C file itself
  is that the size of a header or packet is its first `u32`: that is what
  `validate_packet` reads for both.
* Functions of the driver that live in other files (`msm_vidc_driver.c`,
  `msm_vdec.c`, the vb2 glue) are outbound calls.  A call is recorded in the
  instance's or core's `events` log; a return code or a decision the C code
  branches on is taken from the parameter `X : vidc_ops`.  Where an outbound
  call changes a part of the instance that the file itself reads again, the
  change is modelled and the definition says so: the state tag set by
  `msm_vidc_change_inst_state`, and the record that
  `msm_vidc_put_driver_buf` takes out of its collection.
* Logging (`d_vpr_e`, `i_vpr_h`, `print_vidc_buffer`, debugfs counters) and
  locking (`mutex_lock`, `get_inst`/`put_inst` reference counts) have no
  effect on the modelled state and are left out.
* `calls` is a ghost log: the dispatch loops append the pair
  (table row, packet address) each time they invoke `be[i].handle`.
-/

namespace Vidc

/-! ## Memory -/

/-- Byte-addressed memory: the value at an address, taken modulo 256 on read. -/
abbrev Mem := Nat → Nat

/-- One byte of memory. -/
def read8 (m : Mem) (a : Nat) : Nat := m a % 256

/-- The little-endian `u32` at address `a`: `*(u32 *)a`. -/
def read32 (m : Mem) (a : Nat) : Nat :=
  read8 m a + 256 * read8 m (a + 1) + 65536 * read8 m (a + 2) + 16777216 * read8 m (a + 3)

/-- The little-endian `u64` at address `a`. -/
def read64 (m : Mem) (a : Nat) : Nat :=
  read32 m a + 4294967296 * read32 m (a + 4)

/-- Store one byte. -/
def write8 (m : Mem) (a v : Nat) : Mem :=
  fun x => if x = a then v % 256 else m x

/-- Store a little-endian `u32`: `*(u32 *)a = v`. -/
def write32 (m : Mem) (a v : Nat) : Mem :=
  write8 (write8 (write8 (write8 m a v) (a + 1) (v / 256)) (a + 2) (v / 65536))
    (a + 3) (v / 16777216)

/-- The memory that holds `bytes` from address `base` on and zero elsewhere. -/
def mem_of (base : Nat) (bytes : List Nat) : Mem :=
  fun a => if a < base then 0 else bytes.getD (a - base) 0

/-- The four little-endian bytes of a `u32`. -/
def le32 (v : Nat) : List Nat :=
  [v % 256, v / 256 % 256, v / 65536 % 256, v / 16777216 % 256]

/-- The effect of `memcpy(dst, src, n)` for non-overlapping regions. -/
def memcpy (m : Mem) (dst src n : Nat) : Mem :=
  fun x => if dst ≤ x ∧ x < dst + n then m (src + (x - dst)) else m x

/-! ## Constants and layouts of the absent headers -/

/-- Struct layouts and numeric constants of the HFI and driver headers that the
C file includes.  Every field is named after the C macro, enumerator or
`offsetof`/`sizeof` expression it stands for. -/
structure hfi_defs where
  -- `sizeof(struct hfi_header)`.
  sizeof_hfi_header : Nat
  -- `offsetof(struct hfi_header, session_id)`.
  hdr_session_id : Nat
  -- `offsetof(struct hfi_header, num_packets)`.
  hdr_num_packets : Nat
  -- `sizeof(struct hfi_packet)`.
  sizeof_hfi_packet : Nat
  -- `offsetof(struct hfi_packet, type)`.
  pkt_type : Nat
  -- `offsetof(struct hfi_packet, flags)`.
  pkt_flags : Nat
  -- `offsetof(struct hfi_packet, payload_info)`.
  pkt_payload_info : Nat
  -- `offsetof(struct hfi_packet, port)`.
  pkt_port : Nat
  -- `offsetof(struct hfi_buffer, type)`.
  buf_type : Nat
  -- `offsetof(struct hfi_buffer, base_address)`, a `u64`.
  buf_base_address : Nat
  -- `offsetof(struct hfi_buffer, addr_offset)`.
  buf_addr_offset : Nat
  -- `offsetof(struct hfi_buffer, data_offset)`.
  buf_data_offset : Nat
  -- `offsetof(struct hfi_buffer, data_size)`.
  buf_data_size : Nat
  -- `offsetof(struct hfi_buffer, timestamp)`, a `u64`.
  buf_timestamp : Nat
  -- `offsetof(struct hfi_buffer, flags)`.
  buf_flags : Nat
  -- `sizeof(struct hfi_buffer)`.
  sizeof_hfi_buffer : Nat
  HFI_CMD_BEGIN : Nat
  HFI_CMD_END : Nat
  HFI_CMD_INIT : Nat
  HFI_CMD_OPEN : Nat
  HFI_CMD_CLOSE : Nat
  HFI_CMD_START : Nat
  HFI_CMD_STOP : Nat
  HFI_CMD_DRAIN : Nat
  HFI_CMD_BUFFER : Nat
  HFI_CMD_SETTINGS_CHANGE : Nat
  HFI_CMD_SUBSCRIBE_MODE : Nat
  HFI_CMD_DELIVERY_MODE : Nat
  HFI_CMD_RESUME : Nat
  HFI_SESSION_ERROR_BEGIN : Nat
  HFI_SESSION_ERROR_END : Nat
  HFI_SYSTEM_ERROR_BEGIN : Nat
  HFI_SYSTEM_ERROR_END : Nat
  HFI_INFORMATION_BEGIN : Nat
  HFI_INFORMATION_END : Nat
  HFI_INFO_DATA_CORRUPT : Nat
  HFI_PROP_BEGIN : Nat
  HFI_PROP_END : Nat
  HFI_PROP_CODEC : Nat
  HFI_PROP_IMAGE_VERSION : Nat
  HFI_PROP_BITSTREAM_RESOLUTION : Nat
  HFI_PROP_CROP_OFFSETS : Nat
  HFI_PROP_LUMA_CHROMA_BIT_DEPTH : Nat
  HFI_PROP_CODED_FRAMES : Nat
  HFI_PROP_BUFFER_FW_MIN_OUTPUT_COUNT : Nat
  HFI_PROP_PIC_ORDER_CNT_TYPE : Nat
  HFI_PROP_SIGNAL_COLOR_INFO : Nat
  HFI_PROP_PROFILE : Nat
  HFI_PROP_LEVEL : Nat
  HFI_PROP_TIER : Nat
  HFI_PROP_PICTURE_TYPE : Nat
  HFI_PROP_NO_OUTPUT : Nat
  HFI_PORT_NONE : Nat
  HFI_PORT_BITSTREAM : Nat
  HFI_PORT_RAW : Nat
  HFI_PAYLOAD_NONE : Nat
  HFI_BUFFER_BITSTREAM : Nat
  HFI_BUFFER_RAW : Nat
  HFI_BUFFER_METADATA : Nat
  HFI_BUFFER_BIN : Nat
  HFI_BUFFER_ARP : Nat
  HFI_BUFFER_COMV : Nat
  HFI_BUFFER_NON_COMV : Nat
  HFI_BUFFER_LINE : Nat
  HFI_BUFFER_DPB : Nat
  HFI_BUFFER_PERSIST : Nat
  HFI_FW_FLAGS_SUCCESS : Nat
  HFI_FW_FLAGS_SESSION_ERROR : Nat
  HFI_FW_FLAGS_SYSTEM_ERROR : Nat
  HFI_BUF_FW_FLAG_READONLY : Nat
  HFI_BUF_FW_FLAG_CODEC_CONFIG : Nat
  HFI_BUF_FW_FLAG_LAST : Nat
  HFI_PICTURE_IDR : Nat
  HFI_PICTURE_P : Nat
  HFI_PICTURE_B : Nat
  HFI_PICTURE_I : Nat
  HFI_PICTURE_CRA : Nat
  HFI_PICTURE_BLA : Nat
  MSM_VIDC_ATTR_READ_ONLY : Nat
  MSM_VIDC_ATTR_QUEUED : Nat
  MSM_VIDC_ATTR_DEQUEUED : Nat
  MSM_VIDC_ATTR_BUFFER_DONE : Nat
  MSM_VIDC_BUF_FLAG_KEYFRAME : Nat
  MSM_VIDC_BUF_FLAG_PFRAME : Nat
  MSM_VIDC_BUF_FLAG_BFRAME : Nat
  MSM_VIDC_BUF_FLAG_ERROR : Nat
  MSM_VIDC_BUF_FLAG_CODECCONFIG : Nat
  MSM_VIDC_BUF_FLAG_LAST : Nat
  MSM_VIDC_VP9 : Nat
  -- the instance state `MSM_VIDC_ERROR`
  MSM_VIDC_ERROR : Nat
  MAX_SIGNAL : Nat
  SIGNAL_CMD_STOP_INPUT : Nat
  SIGNAL_CMD_STOP_OUTPUT : Nat
  SIGNAL_CMD_CLOSE : Nat
  VENUS_VERSION_LENGTH : Nat
  -- `offsetof(struct msm_vidc_sfr, bufSize)`.
  sfr_bufSize : Nat
  -- `offsetof(struct msm_vidc_sfr, rg_data)`.
  sfr_rg_data : Nat

/-- The values the driver's headers give these layouts and constants
(`hfi_packet.h`, `hfi_command.h`, `hfi_property.h`, `msm_vidc_internal.h`);
used for concrete runs only, every general theorem holds for all `K`. -/
def venus : hfi_defs where
  sizeof_hfi_header := 32
  hdr_session_id := 4
  hdr_num_packets := 28
  sizeof_hfi_packet := 32
  pkt_type := 4
  pkt_flags := 8
  pkt_payload_info := 12
  pkt_port := 16
  buf_type := 0
  buf_base_address := 8
  buf_addr_offset := 16
  buf_data_offset := 24
  buf_data_size := 28
  buf_timestamp := 32
  buf_flags := 40
  sizeof_hfi_buffer := 64
  HFI_CMD_BEGIN := 0x01000000
  HFI_CMD_END := 0x01FFFFFF
  HFI_CMD_INIT := 0x01000001
  HFI_CMD_OPEN := 0x01000003
  HFI_CMD_CLOSE := 0x01000004
  HFI_CMD_START := 0x01000005
  HFI_CMD_STOP := 0x01000006
  HFI_CMD_DRAIN := 0x01000007
  HFI_CMD_BUFFER := 0x01000009
  HFI_CMD_SETTINGS_CHANGE := 0x0100000C
  HFI_CMD_SUBSCRIBE_MODE := 0x0100000B
  HFI_CMD_DELIVERY_MODE := 0x0100000A
  HFI_CMD_RESUME := 0x01000008
  HFI_SESSION_ERROR_BEGIN := 0x04000000
  HFI_SESSION_ERROR_END := 0x04FFFFFF
  HFI_SYSTEM_ERROR_BEGIN := 0x05000000
  HFI_SYSTEM_ERROR_END := 0x05FFFFFF
  HFI_INFORMATION_BEGIN := 0x06000000
  HFI_INFORMATION_END := 0x06FFFFFF
  HFI_INFO_DATA_CORRUPT := 0x06000002
  HFI_PROP_BEGIN := 0x03000000
  HFI_PROP_END := 0x03FFFFFF
  HFI_PROP_CODEC := 0x03000100
  HFI_PROP_IMAGE_VERSION := 0x03000001
  HFI_PROP_BITSTREAM_RESOLUTION := 0x03000103
  HFI_PROP_CROP_OFFSETS := 0x03000105
  HFI_PROP_LUMA_CHROMA_BIT_DEPTH := 0x0300010F
  HFI_PROP_CODED_FRAMES := 0x03000120
  HFI_PROP_BUFFER_FW_MIN_OUTPUT_COUNT := 0x0300014D
  HFI_PROP_PIC_ORDER_CNT_TYPE := 0x03000128
  HFI_PROP_SIGNAL_COLOR_INFO := 0x03000155
  HFI_PROP_PROFILE := 0x03000107
  HFI_PROP_LEVEL := 0x03000108
  HFI_PROP_TIER := 0x03000109
  HFI_PROP_PICTURE_TYPE := 0x03000162
  HFI_PROP_NO_OUTPUT := 0x0300016A
  HFI_PORT_NONE := 0
  HFI_PORT_BITSTREAM := 1
  HFI_PORT_RAW := 2
  HFI_PAYLOAD_NONE := 0
  HFI_BUFFER_BITSTREAM := 1
  HFI_BUFFER_RAW := 2
  HFI_BUFFER_METADATA := 3
  HFI_BUFFER_BIN := 6
  HFI_BUFFER_ARP := 7
  HFI_BUFFER_COMV := 8
  HFI_BUFFER_NON_COMV := 9
  HFI_BUFFER_LINE := 10
  HFI_BUFFER_DPB := 11
  HFI_BUFFER_PERSIST := 12
  HFI_FW_FLAGS_SUCCESS := 0x1
  HFI_FW_FLAGS_SESSION_ERROR := 0x8
  HFI_FW_FLAGS_SYSTEM_ERROR := 0x10
  HFI_BUF_FW_FLAG_READONLY := 0x10
  HFI_BUF_FW_FLAG_CODEC_CONFIG := 0x100
  HFI_BUF_FW_FLAG_LAST := 0x10000000
  HFI_PICTURE_IDR := 0x1
  HFI_PICTURE_P := 0x2
  HFI_PICTURE_B := 0x4
  HFI_PICTURE_I := 0x8
  HFI_PICTURE_CRA := 0x10
  HFI_PICTURE_BLA := 0x20
  MSM_VIDC_ATTR_READ_ONLY := 0x2
  MSM_VIDC_ATTR_QUEUED := 0x8
  MSM_VIDC_ATTR_DEQUEUED := 0x10
  MSM_VIDC_ATTR_BUFFER_DONE := 0x20
  MSM_VIDC_BUF_FLAG_KEYFRAME := 0x8
  MSM_VIDC_BUF_FLAG_PFRAME := 0x10
  MSM_VIDC_BUF_FLAG_BFRAME := 0x20
  MSM_VIDC_BUF_FLAG_ERROR := 0x40
  MSM_VIDC_BUF_FLAG_CODECCONFIG := 0x01000000
  MSM_VIDC_BUF_FLAG_LAST := 0x00100000
  MSM_VIDC_VP9 := 4
  MSM_VIDC_ERROR := 7
  MAX_SIGNAL := 3
  SIGNAL_CMD_STOP_INPUT := 0
  SIGNAL_CMD_STOP_OUTPUT := 1
  SIGNAL_CMD_CLOSE := 2
  VENUS_VERSION_LENGTH := 128
  sfr_bufSize := 0
  sfr_rg_data := 4

/-- The errno `EINVAL`; the C functions return `-EINVAL`. -/
def EINVAL : Int := 22

/-- The errno `ENOMEM`. -/
def ENOMEM : Int := 12

/-- The mask of a `u32`, for `~x` on 32-bit flag words. -/
def U32_MAX : Nat := 4294967295

/-! ## Packet validation -/

/-- The C function `validate_packet(response_pkt, core_resp_pkt, core_resp_pkt_size, func)`:
`0` or `-EINVAL`.  The declared size is the `u32` stored at `response_pkt`. -/
def validate_packet (m : Mem) (response_pkt core_resp_pkt core_resp_pkt_size : Nat) : Int :=
  if response_pkt = 0 ∨ core_resp_pkt = 0 ∨ core_resp_pkt_size = 0 then -EINVAL
  else
    let response_limit := core_resp_pkt + core_resp_pkt_size
    if response_pkt < core_resp_pkt ∨ response_pkt > response_limit then -EINVAL
    else
      let response_pkt_size := read32 m response_pkt
      if response_pkt_size = 0 then -EINVAL
      else if response_pkt + response_pkt_size > response_limit then -EINVAL
      else 0

/-! ## Driver data model -/

/-- The buffer kinds of `enum msm_vidc_buffer_type` that the file handles. -/
inductive msm_vidc_buffer_type
  | MSM_VIDC_BUF_INPUT
  | MSM_VIDC_BUF_OUTPUT
  | MSM_VIDC_BUF_INPUT_META
  | MSM_VIDC_BUF_OUTPUT_META
  | MSM_VIDC_BUF_BIN
  | MSM_VIDC_BUF_ARP
  | MSM_VIDC_BUF_COMV
  | MSM_VIDC_BUF_NON_COMV
  | MSM_VIDC_BUF_LINE
  | MSM_VIDC_BUF_DPB
  | MSM_VIDC_BUF_PERSIST
  deriving DecidableEq

/-- The session domain: what `is_encode_session` and `is_decode_session` test. -/
inductive msm_vidc_domain_type
  | MSM_VIDC_ENCODER
  | MSM_VIDC_DECODER
  | other
  deriving DecidableEq

/-- The ports `vidc_port_from_hfi` can return; `MAX_PORT` is its failure value. -/
inductive msm_vidc_port_type
  | INPUT_PORT
  | OUTPUT_PORT
  | MAX_PORT
  deriving DecidableEq

/-- The kinds of `enum response_work_type`; `other` is any value outside it. -/
inductive response_work_type
  | RESP_WORK_INPUT_PSC
  | RESP_WORK_OUTPUT_PSC
  | RESP_WORK_LAST_FLAG
  | other
  deriving DecidableEq

/-- The three decisions of `enum msm_vidc_allow`. -/
inductive msm_vidc_allow
  | MSM_VIDC_DISALLOW
  | MSM_VIDC_DEFER
  | MSM_VIDC_ALLOW
  deriving DecidableEq

/-- The fields of `struct msm_vidc_buffer` that the file reads or writes. -/
structure msm_vidc_buffer where
  device_addr : Nat
  data_offset : Nat
  data_size : Nat
  timestamp : Nat
  attr : Nat
  flags : Nat
  deriving DecidableEq

/-- The transient `struct msm_vidc_hfi_frame_info`. -/
structure msm_vidc_hfi_frame_info where
  picture_type : Nat
  data_corrupt : Nat
  no_output : Nat
  deriving DecidableEq

/-- The per-port `struct msm_vidc_subscription_params`. -/
structure msm_vidc_subscription_params where
  bitstream_resolution : Nat
  crop_offsets0 : Nat
  crop_offsets1 : Nat
  bit_depth : Nat
  coded_frames : Nat
  fw_min_count : Nat
  pic_order_cnt : Nat
  color_info : Nat
  profile : Nat
  level : Nat
  tier : Nat
  deriving DecidableEq

/-- The two capability values the file reads from `inst->capabilities->cap[]`. -/
structure msm_vidc_inst_capability where
  SUPER_FRAME : Nat
  META_BUF_TAG : Nat
  deriving DecidableEq

/-- One queued `struct response_work`: its kind, the address of the snapshot
and the snapshot's length in bytes. -/
structure response_work where
  type : response_work_type
  data : Nat
  data_size : Nat
  deriving DecidableEq

/-- Outbound calls of the session code, in the order they are made. -/
inductive vidc_event
  | change_inst_state (state : Nat)
  | complete (cmd : Nat)
  | vb2_buffer_done (ty : msm_vidc_buffer_type) (idx : Nat)
  | put_driver_buf (ty : msm_vidc_buffer_type) (idx : Nat)
  | destroy_internal_buffer (ty : msm_vidc_buffer_type) (idx : Nat)
  | input_port_settings_change
  | output_port_settings_change
  | init_input_subcr_params
  | state_change_input_psc
  | state_change_last_flag
  | queue_delayed_work
  | dequeue_buffers
  deriving DecidableEq

/-- The part of `struct msm_vidc_inst` the response path touches.  The
collection of a buffer kind is `none` when `msm_vidc_get_buffers` returns
`NULL` for it; an outbound call names a record by its kind and its position in
the list at the time of the call (for `handle_dequeue_buffers`, on entry to the
pass).  `events` and `calls` are the logs described in the header. -/
structure msm_vidc_inst where
  domain : msm_vidc_domain_type
  codec : Nat
  state : Nat
  has_core : Bool
  capabilities : Option msm_vidc_inst_capability
  buffers : msm_vidc_buffer_type → Option (List msm_vidc_buffer)
  hfi_frame_info : msm_vidc_hfi_frame_info
  subcr_params : msm_vidc_port_type → msm_vidc_subscription_params
  response_works : List response_work
  events : List vidc_event
  calls : List (Nat × Nat)

/-- What a session-scope function works on: the memory and the instance. -/
structure sess where
  mem : Mem
  inst : msm_vidc_inst

/-- Return codes and decisions of the driver functions defined outside the
file, each as a function of the instance at the moment of the call. -/
structure vidc_ops where
  -- return code of `msm_vidc_change_inst_state`
  change_inst_state : msm_vidc_inst → Nat → Int
  msm_vidc_is_super_buffer : msm_vidc_inst → Bool
  -- `call_session_op(core, buffer_size, inst, type)`, a `u32`
  buffer_size : msm_vidc_inst → msm_vidc_buffer_type → Nat
  -- return code of `msm_vidc_destroy_internal_buffer`
  destroy_internal_buffer : msm_vidc_inst → msm_vidc_buffer_type → Nat → Int
  msm_vdec_input_port_settings_change : msm_vidc_inst → Int
  msm_vdec_output_port_settings_change : msm_vidc_inst → Int
  -- the input-port parameters `msm_vdec_init_input_subcr_params` installs
  msm_vdec_init_input_subcr_params : msm_vidc_inst → msm_vidc_subscription_params
  msm_vidc_allow_input_psc : msm_vidc_inst → msm_vidc_allow
  msm_vidc_allow_last_flag : msm_vidc_inst → Bool
  -- return code and resulting state of `msm_vidc_state_change_input_psc`
  msm_vidc_state_change_input_psc : msm_vidc_inst → Int × Nat
  -- return code and resulting state of `msm_vidc_state_change_last_flag`
  msm_vidc_state_change_last_flag : msm_vidc_inst → Int × Nat
  -- whether `kzalloc(sizeof(struct response_work))` succeeds
  kzalloc_work : msm_vidc_inst → Bool
  -- the address `kzalloc(hdr_size)` returns, `0` on failure
  kzalloc_data : msm_vidc_inst → Nat → Nat

/-- The test `x & mask` of C, as a boolean. -/
def has_flag (x mask : Nat) : Bool := x &&& mask != 0

/-- The update `x &= ~mask` on a 32-bit word. -/
def clear_flag (x mask : Nat) : Nat := x &&& (U32_MAX ^^^ mask)

/-- The update `x |= mask`. -/
def set_flag (x mask : Nat) : Nat := x ||| mask

/-- Append an outbound call to the instance's log. -/
def sess.log (st : sess) (e : vidc_event) : sess :=
  { st with inst := { st.inst with events := st.inst.events ++ [e] } }

/-- Modelled from the spec: `msm_vidc_change_inst_state` (in `msm_vidc_driver.c`,
not at hand) is the outbound `transition_state(instance, NewState)`; it sets the
state tag and is logged, its return code comes from `X`. -/
def msm_vidc_change_inst_state (X : vidc_ops) (st : sess) (request_state : Nat) : Int × sess :=
  (X.change_inst_state st.inst request_state,
   { st with inst := { st.inst with
       state := request_state,
       events := st.inst.events ++ [vidc_event.change_inst_state request_state] } })

/-- The C function `signal_session_msg_receipt`: completes `inst->completions[cmd]`
when `cmd < MAX_SIGNAL`. -/
def signal_session_msg_receipt (K : hfi_defs) (st : sess) (cmd : Nat) : Int × sess :=
  if cmd < K.MAX_SIGNAL then (0, st.log (vidc_event.complete cmd)) else (0, st)

/-- The loop `list_for_each_entry(buf, &buffers->list, list)` that stops at
the first record whose `device_addr` is `addr`: its position and the record. -/
def find_buffer (addr : Nat) : List msm_vidc_buffer → Option (Nat × msm_vidc_buffer)
  | [] => none
  | b :: bs =>
    if b.device_addr = addr then some (0, b)
    else (find_buffer addr bs).map (fun r => (r.1 + 1, r.2))

/-- Store `buf` as record `idx` of the collection of kind `ty`. -/
def set_buffer (st : sess) (ty : msm_vidc_buffer_type) (idx : Nat) (buf : msm_vidc_buffer) : sess :=
  { st with inst := { st.inst with
      buffers := fun t =>
        if t = ty then (st.inst.buffers ty).map (fun l => l.set idx buf)
        else st.inst.buffers t } }

/-! ## Session handlers -/

/-- The C function `vidc_port_from_hfi`. -/
def vidc_port_from_hfi (K : hfi_defs) (inst : msm_vidc_inst) (hfi_port : Nat) : msm_vidc_port_type :=
  match inst.domain with
  | msm_vidc_domain_type.MSM_VIDC_DECODER =>
    if hfi_port = K.HFI_PORT_BITSTREAM then msm_vidc_port_type.INPUT_PORT
    else if hfi_port = K.HFI_PORT_RAW then msm_vidc_port_type.OUTPUT_PORT
    else msm_vidc_port_type.MAX_PORT
  | msm_vidc_domain_type.MSM_VIDC_ENCODER =>
    if hfi_port = K.HFI_PORT_RAW then msm_vidc_port_type.INPUT_PORT
    else if hfi_port = K.HFI_PORT_BITSTREAM then msm_vidc_port_type.OUTPUT_PORT
    else msm_vidc_port_type.MAX_PORT
  | msm_vidc_domain_type.other => msm_vidc_port_type.MAX_PORT

/-- The C function `is_valid_hfi_port` for a non-null instance.  The first test
jumps to `invalid`; a port that passes it falls into the second test. -/
def is_valid_hfi_port (K : hfi_defs) (port buffer_type : Nat) : Bool :=
  if port = K.HFI_PORT_NONE ∧ buffer_type ≠ K.HFI_BUFFER_ARP ∧
      buffer_type ≠ K.HFI_BUFFER_PERSIST then false
  else if port ≠ K.HFI_PORT_BITSTREAM ∧ port ≠ K.HFI_PORT_RAW then false
  else true

/-- The C function `is_valid_hfi_buffer_type` for a non-null instance. -/
def is_valid_hfi_buffer_type (K : hfi_defs) (buffer_type : Nat) : Bool :=
  if buffer_type ≠ K.HFI_BUFFER_BITSTREAM ∧
     buffer_type ≠ K.HFI_BUFFER_RAW ∧
     buffer_type ≠ K.HFI_BUFFER_METADATA ∧
     buffer_type ≠ K.HFI_BUFFER_BIN ∧
     buffer_type ≠ K.HFI_BUFFER_ARP ∧
     buffer_type ≠ K.HFI_BUFFER_COMV ∧
     buffer_type ≠ K.HFI_BUFFER_NON_COMV ∧
     buffer_type ≠ K.HFI_BUFFER_LINE ∧
     buffer_type ≠ K.HFI_BUFFER_DPB ∧
     buffer_type ≠ K.HFI_BUFFER_PERSIST then false
  else true

/-- The C function `check_last_flag`: the payload of `pkt` is the `hfi_buffer`
right behind the packet header. -/
def check_last_flag (K : hfi_defs) (m : Mem) (pkt : Nat) : Bool :=
  if pkt = 0 then false
  else has_flag (read32 m (pkt + K.sizeof_hfi_packet + K.buf_flags)) K.HFI_BUF_FW_FLAG_LAST

/-- The C function `handle_session_info`. -/
def handle_session_info (K : hfi_defs) (st : sess) (pkt : Nat) : Int × sess :=
  if read32 st.mem (pkt + K.pkt_type) = K.HFI_INFO_DATA_CORRUPT then
    (0, { st with inst := { st.inst with
        hfi_frame_info := { st.inst.hfi_frame_info with data_corrupt := 1 } } })
  else (0, st)

/-- The C function `handle_session_error`: whatever the error code, the instance
is moved to `MSM_VIDC_ERROR` and the return code of that call is returned. -/
def handle_session_error (K : hfi_defs) (X : vidc_ops) (st : sess) (_pkt : Nat) : Int × sess :=
  msm_vidc_change_inst_state X st K.MSM_VIDC_ERROR

/-- The C function `handle_session_open`. -/
def handle_session_open (K : hfi_defs) (X : vidc_ops) (st : sess) (pkt : Nat) : Int × sess :=
  if has_flag (read32 st.mem (pkt + K.pkt_flags)) K.HFI_FW_FLAGS_SESSION_ERROR then
    (0, (msm_vidc_change_inst_state X st K.MSM_VIDC_ERROR).2)
  else (0, st)

/-- The C function `handle_session_close`. -/
def handle_session_close (K : hfi_defs) (X : vidc_ops) (st : sess) (pkt : Nat) : Int × sess :=
  let st1 :=
    if has_flag (read32 st.mem (pkt + K.pkt_flags)) K.HFI_FW_FLAGS_SESSION_ERROR then
      (msm_vidc_change_inst_state X st K.MSM_VIDC_ERROR).2
    else st
  (0, (signal_session_msg_receipt K st1 K.SIGNAL_CMD_CLOSE).2)

/-- The C function `handle_session_start`. -/
def handle_session_start (K : hfi_defs) (X : vidc_ops) (st : sess) (pkt : Nat) : Int × sess :=
  if has_flag (read32 st.mem (pkt + K.pkt_flags)) K.HFI_FW_FLAGS_SESSION_ERROR then
    (0, (msm_vidc_change_inst_state X st K.MSM_VIDC_ERROR).2)
  else (0, st)

/-- The C function `handle_session_stop`.  `signal_type` is never `-1` where it
is tested, so the signal is always sent on the paths that reach the test. -/
def handle_session_stop (K : hfi_defs) (X : vidc_ops) (st : sess) (pkt : Nat) : Int × sess :=
  let st1 :=
    if has_flag (read32 st.mem (pkt + K.pkt_flags)) K.HFI_FW_FLAGS_SESSION_ERROR then
      (msm_vidc_change_inst_state X st K.MSM_VIDC_ERROR).2
    else st
  let port := read32 st1.mem (pkt + K.pkt_port)
  match st1.inst.domain with
  | msm_vidc_domain_type.MSM_VIDC_ENCODER =>
    if port = K.HFI_PORT_RAW then
      (0, (signal_session_msg_receipt K st1 K.SIGNAL_CMD_STOP_INPUT).2)
    else if port = K.HFI_PORT_BITSTREAM then
      (0, (signal_session_msg_receipt K st1 K.SIGNAL_CMD_STOP_OUTPUT).2)
    else (-EINVAL, st1)
  | msm_vidc_domain_type.MSM_VIDC_DECODER =>
    if port = K.HFI_PORT_RAW then
      (0, (signal_session_msg_receipt K st1 K.SIGNAL_CMD_STOP_OUTPUT).2)
    else if port = K.HFI_PORT_BITSTREAM then
      (0, (signal_session_msg_receipt K st1 K.SIGNAL_CMD_STOP_INPUT).2)
    else (-EINVAL, st1)
  | msm_vidc_domain_type.other => (-EINVAL, st1)

/-- The C function `handle_session_drain`. -/
def handle_session_drain (K : hfi_defs) (X : vidc_ops) (st : sess) (pkt : Nat) : Int × sess :=
  if has_flag (read32 st.mem (pkt + K.pkt_flags)) K.HFI_FW_FLAGS_SESSION_ERROR then
    (0, (msm_vidc_change_inst_state X st K.MSM_VIDC_ERROR).2)
  else (0, st)

/-- The C function `handle_session_subscribe_mode`. -/
def handle_session_subscribe_mode (K : hfi_defs) (X : vidc_ops) (st : sess) (pkt : Nat) : Int × sess :=
  if has_flag (read32 st.mem (pkt + K.pkt_flags)) K.HFI_FW_FLAGS_SESSION_ERROR then
    (0, (msm_vidc_change_inst_state X st K.MSM_VIDC_ERROR).2)
  else (0, st)

/-- The C function `handle_session_delivery_mode`. -/
def handle_session_delivery_mode (K : hfi_defs) (X : vidc_ops) (st : sess) (pkt : Nat) : Int × sess :=
  if has_flag (read32 st.mem (pkt + K.pkt_flags)) K.HFI_FW_FLAGS_SESSION_ERROR then
    (0, (msm_vidc_change_inst_state X st K.MSM_VIDC_ERROR).2)
  else (0, st)

/-- The C function `handle_session_resume`. -/
def handle_session_resume (K : hfi_defs) (X : vidc_ops) (st : sess) (pkt : Nat) : Int × sess :=
  if has_flag (read32 st.mem (pkt + K.pkt_flags)) K.HFI_FW_FLAGS_SESSION_ERROR then
    (0, (msm_vidc_change_inst_state X st K.MSM_VIDC_ERROR).2)
  else (0, st)

/-- The C function `get_driver_buffer_flags`.  The capability value is read as
`0` when the instance has no capability table. -/
def get_driver_buffer_flags (K : hfi_defs) (inst : msm_vidc_inst) (hfi_flags : Nat) : Nat :=
  let pt := inst.hfi_frame_info.picture_type
  let f0 : Nat :=
    if has_flag pt K.HFI_PICTURE_IDR then K.MSM_VIDC_BUF_FLAG_KEYFRAME
    else if has_flag pt K.HFI_PICTURE_P then K.MSM_VIDC_BUF_FLAG_PFRAME
    else if has_flag pt K.HFI_PICTURE_B then K.MSM_VIDC_BUF_FLAG_BFRAME
    else if has_flag pt K.HFI_PICTURE_I then
      (if inst.codec = K.MSM_VIDC_VP9 then K.MSM_VIDC_BUF_FLAG_KEYFRAME else 0)
    else if has_flag pt K.HFI_PICTURE_CRA then K.MSM_VIDC_BUF_FLAG_KEYFRAME
    else if has_flag pt K.HFI_PICTURE_BLA then K.MSM_VIDC_BUF_FLAG_KEYFRAME
    else 0
  let f1 : Nat :=
    if inst.hfi_frame_info.data_corrupt ≠ 0 then set_flag f0 K.MSM_VIDC_BUF_FLAG_ERROR else f0
  let f2 : Nat :=
    if inst.hfi_frame_info.no_output ≠ 0 then
      (if (inst.capabilities.map (fun c => c.META_BUF_TAG)).getD 0 ≠ 0 ∧
          ¬ has_flag hfi_flags K.HFI_BUF_FW_FLAG_CODEC_CONFIG
        then set_flag f1 K.MSM_VIDC_BUF_FLAG_ERROR else f1)
    else f1
  let f3 : Nat :=
    if has_flag hfi_flags K.HFI_BUF_FW_FLAG_CODEC_CONFIG
      then set_flag f2 K.MSM_VIDC_BUF_FLAG_CODECCONFIG else f2
  if has_flag hfi_flags K.HFI_BUF_FW_FLAG_LAST then set_flag f3 K.MSM_VIDC_BUF_FLAG_LAST else f3

/-! ## Buffer handlers

`buffer` is the address of the `struct hfi_buffer` inside the response. -/

/-- The C function `handle_input_buffer`. -/
def handle_input_buffer (K : hfi_defs) (X : vidc_ops) (st : sess) (buffer : Nat) : Int × sess :=
  if buffer = 0 ∨ st.inst.capabilities = none ∨ st.inst.has_core = false then (-EINVAL, st)
  else
    match st.inst.buffers msm_vidc_buffer_type.MSM_VIDC_BUF_INPUT with
    | none => (-EINVAL, st)
    | some bufs =>
      match find_buffer (read64 st.mem (buffer + K.buf_base_address)) bufs with
      | none => (-EINVAL, st)
      | some (idx, buf) =>
        let frame_size := X.buffer_size st.inst msm_vidc_buffer_type.MSM_VIDC_BUF_INPUT
        let batch_size := (st.inst.capabilities.map (fun c => c.SUPER_FRAME)).getD 0
        let dqbuf : Int × sess :=
          (0, set_buffer st msm_vidc_buffer_type.MSM_VIDC_BUF_INPUT idx
            { buf with
              data_offset := read32 st.mem (buffer + K.buf_data_offset),
              data_size := read32 st.mem (buffer + K.buf_data_size),
              attr := set_flag (clear_flag buf.attr K.MSM_VIDC_ATTR_QUEUED) K.MSM_VIDC_ATTR_DEQUEUED,
              flags := get_driver_buffer_flags K st.inst (read32 st.mem (buffer + K.buf_flags)) })
        if X.msm_vidc_is_super_buffer st.inst then
          if frame_size = 0 ∨ batch_size = 0 then (-EINVAL, st)
          else if read32 st.mem (buffer + K.buf_addr_offset) / frame_size < batch_size - 1 then
            (0, st)
          else dqbuf
        else dqbuf

/-- The C function `handle_output_buffer`.  The normalisation of a last-flag
buffer writes to the `hfi_buffer` in the response memory, after `data_size`
has been copied into the record; the flags are read again after it. -/
def handle_output_buffer (K : hfi_defs) (X : vidc_ops) (st : sess) (buffer : Nat) : Int × sess :=
  match st.inst.buffers msm_vidc_buffer_type.MSM_VIDC_BUF_OUTPUT with
  | none => (-EINVAL, st)
  | some bufs =>
    match find_buffer (read64 st.mem (buffer + K.buf_base_address)) bufs with
    | none => (-EINVAL, st)
    | some (idx, buf) =>
      let buf1 : msm_vidc_buffer :=
        { buf with
          data_offset := read32 st.mem (buffer + K.buf_data_offset),
          data_size := read32 st.mem (buffer + K.buf_data_size),
          timestamp := read64 st.mem (buffer + K.buf_timestamp),
          attr := set_flag (clear_flag buf.attr K.MSM_VIDC_ATTR_QUEUED) K.MSM_VIDC_ATTR_DEQUEUED }
      let st1 := set_buffer st msm_vidc_buffer_type.MSM_VIDC_BUF_OUTPUT idx buf1
      let st2 :=
        if st1.inst.domain = msm_vidc_domain_type.MSM_VIDC_ENCODER ∧
            st1.inst.hfi_frame_info.data_corrupt ≠ 0 then
          (msm_vidc_change_inst_state X st1 K.MSM_VIDC_ERROR).2
        else st1
      let last := has_flag (read32 st2.mem (buffer + K.buf_flags)) K.HFI_BUF_FW_FLAG_LAST
      let m1 : Mem :=
        if last ∧ read32 st2.mem (buffer + K.buf_data_size) ≠ 0 then
          write32 st2.mem (buffer + K.buf_data_size) 0
        else st2.mem
      let m2 : Mem :=
        if last ∧ has_flag (read32 m1 (buffer + K.buf_flags)) K.HFI_BUF_FW_FLAG_READONLY then
          write32 m1 (buffer + K.buf_flags)
            (clear_flag (read32 m1 (buffer + K.buf_flags)) K.HFI_BUF_FW_FLAG_READONLY)
        else m1
      let st3 : sess := { st2 with mem := m2 }
      let hfi_flags := read32 st3.mem (buffer + K.buf_flags)
      let attr3 :=
        if has_flag hfi_flags K.HFI_BUF_FW_FLAG_READONLY then
          set_flag buf1.attr K.MSM_VIDC_ATTR_READ_ONLY
        else clear_flag buf1.attr K.MSM_VIDC_ATTR_READ_ONLY
      (0, set_buffer st3 msm_vidc_buffer_type.MSM_VIDC_BUF_OUTPUT idx
        { buf1 with attr := attr3, flags := get_driver_buffer_flags K st3.inst hfi_flags })

/-- The C function `handle_input_metadata_buffer`. -/
def handle_input_metadata_buffer (K : hfi_defs) (X : vidc_ops) (st : sess) (buffer : Nat) :
    Int × sess :=
  if buffer = 0 ∨ st.inst.capabilities = none ∨ st.inst.has_core = false then (-EINVAL, st)
  else
    match st.inst.buffers msm_vidc_buffer_type.MSM_VIDC_BUF_INPUT_META with
    | none => (-EINVAL, st)
    | some bufs =>
      match find_buffer (read64 st.mem (buffer + K.buf_base_address)) bufs with
      | none => (-EINVAL, st)
      | some (idx, buf) =>
        let frame_size := X.buffer_size st.inst msm_vidc_buffer_type.MSM_VIDC_BUF_INPUT_META
        let batch_size := (st.inst.capabilities.map (fun c => c.SUPER_FRAME)).getD 0
        let dqbuf : Int × sess :=
          (0, set_buffer st msm_vidc_buffer_type.MSM_VIDC_BUF_INPUT_META idx
            { buf with
              data_size := read32 st.mem (buffer + K.buf_data_size),
              attr := set_flag (clear_flag buf.attr K.MSM_VIDC_ATTR_QUEUED) K.MSM_VIDC_ATTR_DEQUEUED,
              flags :=
                if has_flag (read32 st.mem (buffer + K.buf_flags)) K.HFI_BUF_FW_FLAG_LAST then
                  set_flag 0 K.MSM_VIDC_BUF_FLAG_LAST
                else 0 })
        if X.msm_vidc_is_super_buffer st.inst then
          if frame_size = 0 ∨ batch_size = 0 then (-EINVAL, st)
          else if read32 st.mem (buffer + K.buf_addr_offset) / frame_size < batch_size - 1 then
            (0, st)
          else dqbuf
        else dqbuf

/-- The C function `handle_output_metadata_buffer`. -/
def handle_output_metadata_buffer (K : hfi_defs) (st : sess) (buffer : Nat) : Int × sess :=
  match st.inst.buffers msm_vidc_buffer_type.MSM_VIDC_BUF_OUTPUT_META with
  | none => (-EINVAL, st)
  | some bufs =>
    match find_buffer (read64 st.mem (buffer + K.buf_base_address)) bufs with
    | none => (-EINVAL, st)
    | some (idx, buf) =>
      (0, set_buffer st msm_vidc_buffer_type.MSM_VIDC_BUF_OUTPUT_META idx
        { buf with
          data_size := read32 st.mem (buffer + K.buf_data_size),
          attr := set_flag (clear_flag buf.attr K.MSM_VIDC_ATTR_QUEUED) K.MSM_VIDC_ATTR_DEQUEUED,
          flags :=
            if has_flag (read32 st.mem (buffer + K.buf_flags)) K.HFI_BUF_FW_FLAG_LAST then
              set_flag 0 K.MSM_VIDC_BUF_FLAG_LAST
            else 0 })

/-- The common body of `handle_dpb_buffer`, `handle_persist_buffer`,
`handle_line_buffer`, `handle_non_comv_buffer`, `handle_comv_buffer`,
`handle_bin_buffer` and `handle_arp_buffer`, which differ in the kind `ty`
alone: a matching record is handed to `msm_vidc_destroy_internal_buffer`. -/
def handle_internal_buffer (K : hfi_defs) (X : vidc_ops) (ty : msm_vidc_buffer_type)
    (st : sess) (buffer : Nat) : Int × sess :=
  match st.inst.buffers ty with
  | none => (-EINVAL, st)
  | some bufs =>
    match find_buffer (read64 st.mem (buffer + K.buf_base_address)) bufs with
    | none => (-EINVAL, st)
    | some (idx, _) =>
      (X.destroy_internal_buffer st.inst ty idx,
       st.log (vidc_event.destroy_internal_buffer ty idx))

/-- The C function `handle_dpb_buffer`. -/
def handle_dpb_buffer (K : hfi_defs) (X : vidc_ops) (st : sess) (buffer : Nat) : Int × sess :=
  handle_internal_buffer K X msm_vidc_buffer_type.MSM_VIDC_BUF_DPB st buffer

/-- The C function `handle_persist_buffer`. -/
def handle_persist_buffer (K : hfi_defs) (X : vidc_ops) (st : sess) (buffer : Nat) : Int × sess :=
  handle_internal_buffer K X msm_vidc_buffer_type.MSM_VIDC_BUF_PERSIST st buffer

/-- The C function `handle_line_buffer`. -/
def handle_line_buffer (K : hfi_defs) (X : vidc_ops) (st : sess) (buffer : Nat) : Int × sess :=
  handle_internal_buffer K X msm_vidc_buffer_type.MSM_VIDC_BUF_LINE st buffer

/-- The C function `handle_non_comv_buffer`. -/
def handle_non_comv_buffer (K : hfi_defs) (X : vidc_ops) (st : sess) (buffer : Nat) : Int × sess :=
  handle_internal_buffer K X msm_vidc_buffer_type.MSM_VIDC_BUF_NON_COMV st buffer

/-- The C function `handle_comv_buffer`. -/
def handle_comv_buffer (K : hfi_defs) (X : vidc_ops) (st : sess) (buffer : Nat) : Int × sess :=
  handle_internal_buffer K X msm_vidc_buffer_type.MSM_VIDC_BUF_COMV st buffer

/-- The C function `handle_bin_buffer`. -/
def handle_bin_buffer (K : hfi_defs) (X : vidc_ops) (st : sess) (buffer : Nat) : Int × sess :=
  handle_internal_buffer K X msm_vidc_buffer_type.MSM_VIDC_BUF_BIN st buffer

/-- The C function `handle_arp_buffer`. -/
def handle_arp_buffer (K : hfi_defs) (X : vidc_ops) (st : sess) (buffer : Nat) : Int × sess :=
  handle_internal_buffer K X msm_vidc_buffer_type.MSM_VIDC_BUF_ARP st buffer

/-- The C function `handle_session_buffer`. -/
def handle_session_buffer (K : hfi_defs) (X : vidc_ops) (st : sess) (pkt : Nat) : Int × sess :=
  if has_flag (read32 st.mem (pkt + K.pkt_flags)) K.HFI_FW_FLAGS_SESSION_ERROR then
    (0, (msm_vidc_change_inst_state X st K.MSM_VIDC_ERROR).2)
  else if read32 st.mem (pkt + K.pkt_payload_info) = K.HFI_PAYLOAD_NONE then (0, st)
  else
    let port_type := read32 st.mem (pkt + K.pkt_port)
    let buffer := pkt + K.sizeof_hfi_packet
    let buf_type := read32 st.mem (buffer + K.buf_type)
    if is_valid_hfi_buffer_type K buf_type = false then
      (0, (msm_vidc_change_inst_state X st K.MSM_VIDC_ERROR).2)
    else if is_valid_hfi_port K port_type buf_type = false then
      (0, (msm_vidc_change_inst_state X st K.MSM_VIDC_ERROR).2)
    else
      match st.inst.domain with
      | msm_vidc_domain_type.MSM_VIDC_ENCODER =>
        if port_type = K.HFI_PORT_BITSTREAM then
          if buf_type = K.HFI_BUFFER_METADATA then handle_output_metadata_buffer K st buffer
          else if buf_type = K.HFI_BUFFER_BITSTREAM then handle_output_buffer K X st buffer
          else if buf_type = K.HFI_BUFFER_BIN then handle_bin_buffer K X st buffer
          else if buf_type = K.HFI_BUFFER_COMV then handle_comv_buffer K X st buffer
          else if buf_type = K.HFI_BUFFER_NON_COMV then handle_non_comv_buffer K X st buffer
          else if buf_type = K.HFI_BUFFER_LINE then handle_line_buffer K X st buffer
          else if buf_type = K.HFI_BUFFER_ARP then handle_arp_buffer K X st buffer
          else if buf_type = K.HFI_BUFFER_DPB then handle_dpb_buffer K X st buffer
          else (0, st)
        else if port_type = K.HFI_PORT_RAW then
          if buf_type = K.HFI_BUFFER_METADATA then handle_input_metadata_buffer K X st buffer
          else if buf_type = K.HFI_BUFFER_RAW then handle_input_buffer K X st buffer
          else (0, st)
        else (0, st)
      | msm_vidc_domain_type.MSM_VIDC_DECODER =>
        if port_type = K.HFI_PORT_BITSTREAM then
          if buf_type = K.HFI_BUFFER_METADATA then handle_input_metadata_buffer K X st buffer
          else if buf_type = K.HFI_BUFFER_BITSTREAM then handle_input_buffer K X st buffer
          else if buf_type = K.HFI_BUFFER_BIN then handle_bin_buffer K X st buffer
          else if buf_type = K.HFI_BUFFER_COMV then handle_comv_buffer K X st buffer
          else if buf_type = K.HFI_BUFFER_NON_COMV then handle_non_comv_buffer K X st buffer
          else if buf_type = K.HFI_BUFFER_LINE then handle_line_buffer K X st buffer
          else if buf_type = K.HFI_BUFFER_PERSIST then handle_persist_buffer K X st buffer
          else (0, st)
        else if port_type = K.HFI_PORT_RAW then
          if buf_type = K.HFI_BUFFER_METADATA then handle_output_metadata_buffer K st buffer
          else if buf_type = K.HFI_BUFFER_RAW then handle_output_buffer K X st buffer
          else if buf_type = K.HFI_BUFFER_DPB then handle_dpb_buffer K X st buffer
          else (0, st)
        else (0, st)
      | msm_vidc_domain_type.other => (-EINVAL, st)

/-- The C function `handle_port_settings_change`: the two reconfiguration
routines of `msm_vdec.c` are outbound calls. -/
def handle_port_settings_change (K : hfi_defs) (X : vidc_ops) (st : sess) (pkt : Nat) : Int × sess :=
  if read32 st.mem (pkt + K.pkt_port) = K.HFI_PORT_RAW then
    (X.msm_vdec_output_port_settings_change st.inst,
     st.log vidc_event.output_port_settings_change)
  else if read32 st.mem (pkt + K.pkt_port) = K.HFI_PORT_BITSTREAM then
    (X.msm_vdec_input_port_settings_change st.inst,
     st.log vidc_event.input_port_settings_change)
  else (-EINVAL, st)

/-- The C function `handle_session_command`: the `switch` on the packet type. -/
def handle_session_command (K : hfi_defs) (X : vidc_ops) (st : sess) (pkt : Nat) : Int × sess :=
  let type := read32 st.mem (pkt + K.pkt_type)
  if type = K.HFI_CMD_OPEN then handle_session_open K X st pkt
  else if type = K.HFI_CMD_CLOSE then handle_session_close K X st pkt
  else if type = K.HFI_CMD_START then handle_session_start K X st pkt
  else if type = K.HFI_CMD_STOP then handle_session_stop K X st pkt
  else if type = K.HFI_CMD_DRAIN then handle_session_drain K X st pkt
  else if type = K.HFI_CMD_BUFFER then handle_session_buffer K X st pkt
  else if type = K.HFI_CMD_SETTINGS_CHANGE then handle_port_settings_change K X st pkt
  else if type = K.HFI_CMD_SUBSCRIBE_MODE then handle_session_subscribe_mode K X st pkt
  else if type = K.HFI_CMD_DELIVERY_MODE then handle_session_delivery_mode K X st pkt
  else if type = K.HFI_CMD_RESUME then handle_session_resume K X st pkt
  else (-EINVAL, st)

/-- Replace the subscription parameters of one port. -/
def set_subcr (st : sess) (port : msm_vidc_port_type)
    (f : msm_vidc_subscription_params → msm_vidc_subscription_params) : sess :=
  { st with inst := { st.inst with
      subcr_params := fun p => if p = port then f (st.inst.subcr_params port)
                               else st.inst.subcr_params p } }

/-- The C function `handle_session_property`; `payload_ptr[i]` is the `u32` at
byte `4 * i` behind the packet header. -/
def handle_session_property (K : hfi_defs) (st : sess) (pkt : Nat) : Int × sess :=
  let port := vidc_port_from_hfi K st.inst (read32 st.mem (pkt + K.pkt_port))
  if port = msm_vidc_port_type.MAX_PORT then (-EINVAL, st)
  else
    let payload0 := read32 st.mem (pkt + K.sizeof_hfi_packet)
    let payload1 := read32 st.mem (pkt + K.sizeof_hfi_packet + 4)
    let type := read32 st.mem (pkt + K.pkt_type)
    if type = K.HFI_PROP_BITSTREAM_RESOLUTION then
      (0, set_subcr st port (fun s => { s with bitstream_resolution := payload0 }))
    else if type = K.HFI_PROP_CROP_OFFSETS then
      (0, set_subcr st port (fun s => { s with crop_offsets0 := payload0, crop_offsets1 := payload1 }))
    else if type = K.HFI_PROP_LUMA_CHROMA_BIT_DEPTH then
      (0, set_subcr st port (fun s => { s with bit_depth := payload0 }))
    else if type = K.HFI_PROP_CODED_FRAMES then
      (0, set_subcr st port (fun s => { s with coded_frames := payload0 }))
    else if type = K.HFI_PROP_BUFFER_FW_MIN_OUTPUT_COUNT then
      (0, set_subcr st port (fun s => { s with fw_min_count := payload0 }))
    else if type = K.HFI_PROP_PIC_ORDER_CNT_TYPE then
      (0, set_subcr st port (fun s => { s with pic_order_cnt := payload0 }))
    else if type = K.HFI_PROP_SIGNAL_COLOR_INFO then
      (0, set_subcr st port (fun s => { s with color_info := payload0 }))
    else if type = K.HFI_PROP_PROFILE then
      (0, set_subcr st port (fun s => { s with profile := payload0 }))
    else if type = K.HFI_PROP_LEVEL then
      (0, set_subcr st port (fun s => { s with level := payload0 }))
    else if type = K.HFI_PROP_TIER then
      (0, set_subcr st port (fun s => { s with tier := payload0 }))
    else if type = K.HFI_PROP_PICTURE_TYPE then
      if st.inst.domain = msm_vidc_domain_type.MSM_VIDC_ENCODER ∧
          port = msm_vidc_port_type.INPUT_PORT then (-EINVAL, st)
      else
        (0, { st with inst := { st.inst with
            hfi_frame_info := { st.inst.hfi_frame_info with picture_type := payload0 } } })
    else if type = K.HFI_PROP_NO_OUTPUT then
      if port ≠ msm_vidc_port_type.INPUT_PORT then (-EINVAL, st)
      else
        (0, { st with inst := { st.inst with
            hfi_frame_info := { st.inst.hfi_frame_info with no_output := 1 } } })
    else (-EINVAL, st)

/-! ## Buffer reconciliation -/

/-- Modelled from the spec: `msm_vidc_put_driver_buf` is defined outside the
file.  By the comment at its call in `handle_dequeue_buffers` (`do not unmap /
delete read only buffer`), the deletion-safe iteration `list_for_each_entry_safe`
around it and the spec ("release the record back to the pool unless it carries
the ReadOnly attribute") it takes the record out of its collection: the value
is what the collection keeps of the record, which is nothing. -/
def msm_vidc_put_driver_buf (_buf : msm_vidc_buffer) : Option msm_vidc_buffer :=
  none

/-- The body of the inner loop of `handle_dequeue_buffers` for the record that
stands at position `idx` of the collection of kind `ty` when the pass is
entered: what the collection keeps of the record, and the outbound calls made
for it (`msm_vidc_vb2_buffer_done`, `msm_vidc_put_driver_buf`). -/
def dequeue_buffer (K : hfi_defs) (ty : msm_vidc_buffer_type) (idx : Nat)
    (buf : msm_vidc_buffer) : Option msm_vidc_buffer × List vidc_event :=
  if has_flag buf.attr K.MSM_VIDC_ATTR_DEQUEUED then
    let a1 := clear_flag buf.attr K.MSM_VIDC_ATTR_DEQUEUED
    let r : Nat × List vidc_event :=
      if has_flag a1 K.MSM_VIDC_ATTR_BUFFER_DONE then (a1, [])
      else (set_flag a1 K.MSM_VIDC_ATTR_BUFFER_DONE, [vidc_event.vb2_buffer_done ty idx])
    if has_flag r.1 K.MSM_VIDC_ATTR_READ_ONLY then (some { buf with attr := r.1 }, r.2)
    else (msm_vidc_put_driver_buf { buf with attr := r.1 },
          r.2 ++ [vidc_event.put_driver_buf ty idx])
  else (some buf, [])

/-- The loop `list_for_each_entry_safe(buf, dummy, &buffers->list, list)` of
`handle_dequeue_buffers` over one collection, from position `idx` on: the
records that remain, in their order, and the outbound calls. -/
def dequeue_list (K : hfi_defs) (ty : msm_vidc_buffer_type) :
    Nat → List msm_vidc_buffer → List msm_vidc_buffer × List vidc_event
  | _, [] => ([], [])
  | idx, b :: bs =>
    ((dequeue_buffer K ty idx b).1.toList ++ (dequeue_list K ty (idx + 1) bs).1,
     (dequeue_buffer K ty idx b).2 ++ (dequeue_list K ty (idx + 1) bs).2)

/-- The outer loop of `handle_dequeue_buffers` over the array `buffer_type[]`. -/
def dequeue_types (K : hfi_defs) : List msm_vidc_buffer_type → sess → Int × sess
  | [], st => (0, st)
  | ty :: rest, st =>
    match st.inst.buffers ty with
    | none => (-EINVAL, st)
    | some bufs =>
      dequeue_types K rest
        { st with inst := { st.inst with
            buffers := fun t => if t = ty then some (dequeue_list K ty 0 bufs).1
                                else st.inst.buffers t,
            events := st.inst.events ++ (dequeue_list K ty 0 bufs).2 } }

/-- The C function `handle_dequeue_buffers`; entering it is logged. -/
def handle_dequeue_buffers (K : hfi_defs) (st : sess) : Int × sess :=
  dequeue_types K
    [msm_vidc_buffer_type.MSM_VIDC_BUF_INPUT_META, msm_vidc_buffer_type.MSM_VIDC_BUF_INPUT,
     msm_vidc_buffer_type.MSM_VIDC_BUF_OUTPUT_META, msm_vidc_buffer_type.MSM_VIDC_BUF_OUTPUT]
    (st.log vidc_event.dequeue_buffers)

/-! ## Session pipeline -/

/-- The macro `in_range(range, val)`: both bounds are exclusive. -/
def in_range (range_begin range_end val : Nat) : Bool :=
  range_begin < val && range_end > val

/-- One row of the table `be[]`: the bounds and the handler. -/
structure msm_vidc_hfi_range where
  range_begin : Nat
  range_end : Nat
  handle : sess → Nat → Int × sess

/-- The table `be[]` of `handle_session_response` and
`handle_session_response_work`. -/
def be (K : hfi_defs) (X : vidc_ops) : List msm_vidc_hfi_range :=
  [ ⟨K.HFI_SESSION_ERROR_BEGIN, K.HFI_SESSION_ERROR_END, handle_session_error K X⟩,
    ⟨K.HFI_INFORMATION_BEGIN, K.HFI_INFORMATION_END, handle_session_info K⟩,
    ⟨K.HFI_PROP_BEGIN, K.HFI_PROP_END, handle_session_property K⟩,
    ⟨K.HFI_CMD_BEGIN, K.HFI_CMD_END, handle_session_command K X⟩ ]

/-- The ghost step of the dispatch loops: note that row `i` is about to be
applied to the packet at `pkt`. -/
def sess.call (st : sess) (i pkt : Nat) : sess :=
  { st with inst := { st.inst with calls := st.inst.calls ++ [(i, pkt)] } }

/-- The validation loop `for (i = 0; i < hdr->num_packets; i++)` with `n`
packets left and the cursor at `pkt`: `true` when every packet passes
`validate_packet` against the buffer `[base, base + size]`. -/
def validate_packets (m : Mem) (base size : Nat) : Nat → Nat → Bool
  | 0, _ => true
  | n + 1, pkt =>
    if validate_packet m pkt base size ≠ 0 then false
    else validate_packets m base size n (pkt + read32 m pkt)

/-- The result of a dispatch pass: the return code, the state and the value of
the local `hfi_cmd_type`. -/
structure dispatch_result where
  rc : Int
  st : sess
  hfi_cmd_type : Nat

/-- The inner loop of the dispatch pass of `handle_session_response` for table
row `i`, with `n` packets left and the cursor at `pkt`.  A handler that returns
non-zero ends the pass (`goto exit`). -/
def scan_packets (K : hfi_defs) (row : msm_vidc_hfi_range) (i : Nat) :
    Nat → sess → Nat → Nat → dispatch_result
  | 0, st, _, c => ⟨0, st, c⟩
  | n + 1, st, pkt, c =>
    if in_range row.range_begin row.range_end (read32 st.mem (pkt + K.pkt_type)) then
      let c1 := read32 st.mem (pkt + K.pkt_type)
      let r := row.handle (st.call i pkt) pkt
      if r.1 ≠ 0 then ⟨r.1, r.2, c1⟩
      else scan_packets K row i n r.2 (pkt + read32 r.2.mem pkt) c1
    else scan_packets K row i n st (pkt + read32 st.mem pkt) c

/-- The outer loop of the dispatch pass over the rows of the table, row `i`
first; every row starts again at `start_pkt`. -/
def dispatch_rows (K : hfi_defs) (num_packets start_pkt : Nat) :
    List msm_vidc_hfi_range → Nat → sess → Nat → dispatch_result
  | [], _, st, c => ⟨0, st, c⟩
  | row :: rows, i, st, c =>
    let r := scan_packets K row i num_packets st start_pkt c
    if r.rc ≠ 0 then r
    else dispatch_rows K num_packets start_pkt rows (i + 1) r.st r.hfi_cmd_type

/-- The C function `queue_response_work`. -/
def queue_response_work (X : vidc_ops) (st : sess) (type : response_work_type)
    (hdr hdr_size : Nat) : Int × sess :=
  if X.kzalloc_work st.inst = false then (-ENOMEM, st)
  else if X.kzalloc_data st.inst hdr_size = 0 then (-ENOMEM, st)
  else
    (0, { mem := memcpy st.mem (X.kzalloc_data st.inst hdr_size) hdr hdr_size,
          inst := { st.inst with
            response_works := st.inst.response_works ++
              [⟨type, X.kzalloc_data st.inst hdr_size, hdr_size⟩],
            events := st.inst.events ++ [vidc_event.queue_delayed_work] } })

/-- The loop of `handle_session_response` that looks for a packet that defers
the batch, with `n` packets left: `some r` when the loop leaves through
`goto exit` with result `r`, `none` when it runs to its end. -/
def scan_response_work (K : hfi_defs) (X : vidc_ops) (hdr : Nat) :
    Nat → sess → Nat → Option (Int × sess)
  | 0, _, _ => none
  | n + 1, st, pkt =>
    if read32 st.mem (pkt + K.pkt_type) = K.HFI_CMD_SETTINGS_CHANGE then
      if read32 st.mem (pkt + K.pkt_port) = K.HFI_PORT_BITSTREAM then
        some (queue_response_work X st response_work_type.RESP_WORK_INPUT_PSC hdr (read32 st.mem hdr))
      else if read32 st.mem (pkt + K.pkt_port) = K.HFI_PORT_RAW then
        some (queue_response_work X st response_work_type.RESP_WORK_OUTPUT_PSC hdr (read32 st.mem hdr))
      else some (0, st)
    else if read32 st.mem (pkt + K.pkt_type) = K.HFI_CMD_BUFFER ∧
        read32 st.mem (pkt + K.pkt_port) = K.HFI_PORT_RAW ∧ check_last_flag K st.mem pkt then
      some (queue_response_work X st response_work_type.RESP_WORK_LAST_FLAG hdr (read32 st.mem hdr))
    else scan_response_work K X hdr n st (pkt + read32 st.mem pkt)

/-- The value of `memset(&inst->hfi_frame_info, 0, ...)`. -/
def clear_frame_info (st : sess) : sess :=
  { st with inst := { st.inst with hfi_frame_info := ⟨0, 0, 0⟩ } }

/-- The tail of `handle_session_response` and `handle_session_response_work`
after the dispatch pass `r`: `handle_dequeue_buffers` when the last packet
handled was `HFI_CMD_BUFFER`, then the second `memset` of the frame info. -/
def finish_dispatch (K : hfi_defs) (r : dispatch_result) : Int × sess :=
  if r.rc ≠ 0 then (r.rc, r.st)
  else if r.hfi_cmd_type = K.HFI_CMD_BUFFER then
    if (handle_dequeue_buffers K r.st).1 ≠ 0 then handle_dequeue_buffers K r.st
    else (0, clear_frame_info (handle_dequeue_buffers K r.st).2)
  else (0, clear_frame_info r.st)

/-- The dispatch pass of `handle_session_response`: the first `memset` of the
frame info and the two nested loops over the table and the packets. -/
def session_dispatch (K : hfi_defs) (X : vidc_ops) (st : sess) (hdr : Nat) : dispatch_result :=
  dispatch_rows K (read32 st.mem (hdr + K.hdr_num_packets)) (hdr + K.sizeof_hfi_header)
    (be K X) 0 (clear_frame_info st) 0

/-- The body of `handle_session_response` between `mutex_lock` and
`mutex_unlock`, for the instance `get_inst` returned: the validation pass
against `[core_resp_pkt, core_resp_pkt + packet_size]`, the scan for a
deferring packet, the dispatch pass and the reconciliation.
`hdr->num_packets` is read once: the handlers write behind the packet headers
only, never to the batch header. -/
def session_response (K : hfi_defs) (X : vidc_ops) (core_resp_pkt packet_size : Nat)
    (st : sess) (hdr : Nat) : Int × sess :=
  let num_packets := read32 st.mem (hdr + K.hdr_num_packets)
  let start_pkt := hdr + K.sizeof_hfi_header
  if validate_packets st.mem core_resp_pkt packet_size num_packets start_pkt = false then
    (-EINVAL, st)
  else
    match scan_response_work K X hdr num_packets st start_pkt with
    | some r => r
    | none => finish_dispatch K (session_dispatch K X st hdr)

/-! ## Deferred work -/

/-- The inner loop of the dispatch pass of `handle_session_response_work`.  It
is the loop of `handle_session_response` with one more statement: when the
previous packet handled was `HFI_CMD_SETTINGS_CHANGE`, `rc` is set to `-EINVAL`
right before the handler's return value is assigned to `rc`. -/
def scan_packets_work (K : hfi_defs) (row : msm_vidc_hfi_range) (i : Nat) :
    Nat → Int → sess → Nat → Nat → dispatch_result
  | 0, rc, st, _, c => ⟨rc, st, c⟩
  | n + 1, rc, st, pkt, c =>
    if in_range row.range_begin row.range_end (read32 st.mem (pkt + K.pkt_type)) then
      let _rc : Int := if c = K.HFI_CMD_SETTINGS_CHANGE then -EINVAL else rc
      let c1 := read32 st.mem (pkt + K.pkt_type)
      let r := row.handle (st.call i pkt) pkt
      if r.1 ≠ 0 then ⟨r.1, r.2, c1⟩
      else scan_packets_work K row i n r.1 r.2 (pkt + read32 r.2.mem pkt) c1
    else scan_packets_work K row i n rc st (pkt + read32 st.mem pkt) c

/-- The outer loop of the dispatch pass of `handle_session_response_work`. -/
def dispatch_rows_work (K : hfi_defs) (num_packets start_pkt : Nat) :
    List msm_vidc_hfi_range → Nat → Int → sess → Nat → dispatch_result
  | [], _, rc, st, c => ⟨rc, st, c⟩
  | row :: rows, i, rc, st, c =>
    let r := scan_packets_work K row i num_packets rc st start_pkt c
    if r.rc ≠ 0 then r
    else dispatch_rows_work K num_packets start_pkt rows (i + 1) r.rc r.st r.hfi_cmd_type

/-- The part of `handle_session_response_work` between the validation pass
and the reconciliation: `msm_vdec_init_input_subcr_params` for an input
port-settings change (an outbound call that installs the input-port parameters
`X` gives), the first `memset` of the frame info and the dispatch pass. -/
def work_dispatch (K : hfi_defs) (X : vidc_ops) (st : sess) (resp_work : response_work) :
    dispatch_result :=
  let hdr := resp_work.data
  let st1 : sess :=
    if resp_work.type = response_work_type.RESP_WORK_INPUT_PSC then
      { st with inst := { st.inst with
          subcr_params := fun p =>
            if p = msm_vidc_port_type.INPUT_PORT then X.msm_vdec_init_input_subcr_params st.inst
            else st.inst.subcr_params p,
          events := st.inst.events ++ [vidc_event.init_input_subcr_params] } }
    else st
  dispatch_rows_work K (read32 st.mem (hdr + K.hdr_num_packets)) (hdr + K.sizeof_hfi_header)
    (be K X) 0 0 (clear_frame_info st1) 0

/-- The C function `handle_session_response_work` for a non-null instance and
work item; the snapshot is validated against `[data, data + data_size]`. -/
def handle_session_response_work (K : hfi_defs) (X : vidc_ops) (st : sess)
    (resp_work : response_work) : Int × sess :=
  let hdr := resp_work.data
  if hdr = 0 then (-EINVAL, st)
  else
    let num_packets := read32 st.mem (hdr + K.hdr_num_packets)
    let start_pkt := hdr + K.sizeof_hfi_header
    if validate_packets st.mem resp_work.data resp_work.data_size num_packets start_pkt = false then
      (-EINVAL, st)
    else finish_dispatch K (work_dispatch K X st resp_work)

/-- Modelled from the spec: `msm_vidc_state_change_input_psc` (not at hand) is
the follow-on state transition of an input port-settings change; the call is
logged, the state tag and the return code come from `X`. -/
def msm_vidc_state_change_input_psc (X : vidc_ops) (st : sess) : Int × sess :=
  ((X.msm_vidc_state_change_input_psc st.inst).1,
   { st with inst := { st.inst with
       state := (X.msm_vidc_state_change_input_psc st.inst).2,
       events := st.inst.events ++ [vidc_event.state_change_input_psc] } })

/-- Modelled from the spec: `msm_vidc_state_change_last_flag` (not at hand) is
the follow-on state transition of an end-of-stream buffer; the call is logged,
the state tag and the return code come from `X`. -/
def msm_vidc_state_change_last_flag (X : vidc_ops) (st : sess) : Int × sess :=
  ((X.msm_vidc_state_change_last_flag st.inst).1,
   { st with inst := { st.inst with
       state := (X.msm_vidc_state_change_last_flag st.inst).2,
       events := st.inst.events ++ [vidc_event.state_change_last_flag] } })

/-- The `switch` of `handle_session_response_work_handler` for one queued item:
`true` when the item stays in the queue (the `continue` of a deferred input
port-settings change), `false` when control reaches `list_del`. -/
def response_work_item (K : hfi_defs) (X : vidc_ops) (st : sess) (resp_work : response_work) :
    Bool × sess :=
  match resp_work.type with
  | response_work_type.RESP_WORK_INPUT_PSC =>
    match X.msm_vidc_allow_input_psc st.inst with
    | msm_vidc_allow.MSM_VIDC_DISALLOW =>
      (false, (msm_vidc_change_inst_state X st K.MSM_VIDC_ERROR).2)
    | msm_vidc_allow.MSM_VIDC_DEFER => (true, st)
    | msm_vidc_allow.MSM_VIDC_ALLOW =>
      let r := handle_session_response_work K X st resp_work
      let r1 := if r.1 = 0 then msm_vidc_state_change_input_psc X r.2 else r
      if r1.1 ≠ 0 then (false, (msm_vidc_change_inst_state X r1.2 K.MSM_VIDC_ERROR).2)
      else (false, r1.2)
  | response_work_type.RESP_WORK_OUTPUT_PSC =>
    let r := handle_session_response_work K X st resp_work
    if r.1 ≠ 0 then (false, (msm_vidc_change_inst_state X r.2 K.MSM_VIDC_ERROR).2)
    else (false, r.2)
  | response_work_type.RESP_WORK_LAST_FLAG =>
    let r := handle_session_response_work K X st resp_work
    if r.1 ≠ 0 then (false, (msm_vidc_change_inst_state X r.2 K.MSM_VIDC_ERROR).2)
    else if X.msm_vidc_allow_last_flag r.2.inst then
      let r1 := msm_vidc_state_change_last_flag X r.2
      if r1.1 ≠ 0 then (false, (msm_vidc_change_inst_state X r1.2 K.MSM_VIDC_ERROR).2)
      else (false, r1.2)
    else (false, r.2)
  | response_work_type.other => (false, st)

/-- The loop `list_for_each_entry_safe(resp_work, dummy, &inst->response_works, list)`:
`kept` are the items already passed over and left in the queue, the second list
the items still to visit.  `list_del` leaves the queue as `kept ++ rest`. -/
def response_work_loop (K : hfi_defs) (X : vidc_ops) :
    List response_work → List response_work → sess → sess
  | _, [], st => st
  | kept, resp_work :: rest, st =>
    let r := response_work_item K X st resp_work
    if r.1 then response_work_loop K X (kept ++ [resp_work]) rest r.2
    else
      response_work_loop K X kept rest
        { mem := r.2.mem, inst := { r.2.inst with response_works := kept ++ rest } }

/-- The C function `handle_session_response_work_handler` for the instance the
work belongs to (`get_inst_ref` returned it): one drain cycle of the queue. -/
def handle_session_response_work_handler (K : hfi_defs) (X : vidc_ops) (st : sess) : sess :=
  response_work_loop K X [] st.inst.response_works st

/-! ## Core and system pipeline -/

/-- Outbound calls of the system-scope code. -/
inductive core_event
  | complete_init_done
  | core_deinit
  deriving DecidableEq

/-- The handlers `handle_system_response` chooses between. -/
inductive system_handler
  | handle_system_init
  | handle_system_error
  | handle_system_property
  deriving DecidableEq

/-- The part of `struct msm_vidc_core` the response path touches.  `instances`
is what `get_inst` resolves a session id against; `events` logs the outbound
calls and `calls` is the ghost log of the handlers `handle_system_response`
invoked, each with the address of its packet. -/
structure msm_vidc_core where
  response_packet : Nat
  packet_size : Nat
  sfr_align_virtual_addr : Nat
  sfr_mem_size : Nat
  fw_version : Nat → Nat
  instances : Nat → Option msm_vidc_inst
  events : List core_event
  calls : List (system_handler × Nat)

/-- What a core-scope function works on: the memory and the core. -/
structure world where
  mem : Mem
  core : msm_vidc_core

/-- The call `memchr(a, 0, n)` as a test: is there a NUL among the `n` bytes at `a`. -/
def memchr_nul (m : Mem) : Nat → Nat → Bool
  | _, 0 => false
  | a, n + 1 => if read8 m a = 0 then true else memchr_nul m (a + 1) n

/-- The C function `print_sfr_message`; `vsfr_size` and the index
`vsfr_size - 1` are `u32` values. -/
def print_sfr_message (K : hfi_defs) (w : world) : world :=
  let vsfr := w.core.sfr_align_virtual_addr
  if vsfr = 0 then w
  else
    let bufSize := read32 w.mem (vsfr + K.sfr_bufSize)
    if bufSize ≠ w.core.sfr_mem_size then w
    else
      let vsfr_size := (bufSize + 4294967296 - 4) % 4294967296
      if memchr_nul w.mem (vsfr + K.sfr_rg_data) vsfr_size then w
      else
        let last := vsfr + K.sfr_rg_data + (vsfr_size + 4294967296 - 1) % 4294967296
        { w with mem := write8 w.mem last 0 }

/-- The C function `handle_system_error`: the crash report, then
`msm_vidc_core_deinit(core, true)`, an outbound call. -/
def handle_system_error (K : hfi_defs) (w : world) (_pkt : Nat) : Int × world :=
  let w1 := print_sfr_message K w
  (0, { w1 with core := { w1.core with events := w1.core.events ++ [core_event.core_deinit] } })

/-- The C function `handle_system_init`. -/
def handle_system_init (K : hfi_defs) (w : world) (pkt : Nat) : Int × world :=
  if has_flag (read32 w.mem (pkt + K.pkt_flags)) K.HFI_FW_FLAGS_SYSTEM_ERROR then (0, w)
  else if has_flag (read32 w.mem (pkt + K.pkt_flags)) K.HFI_FW_FLAGS_SUCCESS then
    (0, { w with core := { w.core with
        events := w.core.events ++ [core_event.complete_init_done] } })
  else (0, w)

/-- The C function `handle_image_version_property`; `req_bytes` is a `u32`. -/
def handle_image_version_property (K : hfi_defs) (w : world) (pkt : Nat) : Int × world :=
  let req_bytes := (read32 w.mem pkt + 4294967296 - K.sizeof_hfi_packet % 4294967296) % 4294967296
  if req_bytes < K.VENUS_VERSION_LENGTH - 1 then (-EINVAL, w)
  else
    let str_image_version := pkt + K.sizeof_hfi_packet
    (0, { w with core := { w.core with
        fw_version := fun i =>
          if i < K.VENUS_VERSION_LENGTH - 1 then
            (if read8 w.mem (str_image_version + i) ≠ 0 then read8 w.mem (str_image_version + i)
             else 32)
          else if i = K.VENUS_VERSION_LENGTH - 1 then 0
          else w.core.fw_version i } })

/-- The C function `handle_system_property`. -/
def handle_system_property (K : hfi_defs) (w : world) (pkt : Nat) : Int × world :=
  if has_flag (read32 w.mem (pkt + K.pkt_flags)) K.HFI_FW_FLAGS_SYSTEM_ERROR then
    handle_system_error K w pkt
  else if read32 w.mem (pkt + K.pkt_type) = K.HFI_PROP_IMAGE_VERSION then
    handle_image_version_property K w pkt
  else (0, w)

/-- The ghost step of `handle_system_response`: note the handler about to run. -/
def world.call (w : world) (h : system_handler) (pkt : Nat) : world :=
  { w with core := { w.core with calls := w.core.calls ++ [(h, pkt)] } }

/-- The loop of `handle_system_response` with `n` packets left, the cursor at
`pkt` and the current value `rc` of the return code: each packet is validated
and then handled before the cursor moves on. -/
def system_packets (K : hfi_defs) : Nat → Int → world → Nat → Int × world
  | 0, rc, w, _ => (rc, w)
  | n + 1, _, w, pkt =>
    if validate_packet w.mem pkt w.core.response_packet w.core.packet_size ≠ 0 then (-EINVAL, w)
    else
      let type := read32 w.mem (pkt + K.pkt_type)
      if type = K.HFI_CMD_INIT then
        let r := handle_system_init K (w.call system_handler.handle_system_init pkt) pkt
        system_packets K n r.1 r.2 (pkt + read32 r.2.mem pkt)
      else if type > K.HFI_SYSTEM_ERROR_BEGIN ∧ type < K.HFI_SYSTEM_ERROR_END then
        let r := handle_system_error K (w.call system_handler.handle_system_error pkt) pkt
        system_packets K n r.1 r.2 (pkt + read32 r.2.mem pkt)
      else if type > K.HFI_PROP_BEGIN ∧ type < K.HFI_PROP_CODEC then
        let r := handle_system_property K (w.call system_handler.handle_system_property pkt) pkt
        system_packets K n r.1 r.2 (pkt + read32 r.2.mem pkt)
      else (-EINVAL, w)

/-- The C function `handle_system_response`. -/
def handle_system_response (K : hfi_defs) (w : world) (hdr : Nat) : Int × world :=
  system_packets K (read32 w.mem (hdr + K.hdr_num_packets)) 0 w (hdr + K.sizeof_hfi_header)

/-- The C function `handle_session_response`.  Modelled from the spec:
`get_inst` (not at hand) resolves the session id to the instance registered
under it, `none` standing for `NULL`. -/
def handle_session_response (K : hfi_defs) (X : vidc_ops) (w : world) (hdr : Nat) : Int × world :=
  match w.core.instances (read32 w.mem (hdr + K.hdr_session_id)) with
  | none => (-EINVAL, w)
  | some inst =>
    let r := session_response K X w.core.response_packet w.core.packet_size ⟨w.mem, inst⟩ hdr
    (r.1, { mem := r.2.mem,
            core := { w.core with
              instances := fun sid =>
                if sid = read32 w.mem (hdr + K.hdr_session_id) then some r.2.inst
                else w.core.instances sid } })

/-- The C function `handle_response` for a non-null core. -/
def handle_response (K : hfi_defs) (X : vidc_ops) (w : world) (response : Nat) : Int × world :=
  if response = 0 then (-EINVAL, w)
  else if validate_packet w.mem response w.core.response_packet w.core.packet_size ≠ 0 then
    (-EINVAL, w)
  else if read32 w.mem (response + K.hdr_session_id) = 0 then handle_system_response K w response
  else handle_session_response K X w response

/-! ## Vocabulary of the properties -/

/-- The addresses of the `n` packets reached from `pkt` by walking the declared
sizes (`pkt += packet->size`), in wire order. -/
def packets (m : Mem) : Nat → Nat → List Nat
  | _, 0 => []
  | pkt, n + 1 => pkt :: packets m (pkt + read32 m pkt) n

/-- The bytes of a sequence of `u32` words, each little endian. -/
def words : List Nat → List Nat
  | [] => []
  | v :: vs => le32 v ++ words vs

/-- A session step `r` started in `st` left the memory and the ghost call log as
they were and did not enter `handle_dequeue_buffers`. -/
def frame (st : sess) (r : Int × sess) : Prop :=
  r.2.mem = st.mem ∧ r.2.inst.calls = st.inst.calls ∧
  r.2.inst.events.count vidc_event.dequeue_buffers =
    st.inst.events.count vidc_event.dequeue_buffers

/-- A session step `r` started in `st` wrote no byte outside `[lo, hi)`, left
the ghost call log as it was and did not enter `handle_dequeue_buffers`. -/
def confined (st : sess) (lo hi : Nat) (r : Int × sess) : Prop :=
  (∀ x, x < lo ∨ hi ≤ x → r.2.mem x = st.mem x) ∧ r.2.inst.calls = st.inst.calls ∧
  r.2.inst.events.count vidc_event.dequeue_buffers =
    st.inst.events.count vidc_event.dequeue_buffers

/-- The calls row `i` makes on the packets of a walk: the packets whose type lies
strictly inside the row's bounds, in wire order. -/
def row_calls (K : hfi_defs) (m : Mem) (range_begin range_end i : Nat) (pkts : List Nat) :
    List (Nat × Nat) :=
  (pkts.filter (fun p => in_range range_begin range_end (read32 m (p + K.pkt_type)))).map
    (fun p => (i, p))

/-- The packet at `p` covers its payload: if it is a `HFI_CMD_BUFFER` packet
that carries a payload, its declared size is at least the packet header plus
one `struct hfi_buffer`. -/
def covers_payload (K : hfi_defs) (m : Mem) (p : Nat) : Prop :=
  read32 m (p + K.pkt_type) = K.HFI_CMD_BUFFER →
    read32 m (p + K.pkt_payload_info) ≠ K.HFI_PAYLOAD_NONE →
      K.sizeof_hfi_packet + K.sizeof_hfi_buffer ≤ read32 m p

instance (K : hfi_defs) (m : Mem) (p : Nat) : Decidable (covers_payload K m p) := by
  unfold covers_payload; infer_instance

/-- The four attribute masks of `enum msm_vidc_buffer_attributes` that the file
uses are non-zero, fit a 32-bit word and share no bit. -/
def attr_bits (K : hfi_defs) : Prop :=
  (K.MSM_VIDC_ATTR_QUEUED ≠ 0 ∧ K.MSM_VIDC_ATTR_DEQUEUED ≠ 0 ∧
    K.MSM_VIDC_ATTR_BUFFER_DONE ≠ 0 ∧ K.MSM_VIDC_ATTR_READ_ONLY ≠ 0) ∧
  (K.MSM_VIDC_ATTR_QUEUED ≤ U32_MAX ∧ K.MSM_VIDC_ATTR_DEQUEUED ≤ U32_MAX ∧
    K.MSM_VIDC_ATTR_BUFFER_DONE ≤ U32_MAX ∧ K.MSM_VIDC_ATTR_READ_ONLY ≤ U32_MAX) ∧
  (K.MSM_VIDC_ATTR_QUEUED &&& K.MSM_VIDC_ATTR_DEQUEUED = 0 ∧
    K.MSM_VIDC_ATTR_QUEUED &&& K.MSM_VIDC_ATTR_BUFFER_DONE = 0 ∧
    K.MSM_VIDC_ATTR_QUEUED &&& K.MSM_VIDC_ATTR_READ_ONLY = 0 ∧
    K.MSM_VIDC_ATTR_DEQUEUED &&& K.MSM_VIDC_ATTR_BUFFER_DONE = 0 ∧
    K.MSM_VIDC_ATTR_DEQUEUED &&& K.MSM_VIDC_ATTR_READ_ONLY = 0 ∧
    K.MSM_VIDC_ATTR_BUFFER_DONE &&& K.MSM_VIDC_ATTR_READ_ONLY = 0)

instance (K : hfi_defs) : Decidable (attr_bits K) := by
  unfold attr_bits; infer_instance

/-- The outbound calls `handle_dequeue_buffers` makes for a record that is
`Dequeued` on entry, given its attributes on entry: a completion notification
unless `BUFFER_DONE` is set, then a release unless `READ_ONLY` is set. -/
def dequeue_calls (K : hfi_defs) (ty : msm_vidc_buffer_type) (idx : Nat) (attr : Nat) :
    List vidc_event :=
  (if has_flag attr K.MSM_VIDC_ATTR_BUFFER_DONE then [] else [vidc_event.vb2_buffer_done ty idx])
    ++ (if has_flag attr K.MSM_VIDC_ATTR_READ_ONLY then [] else [vidc_event.put_driver_buf ty idx])

/-- Whether `handle_dequeue_buffers` releases a record whose attributes on entry
are `attr`: the record is `Dequeued` and does not carry `READ_ONLY`. -/
def released (K : hfi_defs) (attr : Nat) : Bool :=
  has_flag attr K.MSM_VIDC_ATTR_DEQUEUED && !has_flag attr K.MSM_VIDC_ATTR_READ_ONLY

/-- How a record `b'` that `handle_dequeue_buffers` leaves in a collection relates
to the record `b` it was on entry: if `b` was `Dequeued`, only the attributes
changed, `Dequeued` is clear, `BUFFER_DONE` is set, and `READ_ONLY` and `QUEUED`
are as they were; otherwise nothing changed. -/
def reconciled (K : hfi_defs) (b b' : msm_vidc_buffer) : Prop :=
  if has_flag b.attr K.MSM_VIDC_ATTR_DEQUEUED = true then
    b' = { b with attr := b'.attr } ∧
    has_flag b'.attr K.MSM_VIDC_ATTR_DEQUEUED = false ∧
    has_flag b'.attr K.MSM_VIDC_ATTR_BUFFER_DONE = true ∧
    has_flag b'.attr K.MSM_VIDC_ATTR_READ_ONLY = has_flag b.attr K.MSM_VIDC_ATTR_READ_ONLY ∧
    has_flag b'.attr K.MSM_VIDC_ATTR_QUEUED = has_flag b.attr K.MSM_VIDC_ATTR_QUEUED
  else b' = b

instance (K : hfi_defs) (b b' : msm_vidc_buffer) : Decidable (reconciled K b b') := by
  unfold reconciled; infer_instance

/-- The four collections `handle_dequeue_buffers` visits, in its order. -/
def dequeue_kinds : List msm_vidc_buffer_type :=
  [msm_vidc_buffer_type.MSM_VIDC_BUF_INPUT_META, msm_vidc_buffer_type.MSM_VIDC_BUF_INPUT,
   msm_vidc_buffer_type.MSM_VIDC_BUF_OUTPUT_META, msm_vidc_buffer_type.MSM_VIDC_BUF_OUTPUT]

/-- One delivery of an Output buffer completion, as the pipeline runs it for a
`HFI_CMD_BUFFER` packet: `handle_output_buffer` on the `hfi_buffer` at `buffer`
and, when that succeeds, the reconciliation pass `handle_dequeue_buffers`. -/
def deliver_output (K : hfi_defs) (X : vidc_ops) (st : sess) (buffer : Nat) : Int × sess :=
  if (handle_output_buffer K X st buffer).1 ≠ 0 then handle_output_buffer K X st buffer
  else handle_dequeue_buffers K (handle_output_buffer K X st buffer).2

/-! ## Concrete inputs

The runs below use the layout and constants `venus`, a response buffer of 4096
bytes at address `0x1000` and one decoder instance registered under session
id 7. -/

/-- Outbound calls that all succeed; the admission predicates allow. -/
def ops_ok : vidc_ops where
  change_inst_state := fun _ _ => 0
  msm_vidc_is_super_buffer := fun _ => false
  buffer_size := fun _ _ => 0
  destroy_internal_buffer := fun _ _ _ => 0
  msm_vdec_input_port_settings_change := fun _ => 0
  msm_vdec_output_port_settings_change := fun _ => 0
  msm_vdec_init_input_subcr_params := fun i => i.subcr_params msm_vidc_port_type.INPUT_PORT
  msm_vidc_allow_input_psc := fun _ => msm_vidc_allow.MSM_VIDC_ALLOW
  msm_vidc_allow_last_flag := fun _ => true
  msm_vidc_state_change_input_psc := fun i => (0, i.state)
  msm_vidc_state_change_last_flag := fun i => (0, i.state)
  kzalloc_work := fun _ => true
  kzalloc_data := fun _ _ => 0x9000

/-- As `ops_ok`, but the admission predicate for an input port-settings change
answers `MSM_VIDC_DEFER`. -/
def ops_defer : vidc_ops :=
  { ops_ok with msm_vidc_allow_input_psc := fun _ => msm_vidc_allow.MSM_VIDC_DEFER }

/-- A decoder instance whose Output collection holds the one record `out` and
whose other collections are empty; `works` is its deferred queue. -/
def dec_inst (out : msm_vidc_buffer) (works : List response_work) : msm_vidc_inst where
  domain := msm_vidc_domain_type.MSM_VIDC_DECODER
  codec := 0
  state := 1
  has_core := true
  capabilities := some ⟨0, 0⟩
  buffers := fun t => if t = msm_vidc_buffer_type.MSM_VIDC_BUF_OUTPUT then some [out] else some []
  hfi_frame_info := ⟨0, 0, 0⟩
  subcr_params := fun _ => ⟨0, 0, 0, 0, 0, 0, 0, 0, 0, 0, 0⟩
  response_works := works
  events := []
  calls := []

/-- An Output record at device address `0x5000` with the given attributes. -/
def out_record (attr : Nat) : msm_vidc_buffer :=
  ⟨0x5000, 0, 0, 0, attr, 0⟩

/-- The core with its response buffer at `0x1000` and `inst` under session id 7. -/
def core_with (inst : msm_vidc_inst) : msm_vidc_core where
  response_packet := 0x1000
  packet_size := 4096
  sfr_align_virtual_addr := 0
  sfr_mem_size := 0
  fw_version := fun _ => 0
  instances := fun s => if s = 7 then some inst else none
  events := []
  calls := []

/-- The world in which the response buffer holds `bytes` and the instance is a
decoder with one queued Output record. -/
def world_with (bytes : List Nat) : world :=
  ⟨mem_of 0x1000 bytes, core_with (dec_inst (out_record 0x8) [])⟩

/-- A session batch of two packets: a `HFI_CMD_BUFFER` packet (raw port, an
Output buffer at `0x5000`, read-only, 512 bytes) followed by a session-error
packet. -/
def batch_cmd_then_error : List Nat := words
  [160, 7, 0, 0, 0, 0, 0, 2,
   96, 0x01000009, 0, 1, 2, 0, 0, 0,
   2, 0, 0x5000, 0, 0, 0, 0, 512, 0, 0, 0x10, 0, 0, 0, 0, 0,
   32, 0x04000001, 0, 0, 0, 0, 0, 0]

/-- A session batch of two packets: a property packet of a type
`handle_session_property` does not know, then a `HFI_CMD_BUFFER` packet. -/
def batch_bad_property_then_cmd : List Nat := words
  [160, 7, 0, 0, 0, 0, 0, 2,
   32, 0x03000002, 0, 0, 1, 0, 0, 0,
   96, 0x01000009, 0, 1, 2, 0, 0, 0,
   2, 0, 0x5000, 0, 0, 0, 0, 512, 0, 0, 0x10, 0, 0, 0, 0, 0]

/-- A system batch (session id 0) of two packets: a `HFI_CMD_INIT` packet with
the success flag, then a packet whose declared size `0x10000` runs past the
response buffer. -/
def batch_init_then_oversized : List Nat := words
  [96, 0, 0, 0, 0, 0, 0, 2,
   32, 0x01000001, 1, 0, 0, 0, 0, 0,
   0x10000, 0x03000001, 0, 0, 0, 0, 0, 0]

/-- A session batch whose header declares a total size of 32 bytes, the header
alone, and one packet: a session-error packet of 32 bytes right behind it. -/
def batch_past_own_size : List Nat := words
  [32, 7, 0, 0, 0, 0, 0, 1,
   32, 0x04000001, 0, 0, 0, 0, 0, 0]

/-- An `hfi_buffer` payload for the Output record at `0x5000` with
`flags = LAST | READONLY` and `data_size = 512`. -/
def last_readonly_buffer : List Nat := words
  [2, 0, 0x5000, 0, 0, 0, 0, 512, 0, 0, 0x10000010, 0, 0, 0, 0, 0]

/-- The snapshot of an output port-settings change: one `HFI_CMD_SETTINGS_CHANGE`
packet on the raw port. -/
def snapshot_output_psc : List Nat := words
  [64, 7, 0, 0, 0, 0, 0, 1,
   32, 0x0100000C, 0, 0, 2, 0, 0, 0]

/-- The snapshot of an end-of-stream batch: one `HFI_CMD_BUFFER` packet on the
raw port whose Output buffer at `0x5000` carries the last flag. -/
def snapshot_last_flag : List Nat := words
  [128, 7, 0, 0, 0, 0, 0, 1,
   96, 0x01000009, 0, 1, 2, 0, 0, 0,
   2, 0, 0x5000, 0, 0, 0, 0, 0, 0, 0, 0x10000000, 0, 0, 0, 0, 0]

/-- The three queued items `A`, `B`, `C`: an input port-settings change, an
output port-settings change with its snapshot at `0x2000` and an end-of-stream
item with its snapshot at `0x3000`. -/
def queue_abc : List response_work :=
  [⟨response_work_type.RESP_WORK_INPUT_PSC, 0x1800, 64⟩,
   ⟨response_work_type.RESP_WORK_OUTPUT_PSC, 0x2000, 64⟩,
   ⟨response_work_type.RESP_WORK_LAST_FLAG, 0x3000, 128⟩]

/-- The session state with the queue `queue_abc` and the two snapshots in memory. -/
def sess_abc : sess :=
  ⟨fun a => if a < 0x3000 then mem_of 0x2000 snapshot_output_psc a
            else mem_of 0x3000 snapshot_last_flag a,
   dec_inst (out_record 0x8) queue_abc⟩

/-- A session batch of two packets: a valid `HFI_CMD_BUFFER` packet, then a final
packet whose declared size `0x10000` runs past the response buffer. -/
def batch_cmd_then_oversized : List Nat := words
  [160, 7, 0, 0, 0, 0, 0, 2,
   96, 0x01000009, 0, 1, 2, 0, 0, 0,
   2, 0, 0x5000, 0, 0, 0, 0, 512, 0, 0, 0x10, 0, 0, 0, 0, 0,
   0x10000, 0x04000001, 0, 0, 0, 0, 0, 0]


/-! ## Super-buffer mode, deferral and failure paths

Vocabulary and concrete inputs of the properties of the input handlers, the
reconciliation trigger, the deferral scan, the unknown packet types, the buffer
lookup, the subscription properties and the system handlers. -/

/-- Outbound calls of a session in super-buffer mode with frames of 1024 bytes. -/
def ops_super : vidc_ops :=
  { ops_ok with msm_vidc_is_super_buffer := fun _ => true, buffer_size := fun _ _ => 1024 }

/-- An encoder instance with batches of four frames (`cap[SUPER_FRAME].value = 4`)
whose Input and Input metadata collections each hold one queued record at
device address `0x5000`. -/
def super_inst : msm_vidc_inst :=
  { dec_inst (out_record 0x8) [] with
    domain := msm_vidc_domain_type.MSM_VIDC_ENCODER
    capabilities := some ⟨4, 0⟩
    buffers := fun t =>
      if t = msm_vidc_buffer_type.MSM_VIDC_BUF_INPUT ∨
          t = msm_vidc_buffer_type.MSM_VIDC_BUF_INPUT_META then some [out_record 0x8]
      else some [] }

/-- An `hfi_buffer` payload for the record at `0x5000` with the given
`addr_offset` and `data_size = 512`. -/
def input_buffer_at (addr_offset : Nat) : List Nat := words
  [1, 0, 0x5000, 0, addr_offset, 0, 0, 512, 0, 0, 0, 0, 0, 0, 0, 0]

/-- The session state of `super_inst` with the payload `input_buffer_at addr_offset`
at address `0x2000`. -/
def sess_super (addr_offset : Nat) : sess :=
  ⟨mem_of 0x2000 (input_buffer_at addr_offset), super_inst⟩

/-- The value of the local `hfi_cmd_type` of the dispatch pass after the calls
`calls`, when it was `c` before them: every call stores the type of its packet,
so it is the type of the packet of the last call. -/
def last_type (K : hfi_defs) (m : Mem) (c : Nat) (calls : List (Nat × Nat)) : Nat :=
  calls.foldl (fun _ x => read32 m (x.2 + K.pkt_type)) c

/-- A session batch of two packets: a `HFI_CMD_BUFFER` packet (raw port, an
Output buffer at `0x5000`, read-only, 512 bytes) followed by a successful
`HFI_CMD_START` packet. -/
def batch_buffer_then_start : List Nat := words
  [160, 7, 0, 0, 0, 0, 0, 2,
   96, 0x01000009, 0, 1, 2, 0, 0, 0,
   2, 0, 0x5000, 0, 0, 0, 0, 512, 0, 0, 0x10, 0, 0, 0, 0, 0,
   32, 0x01000005, 1, 0, 2, 0, 0, 0]

/-- A trigger packet of the scan that precedes the dispatch pass: a
`HFI_CMD_SETTINGS_CHANGE` packet, or a `HFI_CMD_BUFFER` packet on the raw port
whose buffer payload carries the last flag. -/
def is_trigger (K : hfi_defs) (m : Mem) (pkt : Nat) : Bool :=
  decide (read32 m (pkt + K.pkt_type) = K.HFI_CMD_SETTINGS_CHANGE) ||
  (decide (read32 m (pkt + K.pkt_type) = K.HFI_CMD_BUFFER) &&
    decide (read32 m (pkt + K.pkt_port) = K.HFI_PORT_RAW) && check_last_flag K m pkt)

/-- The kind of work item a trigger packet asks for: `INPUT_PSC` for a settings
change on the bitstream port, `OUTPUT_PSC` for a settings change on the raw
port, `LAST_FLAG` for a last-flag buffer on the raw port, and none for a
settings change on another port. -/
def trigger_kind (K : hfi_defs) (m : Mem) (pkt : Nat) : Option response_work_type :=
  if read32 m (pkt + K.pkt_type) = K.HFI_CMD_SETTINGS_CHANGE then
    if read32 m (pkt + K.pkt_port) = K.HFI_PORT_BITSTREAM then
      some response_work_type.RESP_WORK_INPUT_PSC
    else if read32 m (pkt + K.pkt_port) = K.HFI_PORT_RAW then
      some response_work_type.RESP_WORK_OUTPUT_PSC
    else none
  else if read32 m (pkt + K.pkt_type) = K.HFI_CMD_BUFFER ∧
      read32 m (pkt + K.pkt_port) = K.HFI_PORT_RAW ∧ check_last_flag K m pkt then
    some response_work_type.RESP_WORK_LAST_FLAG
  else none

/-- A session batch of three packets and a declared size of 192 bytes: a
session-error packet, a `HFI_CMD_BUFFER` packet on the raw port whose Output
buffer carries the last flag, and a `HFI_CMD_SETTINGS_CHANGE` packet on the
bitstream port. -/
def batch_error_last_psc : List Nat := words
  [192, 7, 0, 0, 0, 0, 0, 3,
   32, 0x04000001, 0, 0, 0, 0, 0, 0,
   96, 0x01000009, 0, 1, 2, 0, 0, 0,
   2, 0, 0x5000, 0, 0, 0, 0, 512, 0, 0, 0x10000000, 0, 0, 0, 0, 0,
   32, 0x0100000C, 0, 0, 1, 0, 0, 0]

/-- As `ops_ok`, but the admission predicate for an input port-settings change
answers `MSM_VIDC_DISALLOW`. -/
def ops_disallow : vidc_ops :=
  { ops_ok with msm_vidc_allow_input_psc := fun _ => msm_vidc_allow.MSM_VIDC_DISALLOW }

/-- The session state whose queue holds one input port-settings change with its
snapshot, a `HFI_CMD_BUFFER` batch for the Output record, at `0x1000`. -/
def sess_input_psc : sess :=
  ⟨mem_of 0x1000 batch_cmd_then_error,
   dec_inst (out_record 0x8) [⟨response_work_type.RESP_WORK_INPUT_PSC, 0x1000, 160⟩]⟩

/-- A packet type that falls in none of the four category ranges of the table
`be[]` (session error, information, property, command). -/
def unknown_type (K : hfi_defs) (type : Nat) : Bool :=
  !in_range K.HFI_SESSION_ERROR_BEGIN K.HFI_SESSION_ERROR_END type &&
  !in_range K.HFI_INFORMATION_BEGIN K.HFI_INFORMATION_END type &&
  !in_range K.HFI_PROP_BEGIN K.HFI_PROP_END type &&
  !in_range K.HFI_CMD_BEGIN K.HFI_CMD_END type

/-- A session batch of one packet whose type `0x07000001` falls in none of the
four category ranges. -/
def batch_unknown_type : List Nat := words
  [64, 7, 0, 0, 0, 0, 0, 1,
   32, 0x07000001, 0, 0, 0, 0, 0, 0]

/-- A packet type `handle_system_response` has no branch for: not
`HFI_CMD_INIT`, not strictly inside the system-error range and not strictly
between `HFI_PROP_BEGIN` and `HFI_PROP_CODEC`. -/
def unknown_system_type (K : hfi_defs) (type : Nat) : Bool :=
  decide (type ≠ K.HFI_CMD_INIT) &&
  !(decide (type > K.HFI_SYSTEM_ERROR_BEGIN) && decide (type < K.HFI_SYSTEM_ERROR_END)) &&
  !(decide (type > K.HFI_PROP_BEGIN) && decide (type < K.HFI_PROP_CODEC))

/-- A system batch (session id 0) of two packets: a packet of the unknown type
`0x07000001`, then a `HFI_CMD_INIT` packet with the success flag. -/
def batch_unknown_then_init : List Nat := words
  [96, 0, 0, 0, 0, 0, 0, 2,
   32, 0x07000001, 0, 0, 0, 0, 0, 0,
   32, 0x01000001, 1, 0, 0, 0, 0, 0]

/-- No record of the collection of kind `ty` has a device address equal to the
`base_address` of the completion at `buffer` (a missing collection has no
record). -/
def no_match (K : hfi_defs) (st : sess) (buffer : Nat) (ty : msm_vidc_buffer_type) : Prop :=
  ∀ b ∈ (st.inst.buffers ty).getD [],
    b.device_addr ≠ read64 st.mem (buffer + K.buf_base_address)

instance (K : hfi_defs) (st : sess) (buffer : Nat) (ty : msm_vidc_buffer_type) :
    Decidable (no_match K st buffer ty) := by
  unfold no_match; infer_instance

/-- The collection whose handler `handle_session_buffer` picks for a completion,
by session domain, port and HFI buffer type; `none` where it picks no handler. -/
def target_collection (K : hfi_defs) (domain : msm_vidc_domain_type) (port_type buf_type : Nat) :
    Option msm_vidc_buffer_type :=
  match domain with
  | msm_vidc_domain_type.MSM_VIDC_ENCODER =>
    if port_type = K.HFI_PORT_BITSTREAM then
      if buf_type = K.HFI_BUFFER_METADATA then some msm_vidc_buffer_type.MSM_VIDC_BUF_OUTPUT_META
      else if buf_type = K.HFI_BUFFER_BITSTREAM then some msm_vidc_buffer_type.MSM_VIDC_BUF_OUTPUT
      else if buf_type = K.HFI_BUFFER_BIN then some msm_vidc_buffer_type.MSM_VIDC_BUF_BIN
      else if buf_type = K.HFI_BUFFER_COMV then some msm_vidc_buffer_type.MSM_VIDC_BUF_COMV
      else if buf_type = K.HFI_BUFFER_NON_COMV then
        some msm_vidc_buffer_type.MSM_VIDC_BUF_NON_COMV
      else if buf_type = K.HFI_BUFFER_LINE then some msm_vidc_buffer_type.MSM_VIDC_BUF_LINE
      else if buf_type = K.HFI_BUFFER_ARP then some msm_vidc_buffer_type.MSM_VIDC_BUF_ARP
      else if buf_type = K.HFI_BUFFER_DPB then some msm_vidc_buffer_type.MSM_VIDC_BUF_DPB
      else none
    else if port_type = K.HFI_PORT_RAW then
      if buf_type = K.HFI_BUFFER_METADATA then some msm_vidc_buffer_type.MSM_VIDC_BUF_INPUT_META
      else if buf_type = K.HFI_BUFFER_RAW then some msm_vidc_buffer_type.MSM_VIDC_BUF_INPUT
      else none
    else none
  | msm_vidc_domain_type.MSM_VIDC_DECODER =>
    if port_type = K.HFI_PORT_BITSTREAM then
      if buf_type = K.HFI_BUFFER_METADATA then some msm_vidc_buffer_type.MSM_VIDC_BUF_INPUT_META
      else if buf_type = K.HFI_BUFFER_BITSTREAM then some msm_vidc_buffer_type.MSM_VIDC_BUF_INPUT
      else if buf_type = K.HFI_BUFFER_BIN then some msm_vidc_buffer_type.MSM_VIDC_BUF_BIN
      else if buf_type = K.HFI_BUFFER_COMV then some msm_vidc_buffer_type.MSM_VIDC_BUF_COMV
      else if buf_type = K.HFI_BUFFER_NON_COMV then
        some msm_vidc_buffer_type.MSM_VIDC_BUF_NON_COMV
      else if buf_type = K.HFI_BUFFER_LINE then some msm_vidc_buffer_type.MSM_VIDC_BUF_LINE
      else if buf_type = K.HFI_BUFFER_PERSIST then some msm_vidc_buffer_type.MSM_VIDC_BUF_PERSIST
      else none
    else if port_type = K.HFI_PORT_RAW then
      if buf_type = K.HFI_BUFFER_METADATA then some msm_vidc_buffer_type.MSM_VIDC_BUF_OUTPUT_META
      else if buf_type = K.HFI_BUFFER_RAW then some msm_vidc_buffer_type.MSM_VIDC_BUF_OUTPUT
      else if buf_type = K.HFI_BUFFER_DPB then some msm_vidc_buffer_type.MSM_VIDC_BUF_DPB
      else none
    else none
  | msm_vidc_domain_type.other => none

/-- The completion handler of each collection kind, as `handle_session_buffer`
names them. -/
def buffer_handler (K : hfi_defs) (X : vidc_ops) :
    msm_vidc_buffer_type → sess → Nat → Int × sess
  | msm_vidc_buffer_type.MSM_VIDC_BUF_INPUT => handle_input_buffer K X
  | msm_vidc_buffer_type.MSM_VIDC_BUF_OUTPUT => handle_output_buffer K X
  | msm_vidc_buffer_type.MSM_VIDC_BUF_INPUT_META => handle_input_metadata_buffer K X
  | msm_vidc_buffer_type.MSM_VIDC_BUF_OUTPUT_META => handle_output_metadata_buffer K
  | msm_vidc_buffer_type.MSM_VIDC_BUF_BIN => handle_bin_buffer K X
  | msm_vidc_buffer_type.MSM_VIDC_BUF_ARP => handle_arp_buffer K X
  | msm_vidc_buffer_type.MSM_VIDC_BUF_COMV => handle_comv_buffer K X
  | msm_vidc_buffer_type.MSM_VIDC_BUF_NON_COMV => handle_non_comv_buffer K X
  | msm_vidc_buffer_type.MSM_VIDC_BUF_LINE => handle_line_buffer K X
  | msm_vidc_buffer_type.MSM_VIDC_BUF_DPB => handle_dpb_buffer K X
  | msm_vidc_buffer_type.MSM_VIDC_BUF_PERSIST => handle_persist_buffer K X

/-- A session batch of two packets: a `HFI_CMD_BUFFER` packet on the raw port for
an Output buffer at `0x6000`, an address no record has, followed by a
successful `HFI_CMD_START` packet. -/
def batch_stray_buffer_then_start : List Nat := words
  [160, 7, 0, 0, 0, 0, 0, 2,
   96, 0x01000009, 0, 1, 2, 0, 0, 0,
   2, 0, 0x6000, 0, 0, 0, 0, 512, 0, 0, 0x10, 0, 0, 0, 0, 0,
   32, 0x01000005, 1, 0, 2, 0, 0, 0]

/-- The ten subscription properties with the field of the subscription
parameters each one stands for: the code and the update it asks for, given the
payload words `w0` and `w1`.  The crop offsets take both words, every other
field takes word 0. -/
def subscription_table (K : hfi_defs) (w0 w1 : Nat) :
    List (Nat × (msm_vidc_subscription_params → msm_vidc_subscription_params)) :=
  [ (K.HFI_PROP_BITSTREAM_RESOLUTION, fun s => { s with bitstream_resolution := w0 }),
    (K.HFI_PROP_CROP_OFFSETS, fun s => { s with crop_offsets0 := w0, crop_offsets1 := w1 }),
    (K.HFI_PROP_LUMA_CHROMA_BIT_DEPTH, fun s => { s with bit_depth := w0 }),
    (K.HFI_PROP_CODED_FRAMES, fun s => { s with coded_frames := w0 }),
    (K.HFI_PROP_BUFFER_FW_MIN_OUTPUT_COUNT, fun s => { s with fw_min_count := w0 }),
    (K.HFI_PROP_PIC_ORDER_CNT_TYPE, fun s => { s with pic_order_cnt := w0 }),
    (K.HFI_PROP_SIGNAL_COLOR_INFO, fun s => { s with color_info := w0 }),
    (K.HFI_PROP_PROFILE, fun s => { s with profile := w0 }),
    (K.HFI_PROP_LEVEL, fun s => { s with level := w0 }),
    (K.HFI_PROP_TIER, fun s => { s with tier := w0 }) ]

/-- The codes of the ten subscription properties. -/
def subscription_types (K : hfi_defs) : List Nat :=
  (subscription_table K 0 0).map (fun e => e.1)

/-- The property types `handle_session_property` has a case for: the ten
subscription properties, `HFI_PROP_PICTURE_TYPE` and `HFI_PROP_NO_OUTPUT`. -/
def handled_types (K : hfi_defs) : List Nat :=
  subscription_types K ++ [K.HFI_PROP_PICTURE_TYPE, K.HFI_PROP_NO_OUTPUT]

/-- A decoder session state with one property packet at `0x1000`: type `type` on
the bitstream port with the payload words `0x00100020` and `0x00300040`. -/
def sess_property (type : Nat) : sess :=
  ⟨mem_of 0x1000 (words [40, type, 0, 0, 1, 0, 0, 0, 0x00100020, 0x00300040]),
   dec_inst (out_record 0x8) []⟩

/-- A system batch (session id 0) of one `HFI_CMD_INIT` packet with the given
packet flags. -/
def batch_init (flags : Nat) : List Nat := words
  [64, 0, 0, 0, 0, 0, 0, 1,
   32, 0x01000001, flags, 0, 0, 0, 0, 0]

/-- A system batch (session id 0) of one `HFI_PROP_IMAGE_VERSION` packet whose
declared size is 8 bytes, less than the 32 bytes of `struct hfi_packet`; the
byte `V` stands where a payload would begin. -/
def batch_short_version : List Nat := words
  [64, 0, 0, 0, 0, 0, 0, 1,
   8, 0x03000001, 0, 0, 0, 0, 0, 0,
   0x56, 0, 0, 0, 0, 0, 0, 0]

/-! ## Frame info, wire order, flags and the system handlers

Vocabulary and concrete inputs of the properties of the frame info, the system
dispatch, the range test, the output normalisation, the derived flags, the
firmware version, the crash report and the drain cycle. -/

/-- A session batch of two packets: a `HFI_PROP_PICTURE_TYPE` property on the
bitstream port with payload word 1 (an IDR picture), then a `HFI_CMD_BUFFER`
packet on the raw port for an Output buffer at device address `addr`. -/
def batch_picture_then_buffer (addr : Nat) : List Nat := words
  [168, 7, 0, 0, 0, 0, 0, 2,
   40, 0x03000162, 0, 1, 1, 0, 0, 0, 1, 0,
   96, 0x01000009, 0, 1, 2, 0, 0, 0,
   2, 0, addr, 0, 0, 0, 0, 512, 0, 0, 0x10, 0, 0, 0, 0, 0]

/-- The handler `handle_system_response` picks for a packet type it knows:
`handle_system_init` for `HFI_CMD_INIT`, `handle_system_error` for a type
strictly inside the system-error range, `handle_system_property` otherwise. -/
def system_handler_of (K : hfi_defs) (type : Nat) : system_handler :=
  if type = K.HFI_CMD_INIT then system_handler.handle_system_init
  else if type > K.HFI_SYSTEM_ERROR_BEGIN ∧ type < K.HFI_SYSTEM_ERROR_END then
    system_handler.handle_system_error
  else system_handler.handle_system_property

/-- The address of the last byte of the message region of the crash-report
buffer, `&vsfr->rg_data[vsfr_size - 1]` with `vsfr_size = mem_size - 4` in
`u32`: the one byte `print_sfr_message` may write. -/
def sfr_last (K : hfi_defs) (core : msm_vidc_core) : Nat :=
  core.sfr_align_virtual_addr + K.sfr_rg_data +
    ((core.sfr_mem_size + 4294967296 - 4) % 4294967296 + 4294967296 - 1) % 4294967296

/-- The world `v` has the response buffer and the crash-report buffer of `w` and
its memory differs from that of `w` at most in the byte at `sfr_last`. -/
def same_buffers (K : hfi_defs) (w v : world) : Prop :=
  v.core.response_packet = w.core.response_packet ∧
  v.core.packet_size = w.core.packet_size ∧
  v.core.sfr_align_virtual_addr = w.core.sfr_align_virtual_addr ∧
  v.core.sfr_mem_size = w.core.sfr_mem_size ∧
  ∀ x, x ≠ sfr_last K w.core → v.mem x = w.mem x

/-- A system batch (session id 0) of two packets: a `HFI_CMD_INIT` packet with
the success flag, then a packet of the system-error type `0x05000001`. -/
def batch_init_then_system_error : List Nat := words
  [96, 0, 0, 0, 0, 0, 0, 2,
   32, 0x01000001, 1, 0, 0, 0, 0, 0,
   32, 0x05000001, 0, 0, 0, 0, 0, 0]

/-- The calls a pass added to the ghost call log: what `after` holds behind the
entries of `before`. -/
def new_calls (before after : List (Nat × Nat)) : List (Nat × Nat) :=
  after.drop before.length

/-- A session batch of two packets: a packet whose type is the end marker
`HFI_PROP_END` of the property range, then a session-error packet. -/
def batch_marker_then_error : List Nat := words
  [96, 7, 0, 0, 0, 0, 0, 2,
   32, 0x03FFFFFF, 0, 0, 1, 0, 0, 0,
   32, 0x04000001, 0, 0, 0, 0, 0, 0]

/-- The flags word of the `hfi_buffer` at `buffer` as `handle_output_buffer` reads
it after its last-flag normalisation of the response memory `m`: for a
last-flag buffer a non-zero `data_size` is zeroed and then the read-only flag
is cleared in place. -/
def normalised_flags (K : hfi_defs) (m : Mem) (buffer : Nat) : Nat :=
  let last := has_flag (read32 m (buffer + K.buf_flags)) K.HFI_BUF_FW_FLAG_LAST
  let m1 : Mem :=
    if last ∧ read32 m (buffer + K.buf_data_size) ≠ 0 then
      write32 m (buffer + K.buf_data_size) 0
    else m
  let m2 : Mem :=
    if last ∧ has_flag (read32 m1 (buffer + K.buf_flags)) K.HFI_BUF_FW_FLAG_READONLY then
      write32 m1 (buffer + K.buf_flags)
        (clear_flag (read32 m1 (buffer + K.buf_flags)) K.HFI_BUF_FW_FLAG_READONLY)
    else m1
  read32 m2 (buffer + K.buf_flags)

/-- The frame-type flag of a picture type, chosen by first match: the IDR bit
gives `KEYFRAME`, else the P bit gives `PFRAME`, else the B bit gives `BFRAME`,
else the I bit gives `KEYFRAME` when the codec is VP9 and nothing otherwise,
else the CRA bit gives `KEYFRAME`, else the BLA bit gives `KEYFRAME`. -/
def frame_type_flag (K : hfi_defs) (inst : msm_vidc_inst) : Nat :=
  if has_flag inst.hfi_frame_info.picture_type K.HFI_PICTURE_IDR then K.MSM_VIDC_BUF_FLAG_KEYFRAME
  else if has_flag inst.hfi_frame_info.picture_type K.HFI_PICTURE_P then
    K.MSM_VIDC_BUF_FLAG_PFRAME
  else if has_flag inst.hfi_frame_info.picture_type K.HFI_PICTURE_B then
    K.MSM_VIDC_BUF_FLAG_BFRAME
  else if has_flag inst.hfi_frame_info.picture_type K.HFI_PICTURE_I then
    (if inst.codec = K.MSM_VIDC_VP9 then K.MSM_VIDC_BUF_FLAG_KEYFRAME else 0)
  else if has_flag inst.hfi_frame_info.picture_type K.HFI_PICTURE_CRA then
    K.MSM_VIDC_BUF_FLAG_KEYFRAME
  else if has_flag inst.hfi_frame_info.picture_type K.HFI_PICTURE_BLA then
    K.MSM_VIDC_BUF_FLAG_KEYFRAME
  else 0

/-- The driver flags of a completion as the bitwise OR of four parts: the
frame-type flag; `ERROR` iff `data_corrupt` is set, or `no_output` is set and
the `META_BUF_TAG` capability is non-zero and the HFI flags lack
`CODEC_CONFIG`; `CODECCONFIG` iff the HFI flags have `CODEC_CONFIG`; `LAST` iff
the HFI flags have `LAST`. -/
def driver_flags_spec (K : hfi_defs) (inst : msm_vidc_inst) (hfi_flags : Nat) : Nat :=
  frame_type_flag K inst |||
  (if inst.hfi_frame_info.data_corrupt ≠ 0 ∨
      (inst.hfi_frame_info.no_output ≠ 0 ∧
        (inst.capabilities.map (fun c => c.META_BUF_TAG)).getD 0 ≠ 0 ∧
        has_flag hfi_flags K.HFI_BUF_FW_FLAG_CODEC_CONFIG = false)
    then K.MSM_VIDC_BUF_FLAG_ERROR else 0) |||
  (if has_flag hfi_flags K.HFI_BUF_FW_FLAG_CODEC_CONFIG then K.MSM_VIDC_BUF_FLAG_CODECCONFIG
    else 0) |||
  (if has_flag hfi_flags K.HFI_BUF_FW_FLAG_LAST then K.MSM_VIDC_BUF_FLAG_LAST else 0)

/-- The three frame-type flags are non-zero and share no bit with each other or
with `ERROR`, `CODECCONFIG` and `LAST`; the I bit of the picture type is
non-zero and shares no bit with the IDR, P and B bits. -/
def driver_flag_bits (K : hfi_defs) : Prop :=
  (K.MSM_VIDC_BUF_FLAG_KEYFRAME ≠ 0 ∧ K.MSM_VIDC_BUF_FLAG_PFRAME ≠ 0 ∧
    K.MSM_VIDC_BUF_FLAG_BFRAME ≠ 0) ∧
  (K.MSM_VIDC_BUF_FLAG_KEYFRAME &&& K.MSM_VIDC_BUF_FLAG_PFRAME = 0 ∧
    K.MSM_VIDC_BUF_FLAG_KEYFRAME &&& K.MSM_VIDC_BUF_FLAG_BFRAME = 0 ∧
    K.MSM_VIDC_BUF_FLAG_PFRAME &&& K.MSM_VIDC_BUF_FLAG_BFRAME = 0) ∧
  (∀ f ∈ [K.MSM_VIDC_BUF_FLAG_KEYFRAME, K.MSM_VIDC_BUF_FLAG_PFRAME, K.MSM_VIDC_BUF_FLAG_BFRAME],
    ∀ g ∈ [K.MSM_VIDC_BUF_FLAG_ERROR, K.MSM_VIDC_BUF_FLAG_CODECCONFIG,
      K.MSM_VIDC_BUF_FLAG_LAST], g &&& f = 0) ∧
  (K.HFI_PICTURE_I ≠ 0 ∧ K.HFI_PICTURE_I &&& K.HFI_PICTURE_IDR = 0 ∧
    K.HFI_PICTURE_I &&& K.HFI_PICTURE_P = 0 ∧ K.HFI_PICTURE_I &&& K.HFI_PICTURE_B = 0)

instance (K : hfi_defs) : Decidable (driver_flag_bits K) := by
  unfold driver_flag_bits; infer_instance

/-- A decoder instance of codec `codec` whose frame info holds a plain intra picture (the I
bit alone) and nothing else. -/
def intra_inst (codec : Nat) : msm_vidc_inst :=
  { dec_inst (out_record 0x8) [] with codec := codec, hfi_frame_info := ⟨0x8, 0, 0⟩ }

/-- A system batch (session id 0) of one `HFI_PROP_IMAGE_VERSION` packet of 160
bytes whose payload begins with the bytes `V`, NUL, `I`, NUL; the rest of the
payload is zero. -/
def batch_version : List Nat := words
  [192, 0, 0, 0, 0, 0, 0, 1,
   160, 0x03000001, 0, 0, 0, 0, 0, 0,
   0x00490056]

/-- A world whose crash-report buffer of 12 bytes lies at `0x8000` and holds
`bytes`: the `bufSize` word and eight message bytes. -/
def world_sfr (bytes : List Nat) : world :=
  ⟨mem_of 0x8000 bytes,
   { core_with (dec_inst (out_record 0x8) []) with
     sfr_align_virtual_addr := 0x8000, sfr_mem_size := 12 }⟩

/-- A crash report that declares 12 bytes and whose eight message bytes
`ABCDEFGH` hold no NUL. -/
def sfr_unterminated : List Nat :=
  words [12] ++ [0x41, 0x42, 0x43, 0x44, 0x45, 0x46, 0x47, 0x48]

/-- The items of `todo` that one drain cycle leaves in the queue: the
`INPUT_PSC` items for which `msm_vidc_allow_input_psc`, asked when the loop
reaches the item, answers Defer.  Every other item is processed in the state
the loop has reached and unlinked; `kept` are the items left in the queue so
far. -/
def remaining_works (K : hfi_defs) (X : vidc_ops) :
    List response_work → List response_work → sess → List response_work
  | _, [], _ => []
  | kept, resp_work :: rest, st =>
    if resp_work.type = response_work_type.RESP_WORK_INPUT_PSC ∧
        X.msm_vidc_allow_input_psc st.inst = msm_vidc_allow.MSM_VIDC_DEFER then
      resp_work :: remaining_works K X (kept ++ [resp_work]) rest st
    else
      remaining_works K X kept rest
        { mem := (response_work_item K X st resp_work).2.mem,
          inst := { (response_work_item K X st resp_work).2.inst with
            response_works := kept ++ rest } }

/-- The snapshot of an output port-settings change that holds two command
packets: a `HFI_CMD_SETTINGS_CHANGE` packet on the raw port, then a successful
`HFI_CMD_START` packet. -/
def snapshot_psc_then_start : List Nat := words
  [96, 7, 0, 0, 0, 0, 0, 2,
   32, 0x0100000C, 0, 0, 2, 0, 0, 0,
   32, 0x01000005, 1, 0, 2, 0, 0, 0]

/-- The session state with the snapshot `snapshot_psc_then_start` at `0x2000`. -/
def sess_psc_then_start : sess :=
  ⟨mem_of 0x2000 snapshot_psc_then_start, dec_inst (out_record 0x8) []⟩

/-! ## Stale frame info, dropped batches, short packets and the port test

Vocabulary and concrete inputs of the last properties. -/

/-- A session batch of three packets: a session-error packet, a
`HFI_CMD_SETTINGS_CHANGE` packet on the port `HFI_PORT_NONE`, and a
`HFI_CMD_BUFFER` packet on the raw port for the Output buffer at `0x5000`. -/
def batch_error_psc_none_buffer : List Nat := words
  [192, 7, 0, 0, 0, 0, 0, 3,
   32, 0x04000001, 0, 0, 0, 0, 0, 0,
   32, 0x0100000C, 0, 0, 0, 0, 0, 0,
   96, 0x01000009, 0, 1, 2, 0, 0, 0,
   2, 0, 0x5000, 0, 0, 0, 0, 512, 0, 0, 0x10, 0, 0, 0, 0, 0]

/-- A session state with one `HFI_CMD_BUFFER` packet at `0x1000`: port
`HFI_PORT_NONE`, a payload, and an `hfi_buffer` of the HFI buffer type
`buf_type` for the address `0x5000`. -/
def sess_buffer_port_none (buf_type : Nat) : sess :=
  ⟨mem_of 0x1000 (words
    [96, 0x01000009, 0, 1, 0, 0, 0, 0,
     buf_type, 0, 0x5000, 0, 0, 0, 0, 512, 0, 0, 0, 0, 0, 0, 0, 0]),
   dec_inst (out_record 0x8) []⟩

/-- The world whose response buffer at `0x1000` has 36 bytes only and whose
memory holds `bytes` from `0x1000` on. -/
def world_small (bytes : List Nat) : world :=
  ⟨mem_of 0x1000 bytes,
   { core_with (dec_inst (out_record 0x8) []) with packet_size := 36 }⟩

/-- A session batch of one packet that declares a size of 4 bytes: the packet
lies at `0x1020` and ends at the limit `0x1024` of a response buffer of 36
bytes; the word behind it, where a type field would be, holds the
session-error type `0x04000001`. -/
def batch_short_packet : List Nat := words
  [36, 7, 0, 0, 0, 0, 0, 1,
   4, 0x04000001, 0, 0, 0, 0, 0, 0]

/-- The instance with its frame info put to zero: what two instances that agree
on everything except `hfi_frame_info` have in common. -/
def forget_frame_info (inst : msm_vidc_inst) : msm_vidc_inst :=
  { inst with hfi_frame_info := ⟨0, 0, 0⟩ }

/-- The outbound calls made before the frame info is zeroed (the two
allocations of `queue_response_work` and `msm_vdec_init_input_subcr_params`)
do not read the frame info of the instance. -/
def frame_info_blind (X : vidc_ops) : Prop :=
  ∀ (inst : msm_vidc_inst) (fi : msm_vidc_hfi_frame_info),
    X.kzalloc_work { inst with hfi_frame_info := fi } = X.kzalloc_work inst ∧
    (∀ n, X.kzalloc_data { inst with hfi_frame_info := fi } n = X.kzalloc_data inst n) ∧
    X.msm_vdec_init_input_subcr_params { inst with hfi_frame_info := fi } =
      X.msm_vdec_init_input_subcr_params inst

/-- The decoder instance of the concrete runs with a stale frame info left
behind: a B picture, data corrupt and no output. -/
def stale_inst (works : List response_work) : msm_vidc_inst :=
  { dec_inst (out_record 0x8) works with hfi_frame_info := ⟨4, 1, 1⟩ }

/-- The world `world_with bytes` whose instance carries the stale frame info. -/
def world_stale (bytes : List Nat) : world :=
  ⟨mem_of 0x1000 bytes, core_with (stale_inst [])⟩

/-! ## Released records and overlapping packets

Inputs for the reconciliation pass with records that are released or kept, and
a batch whose first packet declares less than the payload its handler reads. -/

/-- A decoder instance whose Output collection holds three records: one
`Dequeued` and not read-only, one `Dequeued` and read-only, one `Queued`. -/
def inst_three_outputs : msm_vidc_inst :=
  { dec_inst (out_record 0x10) [] with
    buffers := fun t =>
      if t = msm_vidc_buffer_type.MSM_VIDC_BUF_OUTPUT then
        some [out_record 0x10, out_record 0x12, out_record 0x8]
      else some [] }

/-- The `hfi_buffer` of an Output completion for the record at `0x5000` with
`HFI_BUF_FW_FLAG_READONLY` and without the last flag, data size 512. -/
def readonly_buffer : List Nat := words
  [2, 0, 0x5000, 0, 0, 0, 0, 512, 0, 0, 0x10, 0, 0, 0, 0, 0]

/-- An encoder instance with one queued Output record at `0x5000`. -/
def enc_inst : msm_vidc_inst :=
  { dec_inst (out_record 0x8) [] with domain := msm_vidc_domain_type.MSM_VIDC_ENCODER }

/-- A session batch of two packets in which the first declares less than it
carries: a `HFI_CMD_BUFFER` packet at `0x1020` on the bitstream port with a
payload and a declared size of 56 bytes, so that the packet walk finds a
`HFI_CMD_START` packet of 32 bytes at `0x1058`, inside the `hfi_buffer` that the
first packet's handler reads at `0x1040`.  The words of the second packet are
the fields `data_offset`, `data_size` (its type), `timestamp` and `flags` (its
port word, which carries the bit of `HFI_BUF_FW_FLAG_LAST`) of that
`hfi_buffer`. -/
def batch_overlapping_buffer : List Nat := words
  [120, 7, 0, 0, 0, 0, 0, 2,
   56, 0x01000009, 0, 1, 1, 0, 0, 0,
   1, 0, 0x5000, 0, 0, 0,
   32, 0x01000005, 1, 0, 0x10000000, 0, 0, 0]

/-- The world with `batch_overlapping_buffer` in the response buffer and the
encoder instance `enc_inst` as session 7. -/
def world_overlap : world :=
  ⟨mem_of 0x1000 batch_overlapping_buffer, core_with enc_inst⟩
/-! # Properties -/

theorem validate_packet_zero_iff (m : Mem) (response_pkt core_resp_pkt core_resp_pkt_size : Nat) :
    validate_packet m response_pkt core_resp_pkt core_resp_pkt_size = 0 ↔
      (response_pkt ≠ 0 ∧ core_resp_pkt ≠ 0 ∧ core_resp_pkt_size ≠ 0) ∧
      (core_resp_pkt ≤ response_pkt ∧ response_pkt ≤ core_resp_pkt + core_resp_pkt_size) ∧
      read32 m response_pkt ≠ 0 ∧
      response_pkt + read32 m response_pkt ≤ core_resp_pkt + core_resp_pkt_size := by
  unfold validate_packet
  simp only [EINVAL]
  split_ifs with h1 h2 h3 h4 <;> simp <;> omega

theorem validate_packet_cases (m : Mem) (p b s : Nat) :
    validate_packet m p b s = 0 ∨ validate_packet m p b s = -EINVAL := by
  unfold validate_packet
  dsimp only
  split_ifs <;> simp

/-- Claim C1: `validate_packet` returns 0 if and only if `response_pkt` and
`core_resp_pkt` are non-null and `core_resp_pkt_size` is non-zero, the packet
address lies in `[core_resp_pkt, core_resp_pkt + core_resp_pkt_size]`, the
declared size (the `u32` stored at `response_pkt`) is non-zero, and
`response_pkt + declared size` does not exceed the limit; whenever it does not
return 0 it returns `-EINVAL`. -/
theorem validate_packet_spec (m : Mem) (response_pkt core_resp_pkt core_resp_pkt_size : Nat) :
    (validate_packet m response_pkt core_resp_pkt core_resp_pkt_size = 0 ↔
      (response_pkt ≠ 0 ∧ core_resp_pkt ≠ 0 ∧ core_resp_pkt_size ≠ 0) ∧
      (core_resp_pkt ≤ response_pkt ∧ response_pkt ≤ core_resp_pkt + core_resp_pkt_size) ∧
      read32 m response_pkt ≠ 0 ∧
      response_pkt + read32 m response_pkt ≤ core_resp_pkt + core_resp_pkt_size) ∧
    (validate_packet m response_pkt core_resp_pkt core_resp_pkt_size ≠ 0 →
      validate_packet m response_pkt core_resp_pkt core_resp_pkt_size = -EINVAL) := by
  refine ⟨validate_packet_zero_iff m _ _ _, fun h => ?_⟩
  rcases validate_packet_cases m response_pkt core_resp_pkt core_resp_pkt_size with h0 | h0
  · exact absurd h0 h
  · exact h0

theorem validate_packets_iff (m : Mem) (b s : Nat) (n : Nat) : ∀ pkt : Nat,
    validate_packets m b s n pkt = true ↔ ∀ q ∈ packets m pkt n, validate_packet m q b s = 0 := by
  induction n with
  | zero => intro pkt; simp [validate_packets, packets]
  | succ n ih =>
    intro pkt
    simp only [validate_packets, packets, List.mem_cons, forall_eq_or_imp]
    by_cases h : validate_packet m pkt b s = 0
    · simp [h, ih]
    · simp [h]

theorem world_eta (w : world) (f : Nat → Option msm_vidc_inst) (h : f = w.core.instances) :
    ({ mem := w.mem, core := { w.core with instances := f } } : world) = w := by
  subst h; rfl

/-- Claim C2: in `handle_session_response`, for a batch whose session id resolves
to an instance, if any packet `q` of the walk over the `hdr->num_packets`
packets fails `validate_packet`, the function returns `-EINVAL` and the whole
state is what it was: no handler was invoked, no work item queued, and no
buffer record, subscription parameter or frame-info field changed. -/
theorem handle_session_response_invalid_packet (K : hfi_defs) (X : vidc_ops) (w : world)
    (hdr : Nat) (inst : msm_vidc_inst) (q : Nat)
    (hinst : w.core.instances (read32 w.mem (hdr + K.hdr_session_id)) = some inst)
    (hq : q ∈ packets w.mem (hdr + K.sizeof_hfi_header) (read32 w.mem (hdr + K.hdr_num_packets)))
    (hbad : validate_packet w.mem q w.core.response_packet w.core.packet_size ≠ 0) :
    handle_session_response K X w hdr = (-EINVAL, w) := by
  have hv : validate_packets w.mem w.core.response_packet w.core.packet_size
      (read32 w.mem (hdr + K.hdr_num_packets)) (hdr + K.sizeof_hfi_header) = false := by
    cases hc : validate_packets w.mem w.core.response_packet w.core.packet_size
      (read32 w.mem (hdr + K.hdr_num_packets)) (hdr + K.sizeof_hfi_header) with
    | false => rfl
    | true => exact absurd ((validate_packets_iff _ _ _ _ _).1 hc q hq) hbad
  unfold handle_session_response
  rw [hinst]
  simp only [session_response, hv, if_true]
  congr 1
  apply world_eta
  funext sid
  by_cases h : sid = read32 w.mem (hdr + K.hdr_session_id)
  · simp [h, hinst]
  · simp [h]

theorem frame_ite (st : sess) (c : Prop) [Decidable c] (a b : Int × sess)
    (ha : c → frame st a) (hb : ¬ c → frame st b) : frame st (if c then a else b) := by
  split
  · exact ha ‹_›
  · exact hb ‹_›

theorem confined_ite (st : sess) (lo hi : Nat) (c : Prop) [Decidable c] (a b : Int × sess)
    (ha : confined st lo hi a) (hb : confined st lo hi b) :
    confined st lo hi (if c then a else b) := by
  split <;> assumption

theorem frame_confined (st : sess) (lo hi : Nat) (r : Int × sess) (h : frame st r) :
    confined st lo hi r :=
  ⟨fun x _ => by rw [h.1], h.2⟩

theorem frame_events (st : sess) (r : Int × sess) (hm : r.2.mem = st.mem)
    (hc : r.2.inst.calls = st.inst.calls) (l : List vidc_event)
    (he : r.2.inst.events = st.inst.events ++ l) (hl : vidc_event.dequeue_buffers ∉ l) :
    frame st r :=
  ⟨hm, hc, by rw [he, List.count_append, List.count_eq_zero_of_not_mem hl]; rfl⟩

theorem frame_refl (st : sess) (rc : Int) : frame st (rc, st) := ⟨rfl, rfl, rfl⟩

theorem frame_change (X : vidc_ops) (st : sess) (s : Nat) (rc : Int) :
    frame st (rc, (msm_vidc_change_inst_state X st s).2) :=
  frame_events _ _ rfl rfl [_] rfl (by simp)

theorem frame_change_self (X : vidc_ops) (st : sess) (s : Nat) :
    frame st (msm_vidc_change_inst_state X st s) :=
  frame_events _ _ rfl rfl [_] rfl (by simp)

theorem frame_signal (K : hfi_defs) (st st1 : sess) (c : Nat) (rc : Int)
    (h : frame st (rc, st1)) : frame st (rc, (signal_session_msg_receipt K st1 c).2) := by
  unfold signal_session_msg_receipt
  split
  · refine ⟨h.1, h.2.1, ?_⟩
    rw [← h.2.2]
    simp [sess.log, List.count_append]
  · exact h

theorem frame_flag_error (K : hfi_defs) (X : vidc_ops) (st : sess) (c : Prop) [Decidable c]
    (rc : Int) :
    frame st (rc, if c then (msm_vidc_change_inst_state X st K.MSM_VIDC_ERROR).2 else st) := by
  by_cases h : c
  · rw [if_pos h]; exact frame_change X st _ rc
  · rw [if_neg h]; exact frame_refl st rc

theorem handle_session_error_frame (K : hfi_defs) (X : vidc_ops) (st : sess) (pkt : Nat) :
    frame st (handle_session_error K X st pkt) :=
  frame_change_self X st _

theorem handle_session_info_frame (K : hfi_defs) (st : sess) (pkt : Nat) :
    frame st (handle_session_info K st pkt) := by
  unfold handle_session_info; split <;> exact ⟨rfl, rfl, rfl⟩

theorem handle_session_property_frame (K : hfi_defs) (st : sess) (pkt : Nat) :
    frame st (handle_session_property K st pkt) := by
  unfold handle_session_property
  dsimp only
  repeat (first | exact ⟨rfl, rfl, rfl⟩ | (apply frame_ite <;> intro _))

theorem handle_session_open_frame (K : hfi_defs) (X : vidc_ops) (st : sess) (pkt : Nat) :
    frame st (handle_session_open K X st pkt) := by
  unfold handle_session_open; split <;> (first | exact ⟨rfl, rfl, rfl⟩ | exact frame_events _ _ rfl rfl [_] rfl (by simp))

theorem handle_session_close_frame (K : hfi_defs) (X : vidc_ops) (st : sess) (pkt : Nat) :
    frame st (handle_session_close K X st pkt) := by
  unfold handle_session_close
  exact frame_signal K st _ _ 0 (frame_flag_error K X st _ 0)

theorem handle_session_start_frame (K : hfi_defs) (X : vidc_ops) (st : sess) (pkt : Nat) :
    frame st (handle_session_start K X st pkt) := by
  unfold handle_session_start; split <;> (first | exact ⟨rfl, rfl, rfl⟩ | exact frame_events _ _ rfl rfl [_] rfl (by simp))

theorem handle_session_stop_frame (K : hfi_defs) (X : vidc_ops) (st : sess) (pkt : Nat) :
    frame st (handle_session_stop K X st pkt) := by
  unfold handle_session_stop
  dsimp only
  split <;>
    repeat (first
      | exact frame_signal K st _ _ 0 (frame_flag_error K X st _ 0)
      | exact frame_flag_error K X st _ _
      | (apply frame_ite <;> intro _))

theorem handle_session_drain_frame (K : hfi_defs) (X : vidc_ops) (st : sess) (pkt : Nat) :
    frame st (handle_session_drain K X st pkt) := by
  unfold handle_session_drain; split <;> (first | exact ⟨rfl, rfl, rfl⟩ | exact frame_events _ _ rfl rfl [_] rfl (by simp))

theorem handle_session_subscribe_mode_frame (K : hfi_defs) (X : vidc_ops) (st : sess) (pkt : Nat) :
    frame st (handle_session_subscribe_mode K X st pkt) := by
  unfold handle_session_subscribe_mode; split <;> (first | exact ⟨rfl, rfl, rfl⟩ | exact frame_events _ _ rfl rfl [_] rfl (by simp))

theorem handle_session_delivery_mode_frame (K : hfi_defs) (X : vidc_ops) (st : sess) (pkt : Nat) :
    frame st (handle_session_delivery_mode K X st pkt) := by
  unfold handle_session_delivery_mode; split <;> (first | exact ⟨rfl, rfl, rfl⟩ | exact frame_events _ _ rfl rfl [_] rfl (by simp))

theorem handle_session_resume_frame (K : hfi_defs) (X : vidc_ops) (st : sess) (pkt : Nat) :
    frame st (handle_session_resume K X st pkt) := by
  unfold handle_session_resume; split <;> (first | exact ⟨rfl, rfl, rfl⟩ | exact frame_events _ _ rfl rfl [_] rfl (by simp))

theorem handle_port_settings_change_frame (K : hfi_defs) (X : vidc_ops) (st : sess) (pkt : Nat) :
    frame st (handle_port_settings_change K X st pkt) := by
  unfold handle_port_settings_change
  repeat (first | (first | exact ⟨rfl, rfl, rfl⟩ | exact frame_events _ _ rfl rfl [_] rfl (by simp)) | (apply frame_ite <;> intro _))

theorem handle_input_buffer_frame (K : hfi_defs) (X : vidc_ops) (st : sess) (buffer : Nat) :
    frame st (handle_input_buffer K X st buffer) := by
  unfold handle_input_buffer
  apply frame_ite <;> intro _
  · exact ⟨rfl, rfl, rfl⟩
  · split
    · exact ⟨rfl, rfl, rfl⟩
    · split
      · exact ⟨rfl, rfl, rfl⟩
      · dsimp only
        repeat (first | exact ⟨rfl, rfl, rfl⟩ | (apply frame_ite <;> intro _))

theorem handle_input_metadata_buffer_frame (K : hfi_defs) (X : vidc_ops) (st : sess)
    (buffer : Nat) : frame st (handle_input_metadata_buffer K X st buffer) := by
  unfold handle_input_metadata_buffer
  apply frame_ite <;> intro _
  · exact ⟨rfl, rfl, rfl⟩
  · split
    · exact ⟨rfl, rfl, rfl⟩
    · split
      · exact ⟨rfl, rfl, rfl⟩
      · dsimp only
        repeat (first | exact ⟨rfl, rfl, rfl⟩ | (apply frame_ite <;> intro _))

theorem handle_output_metadata_buffer_frame (K : hfi_defs) (st : sess) (buffer : Nat) :
    frame st (handle_output_metadata_buffer K st buffer) := by
  unfold handle_output_metadata_buffer
  split
  · exact ⟨rfl, rfl, rfl⟩
  · split <;> exact ⟨rfl, rfl, rfl⟩

theorem handle_internal_buffer_frame (K : hfi_defs) (X : vidc_ops) (ty : msm_vidc_buffer_type)
    (st : sess) (buffer : Nat) : frame st (handle_internal_buffer K X ty st buffer) := by
  unfold handle_internal_buffer
  split
  · exact ⟨rfl, rfl, rfl⟩
  · split <;> (first | exact ⟨rfl, rfl, rfl⟩ | exact frame_events _ _ rfl rfl [_] rfl (by simp))

theorem write8_outside (m : Mem) (a v x : Nat) (h : x ≠ a) : write8 m a v x = m x := by
  simp [write8, h]

theorem write32_outside (m : Mem) (a v x : Nat) (h : x < a ∨ a + 4 ≤ x) :
    write32 m a v x = m x := by
  unfold write32
  rw [write8_outside _ _ _ _ (by omega), write8_outside _ _ _ _ (by omega),
    write8_outside _ _ _ _ (by omega), write8_outside _ _ _ _ (by omega)]

theorem handle_output_buffer_confined (K : hfi_defs) (X : vidc_ops) (st : sess)
    (buffer lo hi : Nat)
    (h1 : lo ≤ buffer + K.buf_data_size ∧ buffer + K.buf_data_size + 4 ≤ hi)
    (h2 : lo ≤ buffer + K.buf_flags ∧ buffer + K.buf_flags + 4 ≤ hi) :
    confined st lo hi (handle_output_buffer K X st buffer) := by
  unfold handle_output_buffer
  split
  · exact frame_confined _ _ _ _ ⟨rfl, rfl, rfl⟩
  · split
    · exact frame_confined _ _ _ _ ⟨rfl, rfl, rfl⟩
    · refine ⟨?_, ?_, ?_⟩
      · intro x hx
        dsimp only [set_buffer]
        split_ifs <;> (try rw [write32_outside _ _ _ _ (by omega)]) <;>
          (try rw [write32_outside _ _ _ _ (by omega)]) <;> rfl
      · dsimp only [set_buffer]
        split_ifs <;> rfl
      · dsimp only [set_buffer]
        split_ifs <;> simp [msm_vidc_change_inst_state, List.count_append]

theorem handle_session_buffer_confined (K : hfi_defs) (X : vidc_ops) (st : sess)
    (pkt lo hi : Nat)
    (h1 : lo ≤ pkt + K.sizeof_hfi_packet + K.buf_data_size ∧
      pkt + K.sizeof_hfi_packet + K.buf_data_size + 4 ≤ hi)
    (h2 : lo ≤ pkt + K.sizeof_hfi_packet + K.buf_flags ∧
      pkt + K.sizeof_hfi_packet + K.buf_flags + 4 ≤ hi) :
    confined st lo hi (handle_session_buffer K X st pkt) := by
  unfold handle_session_buffer
  dsimp only
  repeat (apply confined_ite; exact frame_confined _ _ _ _ (by first | exact ⟨rfl, rfl, rfl⟩ | exact frame_events _ _ rfl rfl [_] rfl (by simp)))
  split <;>
    repeat (first
      | exact frame_confined _ _ _ _ ⟨rfl, rfl, rfl⟩
      | exact handle_output_buffer_confined K X st _ lo hi h1 h2
      | exact frame_confined _ _ _ _ (handle_output_metadata_buffer_frame K st _)
      | exact frame_confined _ _ _ _ (handle_input_buffer_frame K X st _)
      | exact frame_confined _ _ _ _ (handle_input_metadata_buffer_frame K X st _)
      | exact frame_confined _ _ _ _ (handle_internal_buffer_frame K X _ st _)
      | apply confined_ite)

theorem handle_session_buffer_frame (K : hfi_defs) (X : vidc_ops) (st : sess) (pkt : Nat)
    (h : read32 st.mem (pkt + K.pkt_payload_info) = K.HFI_PAYLOAD_NONE) :
    frame st (handle_session_buffer K X st pkt) := by
  unfold handle_session_buffer
  dsimp only
  apply frame_ite <;> intro _
  · (first | exact ⟨rfl, rfl, rfl⟩ | exact frame_events _ _ rfl rfl [_] rfl (by simp))
  · rw [if_pos h]; exact ⟨rfl, rfl, rfl⟩

theorem handle_session_command_confined (K : hfi_defs) (X : vidc_ops) (st : sess)
    (pkt lo hi : Nat)
    (h1 : lo ≤ pkt + K.sizeof_hfi_packet + K.buf_data_size ∧
      pkt + K.sizeof_hfi_packet + K.buf_data_size + 4 ≤ hi)
    (h2 : lo ≤ pkt + K.sizeof_hfi_packet + K.buf_flags ∧
      pkt + K.sizeof_hfi_packet + K.buf_flags + 4 ≤ hi) :
    confined st lo hi (handle_session_command K X st pkt) := by
  unfold handle_session_command
  dsimp only
  repeat (first
    | exact handle_session_buffer_confined K X st pkt lo hi h1 h2
    | exact frame_confined _ _ _ _ (handle_session_open_frame K X st pkt)
    | exact frame_confined _ _ _ _ (handle_session_close_frame K X st pkt)
    | exact frame_confined _ _ _ _ (handle_session_start_frame K X st pkt)
    | exact frame_confined _ _ _ _ (handle_session_stop_frame K X st pkt)
    | exact frame_confined _ _ _ _ (handle_session_drain_frame K X st pkt)
    | exact frame_confined _ _ _ _ (handle_port_settings_change_frame K X st pkt)
    | exact frame_confined _ _ _ _ (handle_session_subscribe_mode_frame K X st pkt)
    | exact frame_confined _ _ _ _ (handle_session_delivery_mode_frame K X st pkt)
    | exact frame_confined _ _ _ _ (handle_session_resume_frame K X st pkt)
    | exact frame_confined _ _ _ _ ⟨rfl, rfl, rfl⟩
    | apply confined_ite)

theorem handle_session_command_calls (K : hfi_defs) (X : vidc_ops) (st : sess) (pkt : Nat) :
    (handle_session_command K X st pkt).2.inst.calls = st.inst.calls :=
  (handle_session_command_confined K X st pkt 0
    (pkt + K.sizeof_hfi_packet + K.buf_data_size + K.buf_flags + 4)
    ⟨by omega, by omega⟩ ⟨by omega, by omega⟩).2.1

theorem be_calls (K : hfi_defs) (X : vidc_ops) (row : msm_vidc_hfi_range) (hrow : row ∈ be K X)
    (st : sess) (pkt : Nat) : (row.handle st pkt).2.inst.calls = st.inst.calls := by
  simp only [be, List.mem_cons, List.mem_singleton, List.not_mem_nil, or_false] at hrow
  rcases hrow with h | h | h | h <;> subst h
  · exact (handle_session_error_frame K X st pkt).2.1
  · exact (handle_session_info_frame K st pkt).2.1
  · exact (handle_session_property_frame K st pkt).2.1
  · exact handle_session_command_calls K X st pkt

theorem handle_session_command_frame (K : hfi_defs) (X : vidc_ops) (st : sess) (pkt : Nat)
    (h : read32 st.mem (pkt + K.pkt_type) = K.HFI_CMD_BUFFER →
      read32 st.mem (pkt + K.pkt_payload_info) = K.HFI_PAYLOAD_NONE) :
    frame st (handle_session_command K X st pkt) := by
  unfold handle_session_command
  dsimp only
  repeat (first
    | exact handle_session_open_frame K X st pkt
    | exact handle_session_close_frame K X st pkt
    | exact handle_session_start_frame K X st pkt
    | exact handle_session_stop_frame K X st pkt
    | exact handle_session_drain_frame K X st pkt
    | exact handle_port_settings_change_frame K X st pkt
    | exact handle_session_subscribe_mode_frame K X st pkt
    | exact handle_session_delivery_mode_frame K X st pkt
    | exact handle_session_resume_frame K X st pkt
    | exact handle_session_buffer_frame K X st pkt (h ‹_›)
    | exact ⟨rfl, rfl, rfl⟩
    | (apply frame_ite <;> intro _))

theorem read32_congr (m1 m2 : Mem) (a : Nat) (h : ∀ x, a ≤ x → x < a + 4 → m1 x = m2 x) :
    read32 m1 a = read32 m2 a := by
  unfold read32 read8
  rw [h a (by omega) (by omega), h (a + 1) (by omega) (by omega),
    h (a + 2) (by omega) (by omega), h (a + 3) (by omega) (by omega)]

theorem scan_packets_frame (K : hfi_defs) (row : msm_vidc_hfi_range) (i : Nat)
    (hrow : ∀ st pkt, frame st (row.handle st pkt)) :
    ∀ (n : Nat) (st : sess) (pkt c : Nat), (scan_packets K row i n st pkt c).rc = 0 →
      (scan_packets K row i n st pkt c).st.mem = st.mem ∧
      (scan_packets K row i n st pkt c).st.inst.calls =
        st.inst.calls ++ row_calls K st.mem row.range_begin row.range_end i
          (packets st.mem pkt n) := by
  intro n
  induction n with
  | zero => intro st pkt c _; simp [scan_packets, packets, row_calls]
  | succ n ih =>
    intro st pkt c hrc
    have hf := hrow (st.call i pkt) pkt
    unfold scan_packets at hrc ⊢
    unfold packets row_calls
    dsimp only at hrc ⊢
    by_cases hin : in_range row.range_begin row.range_end (read32 st.mem (pkt + K.pkt_type)) = true
    · rw [if_pos hin] at hrc ⊢
      by_cases hh : (row.handle (st.call i pkt) pkt).1 ≠ 0
      · rw [if_pos hh] at hrc
        exact absurd hrc hh
      · rw [if_neg hh] at hrc ⊢
        have hm : (row.handle (st.call i pkt) pkt).2.mem = st.mem := hf.1
        obtain ⟨ih1, ih2⟩ := ih _ _ _ hrc
        rw [hm] at ih1 ih2
        rw [hm]
        refine ⟨ih1, ?_⟩
        rw [ih2, hf.2.1]
        simp [List.filter_cons, hin, sess.call, row_calls]
    · rw [if_neg hin] at hrc ⊢
      obtain ⟨ih1, ih2⟩ := ih _ _ _ hrc
      refine ⟨ih1, ?_⟩
      rw [ih2]
      simp [List.filter_cons, hin, row_calls]

theorem scan_packets_confined (K : hfi_defs) (row : msm_vidc_hfi_range) (i : Nat) (m0 : Mem)
    (h4 : 4 ≤ K.sizeof_hfi_packet)
    (hrow : ∀ st pkt, confined st (pkt + K.sizeof_hfi_packet)
      (pkt + K.sizeof_hfi_packet + K.sizeof_hfi_buffer) (row.handle st pkt))
    (hrow2 : ∀ st pkt, (read32 st.mem (pkt + K.pkt_type) = K.HFI_CMD_BUFFER →
      read32 st.mem (pkt + K.pkt_payload_info) = K.HFI_PAYLOAD_NONE) →
      frame st (row.handle st pkt)) :
    ∀ (n : Nat) (st : sess) (pkt c : Nat), (∀ x, pkt ≤ x → st.mem x = m0 x) →
      (∀ p ∈ packets m0 pkt n, covers_payload K m0 p) →
      (scan_packets K row i n st pkt c).rc = 0 →
      (scan_packets K row i n st pkt c).st.inst.calls =
        st.inst.calls ++ row_calls K m0 row.range_begin row.range_end i (packets m0 pkt n) := by
  intro n
  induction n with
  | zero => intro st pkt c _ _ _; simp [scan_packets, packets, row_calls]
  | succ n ih =>
    intro st pkt c hag hwf hrc
    have hty : read32 st.mem (pkt + K.pkt_type) = read32 m0 (pkt + K.pkt_type) :=
      read32_congr _ _ _ (fun x hx _ => hag x (by omega))
    have hpi : read32 st.mem (pkt + K.pkt_payload_info) = read32 m0 (pkt + K.pkt_payload_info) :=
      read32_congr _ _ _ (fun x hx _ => hag x (by omega))
    have hsz : read32 st.mem pkt = read32 m0 pkt :=
      read32_congr _ _ _ (fun x hx _ => hag x (by omega))
    have hcov : covers_payload K m0 pkt := hwf pkt (by simp [packets])
    have hwf' : ∀ p ∈ packets m0 (pkt + read32 m0 pkt) n, covers_payload K m0 p :=
      fun p hp => hwf p (by simp [packets, hp])
    unfold scan_packets at hrc ⊢
    unfold packets row_calls
    dsimp only at hrc ⊢
    by_cases hin : in_range row.range_begin row.range_end (read32 st.mem (pkt + K.pkt_type)) = true
    · rw [if_pos hin] at hrc ⊢
      by_cases hh : (row.handle (st.call i pkt) pkt).1 ≠ 0
      · rw [if_pos hh] at hrc
        exact absurd hrc hh
      · rw [if_neg hh] at hrc ⊢
        have hcalls : (row.handle (st.call i pkt) pkt).2.inst.calls = st.inst.calls ++ [(i, pkt)] :=
          (hrow (st.call i pkt) pkt).2.1
        -- the handler wrote inside the packet only
        have hmem : ∀ x, (x < pkt + 4 ∨ pkt + read32 m0 pkt ≤ x) → pkt ≤ x →
            (row.handle (st.call i pkt) pkt).2.mem x = m0 x := by
          intro x hx hle
          by_cases hb : read32 st.mem (pkt + K.pkt_type) = K.HFI_CMD_BUFFER →
              read32 st.mem (pkt + K.pkt_payload_info) = K.HFI_PAYLOAD_NONE
          · have := (hrow2 (st.call i pkt) pkt hb).1
            rw [this]; exact hag x hle
          · have hb' : read32 m0 (pkt + K.pkt_type) = K.HFI_CMD_BUFFER ∧
                read32 m0 (pkt + K.pkt_payload_info) ≠ K.HFI_PAYLOAD_NONE := by
              rw [← hty, ← hpi]
              exact Classical.not_imp.mp hb
            have hc := hcov hb'.1 hb'.2
            have := (hrow (st.call i pkt) pkt).1 x (by omega)
            rw [this]; exact hag x hle
        have hsz' : read32 (row.handle (st.call i pkt) pkt).2.mem pkt = read32 m0 pkt :=
          read32_congr _ _ _ (fun x hx1 hx2 => hmem x (Or.inl hx2) hx1)
        rw [hsz'] at hrc ⊢
        have := ih (row.handle (st.call i pkt) pkt).2 (pkt + read32 m0 pkt)
          (read32 st.mem (pkt + K.pkt_type))
          (fun x hx => hmem x (Or.inr hx) (by omega)) hwf' hrc
        rw [this, hcalls]
        rw [hty] at hin
        simp [List.filter_cons, hin, row_calls]
    · rw [if_neg hin] at hrc ⊢
      rw [hsz] at hrc ⊢
      have := ih st (pkt + read32 m0 pkt) c (fun x hx => hag x (by omega)) hwf' hrc
      rw [this]
      rw [hty] at hin
      simp [List.filter_cons, hin, row_calls]

theorem dequeue_types_calls (K : hfi_defs) (tys : List msm_vidc_buffer_type) :
    ∀ st : sess, (dequeue_types K tys st).2.inst.calls = st.inst.calls := by
  induction tys with
  | nil => intro st; rfl
  | cons ty tys ih =>
    intro st
    unfold dequeue_types
    split
    · rfl
    · rw [ih]

theorem finish_dispatch_calls (K : hfi_defs) (r : dispatch_result) :
    (finish_dispatch K r).2.inst.calls = r.st.inst.calls := by
  unfold finish_dispatch handle_dequeue_buffers
  split_ifs <;> first | rfl | (simp only [clear_frame_info]; rw [dequeue_types_calls]; rfl) | (rw [dequeue_types_calls]; rfl)

theorem dispatch_rows_calls (K : hfi_defs) (X : vidc_ops) (n start : Nat) (st : sess)
    (h4 : 4 ≤ K.sizeof_hfi_packet)
    (h1 : K.buf_data_size + 4 ≤ K.sizeof_hfi_buffer) (h2 : K.buf_flags + 4 ≤ K.sizeof_hfi_buffer)
    (hwf : ∀ p ∈ packets st.mem start n, covers_payload K st.mem p)
    (hrc : (dispatch_rows K n start (be K X) 0 st 0).rc = 0) :
    (dispatch_rows K n start (be K X) 0 st 0).st.inst.calls =
      st.inst.calls
        ++ row_calls K st.mem K.HFI_SESSION_ERROR_BEGIN K.HFI_SESSION_ERROR_END 0 (packets st.mem start n)
        ++ row_calls K st.mem K.HFI_INFORMATION_BEGIN K.HFI_INFORMATION_END 1 (packets st.mem start n)
        ++ row_calls K st.mem K.HFI_PROP_BEGIN K.HFI_PROP_END 2 (packets st.mem start n)
        ++ row_calls K st.mem K.HFI_CMD_BEGIN K.HFI_CMD_END 3 (packets st.mem start n) := by
  simp only [be, dispatch_rows] at hrc ⊢
  split_ifs at hrc ⊢ with e0 e1 e2 e3
  · exact absurd hrc e0
  · exact absurd hrc e1
  · exact absurd hrc e2
  · exact absurd hrc e3
  · have e0' := not_not.mp e0
    have e1' := not_not.mp e1
    have e2' := not_not.mp e2
    have e3' := not_not.mp e3
    obtain ⟨m0, c0⟩ := scan_packets_frame K ⟨_, _, handle_session_error K X⟩ 0
      (handle_session_error_frame K X) n st start 0 e0'
    obtain ⟨m1, c1⟩ := scan_packets_frame K ⟨_, _, handle_session_info K⟩ 1
      (handle_session_info_frame K) n _ start _ e1'
    obtain ⟨m2, c2⟩ := scan_packets_frame K ⟨_, _, handle_session_property K⟩ 2
      (handle_session_property_frame K) n _ start _ e2'
    have c3 := scan_packets_confined K ⟨_, _, handle_session_command K X⟩ 3 st.mem h4
      (fun s p => handle_session_command_confined K X s p _ _ ⟨by omega, by omega⟩
        ⟨by omega, by omega⟩)
      (fun s p h => handle_session_command_frame K X s p h) n _ start _
      (fun x _ => by rw [m2, m1, m0]) hwf e3'
    dsimp only at m0 c0 m1 c1 m2 c2 c3 ⊢
    rw [c3, c2, c1, c0, m1, m0]
theorem session_response_dispatch (K : hfi_defs) (X : vidc_ops) (base size : Nat) (st : sess)
    (hdr : Nat)
    (hvalid : validate_packets st.mem base size (read32 st.mem (hdr + K.hdr_num_packets))
      (hdr + K.sizeof_hfi_header) = true)
    (hnodefer : scan_response_work K X hdr (read32 st.mem (hdr + K.hdr_num_packets)) st
      (hdr + K.sizeof_hfi_header) = none) :
    session_response K X base size st hdr = finish_dispatch K (session_dispatch K X st hdr) := by
  unfold session_response
  simp only [hvalid, hnodefer]
  rfl

/-- Claim C5 (amended): session dispatch is category-major.  For a session batch
that passes validation, triggers no deferral, whose handlers all return 0 (the
dispatch pass ends with code 0) and in which every `HFI_CMD_BUFFER` packet with
a payload declares at least the packet header plus one `hfi_buffer`, the
handlers invoked are, in this order:
`handle_session_error` (row 0) on every packet of the wire walk whose type is
strictly inside the session-error range, then `handle_session_info` (row 1) on
every information-range packet, then `handle_session_property` (row 2) on
every property-range packet, then `handle_session_command` (row 3) on every
command-range packet, each group in wire order.  The condition on the declared
sizes is `covers_payload`; the layout is taken such that the fields the output
handler rewrites lie inside `struct hfi_buffer`: `handle_output_buffer` writes
the normalised `data_size` and `flags` into the response memory, and only a
packet that covers its payload keeps those writes inside itself. -/
theorem session_dispatch_category_major (K : hfi_defs) (X : vidc_ops) (w : world) (hdr : Nat)
    (inst : msm_vidc_inst)
    (hlayout : 4 ≤ K.sizeof_hfi_packet ∧ K.buf_data_size + 4 ≤ K.sizeof_hfi_buffer ∧
      K.buf_flags + 4 ≤ K.sizeof_hfi_buffer)
    (hinst : w.core.instances (read32 w.mem (hdr + K.hdr_session_id)) = some inst)
    (hvalid : validate_packets w.mem w.core.response_packet w.core.packet_size
      (read32 w.mem (hdr + K.hdr_num_packets)) (hdr + K.sizeof_hfi_header) = true)
    (hnodefer : scan_response_work K X hdr (read32 w.mem (hdr + K.hdr_num_packets)) ⟨w.mem, inst⟩
      (hdr + K.sizeof_hfi_header) = none)
    (hcover : ∀ p ∈ packets w.mem (hdr + K.sizeof_hfi_header)
      (read32 w.mem (hdr + K.hdr_num_packets)), covers_payload K w.mem p)
    (hzero : (session_dispatch K X ⟨w.mem, inst⟩ hdr).rc = 0) :
    ((handle_session_response K X w hdr).2.core.instances
        (read32 w.mem (hdr + K.hdr_session_id))).map (fun i => i.calls) =
      some (inst.calls
        ++ row_calls K w.mem K.HFI_SESSION_ERROR_BEGIN K.HFI_SESSION_ERROR_END 0
            (packets w.mem (hdr + K.sizeof_hfi_header) (read32 w.mem (hdr + K.hdr_num_packets)))
        ++ row_calls K w.mem K.HFI_INFORMATION_BEGIN K.HFI_INFORMATION_END 1
            (packets w.mem (hdr + K.sizeof_hfi_header) (read32 w.mem (hdr + K.hdr_num_packets)))
        ++ row_calls K w.mem K.HFI_PROP_BEGIN K.HFI_PROP_END 2
            (packets w.mem (hdr + K.sizeof_hfi_header) (read32 w.mem (hdr + K.hdr_num_packets)))
        ++ row_calls K w.mem K.HFI_CMD_BEGIN K.HFI_CMD_END 3
            (packets w.mem (hdr + K.sizeof_hfi_header) (read32 w.mem (hdr + K.hdr_num_packets)))) := by
  unfold handle_session_response
  rw [hinst]
  simp only [if_true, Option.map_some']
  rw [session_response_dispatch K X _ _ ⟨w.mem, inst⟩ hdr hvalid hnodefer, finish_dispatch_calls]
  exact congrArg some (dispatch_rows_calls K X _ _ (clear_frame_info ⟨w.mem, inst⟩) hlayout.1
    hlayout.2.1 hlayout.2.2 hcover hzero)
theorem be_no_dequeue (K : hfi_defs) (X : vidc_ops) (row : msm_vidc_hfi_range)
    (hrow : row ∈ be K X) (st : sess) (pkt : Nat) :
    (row.handle st pkt).2.inst.events.count vidc_event.dequeue_buffers =
      st.inst.events.count vidc_event.dequeue_buffers := by
  simp only [be, List.mem_cons, List.mem_singleton, List.not_mem_nil, or_false] at hrow
  rcases hrow with h | h | h | h <;> subst h
  · exact (handle_session_error_frame K X st pkt).2.2
  · exact (handle_session_info_frame K st pkt).2.2
  · exact (handle_session_property_frame K st pkt).2.2
  · exact (handle_session_command_confined K X st pkt 0
      (pkt + K.sizeof_hfi_packet + K.buf_data_size + K.buf_flags + 4)
      ⟨by omega, by omega⟩ ⟨by omega, by omega⟩).2.2

theorem scan_packets_no_dequeue (K : hfi_defs) (row : msm_vidc_hfi_range) (i : Nat)
    (hrow : ∀ st pkt, (row.handle st pkt).2.inst.events.count vidc_event.dequeue_buffers =
      st.inst.events.count vidc_event.dequeue_buffers) :
    ∀ (n : Nat) (st : sess) (pkt c : Nat),
      (scan_packets K row i n st pkt c).st.inst.events.count vidc_event.dequeue_buffers =
        st.inst.events.count vidc_event.dequeue_buffers := by
  intro n
  induction n with
  | zero => intro st pkt c; rfl
  | succ n ih =>
    intro st pkt c
    unfold scan_packets
    dsimp only
    split_ifs
    · exact hrow (st.call i pkt) pkt
    · rw [ih]; exact hrow (st.call i pkt) pkt
    · exact ih _ _ _

theorem dispatch_rows_no_dequeue (K : hfi_defs) (n start : Nat) :
    ∀ (rows : List msm_vidc_hfi_range),
      (∀ row ∈ rows, ∀ st pkt,
        (row.handle st pkt).2.inst.events.count vidc_event.dequeue_buffers =
          st.inst.events.count vidc_event.dequeue_buffers) →
      ∀ (i : Nat) (st : sess) (c : Nat),
        (dispatch_rows K n start rows i st c).st.inst.events.count vidc_event.dequeue_buffers =
          st.inst.events.count vidc_event.dequeue_buffers := by
  intro rows
  induction rows with
  | nil => intro _ i st c; rfl
  | cons row rows ih =>
    intro h i st c
    have h0 := scan_packets_no_dequeue K row i (h row (List.mem_cons_self _ _)) n st start c
    unfold dispatch_rows
    dsimp only
    split_ifs
    · exact h0
    · rw [ih (fun r hr => h r (List.mem_cons_of_mem _ hr)), h0]

theorem session_dispatch_no_dequeue (K : hfi_defs) (X : vidc_ops) (st : sess) (hdr : Nat) :
    (session_dispatch K X st hdr).st.inst.events.count vidc_event.dequeue_buffers =
      st.inst.events.count vidc_event.dequeue_buffers := by
  unfold session_dispatch
  rw [dispatch_rows_no_dequeue K _ _ (be K X) (fun r hr => be_no_dequeue K X r hr)]
  rfl

theorem U32_MAX_testBit (i : Nat) : U32_MAX.testBit i = decide (i < 32) := by
  have : U32_MAX = 2 ^ 32 - 1 := by decide
  rw [this, Nat.testBit_two_pow_sub_one]

theorem testBit_of_lt_u32 (m i : Nat) (hm : m ≤ U32_MAX) (hi : 32 ≤ i) : m.testBit i = false := by
  apply Nat.testBit_lt_two_pow
  have h1 : m < 2 ^ 32 := by unfold U32_MAX at hm; omega
  exact lt_of_lt_of_le h1 (Nat.pow_le_pow_right (by decide) hi)

theorem disjoint_testBit (m1 m2 i : Nat) (h : m1 &&& m2 = 0) :
    ¬ (m1.testBit i = true ∧ m2.testBit i = true) := by
  intro ⟨h1, h2⟩
  have := congrArg (fun x => x.testBit i) h
  simp [Nat.testBit_and, h1, h2] at this

theorem clear_flag_and_self (a m : Nat) (hm : m ≤ U32_MAX) : clear_flag a m &&& m = 0 := by
  apply Nat.eq_of_testBit_eq
  intro i
  simp only [clear_flag, Nat.testBit_and, Nat.testBit_xor, U32_MAX_testBit, Nat.zero_testBit]
  by_cases hi : i < 32
  · cases a.testBit i <;> cases m.testBit i <;> simp [hi]
  · simp [testBit_of_lt_u32 m i hm (by omega)]

theorem clear_flag_and_other (a m m2 : Nat) (hm2 : m2 ≤ U32_MAX) (h : m &&& m2 = 0) :
    clear_flag a m &&& m2 = a &&& m2 := by
  apply Nat.eq_of_testBit_eq
  intro i
  have hd := disjoint_testBit m m2 i h
  simp only [clear_flag, Nat.testBit_and, Nat.testBit_xor, U32_MAX_testBit]
  by_cases hi : i < 32
  · revert hd; cases a.testBit i <;> cases m.testBit i <;> cases m2.testBit i <;> simp [hi]
  · simp [testBit_of_lt_u32 m2 i hm2 (by omega)]

theorem set_flag_and_self (a m : Nat) : set_flag a m &&& m = m := by
  apply Nat.eq_of_testBit_eq
  intro i
  simp only [set_flag, Nat.testBit_and, Nat.testBit_or]
  cases a.testBit i <;> cases m.testBit i <;> rfl

theorem set_flag_and_other (a m m2 : Nat) (h : m &&& m2 = 0) :
    set_flag a m &&& m2 = a &&& m2 := by
  apply Nat.eq_of_testBit_eq
  intro i
  have hd := disjoint_testBit m m2 i h
  simp only [set_flag, Nat.testBit_and, Nat.testBit_or]
  revert hd; cases a.testBit i <;> cases m.testBit i <;> cases m2.testBit i <;> simp

theorem has_flag_clear_self (a m : Nat) (hm : m ≤ U32_MAX) : has_flag (clear_flag a m) m = false := by
  simp [has_flag, clear_flag_and_self a m hm]

theorem has_flag_clear_other (a m m2 : Nat) (hm2 : m2 ≤ U32_MAX) (h : m &&& m2 = 0) :
    has_flag (clear_flag a m) m2 = has_flag a m2 := by
  simp [has_flag, clear_flag_and_other a m m2 hm2 h]

theorem has_flag_set_self (a m : Nat) (hm : m ≠ 0) : has_flag (set_flag a m) m = true := by
  simp [has_flag, set_flag_and_self, hm]

theorem has_flag_set_other (a m m2 : Nat) (h : m &&& m2 = 0) :
    has_flag (set_flag a m) m2 = has_flag a m2 := by
  simp [has_flag, set_flag_and_other a m m2 h]
theorem dequeue_buffer_skip (K : hfi_defs) (ty : msm_vidc_buffer_type) (idx : Nat)
    (b : msm_vidc_buffer) (h : has_flag b.attr K.MSM_VIDC_ATTR_DEQUEUED = false) :
    dequeue_buffer K ty idx b = (some b, []) := by
  unfold dequeue_buffer
  simp [h]

theorem dequeue_buffer_done (K : hfi_defs) (ty : msm_vidc_buffer_type) (idx : Nat)
    (b : msm_vidc_buffer) (hK : attr_bits K)
    (h : has_flag b.attr K.MSM_VIDC_ATTR_DEQUEUED = true) :
    (dequeue_buffer K ty idx b).2 = dequeue_calls K ty idx b.attr ∧
    (has_flag b.attr K.MSM_VIDC_ATTR_READ_ONLY = false → (dequeue_buffer K ty idx b).1 = none) ∧
    (has_flag b.attr K.MSM_VIDC_ATTR_READ_ONLY = true →
      ∃ b', (dequeue_buffer K ty idx b).1 = some b' ∧ reconciled K b b') := by
  obtain ⟨⟨_, _, hb0, _⟩, ⟨hq32, hd32, hb32, hr32⟩, ⟨hqd, hqb, _, hdb, hdr, hbr⟩⟩ := hK
  have hbd : K.MSM_VIDC_ATTR_BUFFER_DONE &&& K.MSM_VIDC_ATTR_DEQUEUED = 0 := by
    rw [Nat.land_comm]; exact hdb
  have hdq : K.MSM_VIDC_ATTR_DEQUEUED &&& K.MSM_VIDC_ATTR_QUEUED = 0 := by
    rw [Nat.land_comm]; exact hqd
  have e1 := has_flag_clear_other b.attr _ _ hb32 hdb
  have e2 := has_flag_clear_other b.attr _ _ hr32 hdr
  have e3 := has_flag_clear_self b.attr _ hd32
  have e4 := has_flag_clear_other b.attr _ _ hq32 hdq
  have hbq : K.MSM_VIDC_ATTR_BUFFER_DONE &&& K.MSM_VIDC_ATTR_QUEUED = 0 := by
    rw [Nat.land_comm]; exact hqb
  have s1 := fun x => has_flag_set_other x _ _ hbd
  have s2 := fun x => has_flag_set_self x _ hb0
  have s3 := fun x => has_flag_set_other x _ _ hbr
  have s4 := fun x => has_flag_set_other x _ _ hbq
  unfold dequeue_buffer dequeue_calls reconciled msm_vidc_put_driver_buf
  rw [if_pos h]
  dsimp only
  rw [e1]
  cases hdone : has_flag b.attr K.MSM_VIDC_ATTR_BUFFER_DONE <;>
    cases hro : has_flag b.attr K.MSM_VIDC_ATTR_READ_ONLY <;>
    simp [s1, s2, s3, s4, e1, e2, e3, e4, hdone, hro, h]

theorem dequeue_buffer_kept (K : hfi_defs) (ty : msm_vidc_buffer_type) (idx : Nat)
    (b : msm_vidc_buffer) (hK : attr_bits K) (h : released K b.attr = false) :
    ∃ b', (dequeue_buffer K ty idx b).1 = some b' ∧ reconciled K b b' := by
  cases hd : has_flag b.attr K.MSM_VIDC_ATTR_DEQUEUED
  · rw [dequeue_buffer_skip K ty idx b hd]
    exact ⟨b, rfl, by unfold reconciled; rw [hd]; simp⟩
  · have hro : has_flag b.attr K.MSM_VIDC_ATTR_READ_ONLY = true := by
      unfold released at h
      rw [hd] at h
      simpa using h
    exact (dequeue_buffer_done K ty idx b hK hd).2.2 hro

theorem dequeue_buffer_released (K : hfi_defs) (ty : msm_vidc_buffer_type) (idx : Nat)
    (b : msm_vidc_buffer) (hK : attr_bits K) (h : released K b.attr = true) :
    (dequeue_buffer K ty idx b).1 = none := by
  unfold released at h
  simp only [Bool.and_eq_true, Bool.not_eq_true', ] at h
  exact (dequeue_buffer_done K ty idx b hK h.1).2.1 h.2

theorem reconciled_addr (K : hfi_defs) (b b' : msm_vidc_buffer) (h : reconciled K b b') :
    b'.device_addr = b.device_addr := by
  unfold reconciled at h
  split_ifs at h
  · rw [h.1]
  · rw [h]

theorem dequeue_buffer_events (K : hfi_defs) (ty : msm_vidc_buffer_type) (i : Nat)
    (b : msm_vidc_buffer) (e : vidc_event) (he : e ∈ (dequeue_buffer K ty i b).2) :
    e = vidc_event.vb2_buffer_done ty i ∨ e = vidc_event.put_driver_buf ty i := by
  unfold dequeue_buffer at he
  dsimp only at he
  split_ifs at he <;> simp at he <;> tauto

theorem dequeue_list_events (K : hfi_defs) (ty : msm_vidc_buffer_type) (e : vidc_event) :
    ∀ (l : List msm_vidc_buffer) (i0 : Nat), e ∈ (dequeue_list K ty i0 l).2 →
      ∃ i, e = vidc_event.vb2_buffer_done ty i ∨ e = vidc_event.put_driver_buf ty i := by
  intro l
  induction l with
  | nil => intro i0 h; simp [dequeue_list] at h
  | cons b bs ih =>
    intro i0 h
    simp only [dequeue_list, List.mem_append] at h
    rcases h with h | h
    · exact ⟨i0, dequeue_buffer_events K ty i0 b e h⟩
    · exact ih _ h

theorem dequeue_list_reconciled (K : hfi_defs) (ty : msm_vidc_buffer_type) (hK : attr_bits K) :
    ∀ (l : List msm_vidc_buffer) (i0 : Nat),
      List.Forall₂ (reconciled K) (l.filter (fun b => !released K b.attr))
        (dequeue_list K ty i0 l).1 := by
  intro l
  induction l with
  | nil => intro i0; exact List.Forall₂.nil
  | cons b bs ih =>
    intro i0
    cases hr : released K b.attr
    · obtain ⟨b', hb', hrec⟩ := dequeue_buffer_kept K ty i0 b hK hr
      simp only [dequeue_list, hb', Option.toList, List.filter_cons, hr, Bool.not_false, if_true,
        List.singleton_append]
      exact List.Forall₂.cons hrec (ih _)
    · have hb' := dequeue_buffer_released K ty i0 b hK hr
      simp only [dequeue_list, hb', Option.toList, List.filter_cons, hr, Bool.not_true,
        List.nil_append]
      exact ih _

theorem dequeue_list_count (K : hfi_defs) (ty : msm_vidc_buffer_type) (e : vidc_event)
    (idx : Nat) (hloc : ∀ i b, i ≠ idx → e ∉ (dequeue_buffer K ty i b).2) :
    ∀ (l : List msm_vidc_buffer) (i0 : Nat),
      (dequeue_list K ty i0 l).2.count e =
        if i0 ≤ idx then
          ((l[idx - i0]?).map (fun b => (dequeue_buffer K ty idx b).2.count e)).getD 0
        else 0 := by
  intro l
  induction l with
  | nil => intro i0; simp [dequeue_list]
  | cons b bs ih =>
    intro i0
    simp only [dequeue_list, List.count_append]
    rw [ih]
    rcases Nat.lt_trichotomy i0 idx with h | h | h
    · have h0 : (dequeue_buffer K ty i0 b).2.count e = 0 :=
        List.count_eq_zero_of_not_mem (hloc i0 b (by omega))
      have h1 : idx - i0 = (idx - (i0 + 1)) + 1 := by omega
      rw [h0, if_pos (by omega), if_pos (by omega), h1, List.getElem?_cons_succ]
      simp
    · subst h
      simp
    · have h0 : (dequeue_buffer K ty i0 b).2.count e = 0 :=
        List.count_eq_zero_of_not_mem (hloc i0 b (by omega))
      rw [h0, if_neg (by omega), if_neg (by omega)]

theorem dequeue_list_count_other (K : hfi_defs) (ty ty2 : msm_vidc_buffer_type) (hne : ty2 ≠ ty)
    (l : List msm_vidc_buffer) (i0 idx : Nat) :
    (dequeue_list K ty2 i0 l).2.count (vidc_event.vb2_buffer_done ty idx) = 0 ∧
    (dequeue_list K ty2 i0 l).2.count (vidc_event.put_driver_buf ty idx) = 0 := by
  constructor <;>
  · apply List.count_eq_zero_of_not_mem
    intro h
    obtain ⟨i, hi | hi⟩ := dequeue_list_events K ty2 _ l i0 h
    · cases hi <;> exact hne rfl
    · cases hi <;> exact hne rfl
theorem handle_dequeue_buffers_eq (K : hfi_defs) (st : sess)
    (l1 l2 l3 l4 : List msm_vidc_buffer)
    (h1 : st.inst.buffers msm_vidc_buffer_type.MSM_VIDC_BUF_INPUT_META = some l1)
    (h2 : st.inst.buffers msm_vidc_buffer_type.MSM_VIDC_BUF_INPUT = some l2)
    (h3 : st.inst.buffers msm_vidc_buffer_type.MSM_VIDC_BUF_OUTPUT_META = some l3)
    (h4 : st.inst.buffers msm_vidc_buffer_type.MSM_VIDC_BUF_OUTPUT = some l4) :
    (handle_dequeue_buffers K st).1 = 0 ∧
    (handle_dequeue_buffers K st).2.mem = st.mem ∧
    (handle_dequeue_buffers K st).2.inst.buffers =
      (fun t =>
        if t = msm_vidc_buffer_type.MSM_VIDC_BUF_OUTPUT then
          some (dequeue_list K msm_vidc_buffer_type.MSM_VIDC_BUF_OUTPUT 0 l4).1
        else if t = msm_vidc_buffer_type.MSM_VIDC_BUF_OUTPUT_META then
          some (dequeue_list K msm_vidc_buffer_type.MSM_VIDC_BUF_OUTPUT_META 0 l3).1
        else if t = msm_vidc_buffer_type.MSM_VIDC_BUF_INPUT then
          some (dequeue_list K msm_vidc_buffer_type.MSM_VIDC_BUF_INPUT 0 l2).1
        else if t = msm_vidc_buffer_type.MSM_VIDC_BUF_INPUT_META then
          some (dequeue_list K msm_vidc_buffer_type.MSM_VIDC_BUF_INPUT_META 0 l1).1
        else st.inst.buffers t) ∧
    (handle_dequeue_buffers K st).2.inst.events =
      st.inst.events ++ [vidc_event.dequeue_buffers]
        ++ (dequeue_list K msm_vidc_buffer_type.MSM_VIDC_BUF_INPUT_META 0 l1).2
        ++ (dequeue_list K msm_vidc_buffer_type.MSM_VIDC_BUF_INPUT 0 l2).2
        ++ (dequeue_list K msm_vidc_buffer_type.MSM_VIDC_BUF_OUTPUT_META 0 l3).2
        ++ (dequeue_list K msm_vidc_buffer_type.MSM_VIDC_BUF_OUTPUT 0 l4).2 := by
  simp [handle_dequeue_buffers, dequeue_types, sess.log, h1, h2, h3, h4]
theorem dequeue_list_counts (K : hfi_defs) (ty : msm_vidc_buffer_type) (hK : attr_bits K)
    (l : List msm_vidc_buffer) (idx : Nat) (b : msm_vidc_buffer) (hb : l[idx]? = some b) :
    (dequeue_list K ty 0 l).2.count (vidc_event.vb2_buffer_done ty idx) =
      (if has_flag b.attr K.MSM_VIDC_ATTR_DEQUEUED = true ∧
          has_flag b.attr K.MSM_VIDC_ATTR_BUFFER_DONE = false then 1 else 0) ∧
    (dequeue_list K ty 0 l).2.count (vidc_event.put_driver_buf ty idx) =
      (if released K b.attr = true then 1 else 0) := by
  refine ⟨?_, ?_⟩
  · rw [dequeue_list_count K ty _ idx (fun i b' hi hmem => by
      rcases dequeue_buffer_events K ty i b' _ hmem with h | h
      · injection h with _ h2; exact hi h2.symm
      · cases h)]
    simp only [Nat.zero_le, if_true, Nat.sub_zero, hb, Option.map_some', Option.getD_some]
    cases hd : has_flag b.attr K.MSM_VIDC_ATTR_DEQUEUED
    · rw [dequeue_buffer_skip K ty idx b hd]; simp
    · rw [(dequeue_buffer_done K ty idx b hK hd).1]
      unfold dequeue_calls
      cases has_flag b.attr K.MSM_VIDC_ATTR_BUFFER_DONE <;>
        cases has_flag b.attr K.MSM_VIDC_ATTR_READ_ONLY <;> simp
  · rw [dequeue_list_count K ty _ idx (fun i b' hi hmem => by
      rcases dequeue_buffer_events K ty i b' _ hmem with h | h
      · cases h
      · injection h with _ h2; exact hi h2.symm)]
    simp only [Nat.zero_le, if_true, Nat.sub_zero, hb, Option.map_some', Option.getD_some]
    unfold released
    cases hd : has_flag b.attr K.MSM_VIDC_ATTR_DEQUEUED
    · rw [dequeue_buffer_skip K ty idx b hd]; simp
    · rw [(dequeue_buffer_done K ty idx b hK hd).1]
      unfold dequeue_calls
      cases has_flag b.attr K.MSM_VIDC_ATTR_BUFFER_DONE <;>
        cases has_flag b.attr K.MSM_VIDC_ATTR_READ_ONLY <;> simp

theorem dequeue_record_effect (K : hfi_defs) (st : sess) (ty : msm_vidc_buffer_type)
    (l : List msm_vidc_buffer) (hK : attr_bits K)
    (hall : ∀ t ∈ dequeue_kinds, st.inst.buffers t ≠ none)
    (hty : ty ∈ dequeue_kinds)
    (hl : st.inst.buffers ty = some l) :
    (handle_dequeue_buffers K st).1 = 0 ∧
    (handle_dequeue_buffers K st).2.mem = st.mem ∧
    (∀ t, t ∉ dequeue_kinds →
      (handle_dequeue_buffers K st).2.inst.buffers t = st.inst.buffers t) ∧
    (handle_dequeue_buffers K st).2.inst.buffers ty = some (dequeue_list K ty 0 l).1 ∧
    ∀ idx b, l[idx]? = some b →
      (handle_dequeue_buffers K st).2.inst.events.count (vidc_event.vb2_buffer_done ty idx) =
        st.inst.events.count (vidc_event.vb2_buffer_done ty idx) +
          (if has_flag b.attr K.MSM_VIDC_ATTR_DEQUEUED = true ∧
              has_flag b.attr K.MSM_VIDC_ATTR_BUFFER_DONE = false then 1 else 0) ∧
      (handle_dequeue_buffers K st).2.inst.events.count (vidc_event.put_driver_buf ty idx) =
        st.inst.events.count (vidc_event.put_driver_buf ty idx) +
          (if released K b.attr = true then 1 else 0) := by
  have g1 := hall msm_vidc_buffer_type.MSM_VIDC_BUF_INPUT_META (by simp [dequeue_kinds])
  have g2 := hall msm_vidc_buffer_type.MSM_VIDC_BUF_INPUT (by simp [dequeue_kinds])
  have g3 := hall msm_vidc_buffer_type.MSM_VIDC_BUF_OUTPUT_META (by simp [dequeue_kinds])
  have g4 := hall msm_vidc_buffer_type.MSM_VIDC_BUF_OUTPUT (by simp [dequeue_kinds])
  obtain ⟨l1, h1⟩ := Option.ne_none_iff_exists'.mp g1
  obtain ⟨l2, h2⟩ := Option.ne_none_iff_exists'.mp g2
  obtain ⟨l3, h3⟩ := Option.ne_none_iff_exists'.mp g3
  obtain ⟨l4, h4⟩ := Option.ne_none_iff_exists'.mp g4
  obtain ⟨e0, em, eb, ee⟩ := handle_dequeue_buffers_eq K st l1 l2 l3 l4 h1 h2 h3 h4
  refine ⟨e0, em, ?_, ?_, ?_⟩
  · intro t ht
    simp only [dequeue_kinds, List.mem_cons, List.mem_singleton, List.not_mem_nil, or_false,
      not_or] at ht
    rw [eb]
    simp [ht.1, ht.2.1, ht.2.2.1, ht.2.2.2]
  · simp only [dequeue_kinds, List.mem_cons, List.mem_singleton, List.not_mem_nil,
      or_false] at hty
    rw [eb]
    rcases hty with h | h | h | h <;> subst h <;> simp_all
  · intro idx b hb
    obtain ⟨hv, hp⟩ := dequeue_list_counts K ty hK l idx b hb
    simp only [dequeue_kinds, List.mem_cons, List.mem_singleton, List.not_mem_nil,
      or_false] at hty
    rw [ee]
    simp only [List.count_append]
    rcases hty with h | h | h | h <;> subst h
    · rw [h1] at hl; injection hl with hl; subst hl
      rw [(dequeue_list_count_other K _ _ (by decide) l2 0 idx).1,
        (dequeue_list_count_other K _ _ (by decide) l3 0 idx).1,
        (dequeue_list_count_other K _ _ (by decide) l4 0 idx).1,
        (dequeue_list_count_other K _ _ (by decide) l2 0 idx).2,
        (dequeue_list_count_other K _ _ (by decide) l3 0 idx).2,
        (dequeue_list_count_other K _ _ (by decide) l4 0 idx).2, hv, hp]
      simp
    · rw [h2] at hl; injection hl with hl; subst hl
      rw [(dequeue_list_count_other K _ _ (by decide) l1 0 idx).1,
        (dequeue_list_count_other K _ _ (by decide) l3 0 idx).1,
        (dequeue_list_count_other K _ _ (by decide) l4 0 idx).1,
        (dequeue_list_count_other K _ _ (by decide) l1 0 idx).2,
        (dequeue_list_count_other K _ _ (by decide) l3 0 idx).2,
        (dequeue_list_count_other K _ _ (by decide) l4 0 idx).2, hv, hp]
      simp
    · rw [h3] at hl; injection hl with hl; subst hl
      rw [(dequeue_list_count_other K _ _ (by decide) l1 0 idx).1,
        (dequeue_list_count_other K _ _ (by decide) l2 0 idx).1,
        (dequeue_list_count_other K _ _ (by decide) l4 0 idx).1,
        (dequeue_list_count_other K _ _ (by decide) l1 0 idx).2,
        (dequeue_list_count_other K _ _ (by decide) l2 0 idx).2,
        (dequeue_list_count_other K _ _ (by decide) l4 0 idx).2, hv, hp]
      simp
    · rw [h4] at hl; injection hl with hl; subst hl
      rw [(dequeue_list_count_other K _ _ (by decide) l1 0 idx).1,
        (dequeue_list_count_other K _ _ (by decide) l2 0 idx).1,
        (dequeue_list_count_other K _ _ (by decide) l3 0 idx).1,
        (dequeue_list_count_other K _ _ (by decide) l1 0 idx).2,
        (dequeue_list_count_other K _ _ (by decide) l2 0 idx).2,
        (dequeue_list_count_other K _ _ (by decide) l3 0 idx).2, hv, hp]
      simp
theorem find_buffer_some (addr : Nat) : ∀ (l : List msm_vidc_buffer) (idx : Nat)
    (b : msm_vidc_buffer), find_buffer addr l = some (idx, b) →
      l[idx]? = some b ∧ b.device_addr = addr := by
  intro l
  induction l with
  | nil => intro idx b h; simp [find_buffer] at h
  | cons c cs ih =>
    intro idx b h
    unfold find_buffer at h
    split_ifs at h with hc
    · injection h with h; injection h with h1 h2
      subst h1; subst h2
      exact ⟨by simp, hc⟩
    · cases hf : find_buffer addr cs with
      | none => rw [hf] at h; simp at h
      | some r =>
        rw [hf] at h
        simp only [Option.map_some', Option.some.injEq, Prod.mk.injEq] at h
        obtain ⟨h1, h2⟩ := h
        subst h1; subst h2
        have := ih r.1 r.2 hf
        exact ⟨by simpa using this.1, this.2⟩

/-- The search `find_buffer` looks at the device addresses only. -/
theorem find_buffer_congr (addr : Nat) : ∀ (l l' : List msm_vidc_buffer) (idx : Nat)
    (b b' : msm_vidc_buffer), l.map (fun x => x.device_addr) = l'.map (fun x => x.device_addr) →
      find_buffer addr l = some (idx, b) → l'[idx]? = some b' →
      find_buffer addr l' = some (idx, b') := by
  intro l
  induction l with
  | nil => intro l' idx b b' _ h; simp [find_buffer] at h
  | cons c cs ih =>
    intro l' idx b b' hmap h hb'
    cases l' with
    | nil => simp at hmap
    | cons c' cs' =>
      simp only [List.map_cons, List.cons.injEq] at hmap
      unfold find_buffer at h ⊢
      rw [← hmap.1]
      split_ifs at h ⊢ with hc
      · injection h with h; injection h with h1 h2
        subst h1
        simp at hb'
        rw [hb']
      · cases hf : find_buffer addr cs with
        | none => rw [hf] at h; simp at h
        | some r =>
          rw [hf] at h
          simp only [Option.map_some', Option.some.injEq, Prod.mk.injEq] at h
          obtain ⟨h1, h2⟩ := h
          subst h1
          have hb2 : cs'[r.1]? = some b' := by simpa using hb'
          rw [ih cs' r.1 r.2 b' hmap.2 hf hb2]
          rfl

theorem set_addrs (l : List msm_vidc_buffer) (idx : Nat) (b b' : msm_vidc_buffer)
    (hb : l[idx]? = some b) (h : b'.device_addr = b.device_addr) :
    (l.set idx b').map (fun x => x.device_addr) = l.map (fun x => x.device_addr) := by
  apply List.ext_getElem?
  intro i
  simp only [List.getElem?_map, List.getElem?_set]
  by_cases hi : idx = i
  · subst hi
    have hlt : idx < l.length := by
      by_contra hc
      rw [List.getElem?_eq_none (by omega)] at hb
      cases hb
    simp [hlt, hb, h]
  · simp [hi]

theorem handle_output_buffer_found (K : hfi_defs) (X : vidc_ops) (st : sess) (buffer : Nat)
    (l : List msm_vidc_buffer) (idx : Nat) (b : msm_vidc_buffer) (hK : attr_bits K)
    (hl : st.inst.buffers msm_vidc_buffer_type.MSM_VIDC_BUF_OUTPUT = some l)
    (hfind : find_buffer (read64 st.mem (buffer + K.buf_base_address)) l = some (idx, b)) :
    (handle_output_buffer K X st buffer).1 = 0 ∧
    (∀ t, t ≠ msm_vidc_buffer_type.MSM_VIDC_BUF_OUTPUT →
      (handle_output_buffer K X st buffer).2.inst.buffers t = st.inst.buffers t) ∧
    (∀ ty i, (handle_output_buffer K X st buffer).2.inst.events.count
        (vidc_event.vb2_buffer_done ty i) = st.inst.events.count (vidc_event.vb2_buffer_done ty i)) ∧
    ∃ b', (handle_output_buffer K X st buffer).2.inst.buffers
        msm_vidc_buffer_type.MSM_VIDC_BUF_OUTPUT = some (l.set idx b') ∧
      b'.device_addr = b.device_addr ∧
      has_flag b'.attr K.MSM_VIDC_ATTR_DEQUEUED = true ∧
      has_flag b'.attr K.MSM_VIDC_ATTR_BUFFER_DONE =
        has_flag b.attr K.MSM_VIDC_ATTR_BUFFER_DONE := by
  obtain ⟨⟨_, hd0, _, _⟩, ⟨_, hd32, hb32, _⟩, ⟨hqd, hqb, _, hdb, hdr, hbr⟩⟩ := hK
  have hrd : K.MSM_VIDC_ATTR_READ_ONLY &&& K.MSM_VIDC_ATTR_DEQUEUED = 0 := by
    rw [Nat.land_comm]; exact hdr
  have hrb : K.MSM_VIDC_ATTR_READ_ONLY &&& K.MSM_VIDC_ATTR_BUFFER_DONE = 0 := by
    rw [Nat.land_comm]; exact hbr
  have hlen : idx < l.length := by
    by_contra hc
    have := (find_buffer_some _ l idx b hfind).1
    rw [List.getElem?_eq_none (by omega)] at this
    cases this
  by_cases hc : st.inst.domain = msm_vidc_domain_type.MSM_VIDC_ENCODER ∧
      st.inst.hfi_frame_info.data_corrupt ≠ 0
  · refine ⟨?_, ?_, ?_, ?_⟩
    · simp [handle_output_buffer, hl, hfind]
    · intro t ht
      simp [handle_output_buffer, hl, hfind, set_buffer, hc, msm_vidc_change_inst_state, ht]
    · intro ty i
      simp [handle_output_buffer, hl, hfind, set_buffer, hc, msm_vidc_change_inst_state,
        List.count_append]
    · simp only [handle_output_buffer, hl, hfind, set_buffer, hc, msm_vidc_change_inst_state,
        if_true, Option.map_some', List.set_set, and_self, ne_eq, not_false_eq_true]
      refine ⟨_, rfl, rfl, ?_, ?_⟩
      · dsimp only
        split_ifs <;> first
          | rw [has_flag_set_other _ _ _ hrd, has_flag_set_self _ _ hd0]
          | rw [has_flag_clear_other _ _ _ hd32 hrd, has_flag_set_self _ _ hd0]
      · dsimp only
        split_ifs <;> first
          | rw [has_flag_set_other _ _ _ hrb, has_flag_set_other _ _ _ hdb,
              has_flag_clear_other _ _ _ hb32 hqb]
          | rw [has_flag_clear_other _ _ _ hb32 hrb, has_flag_set_other _ _ _ hdb,
              has_flag_clear_other _ _ _ hb32 hqb]
  · refine ⟨?_, ?_, ?_, ?_⟩
    · simp [handle_output_buffer, hl, hfind]
    · intro t ht
      simp [handle_output_buffer, hl, hfind, set_buffer, hc, ht]
    · intro ty i
      simp [handle_output_buffer, hl, hfind, set_buffer, hc]
    · simp only [handle_output_buffer, hl, hfind, set_buffer, hc,
        if_true, if_false, Option.map_some', List.set_set]
      refine ⟨_, rfl, rfl, ?_, ?_⟩
      · dsimp only
        split_ifs <;> first
          | rw [has_flag_set_other _ _ _ hrd, has_flag_set_self _ _ hd0]
          | rw [has_flag_clear_other _ _ _ hd32 hrd, has_flag_set_self _ _ hd0]
      · dsimp only
        split_ifs <;> first
          | rw [has_flag_set_other _ _ _ hrb, has_flag_set_other _ _ _ hdb,
              has_flag_clear_other _ _ _ hb32 hqb]
          | rw [has_flag_clear_other _ _ _ hb32 hrb, has_flag_set_other _ _ _ hdb,
              has_flag_clear_other _ _ _ hb32 hqb]

theorem response_work_loop_drops (K : hfi_defs) (X : vidc_ops) :
    ∀ (rest kept : List response_work) (st : sess),
      (∀ w ∈ rest, w.type ≠ response_work_type.RESP_WORK_INPUT_PSC) →
      st.inst.response_works = kept ++ rest →
      (response_work_loop K X kept rest st).inst.response_works = kept := by
  intro rest
  induction rest with
  | nil => intro kept st _ h; simpa [response_work_loop] using h
  | cons w rest ih =>
    intro kept st hty _
    have hw : w.type ≠ response_work_type.RESP_WORK_INPUT_PSC := hty w (List.mem_cons_self _ _)
    have hkeep : (response_work_item K X st w).1 = false := by
      unfold response_work_item
      cases hwt : w.type with
      | RESP_WORK_INPUT_PSC => exact absurd hwt hw
      | RESP_WORK_OUTPUT_PSC => dsimp only; split_ifs <;> rfl
      | RESP_WORK_LAST_FLAG => dsimp only; split_ifs <;> rfl
      | other => rfl
    simp only [response_work_loop, hkeep, Bool.false_eq_true, if_false]
    exact ih kept _ (fun w' hw' => hty w' (List.mem_cons_of_mem _ hw')) rfl

/-- C9 (amended): a Defer decision does not block the queue.  When the head
item `A` of the deferred queue is an input port-settings change and
`msm_vidc_allow_input_psc` answers `MSM_VIDC_DEFER`, the drain cycle of
`handle_session_response_work_handler` leaves `A` queued and the instance as it
was and goes on with the next entry (`continue`); the items behind `A` that are
not input port-settings changes are all processed and removed in the same
cycle, so the queue afterwards is `[A]`. -/
theorem defer_continues_with_next_entry (K : hfi_defs) (X : vidc_ops) (st : sess)
    (A : response_work) (rest : List response_work)
    (hqueue : st.inst.response_works = A :: rest)
    (hA : A.type = response_work_type.RESP_WORK_INPUT_PSC)
    (hdefer : X.msm_vidc_allow_input_psc st.inst = msm_vidc_allow.MSM_VIDC_DEFER)
    (hrest : ∀ w ∈ rest, w.type ≠ response_work_type.RESP_WORK_INPUT_PSC) :
    handle_session_response_work_handler K X st = response_work_loop K X [A] rest st ∧
    (handle_session_response_work_handler K X st).inst.response_works = [A] := by
  have hitem : response_work_item K X st A = (true, st) := by
    unfold response_work_item
    rw [hA]
    dsimp only
    rw [hdefer]
  have h1 : handle_session_response_work_handler K X st = response_work_loop K X [A] rest st := by
    unfold handle_session_response_work_handler
    rw [hqueue]
    simp only [response_work_loop, hitem, if_true, List.nil_append]
  refine ⟨h1, ?_⟩
  rw [h1]
  exact response_work_loop_drops K X rest [A] st hrest (by simpa using hqueue)
/-- Witness for C2: a batch whose final packet declares a size that runs past the
response buffer is rejected with the state untouched. -/
theorem handle_session_response_invalid_packet_witness :
    validate_packet (world_with batch_cmd_then_oversized).mem 0x1080 0x1000 4096 ≠ 0 ∧
    handle_session_response venus ops_ok (world_with batch_cmd_then_oversized) 0x1000 =
      (-EINVAL, world_with batch_cmd_then_oversized) :=
  ⟨by decide,
   handle_session_response_invalid_packet venus ops_ok (world_with batch_cmd_then_oversized)
    0x1000 (dec_inst (out_record 0x8) []) 0x1080 rfl (by decide) (by decide)⟩

/-- Claim C3 (the code at the failing input): `handle_system_response` validates
and handles packet by packet.  On the system batch `batch_init_then_oversized`
the second packet fails `validate_packet` and the function returns `-EINVAL`,
yet `handle_system_init` has already run on the first packet and the init-done
completion has been signalled. -/
theorem handle_system_response_dispatches_before_validating :
    validate_packet (world_with batch_init_then_oversized).mem 0x1040 0x1000 4096 ≠ 0 ∧
    (handle_system_response venus (world_with batch_init_then_oversized) 0x1000).1 = -EINVAL ∧
    (handle_system_response venus (world_with batch_init_then_oversized) 0x1000).2.core.calls =
      [(system_handler.handle_system_init, 0x1020)] ∧
    (handle_system_response venus (world_with batch_init_then_oversized) 0x1000).2.core.events =
      [core_event.complete_init_done] := by
  decide

/-- Counterexample to C4: the batch `batch_past_own_size` declares a total size of
32 bytes (its header) and carries one packet behind it.  `handle_response`
accepts the header, the validation pass of `handle_session_response` accepts
the packet, the batch is dispatched with return code 0, and the packet ends at
offset 64, past the batch's declared size. -/
theorem packet_past_batch_size_accepted :
    validate_packet (world_with batch_past_own_size).mem 0x1000 0x1000 4096 = 0 ∧
    validate_packets (world_with batch_past_own_size).mem 0x1000 4096 1 0x1020 = true ∧
    (handle_response venus ops_ok (world_with batch_past_own_size) 0x1000).1 = 0 ∧
    ((handle_response venus ops_ok (world_with batch_past_own_size) 0x1000).2.core.instances 7).map
      (fun i => i.calls) = some [(0, 0x1020)] ∧
    ¬ ((0x1020 - 0x1000) + read32 (world_with batch_past_own_size).mem 0x1020 ≤
        read32 (world_with batch_past_own_size).mem 0x1000) := by
  decide

/-- Claim C4 (amended): for every batch that `handle_response` and the validation
pass of `handle_session_response` accept, the batch and every one of its
packets lie inside the core's response buffer: the address is at least
`core->response_packet` and address plus declared size is at most
`core->response_packet + core->packet_size`.  The bound is the response
buffer, not the size the batch header declares. -/
theorem validated_packets_within_response_buffer (K : hfi_defs) (w : world) (hdr : Nat)
    (hhdr : validate_packet w.mem hdr w.core.response_packet w.core.packet_size = 0)
    (hvalid : validate_packets w.mem w.core.response_packet w.core.packet_size
      (read32 w.mem (hdr + K.hdr_num_packets)) (hdr + K.sizeof_hfi_header) = true) :
    (w.core.response_packet ≤ hdr ∧
      hdr + read32 w.mem hdr ≤ w.core.response_packet + w.core.packet_size) ∧
    ∀ p ∈ packets w.mem (hdr + K.sizeof_hfi_header) (read32 w.mem (hdr + K.hdr_num_packets)),
      w.core.response_packet ≤ p ∧
      p + read32 w.mem p ≤ w.core.response_packet + w.core.packet_size := by
  have h1 := (validate_packet_zero_iff _ _ _ _).1 hhdr
  refine ⟨⟨h1.2.1.1, h1.2.2.2⟩, fun p hp => ?_⟩
  have h2 := (validate_packet_zero_iff _ _ _ _).1 ((validate_packets_iff _ _ _ _ _).1 hvalid p hp)
  exact ⟨h2.2.1.1, h2.2.2.2⟩

/-- Witness for C4 (amended): the accepted batch `batch_past_own_size` lies
inside the response buffer. -/
theorem validated_packets_within_response_buffer_witness :
    (0x1000 ≤ 0x1000 ∧ 0x1000 + read32 (world_with batch_past_own_size).mem 0x1000 ≤ 0x1000 + 4096) ∧
    ∀ p ∈ packets (world_with batch_past_own_size).mem 0x1020 1,
      0x1000 ≤ p ∧ p + read32 (world_with batch_past_own_size).mem p ≤ 0x1000 + 4096 :=
  validated_packets_within_response_buffer venus (world_with batch_past_own_size) 0x1000
    (by decide) (by decide)

/-- Witness for C5: in `batch_cmd_then_error` the command packet (at `0x1020`)
precedes the session-error packet (at `0x1080`) on the wire, and the error
handler runs first. -/
theorem session_dispatch_category_major_witness :
    ((handle_session_response venus ops_ok (world_with batch_cmd_then_error) 0x1000).2.core.instances
        7).map (fun i => i.calls) = some [(0, 0x1080), (3, 0x1020)] :=
  (session_dispatch_category_major venus ops_ok (world_with batch_cmd_then_error) 0x1000
    (dec_inst (out_record 0x8) []) (by decide) rfl (by decide) rfl (by decide)
    (by decide)).trans (by decide)
/-- Counterexample to C9: with the queue `[A, B, C]` of `sess_abc` and the
admission predicate answering Defer for the input port-settings change `A`,
one drain cycle leaves the queue `[A]`, not `[A, B, C]`: the pipeline has run
on the snapshots of `B` and `C` (its command handler was invoked on their
packets at `0x2020` and `0x3020`) and both items were removed. -/
theorem defer_lets_later_items_run :
    ops_defer.msm_vidc_allow_input_psc sess_abc.inst = msm_vidc_allow.MSM_VIDC_DEFER ∧
    sess_abc.inst.response_works = queue_abc ∧
    (handle_session_response_work_handler venus ops_defer sess_abc).inst.response_works =
      [⟨response_work_type.RESP_WORK_INPUT_PSC, 0x1800, 64⟩] ∧
    (handle_session_response_work_handler venus ops_defer sess_abc).inst.response_works ≠
      queue_abc ∧
    (handle_session_response_work_handler venus ops_defer sess_abc).inst.calls =
      [(3, 0x2020), (3, 0x3020)] := by
  decide

/-- Witness for C9 (amended): the queue `[A, B, C]` of `sess_abc` after one drain
cycle with `A` deferred. -/
theorem defer_continues_with_next_entry_witness :
    (handle_session_response_work_handler venus ops_defer sess_abc).inst.response_works =
      [⟨response_work_type.RESP_WORK_INPUT_PSC, 0x1800, 64⟩] :=
  (defer_continues_with_next_entry venus ops_defer sess_abc
    ⟨response_work_type.RESP_WORK_INPUT_PSC, 0x1800, 64⟩
    [⟨response_work_type.RESP_WORK_OUTPUT_PSC, 0x2000, 64⟩,
     ⟨response_work_type.RESP_WORK_LAST_FLAG, 0x3000, 128⟩]
    rfl rfl rfl (by decide)).2

/-- Claim C10 (the code at the failing input): for an Output buffer packet with
`flags = LAST | READONLY` and `data_size = 512`, `handle_output_buffer` succeeds
and the matched record holds `data_size = 512`: the reset to zero is applied
to the `data_size` field of the packet in memory, after the record has
received its copy. -/
theorem last_flag_keeps_record_data_size :
    has_flag (read32 (mem_of 0x1040 last_readonly_buffer) (0x1040 + venus.buf_flags))
      venus.HFI_BUF_FW_FLAG_LAST = true ∧
    read32 (mem_of 0x1040 last_readonly_buffer) (0x1040 + venus.buf_data_size) = 512 ∧
    (handle_output_buffer venus ops_ok
      ⟨mem_of 0x1040 last_readonly_buffer, dec_inst (out_record 0x8) []⟩ 0x1040).1 = 0 ∧
    ((handle_output_buffer venus ops_ok
      ⟨mem_of 0x1040 last_readonly_buffer, dec_inst (out_record 0x8) []⟩ 0x1040).2.inst.buffers
        msm_vidc_buffer_type.MSM_VIDC_BUF_OUTPUT).map (fun l => l.map (fun r => r.data_size)) =
      some [512] ∧
    read32 (handle_output_buffer venus ops_ok
      ⟨mem_of 0x1040 last_readonly_buffer, dec_inst (out_record 0x8) []⟩ 0x1040).2.mem
        (0x1040 + venus.buf_data_size) = 0 := by
  decide

/-! ## Super-buffer mode, deferral and failure paths -/

/-- Claim C11, counterexample: in super-buffer mode with batches of four frames
of 1024 bytes, a completion with `addr_offset = 4096` has quotient 4, which is
not `batch_size - 1 = 3`, and yet both input handlers mark the matched record
`Dequeued`. -/
theorem super_buffer_dequeues_past_last_frame :
    read32 (sess_super 4096).mem (0x2000 + venus.buf_addr_offset) /
        ops_super.buffer_size super_inst msm_vidc_buffer_type.MSM_VIDC_BUF_INPUT = 4 ∧
    (super_inst.capabilities.map (fun c => c.SUPER_FRAME - 1)) = some 3 ∧
    ((handle_input_buffer venus ops_super (sess_super 4096) 0x2000).2.inst.buffers
        msm_vidc_buffer_type.MSM_VIDC_BUF_INPUT).map
      (fun l => l.map (fun b => has_flag b.attr venus.MSM_VIDC_ATTR_DEQUEUED)) = some [true] ∧
    ((handle_input_metadata_buffer venus ops_super (sess_super 4096) 0x2000).2.inst.buffers
        msm_vidc_buffer_type.MSM_VIDC_BUF_INPUT_META).map
      (fun l => l.map (fun b => has_flag b.attr venus.MSM_VIDC_ATTR_DEQUEUED)) = some [true] := by
  decide

/-- Claim C11 (amended): in super-buffer mode, with non-zero frame and batch
sizes and a record matching the completion, `handle_input_buffer` and
`handle_input_metadata_buffer` return 0; they leave the whole state as it was
when `addr_offset / frame_size < batch_size - 1`, and they mark the matched
record `Dequeued` when `addr_offset / frame_size ≥ batch_size - 1`. -/
theorem super_buffer_dequeue_from_last_frame (K : hfi_defs) (X : vidc_ops) (st : sess)
    (buffer : Nat) (caps : msm_vidc_inst_capability)
    (hbuf : buffer ≠ 0) (hcaps : st.inst.capabilities = some caps)
    (hcore : st.inst.has_core = true)
    (hsuper : X.msm_vidc_is_super_buffer st.inst = true)
    (hbatch : caps.SUPER_FRAME ≠ 0) (hdeq : K.MSM_VIDC_ATTR_DEQUEUED ≠ 0) :
    (∀ l idx b,
      st.inst.buffers msm_vidc_buffer_type.MSM_VIDC_BUF_INPUT = some l →
      find_buffer (read64 st.mem (buffer + K.buf_base_address)) l = some (idx, b) →
      X.buffer_size st.inst msm_vidc_buffer_type.MSM_VIDC_BUF_INPUT ≠ 0 →
      (read32 st.mem (buffer + K.buf_addr_offset) /
          X.buffer_size st.inst msm_vidc_buffer_type.MSM_VIDC_BUF_INPUT < caps.SUPER_FRAME - 1 →
        handle_input_buffer K X st buffer = (0, st)) ∧
      (caps.SUPER_FRAME - 1 ≤ read32 st.mem (buffer + K.buf_addr_offset) /
          X.buffer_size st.inst msm_vidc_buffer_type.MSM_VIDC_BUF_INPUT →
        ∃ b2, handle_input_buffer K X st buffer =
            (0, set_buffer st msm_vidc_buffer_type.MSM_VIDC_BUF_INPUT idx b2) ∧
          b2.device_addr = b.device_addr ∧
          b2.attr = set_flag (clear_flag b.attr K.MSM_VIDC_ATTR_QUEUED)
            K.MSM_VIDC_ATTR_DEQUEUED ∧
          has_flag b2.attr K.MSM_VIDC_ATTR_DEQUEUED = true)) ∧
    (∀ l idx b,
      st.inst.buffers msm_vidc_buffer_type.MSM_VIDC_BUF_INPUT_META = some l →
      find_buffer (read64 st.mem (buffer + K.buf_base_address)) l = some (idx, b) →
      X.buffer_size st.inst msm_vidc_buffer_type.MSM_VIDC_BUF_INPUT_META ≠ 0 →
      (read32 st.mem (buffer + K.buf_addr_offset) /
          X.buffer_size st.inst msm_vidc_buffer_type.MSM_VIDC_BUF_INPUT_META <
            caps.SUPER_FRAME - 1 →
        handle_input_metadata_buffer K X st buffer = (0, st)) ∧
      (caps.SUPER_FRAME - 1 ≤ read32 st.mem (buffer + K.buf_addr_offset) /
          X.buffer_size st.inst msm_vidc_buffer_type.MSM_VIDC_BUF_INPUT_META →
        ∃ b2, handle_input_metadata_buffer K X st buffer =
            (0, set_buffer st msm_vidc_buffer_type.MSM_VIDC_BUF_INPUT_META idx b2) ∧
          b2.device_addr = b.device_addr ∧
          b2.attr = set_flag (clear_flag b.attr K.MSM_VIDC_ATTR_QUEUED)
            K.MSM_VIDC_ATTR_DEQUEUED ∧
          has_flag b2.attr K.MSM_VIDC_ATTR_DEQUEUED = true)) := by
  refine ⟨?_, ?_⟩
  · intro l idx b hl hfind hfs
    refine ⟨?_, ?_⟩
    · intro hq
      simp [handle_input_buffer, hbuf, hcaps, hcore, hl, hfind, hsuper, hfs, hbatch, hq]
    · intro hq
      refine ⟨{ b with
          data_offset := read32 st.mem (buffer + K.buf_data_offset),
          data_size := read32 st.mem (buffer + K.buf_data_size),
          attr := set_flag (clear_flag b.attr K.MSM_VIDC_ATTR_QUEUED) K.MSM_VIDC_ATTR_DEQUEUED,
          flags := get_driver_buffer_flags K st.inst (read32 st.mem (buffer + K.buf_flags)) },
        ?_, rfl, rfl, has_flag_set_self _ _ hdeq⟩
      simp [handle_input_buffer, hbuf, hcaps, hcore, hl, hfind, hsuper, hfs, hbatch,
        not_lt.mpr hq]
  · intro l idx b hl hfind hfs
    refine ⟨?_, ?_⟩
    · intro hq
      simp [handle_input_metadata_buffer, hbuf, hcaps, hcore, hl, hfind, hsuper, hfs, hbatch, hq]
    · intro hq
      refine ⟨{ b with
          data_size := read32 st.mem (buffer + K.buf_data_size),
          attr := set_flag (clear_flag b.attr K.MSM_VIDC_ATTR_QUEUED) K.MSM_VIDC_ATTR_DEQUEUED,
          flags :=
            if has_flag (read32 st.mem (buffer + K.buf_flags)) K.HFI_BUF_FW_FLAG_LAST then
              set_flag 0 K.MSM_VIDC_BUF_FLAG_LAST
            else 0 },
        ?_, rfl, rfl, has_flag_set_self _ _ hdeq⟩
      simp [handle_input_metadata_buffer, hbuf, hcaps, hcore, hl, hfind, hsuper, hfs, hbatch,
        not_lt.mpr hq]

/-- Witness for C11: with batches of four frames of 1024 bytes, the completion
at `addr_offset = 1024` (quotient 1) leaves the state as it was and the one at
`addr_offset = 3072` (quotient 3) marks the record `Dequeued`. -/
theorem super_buffer_dequeue_from_last_frame_witness :
    (handle_input_buffer venus ops_super (sess_super 1024) 0x2000 = (0, sess_super 1024) ∧
      ∃ b2, handle_input_buffer venus ops_super (sess_super 3072) 0x2000 =
          (0, set_buffer (sess_super 3072) msm_vidc_buffer_type.MSM_VIDC_BUF_INPUT 0 b2) ∧
        b2.device_addr = 0x5000 ∧
        b2.attr = set_flag (clear_flag 0x8 venus.MSM_VIDC_ATTR_QUEUED)
          venus.MSM_VIDC_ATTR_DEQUEUED ∧
        has_flag b2.attr venus.MSM_VIDC_ATTR_DEQUEUED = true) ∧
    (handle_input_metadata_buffer venus ops_super (sess_super 1024) 0x2000 =
        (0, sess_super 1024) ∧
      ∃ b2, handle_input_metadata_buffer venus ops_super (sess_super 3072) 0x2000 =
          (0, set_buffer (sess_super 3072) msm_vidc_buffer_type.MSM_VIDC_BUF_INPUT_META 0 b2) ∧
        b2.device_addr = 0x5000 ∧
        b2.attr = set_flag (clear_flag 0x8 venus.MSM_VIDC_ATTR_QUEUED)
          venus.MSM_VIDC_ATTR_DEQUEUED ∧
        has_flag b2.attr venus.MSM_VIDC_ATTR_DEQUEUED = true) :=
  ⟨⟨((super_buffer_dequeue_from_last_frame venus ops_super (sess_super 1024) 0x2000 ⟨4, 0⟩
        (by decide) rfl rfl rfl (by decide) (by decide)).1 [out_record 0x8] 0 (out_record 0x8)
        rfl (by decide) (by decide)).1 (by decide),
    ((super_buffer_dequeue_from_last_frame venus ops_super (sess_super 3072) 0x2000 ⟨4, 0⟩
        (by decide) rfl rfl rfl (by decide) (by decide)).1 [out_record 0x8] 0 (out_record 0x8)
        rfl (by decide) (by decide)).2 (by decide)⟩,
   ⟨((super_buffer_dequeue_from_last_frame venus ops_super (sess_super 1024) 0x2000 ⟨4, 0⟩
        (by decide) rfl rfl rfl (by decide) (by decide)).2 [out_record 0x8] 0 (out_record 0x8)
        rfl (by decide) (by decide)).1 (by decide),
    ((super_buffer_dequeue_from_last_frame venus ops_super (sess_super 3072) 0x2000 ⟨4, 0⟩
        (by decide) rfl rfl rfl (by decide) (by decide)).2 [out_record 0x8] 0 (out_record 0x8)
        rfl (by decide) (by decide)).2 (by decide)⟩⟩

theorem scan_packets_type (K : hfi_defs) (row : msm_vidc_hfi_range) (i : Nat) (m0 : Mem)
    (h4 : 4 ≤ K.sizeof_hfi_packet)
    (hrow : ∀ st pkt, confined st (pkt + K.sizeof_hfi_packet)
      (pkt + K.sizeof_hfi_packet + K.sizeof_hfi_buffer) (row.handle st pkt))
    (hrow2 : ∀ st pkt, (read32 st.mem (pkt + K.pkt_type) = K.HFI_CMD_BUFFER →
      read32 st.mem (pkt + K.pkt_payload_info) = K.HFI_PAYLOAD_NONE) →
      frame st (row.handle st pkt)) :
    ∀ (n : Nat) (st : sess) (pkt c : Nat), (∀ x, pkt ≤ x → st.mem x = m0 x) →
      (∀ p ∈ packets m0 pkt n, covers_payload K m0 p) →
      (scan_packets K row i n st pkt c).rc = 0 →
      (scan_packets K row i n st pkt c).hfi_cmd_type =
        last_type K m0 c (row_calls K m0 row.range_begin row.range_end i (packets m0 pkt n)) := by
  intro n
  induction n with
  | zero => intro st pkt c _ _ _; simp [scan_packets, packets, row_calls, last_type]
  | succ n ih =>
    intro st pkt c hag hwf hrc
    have hty : read32 st.mem (pkt + K.pkt_type) = read32 m0 (pkt + K.pkt_type) :=
      read32_congr _ _ _ (fun x hx _ => hag x (by omega))
    have hpi : read32 st.mem (pkt + K.pkt_payload_info) = read32 m0 (pkt + K.pkt_payload_info) :=
      read32_congr _ _ _ (fun x hx _ => hag x (by omega))
    have hsz : read32 st.mem pkt = read32 m0 pkt :=
      read32_congr _ _ _ (fun x hx _ => hag x (by omega))
    have hcov : covers_payload K m0 pkt := hwf pkt (by simp [packets])
    have hwf' : ∀ p ∈ packets m0 (pkt + read32 m0 pkt) n, covers_payload K m0 p :=
      fun p hp => hwf p (by simp [packets, hp])
    unfold scan_packets at hrc ⊢
    unfold packets row_calls
    dsimp only at hrc ⊢
    by_cases hin : in_range row.range_begin row.range_end (read32 st.mem (pkt + K.pkt_type)) = true
    · rw [if_pos hin] at hrc ⊢
      by_cases hh : (row.handle (st.call i pkt) pkt).1 ≠ 0
      · rw [if_pos hh] at hrc
        exact absurd hrc hh
      · rw [if_neg hh] at hrc ⊢
        have hmem : ∀ x, (x < pkt + 4 ∨ pkt + read32 m0 pkt ≤ x) → pkt ≤ x →
            (row.handle (st.call i pkt) pkt).2.mem x = m0 x := by
          intro x hx hle
          by_cases hb : read32 st.mem (pkt + K.pkt_type) = K.HFI_CMD_BUFFER →
              read32 st.mem (pkt + K.pkt_payload_info) = K.HFI_PAYLOAD_NONE
          · have := (hrow2 (st.call i pkt) pkt hb).1
            rw [this]; exact hag x hle
          · have hb' : read32 m0 (pkt + K.pkt_type) = K.HFI_CMD_BUFFER ∧
                read32 m0 (pkt + K.pkt_payload_info) ≠ K.HFI_PAYLOAD_NONE := by
              rw [← hty, ← hpi]
              exact Classical.not_imp.mp hb
            have hc := hcov hb'.1 hb'.2
            have := (hrow (st.call i pkt) pkt).1 x (by omega)
            rw [this]; exact hag x hle
        have hsz' : read32 (row.handle (st.call i pkt) pkt).2.mem pkt = read32 m0 pkt :=
          read32_congr _ _ _ (fun x hx1 hx2 => hmem x (Or.inl hx2) hx1)
        rw [hsz'] at hrc ⊢
        have := ih (row.handle (st.call i pkt) pkt).2 (pkt + read32 m0 pkt)
          (read32 st.mem (pkt + K.pkt_type))
          (fun x hx => hmem x (Or.inr hx) (by omega)) hwf' hrc
        rw [this]
        rw [hty] at hin ⊢
        simp [List.filter_cons, hin, row_calls, last_type]
    · rw [if_neg hin] at hrc ⊢
      rw [hsz] at hrc ⊢
      have := ih st (pkt + read32 m0 pkt) c (fun x hx => hag x (by omega)) hwf' hrc
      rw [this]
      rw [hty] at hin
      simp [List.filter_cons, hin, row_calls, last_type]

theorem last_type_append (K : hfi_defs) (m : Mem) (c : Nat) (l1 l2 : List (Nat × Nat)) :
    last_type K m c (l1 ++ l2) = last_type K m (last_type K m c l1) l2 := by
  simp [last_type, List.foldl_append]

theorem dispatch_rows_type (K : hfi_defs) (X : vidc_ops) (n start : Nat) (st : sess)
    (h4 : 4 ≤ K.sizeof_hfi_packet)
    (h1 : K.buf_data_size + 4 ≤ K.sizeof_hfi_buffer) (h2 : K.buf_flags + 4 ≤ K.sizeof_hfi_buffer)
    (hwf : ∀ p ∈ packets st.mem start n, covers_payload K st.mem p)
    (hrc : (dispatch_rows K n start (be K X) 0 st 0).rc = 0) :
    (dispatch_rows K n start (be K X) 0 st 0).hfi_cmd_type =
      last_type K st.mem 0
        (row_calls K st.mem K.HFI_SESSION_ERROR_BEGIN K.HFI_SESSION_ERROR_END 0 (packets st.mem start n)
        ++ row_calls K st.mem K.HFI_INFORMATION_BEGIN K.HFI_INFORMATION_END 1 (packets st.mem start n)
        ++ row_calls K st.mem K.HFI_PROP_BEGIN K.HFI_PROP_END 2 (packets st.mem start n)
        ++ row_calls K st.mem K.HFI_CMD_BEGIN K.HFI_CMD_END 3 (packets st.mem start n)) := by
  simp only [be, dispatch_rows] at hrc ⊢
  split_ifs at hrc ⊢ with e0 e1 e2 e3
  · exact absurd hrc e0
  · exact absurd hrc e1
  · exact absurd hrc e2
  · exact absurd hrc e3
  · have e0' := not_not.mp e0
    have e1' := not_not.mp e1
    have e2' := not_not.mp e2
    have e3' := not_not.mp e3
    obtain ⟨m0, _⟩ := scan_packets_frame K ⟨_, _, handle_session_error K X⟩ 0
      (handle_session_error_frame K X) n st start 0 e0'
    obtain ⟨m1, _⟩ := scan_packets_frame K ⟨_, _, handle_session_info K⟩ 1
      (handle_session_info_frame K) n _ start _ e1'
    obtain ⟨m2, _⟩ := scan_packets_frame K ⟨_, _, handle_session_property K⟩ 2
      (handle_session_property_frame K) n _ start _ e2'
    have t0 := scan_packets_type K ⟨_, _, handle_session_error K X⟩ 0 st.mem h4
      (fun s p => frame_confined _ _ _ _ (handle_session_error_frame K X s p))
      (fun s p _ => handle_session_error_frame K X s p) n st start 0 (fun x _ => rfl) hwf e0'
    have t1 := scan_packets_type K ⟨_, _, handle_session_info K⟩ 1 st.mem h4
      (fun s p => frame_confined _ _ _ _ (handle_session_info_frame K s p))
      (fun s p _ => handle_session_info_frame K s p) n _ start _
      (fun x _ => by rw [m0]) hwf e1'
    have t2 := scan_packets_type K ⟨_, _, handle_session_property K⟩ 2 st.mem h4
      (fun s p => frame_confined _ _ _ _ (handle_session_property_frame K s p))
      (fun s p _ => handle_session_property_frame K s p) n _ start _
      (fun x _ => by rw [m1, m0]) hwf e2'
    have t3 := scan_packets_type K ⟨_, _, handle_session_command K X⟩ 3 st.mem h4
      (fun s p => handle_session_command_confined K X s p _ _ ⟨by omega, by omega⟩
        ⟨by omega, by omega⟩)
      (fun s p h => handle_session_command_frame K X s p h) n _ start _
      (fun x _ => by rw [m2, m1, m0]) hwf e3'
    dsimp only at t0 t1 t2 t3 ⊢
    rw [t3, t2, t1, t0, last_type_append, last_type_append, last_type_append]

theorem dequeue_types_count (K : hfi_defs) (tys : List msm_vidc_buffer_type) :
    ∀ st : sess, (dequeue_types K tys st).2.inst.events.count vidc_event.dequeue_buffers =
      st.inst.events.count vidc_event.dequeue_buffers := by
  induction tys with
  | nil => intro st; rfl
  | cons ty tys ih =>
    intro st
    unfold dequeue_types
    split
    · rfl
    · rename_i bufs _
      rw [ih]
      dsimp only
      have hz : (dequeue_list K ty 0 bufs).2.count vidc_event.dequeue_buffers = 0 := by
        apply List.count_eq_zero_of_not_mem
        intro hmem
        obtain ⟨i, hi⟩ := dequeue_list_events K ty _ bufs 0 hmem
        cases hi <;> contradiction
      rw [List.count_append, hz, Nat.add_zero]

theorem handle_dequeue_buffers_count (K : hfi_defs) (st : sess) :
    (handle_dequeue_buffers K st).2.inst.events.count vidc_event.dequeue_buffers =
      st.inst.events.count vidc_event.dequeue_buffers + 1 := by
  unfold handle_dequeue_buffers
  rw [dequeue_types_count]
  simp [sess.log]

theorem finish_dispatch_count (K : hfi_defs) (r : dispatch_result) (hrc : r.rc = 0) :
    (finish_dispatch K r).2.inst.events.count vidc_event.dequeue_buffers =
      r.st.inst.events.count vidc_event.dequeue_buffers +
        (if r.hfi_cmd_type = K.HFI_CMD_BUFFER then 1 else 0) := by
  unfold finish_dispatch
  rw [if_neg (not_not.mpr hrc)]
  by_cases hc : r.hfi_cmd_type = K.HFI_CMD_BUFFER
  · rw [if_pos hc, if_pos hc]
    split_ifs
    · exact handle_dequeue_buffers_count K r.st
    · exact handle_dequeue_buffers_count K r.st
  · rw [if_neg hc, if_neg hc]
    rfl

/-- Claim C12, counterexample: a valid session batch of a `HFI_CMD_BUFFER`
packet followed by a `HFI_CMD_START` packet is dispatched with return code 0,
`handle_session_command` runs on both packets, and `handle_dequeue_buffers` is
not run: the Output record stays `Dequeued` and no completion is notified. -/
theorem command_pass_without_dequeue :
    (handle_session_response venus ops_ok (world_with batch_buffer_then_start) 0x1000).1 = 0 ∧
    ((handle_session_response venus ops_ok (world_with batch_buffer_then_start)
        0x1000).2.core.instances 7).map (fun i => i.calls) = some [(3, 0x1020), (3, 0x1080)] ∧
    ((handle_session_response venus ops_ok (world_with batch_buffer_then_start)
        0x1000).2.core.instances 7).map
      (fun i => i.events.count vidc_event.dequeue_buffers) = some 0 ∧
    ((handle_session_response venus ops_ok (world_with batch_buffer_then_start)
        0x1000).2.core.instances 7).map
      (fun i => (i.buffers msm_vidc_buffer_type.MSM_VIDC_BUF_OUTPUT).map
        (fun l => l.map (fun b => has_flag b.attr venus.MSM_VIDC_ATTR_DEQUEUED))) =
      some (some [true]) ∧
    ((handle_session_response venus ops_ok (world_with batch_buffer_then_start)
        0x1000).2.core.instances 7).map (fun i => i.events) = some [] := by
  decide

theorem scan_response_work_first (K : hfi_defs) (X : vidc_ops) (hdr p : Nat) :
    ∀ (n : Nat) (st : sess) (pkt : Nat),
      (packets st.mem pkt n).find? (is_trigger K st.mem) = some p →
      scan_response_work K X hdr n st pkt =
        some (match trigger_kind K st.mem p with
          | some kind => queue_response_work X st kind hdr (read32 st.mem hdr)
          | none => (0, st)) := by
  intro n
  induction n with
  | zero => intro st pkt h; simp [packets] at h
  | succ n ih =>
    intro st pkt h
    unfold packets at h
    unfold scan_response_work
    by_cases ht : is_trigger K st.mem pkt = true
    · rw [List.find?_cons_of_pos _ ht] at h
      have hp : p = pkt := (Option.some.inj h).symm
      rw [hp]
      unfold trigger_kind
      by_cases h1 : read32 st.mem (pkt + K.pkt_type) = K.HFI_CMD_SETTINGS_CHANGE
      · rw [if_pos h1, if_pos h1]
        split_ifs <;> rfl
      · rw [if_neg h1, if_neg h1]
        have h2 : read32 st.mem (pkt + K.pkt_type) = K.HFI_CMD_BUFFER ∧
            read32 st.mem (pkt + K.pkt_port) = K.HFI_PORT_RAW ∧
            check_last_flag K st.mem pkt = true := by
          simpa [is_trigger, h1, and_assoc] using ht
        rw [if_pos h2, if_pos h2]
    · rw [List.find?_cons_of_neg _ ht] at h
      have h1 : read32 st.mem (pkt + K.pkt_type) ≠ K.HFI_CMD_SETTINGS_CHANGE := by
        intro e; exact ht (by simp [is_trigger, e])
      have h2 : ¬ (read32 st.mem (pkt + K.pkt_type) = K.HFI_CMD_BUFFER ∧
            read32 st.mem (pkt + K.pkt_port) = K.HFI_PORT_RAW ∧
            check_last_flag K st.mem pkt = true) := by
        intro e; exact ht (by simp [is_trigger, e.1, e.2.1, e.2.2])
      rw [if_neg h1, if_neg h2]
      exact ih st _ h

/-- Claim C13: deferral.  For a session batch that passes validation and whose
first trigger packet in wire order asks for a work item of kind `kind`
(`INPUT_PSC` for a settings change on the bitstream port, `OUTPUT_PSC` for one
on the raw port, `LAST_FLAG` for a last-flag buffer on the raw port), and with
both allocations succeeding, `handle_session_response` returns 0; the instance
is as before except that exactly one item of that kind, pointing at the copy
and of length `hdr->size`, is appended at the tail of `response_works` behind
the items already queued and the delayed work is scheduled, so that no handler
ran (the call log is the same) and no buffer record, subscription parameter or
frame-info field changed; the copy holds the first `hdr->size` bytes of the
batch and no other byte of memory changed. -/
theorem deferral_queues_one_snapshot (K : hfi_defs) (X : vidc_ops) (w : world) (hdr : Nat)
    (inst : msm_vidc_inst) (p : Nat) (kind : response_work_type)
    (hinst : w.core.instances (read32 w.mem (hdr + K.hdr_session_id)) = some inst)
    (hvalid : validate_packets w.mem w.core.response_packet w.core.packet_size
      (read32 w.mem (hdr + K.hdr_num_packets)) (hdr + K.sizeof_hfi_header) = true)
    (hfirst : (packets w.mem (hdr + K.sizeof_hfi_header)
      (read32 w.mem (hdr + K.hdr_num_packets))).find? (is_trigger K w.mem) = some p)
    (hkind : trigger_kind K w.mem p = some kind)
    (hwork : X.kzalloc_work inst = true)
    (hdata : X.kzalloc_data inst (read32 w.mem hdr) ≠ 0) :
    (handle_session_response K X w hdr).1 = 0 ∧
    (handle_session_response K X w hdr).2.core.instances
        (read32 w.mem (hdr + K.hdr_session_id)) =
      some { inst with
        response_works := inst.response_works ++
          [⟨kind, X.kzalloc_data inst (read32 w.mem hdr), read32 w.mem hdr⟩],
        events := inst.events ++ [vidc_event.queue_delayed_work] } ∧
    (∀ i, i < read32 w.mem hdr →
      (handle_session_response K X w hdr).2.mem (X.kzalloc_data inst (read32 w.mem hdr) + i) =
        w.mem (hdr + i)) ∧
    (∀ x, x < X.kzalloc_data inst (read32 w.mem hdr) ∨
        X.kzalloc_data inst (read32 w.mem hdr) + read32 w.mem hdr ≤ x →
      (handle_session_response K X w hdr).2.mem x = w.mem x) := by
  have hscan := scan_response_work_first K X hdr p _ ⟨w.mem, inst⟩ _ hfirst
  have hres : session_response K X w.core.response_packet w.core.packet_size ⟨w.mem, inst⟩ hdr =
      queue_response_work X ⟨w.mem, inst⟩ kind hdr (read32 w.mem hdr) := by
    unfold session_response
    simp only [hvalid, hscan, hkind]
    rfl
  unfold handle_session_response
  rw [hinst]
  simp only [hres, queue_response_work, hwork, hdata, if_false, if_true, Bool.true_eq_false]
  refine ⟨trivial, trivial, ?_, ?_⟩
  · intro i hi
    simp [memcpy, hi]
  · intro x hx
    have : ¬ (X.kzalloc_data inst (read32 w.mem hdr) ≤ x ∧
        x < X.kzalloc_data inst (read32 w.mem hdr) + read32 w.mem hdr) := by omega
    simp [memcpy, this]

/-- Witness for C13: in `batch_error_last_psc` the first trigger packet on the
wire is the last-flag buffer packet at `0x1040`; one `LAST_FLAG` item holding
the 192 bytes of the batch at `0x9000` is queued and nothing else changes. -/
theorem deferral_queues_one_snapshot_witness :
    (handle_session_response venus ops_ok (world_with batch_error_last_psc) 0x1000).1 = 0 ∧
    (handle_session_response venus ops_ok (world_with batch_error_last_psc) 0x1000).2.core.instances
        7 =
      some { dec_inst (out_record 0x8) [] with
        response_works := [⟨response_work_type.RESP_WORK_LAST_FLAG, 0x9000, 192⟩],
        events := [vidc_event.queue_delayed_work] } ∧
    (∀ i, i < 192 →
      (handle_session_response venus ops_ok (world_with batch_error_last_psc) 0x1000).2.mem
        (0x9000 + i) = (world_with batch_error_last_psc).mem (0x1000 + i)) ∧
    (∀ x, x < 0x9000 ∨ 0x9000 + 192 ≤ x →
      (handle_session_response venus ops_ok (world_with batch_error_last_psc) 0x1000).2.mem x =
        (world_with batch_error_last_psc).mem x) :=
  deferral_queues_one_snapshot venus ops_ok (world_with batch_error_last_psc) 0x1000
    (dec_inst (out_record 0x8) []) 0x1040 response_work_type.RESP_WORK_LAST_FLAG
    rfl (by decide) (by decide) (by decide) rfl (by decide)

/-- Claim C14: when `handle_session_response_work_handler` reaches a queued
`INPUT_PSC` item `A` for which `msm_vidc_allow_input_psc` answers Disallow, the
step for `A` moves the instance to the Error state and sends control to
`list_del`; `handle_session_response_work` is not run, so the memory, the call
log of the packet handlers, the buffer records and everything else of the
instance are as before; the loop goes on with the items behind `A` on a queue
from which `A` is removed (`kept ++ rest`, `kept` being the items passed over
before).  When `A` is the head of the queue the whole drain cycle is the loop
over the items behind it in that state. -/
theorem disallow_moves_to_error_and_drops (K : hfi_defs) (X : vidc_ops) (st : sess)
    (kept : List response_work) (A : response_work) (rest : List response_work)
    (hA : A.type = response_work_type.RESP_WORK_INPUT_PSC)
    (hdis : X.msm_vidc_allow_input_psc st.inst = msm_vidc_allow.MSM_VIDC_DISALLOW) :
    response_work_item K X st A =
      (false, { mem := st.mem, inst := { st.inst with
          state := K.MSM_VIDC_ERROR,
          events := st.inst.events ++ [vidc_event.change_inst_state K.MSM_VIDC_ERROR] } }) ∧
    response_work_loop K X kept (A :: rest) st =
      response_work_loop K X kept rest
        { mem := st.mem, inst := { st.inst with
            state := K.MSM_VIDC_ERROR,
            events := st.inst.events ++ [vidc_event.change_inst_state K.MSM_VIDC_ERROR],
            response_works := kept ++ rest } } ∧
    (st.inst.response_works = A :: rest →
      handle_session_response_work_handler K X st =
        response_work_loop K X [] rest
          { mem := st.mem, inst := { st.inst with
              state := K.MSM_VIDC_ERROR,
              events := st.inst.events ++ [vidc_event.change_inst_state K.MSM_VIDC_ERROR],
              response_works := rest } }) := by
  have hitem : response_work_item K X st A =
      (false, { mem := st.mem, inst := { st.inst with
          state := K.MSM_VIDC_ERROR,
          events := st.inst.events ++ [vidc_event.change_inst_state K.MSM_VIDC_ERROR] } }) := by
    unfold response_work_item
    rw [hA]
    dsimp only
    rw [hdis]
    rfl
  have hloop : ∀ kept, response_work_loop K X kept (A :: rest) st =
      response_work_loop K X kept rest
        { mem := st.mem, inst := { st.inst with
            state := K.MSM_VIDC_ERROR,
            events := st.inst.events ++ [vidc_event.change_inst_state K.MSM_VIDC_ERROR],
            response_works := kept ++ rest } } := by
    intro kept
    simp only [response_work_loop, hitem, Bool.false_eq_true, if_false]
  refine ⟨hitem, hloop kept, ?_⟩
  intro hqueue
  unfold handle_session_response_work_handler
  rw [hqueue, hloop []]
  rfl

/-- Witness for C14: with the admission predicate answering Disallow, the drain
cycle of a queue holding one input port-settings change leaves the instance in
the Error state (tag 7) with an empty queue, one state transition logged, no
handler called and the Output record as it was. -/
theorem disallow_moves_to_error_and_drops_witness :
    handle_session_response_work_handler venus ops_disallow sess_input_psc =
      { mem := sess_input_psc.mem, inst := { sess_input_psc.inst with
          state := 7,
          events := [vidc_event.change_inst_state 7],
          response_works := [] } } ∧
    (handle_session_response_work_handler venus ops_disallow sess_input_psc).inst.calls = [] ∧
    (handle_session_response_work_handler venus ops_disallow sess_input_psc).inst.buffers
        msm_vidc_buffer_type.MSM_VIDC_BUF_OUTPUT = some [out_record 0x8] :=
  ⟨(disallow_moves_to_error_and_drops venus ops_disallow sess_input_psc []
      ⟨response_work_type.RESP_WORK_INPUT_PSC, 0x1000, 160⟩ [] rfl rfl).2.2 rfl,
    by decide, by decide⟩

theorem scan_packets_skip (K : hfi_defs) (row : msm_vidc_hfi_range) (i : Nat) :
    ∀ (n : Nat) (st : sess) (pkt c : Nat),
      (∀ p ∈ packets st.mem pkt n,
        in_range row.range_begin row.range_end (read32 st.mem (p + K.pkt_type)) = false) →
      scan_packets K row i n st pkt c = ⟨0, st, c⟩ := by
  intro n
  induction n with
  | zero => intro st pkt c _; rfl
  | succ n ih =>
    intro st pkt c h
    unfold scan_packets
    have h0 := h pkt (by simp [packets])
    rw [if_neg (by rw [h0]; simp)]
    exact ih st _ c (fun p hp => h p (by simp [packets, hp]))

/-- Claim C15, counterexample: the valid session batch `batch_unknown_type` holds
one packet whose type is in none of the four category ranges;
`handle_session_response` returns 0, the instance keeps its state tag 1 (the
Error state is `MSM_VIDC_ERROR = 7`) and no outbound call, in particular no
state transition, is made. -/
theorem unknown_session_type_is_not_fatal :
    validate_packets (world_with batch_unknown_type).mem 0x1000 4096 1 0x1020 = true ∧
    unknown_type venus (read32 (world_with batch_unknown_type).mem (0x1020 + venus.pkt_type)) =
      true ∧
    (handle_session_response venus ops_ok (world_with batch_unknown_type) 0x1000).1 = 0 ∧
    ((handle_session_response venus ops_ok (world_with batch_unknown_type) 0x1000).2.core.instances
        7).map (fun i => i.state) = some 1 ∧
    venus.MSM_VIDC_ERROR = 7 ∧
    ((handle_session_response venus ops_ok (world_with batch_unknown_type) 0x1000).2.core.instances
        7).map (fun i => i.events) = some [] := by
  decide

/-- Claim C15 (amended): at session scope a packet of unknown type is skipped.
For a session batch that passes validation, holds no trigger packet and whose
packets all have a type in none of the four category ranges,
`handle_session_response` returns 0, invokes no handler and makes no outbound
call: the memory is unchanged and the instance is as before, its state tag
included, except that the frame info is zeroed.  No transition to the Error
state takes place. -/
theorem unknown_session_packets_skipped (K : hfi_defs) (X : vidc_ops) (w : world) (hdr : Nat)
    (inst : msm_vidc_inst)
    (hinst : w.core.instances (read32 w.mem (hdr + K.hdr_session_id)) = some inst)
    (hvalid : validate_packets w.mem w.core.response_packet w.core.packet_size
      (read32 w.mem (hdr + K.hdr_num_packets)) (hdr + K.sizeof_hfi_header) = true)
    (hnodefer : scan_response_work K X hdr (read32 w.mem (hdr + K.hdr_num_packets)) ⟨w.mem, inst⟩
      (hdr + K.sizeof_hfi_header) = none)
    (hcmd : K.HFI_CMD_BUFFER ≠ 0)
    (hunknown : ∀ p ∈ packets w.mem (hdr + K.sizeof_hfi_header)
      (read32 w.mem (hdr + K.hdr_num_packets)),
      unknown_type K (read32 w.mem (p + K.pkt_type)) = true) :
    (handle_session_response K X w hdr).1 = 0 ∧
    (handle_session_response K X w hdr).2.mem = w.mem ∧
    (handle_session_response K X w hdr).2.core.instances
        (read32 w.mem (hdr + K.hdr_session_id)) =
      some { inst with hfi_frame_info := ⟨0, 0, 0⟩ } := by
  have hu : ∀ p ∈ packets w.mem (hdr + K.sizeof_hfi_header)
      (read32 w.mem (hdr + K.hdr_num_packets)),
      in_range K.HFI_SESSION_ERROR_BEGIN K.HFI_SESSION_ERROR_END (read32 w.mem (p + K.pkt_type))
        = false ∧
      in_range K.HFI_INFORMATION_BEGIN K.HFI_INFORMATION_END (read32 w.mem (p + K.pkt_type))
        = false ∧
      in_range K.HFI_PROP_BEGIN K.HFI_PROP_END (read32 w.mem (p + K.pkt_type)) = false ∧
      in_range K.HFI_CMD_BEGIN K.HFI_CMD_END (read32 w.mem (p + K.pkt_type)) = false := by
    intro p hp
    have := hunknown p hp
    simpa [unknown_type, and_assoc] using this
  have hd : session_dispatch K X ⟨w.mem, inst⟩ hdr = ⟨0, clear_frame_info ⟨w.mem, inst⟩, 0⟩ := by
    unfold session_dispatch
    simp only [be, dispatch_rows]
    rw [scan_packets_skip K _ 0 _ _ _ _ (fun p hp => (hu p hp).1)]
    dsimp only
    rw [if_neg (by simp), scan_packets_skip K _ 1 _ _ _ _ (fun p hp => (hu p hp).2.1)]
    dsimp only
    rw [if_neg (by simp), scan_packets_skip K _ 2 _ _ _ _ (fun p hp => (hu p hp).2.2.1)]
    dsimp only
    rw [if_neg (by simp), scan_packets_skip K _ 3 _ _ _ _ (fun p hp => (hu p hp).2.2.2)]
    dsimp only
    rw [if_neg (by simp)]
  have hres : session_response K X w.core.response_packet w.core.packet_size ⟨w.mem, inst⟩ hdr =
      (0, clear_frame_info ⟨w.mem, inst⟩) := by
    rw [session_response_dispatch K X _ _ ⟨w.mem, inst⟩ hdr hvalid hnodefer, hd]
    unfold finish_dispatch
    dsimp only
    rw [if_neg (by simp), if_neg (fun h => hcmd h.symm)]
    rfl
  unfold handle_session_response
  rw [hinst]
  simp only [hres, clear_frame_info, if_true]
  exact ⟨trivial, trivial, trivial⟩

/-- Witness for C15: the batch `batch_unknown_type` is handled with return code 0
and the instance is as before (its frame info was zero already). -/
theorem unknown_session_packets_skipped_witness :
    (handle_session_response venus ops_ok (world_with batch_unknown_type) 0x1000).1 = 0 ∧
    (handle_session_response venus ops_ok (world_with batch_unknown_type) 0x1000).2.mem =
      (world_with batch_unknown_type).mem ∧
    (handle_session_response venus ops_ok (world_with batch_unknown_type) 0x1000).2.core.instances
        7 = some { dec_inst (out_record 0x8) [] with hfi_frame_info := ⟨0, 0, 0⟩ } :=
  unknown_session_packets_skipped venus ops_ok (world_with batch_unknown_type) 0x1000
    (dec_inst (out_record 0x8) []) rfl (by decide) rfl (by decide) (by decide)

/-- Claim C16, counterexample: in the valid system batch `batch_unknown_then_init`
a packet of unknown type precedes a successful `HFI_CMD_INIT` packet;
`handle_system_response` returns `-EINVAL`, no handler is invoked and the
initialisation is not signalled: the unknown packet made the pipeline fail and
stopped the packet behind it from being processed. -/
theorem unknown_system_type_fails_batch :
    validate_packet (world_with batch_unknown_then_init).mem 0x1020 0x1000 4096 = 0 ∧
    validate_packet (world_with batch_unknown_then_init).mem 0x1040 0x1000 4096 = 0 ∧
    unknown_system_type venus
      (read32 (world_with batch_unknown_then_init).mem (0x1020 + venus.pkt_type)) = true ∧
    (handle_system_response venus (world_with batch_unknown_then_init) 0x1000).1 = -EINVAL ∧
    (handle_system_response venus (world_with batch_unknown_then_init) 0x1000).2.core.calls = [] ∧
    (handle_system_response venus (world_with batch_unknown_then_init) 0x1000).2.core.events = [] ∧
    (handle_response venus ops_ok (world_with batch_unknown_then_init) 0x1000).1 = -EINVAL := by
  decide

/-- Claim C16 (amended): at system scope an unknown packet type ends the batch
with a failure.  When the loop of `handle_system_response` reaches a valid
packet whose type is not `HFI_CMD_INIT`, not inside the system-error range and
not inside the system property range, the function returns `-EINVAL` at once
with the state as it is at that point: no handler runs on the packet and the
packets behind it are not processed.  In particular a batch whose first packet
is of unknown type returns `-EINVAL` with nothing done. -/
theorem unknown_system_type_ends_batch (K : hfi_defs) (w : world) (pkt : Nat)
    (hvalid : validate_packet w.mem pkt w.core.response_packet w.core.packet_size = 0)
    (hunknown : unknown_system_type K (read32 w.mem (pkt + K.pkt_type)) = true) :
    (∀ (n : Nat) (rc : Int), system_packets K (n + 1) rc w pkt = (-EINVAL, w)) ∧
    (∀ hdr, pkt = hdr + K.sizeof_hfi_header → read32 w.mem (hdr + K.hdr_num_packets) ≠ 0 →
      handle_system_response K w hdr = (-EINVAL, w)) := by
  have hu : read32 w.mem (pkt + K.pkt_type) ≠ K.HFI_CMD_INIT ∧
      ¬ (read32 w.mem (pkt + K.pkt_type) > K.HFI_SYSTEM_ERROR_BEGIN ∧
        read32 w.mem (pkt + K.pkt_type) < K.HFI_SYSTEM_ERROR_END) ∧
      ¬ (read32 w.mem (pkt + K.pkt_type) > K.HFI_PROP_BEGIN ∧
        read32 w.mem (pkt + K.pkt_type) < K.HFI_PROP_CODEC) := by
    have h := hunknown
    simp only [unknown_system_type, Bool.and_eq_true, Bool.not_eq_true', decide_eq_true_eq,
      Bool.and_eq_false_imp, decide_eq_false_iff_not] at h
    refine ⟨h.1.1, fun hc => ?_, fun hc => ?_⟩
    · exact h.1.2 hc.1 hc.2
    · exact h.2 hc.1 hc.2
  have hstep : ∀ (n : Nat) (rc : Int), system_packets K (n + 1) rc w pkt = (-EINVAL, w) := by
    intro n rc
    unfold system_packets
    dsimp only
    rw [if_neg (by rw [hvalid]; simp), if_neg hu.1, if_neg hu.2.1, if_neg hu.2.2]
  refine ⟨hstep, ?_⟩
  intro hdr hp hn
  unfold handle_system_response
  obtain ⟨n, hn'⟩ := Nat.exists_eq_succ_of_ne_zero hn
  rw [hn', ← hp]
  exact hstep n 0

/-- Witness for C16: the batch `batch_unknown_then_init` returns `-EINVAL` with the
state as it was. -/
theorem unknown_system_type_ends_batch_witness :
    (∀ (n : Nat) (rc : Int),
      system_packets venus (n + 1) rc (world_with batch_unknown_then_init) 0x1020 =
        (-EINVAL, world_with batch_unknown_then_init)) ∧
    (∀ hdr, 0x1020 = hdr + venus.sizeof_hfi_header →
      read32 (world_with batch_unknown_then_init).mem (hdr + venus.hdr_num_packets) ≠ 0 →
      handle_system_response venus (world_with batch_unknown_then_init) hdr =
        (-EINVAL, world_with batch_unknown_then_init)) :=
  unknown_system_type_ends_batch venus (world_with batch_unknown_then_init) 0x1020
    (by decide) (by decide)

theorem find_buffer_none (addr : Nat) : ∀ (l : List msm_vidc_buffer),
    (∀ b ∈ l, b.device_addr ≠ addr) → find_buffer addr l = none := by
  intro l
  induction l with
  | nil => intro _; rfl
  | cons c cs ih =>
    intro h
    unfold find_buffer
    rw [if_neg (h c (List.mem_cons_self _ _)), ih (fun b hb => h b (List.mem_cons_of_mem _ hb))]
    rfl

theorem no_match_some (K : hfi_defs) (st : sess) (buffer : Nat) (ty : msm_vidc_buffer_type)
    (l : List msm_vidc_buffer) (h : no_match K st buffer ty) (hl : st.inst.buffers ty = some l) :
    ∀ b ∈ l, b.device_addr ≠ read64 st.mem (buffer + K.buf_base_address) := by
  unfold no_match at h
  rw [hl] at h
  exact h

theorem handle_input_buffer_not_found (K : hfi_defs) (X : vidc_ops) (st : sess) (buffer : Nat)
    (h : no_match K st buffer msm_vidc_buffer_type.MSM_VIDC_BUF_INPUT) :
    handle_input_buffer K X st buffer = (-EINVAL, st) := by
  by_cases hc : buffer = 0 ∨ st.inst.capabilities = none ∨ st.inst.has_core = false
  · simp only [handle_input_buffer, if_pos hc]
  · cases hl : st.inst.buffers msm_vidc_buffer_type.MSM_VIDC_BUF_INPUT with
    | none => simp only [handle_input_buffer, if_neg hc, hl]
    | some l => simp only [handle_input_buffer, if_neg hc, hl, find_buffer_none _ l (no_match_some K st buffer _ l h hl)]

theorem handle_input_metadata_buffer_not_found (K : hfi_defs) (X : vidc_ops) (st : sess)
    (buffer : Nat) (h : no_match K st buffer msm_vidc_buffer_type.MSM_VIDC_BUF_INPUT_META) :
    handle_input_metadata_buffer K X st buffer = (-EINVAL, st) := by
  by_cases hc : buffer = 0 ∨ st.inst.capabilities = none ∨ st.inst.has_core = false
  · simp only [handle_input_metadata_buffer, if_pos hc]
  · cases hl : st.inst.buffers msm_vidc_buffer_type.MSM_VIDC_BUF_INPUT_META with
    | none => simp only [handle_input_metadata_buffer, if_neg hc, hl]
    | some l => simp only [handle_input_metadata_buffer, if_neg hc, hl, find_buffer_none _ l (no_match_some K st buffer _ l h hl)]

theorem handle_output_buffer_not_found (K : hfi_defs) (X : vidc_ops) (st : sess) (buffer : Nat)
    (h : no_match K st buffer msm_vidc_buffer_type.MSM_VIDC_BUF_OUTPUT) :
    handle_output_buffer K X st buffer = (-EINVAL, st) := by
  unfold handle_output_buffer
  cases hl : st.inst.buffers msm_vidc_buffer_type.MSM_VIDC_BUF_OUTPUT with
  | none => rfl
  | some l => simp only [find_buffer_none _ l (no_match_some K st buffer _ l h hl)]

theorem handle_output_metadata_buffer_not_found (K : hfi_defs) (st : sess) (buffer : Nat)
    (h : no_match K st buffer msm_vidc_buffer_type.MSM_VIDC_BUF_OUTPUT_META) :
    handle_output_metadata_buffer K st buffer = (-EINVAL, st) := by
  unfold handle_output_metadata_buffer
  cases hl : st.inst.buffers msm_vidc_buffer_type.MSM_VIDC_BUF_OUTPUT_META with
  | none => rfl
  | some l => simp only [find_buffer_none _ l (no_match_some K st buffer _ l h hl)]

theorem handle_internal_buffer_not_found (K : hfi_defs) (X : vidc_ops)
    (ty : msm_vidc_buffer_type) (st : sess) (buffer : Nat) (h : no_match K st buffer ty) :
    handle_internal_buffer K X ty st buffer = (-EINVAL, st) := by
  unfold handle_internal_buffer
  cases hl : st.inst.buffers ty with
  | none => rfl
  | some l => simp only [find_buffer_none _ l (no_match_some K st buffer _ l h hl)]

theorem buffer_handler_not_found (K : hfi_defs) (X : vidc_ops) (ty : msm_vidc_buffer_type)
    (st : sess) (buffer : Nat) (h : no_match K st buffer ty) :
    buffer_handler K X ty st buffer = (-EINVAL, st) := by
  cases ty
  · exact handle_input_buffer_not_found K X st buffer h
  · exact handle_output_buffer_not_found K X st buffer h
  · exact handle_input_metadata_buffer_not_found K X st buffer h
  · exact handle_output_metadata_buffer_not_found K st buffer h
  · exact handle_internal_buffer_not_found K X _ st buffer h
  · exact handle_internal_buffer_not_found K X _ st buffer h
  · exact handle_internal_buffer_not_found K X _ st buffer h
  · exact handle_internal_buffer_not_found K X _ st buffer h
  · exact handle_internal_buffer_not_found K X _ st buffer h
  · exact handle_internal_buffer_not_found K X _ st buffer h
  · exact handle_internal_buffer_not_found K X _ st buffer h

theorem route_ite (K : hfi_defs) (X : vidc_ops) (st : sess) (buffer : Nat) (c : Prop)
    [Decidable c] (ty : msm_vidc_buffer_type) (x y : Option msm_vidc_buffer_type)
    (u v : Int × sess)
    (h1 : x = some ty → u = buffer_handler K X ty st buffer)
    (h2 : y = some ty → v = buffer_handler K X ty st buffer) :
    (if c then x else y) = some ty → (if c then u else v) = buffer_handler K X ty st buffer := by
  by_cases hc : c
  · rw [if_pos hc, if_pos hc]; exact h1
  · rw [if_neg hc, if_neg hc]; exact h2

theorem handle_session_buffer_routes (K : hfi_defs) (X : vidc_ops) (st : sess) (pkt : Nat)
    (ty : msm_vidc_buffer_type)
    (herr : has_flag (read32 st.mem (pkt + K.pkt_flags)) K.HFI_FW_FLAGS_SESSION_ERROR = false)
    (hpay : read32 st.mem (pkt + K.pkt_payload_info) ≠ K.HFI_PAYLOAD_NONE)
    (hty : is_valid_hfi_buffer_type K
      (read32 st.mem (pkt + K.sizeof_hfi_packet + K.buf_type)) = true)
    (hport : is_valid_hfi_port K (read32 st.mem (pkt + K.pkt_port))
      (read32 st.mem (pkt + K.sizeof_hfi_packet + K.buf_type)) = true)
    (htarget : target_collection K st.inst.domain (read32 st.mem (pkt + K.pkt_port))
      (read32 st.mem (pkt + K.sizeof_hfi_packet + K.buf_type)) = some ty) :
    handle_session_buffer K X st pkt = buffer_handler K X ty st (pkt + K.sizeof_hfi_packet) := by
  unfold handle_session_buffer
  unfold target_collection at htarget
  simp only [herr, hpay, hty, hport, Bool.false_eq_true, if_false, Bool.true_eq_false]
  revert htarget
  cases st.inst.domain <;> dsimp only
  · repeat (first
      | apply route_ite
      | (intro h; cases h; rfl)
      | (intro h; cases h))
  · repeat (first
      | apply route_ite
      | (intro h; cases h; rfl)
      | (intro h; cases h))
  · intro h; cases h

/-- Claim C17: every buffer completion handler (Input, Output, Input metadata,
Output metadata, DPB, PERSIST, LINE, NON_COMV, COMV, BIN, ARP) returns
`-EINVAL` and leaves the whole state, the buffer records included, as it was
when no record of its collection has a device address equal to the
completion's `base_address`.  The failure is propagated: for a
`HFI_CMD_BUFFER` packet that passes the checks of `handle_session_buffer` and
is routed to the handler of collection `ty`, in which nothing matches,
`handle_session_buffer` and `handle_session_command` return `-EINVAL` with the
state unchanged, and the dispatch pass that reaches the packet with `n`
packets behind it ends there: the pass returns `-EINVAL`, the packets behind
are not handled and `handle_dequeue_buffers` is not run (the state is the one
in which the packet was reached, with the call on it noted). -/
theorem buffer_not_found_ends_batch (K : hfi_defs) (X : vidc_ops) (st : sess) (pkt : Nat)
    (ty : msm_vidc_buffer_type)
    (hcmd : read32 st.mem (pkt + K.pkt_type) = K.HFI_CMD_BUFFER)
    (hdistinct : K.HFI_CMD_BUFFER ≠ K.HFI_CMD_OPEN ∧ K.HFI_CMD_BUFFER ≠ K.HFI_CMD_CLOSE ∧
      K.HFI_CMD_BUFFER ≠ K.HFI_CMD_START ∧ K.HFI_CMD_BUFFER ≠ K.HFI_CMD_STOP ∧
      K.HFI_CMD_BUFFER ≠ K.HFI_CMD_DRAIN)
    (hrange : in_range K.HFI_CMD_BEGIN K.HFI_CMD_END K.HFI_CMD_BUFFER = true)
    (herr : has_flag (read32 st.mem (pkt + K.pkt_flags)) K.HFI_FW_FLAGS_SESSION_ERROR = false)
    (hpay : read32 st.mem (pkt + K.pkt_payload_info) ≠ K.HFI_PAYLOAD_NONE)
    (hty : is_valid_hfi_buffer_type K
      (read32 st.mem (pkt + K.sizeof_hfi_packet + K.buf_type)) = true)
    (hport : is_valid_hfi_port K (read32 st.mem (pkt + K.pkt_port))
      (read32 st.mem (pkt + K.sizeof_hfi_packet + K.buf_type)) = true)
    (htarget : target_collection K st.inst.domain (read32 st.mem (pkt + K.pkt_port))
      (read32 st.mem (pkt + K.sizeof_hfi_packet + K.buf_type)) = some ty)
    (hno : no_match K st (pkt + K.sizeof_hfi_packet) ty) :
    (∀ (s : sess) (buffer : Nat),
      (no_match K s buffer msm_vidc_buffer_type.MSM_VIDC_BUF_INPUT →
        handle_input_buffer K X s buffer = (-EINVAL, s)) ∧
      (no_match K s buffer msm_vidc_buffer_type.MSM_VIDC_BUF_OUTPUT →
        handle_output_buffer K X s buffer = (-EINVAL, s)) ∧
      (no_match K s buffer msm_vidc_buffer_type.MSM_VIDC_BUF_INPUT_META →
        handle_input_metadata_buffer K X s buffer = (-EINVAL, s)) ∧
      (no_match K s buffer msm_vidc_buffer_type.MSM_VIDC_BUF_OUTPUT_META →
        handle_output_metadata_buffer K s buffer = (-EINVAL, s)) ∧
      (no_match K s buffer msm_vidc_buffer_type.MSM_VIDC_BUF_DPB →
        handle_dpb_buffer K X s buffer = (-EINVAL, s)) ∧
      (no_match K s buffer msm_vidc_buffer_type.MSM_VIDC_BUF_PERSIST →
        handle_persist_buffer K X s buffer = (-EINVAL, s)) ∧
      (no_match K s buffer msm_vidc_buffer_type.MSM_VIDC_BUF_LINE →
        handle_line_buffer K X s buffer = (-EINVAL, s)) ∧
      (no_match K s buffer msm_vidc_buffer_type.MSM_VIDC_BUF_NON_COMV →
        handle_non_comv_buffer K X s buffer = (-EINVAL, s)) ∧
      (no_match K s buffer msm_vidc_buffer_type.MSM_VIDC_BUF_COMV →
        handle_comv_buffer K X s buffer = (-EINVAL, s)) ∧
      (no_match K s buffer msm_vidc_buffer_type.MSM_VIDC_BUF_BIN →
        handle_bin_buffer K X s buffer = (-EINVAL, s)) ∧
      (no_match K s buffer msm_vidc_buffer_type.MSM_VIDC_BUF_ARP →
        handle_arp_buffer K X s buffer = (-EINVAL, s))) ∧
    handle_session_buffer K X st pkt = (-EINVAL, st) ∧
    handle_session_command K X st pkt = (-EINVAL, st) ∧
    (∀ (n c : Nat),
      scan_packets K ⟨K.HFI_CMD_BEGIN, K.HFI_CMD_END, handle_session_command K X⟩ 3 (n + 1)
        st pkt c = ⟨-EINVAL, st.call 3 pkt, K.HFI_CMD_BUFFER⟩ ∧
      finish_dispatch K
        (scan_packets K ⟨K.HFI_CMD_BEGIN, K.HFI_CMD_END, handle_session_command K X⟩ 3 (n + 1)
          st pkt c) = (-EINVAL, st.call 3 pkt)) := by
  have hbuf : ∀ s : sess, s.mem = st.mem → s.inst.domain = st.inst.domain →
      s.inst.buffers = st.inst.buffers → handle_session_buffer K X s pkt = (-EINVAL, s) := by
    intro s hm hd hb
    have hno' : no_match K s (pkt + K.sizeof_hfi_packet) ty := by
      unfold no_match at hno ⊢
      rw [hm, hb]; exact hno
    rw [handle_session_buffer_routes K X s pkt ty (by rw [hm]; exact herr)
      (by rw [hm]; exact hpay) (by rw [hm]; exact hty) (by rw [hm]; exact hport)
      (by rw [hm, hd]; exact htarget)]
    exact buffer_handler_not_found K X ty s _ hno'
  have hcommand : ∀ s : sess, s.mem = st.mem → s.inst.domain = st.inst.domain →
      s.inst.buffers = st.inst.buffers → handle_session_command K X s pkt = (-EINVAL, s) := by
    intro s hm hd hb
    unfold handle_session_command
    dsimp only
    rw [hm, hcmd, if_neg hdistinct.1, if_neg hdistinct.2.1, if_neg hdistinct.2.2.1,
      if_neg hdistinct.2.2.2.1, if_neg hdistinct.2.2.2.2, if_pos rfl]
    exact hbuf s hm hd hb
  have hscan : ∀ (n c : Nat),
      scan_packets K ⟨K.HFI_CMD_BEGIN, K.HFI_CMD_END, handle_session_command K X⟩ 3 (n + 1)
        st pkt c = ⟨-EINVAL, st.call 3 pkt, K.HFI_CMD_BUFFER⟩ := by
    intro n c
    unfold scan_packets
    dsimp only
    rw [hcmd, if_pos hrange, hcommand (st.call 3 pkt) rfl rfl rfl]
    rw [if_pos (by simp [EINVAL])]
  refine ⟨fun s buffer => ⟨handle_input_buffer_not_found K X s buffer,
    handle_output_buffer_not_found K X s buffer,
    handle_input_metadata_buffer_not_found K X s buffer,
    handle_output_metadata_buffer_not_found K s buffer,
    handle_internal_buffer_not_found K X _ s buffer,
    handle_internal_buffer_not_found K X _ s buffer,
    handle_internal_buffer_not_found K X _ s buffer,
    handle_internal_buffer_not_found K X _ s buffer,
    handle_internal_buffer_not_found K X _ s buffer,
    handle_internal_buffer_not_found K X _ s buffer,
    handle_internal_buffer_not_found K X _ s buffer⟩,
    hbuf st rfl rfl rfl, hcommand st rfl rfl rfl, fun n c => ⟨hscan n c, ?_⟩⟩
  rw [hscan n c]
  unfold finish_dispatch
  rw [if_pos (by simp [EINVAL])]

/-- Witness for C17: the batch `batch_stray_buffer_then_start` names an Output
buffer at `0x6000` that no record has.  The facts of the claim hold at its first
packet, and the whole pipeline returns `-EINVAL` having called the command
handler on that packet only: the `HFI_CMD_START` packet behind it is not
handled, no reconciliation runs and the Output record is as it was. -/
theorem buffer_not_found_ends_batch_witness :
    (handle_session_buffer venus ops_ok
        ⟨(world_with batch_stray_buffer_then_start).mem, dec_inst (out_record 0x8) []⟩ 0x1020 =
      (-EINVAL, ⟨(world_with batch_stray_buffer_then_start).mem, dec_inst (out_record 0x8) []⟩)) ∧
    (handle_session_response venus ops_ok (world_with batch_stray_buffer_then_start) 0x1000).1 =
      -EINVAL ∧
    ((handle_session_response venus ops_ok (world_with batch_stray_buffer_then_start)
        0x1000).2.core.instances 7).map (fun i => i.calls) = some [(3, 0x1020)] ∧
    ((handle_session_response venus ops_ok (world_with batch_stray_buffer_then_start)
        0x1000).2.core.instances 7).map (fun i => i.events) = some [] ∧
    ((handle_session_response venus ops_ok (world_with batch_stray_buffer_then_start)
        0x1000).2.core.instances 7).map
      (fun i => i.buffers msm_vidc_buffer_type.MSM_VIDC_BUF_OUTPUT) =
      some (some [out_record 0x8]) :=
  ⟨(buffer_not_found_ends_batch venus ops_ok
      ⟨(world_with batch_stray_buffer_then_start).mem, dec_inst (out_record 0x8) []⟩ 0x1020
      msm_vidc_buffer_type.MSM_VIDC_BUF_OUTPUT (by decide) (by decide) (by decide) (by decide)
      (by decide) (by decide) (by decide) (by decide) (by decide)).2.1,
    by decide, by decide, by decide, by decide⟩

/-- Claim C18: `handle_session_property`.  For a packet whose HFI port resolves
through `vidc_port_from_hfi` to a valid port `p` and whose type is one of the
ten subscription properties, the function returns 0 and the state afterwards is
the state before with the corresponding field of `subcr_params[p]` alone
replaced from the payload (both crop offsets from words 0 and 1, every other
field from word 0): the other fields of `subcr_params[p]`, the parameters of
the other port, the frame info, the buffer records and the memory are as
before.  For a type that is none of the cases of the `switch` (the ten, the
picture type and the no-output property) it returns `-EINVAL` and changes
nothing.  The ten codes are distinct, as the case labels of a `switch` are. -/
theorem handle_session_property_spec (K : hfi_defs) (st : sess) (pkt : Nat)
    (hnodup : (subscription_types K).Nodup) :
    (vidc_port_from_hfi K st.inst (read32 st.mem (pkt + K.pkt_port)) ≠
        msm_vidc_port_type.MAX_PORT →
      ∀ e ∈ subscription_table K (read32 st.mem (pkt + K.sizeof_hfi_packet))
          (read32 st.mem (pkt + K.sizeof_hfi_packet + 4)),
        read32 st.mem (pkt + K.pkt_type) = e.1 →
        handle_session_property K st pkt =
          (0, { mem := st.mem, inst := { st.inst with
              subcr_params := fun q =>
                if q = vidc_port_from_hfi K st.inst (read32 st.mem (pkt + K.pkt_port)) then
                  e.2 (st.inst.subcr_params
                    (vidc_port_from_hfi K st.inst (read32 st.mem (pkt + K.pkt_port))))
                else st.inst.subcr_params q } })) ∧
    (read32 st.mem (pkt + K.pkt_type) ∉ handled_types K →
      handle_session_property K st pkt = (-EINVAL, st)) := by
  refine ⟨?_, ?_⟩
  · intro hport e he htype
    simp only [subscription_types, subscription_table, List.map_cons, List.map_nil,
      List.nodup_cons, List.mem_cons, List.mem_singleton, not_or, List.not_mem_nil,
      not_false_eq_true, List.nodup_nil, and_true] at hnodup
    obtain ⟨⟨h0_1, h0_2, h0_3, h0_4, h0_5, h0_6, h0_7, h0_8, h0_9⟩, ⟨h1_2, h1_3, h1_4, h1_5, h1_6, h1_7, h1_8, h1_9⟩, ⟨h2_3, h2_4, h2_5, h2_6, h2_7, h2_8, h2_9⟩, ⟨h3_4, h3_5, h3_6, h3_7, h3_8, h3_9⟩, ⟨h4_5, h4_6, h4_7, h4_8, h4_9⟩, ⟨h5_6, h5_7, h5_8, h5_9⟩, ⟨h6_7, h6_8, h6_9⟩, ⟨h7_8, h7_9⟩, h8_9⟩ := hnodup
    unfold handle_session_property
    dsimp only
    rw [if_neg hport]
    simp only [subscription_table, List.mem_cons, List.mem_singleton, List.not_mem_nil,
      or_false] at he
    rcases he with he | he | he | he | he | he | he | he | he | he <;> subst he <;>
      dsimp only at htype ⊢
    · rw [htype, if_pos rfl]
      rfl
    · rw [htype, if_neg (fun e => h0_1 e.symm), if_pos rfl]
      rfl
    · rw [htype, if_neg (fun e => h0_2 e.symm), if_neg (fun e => h1_2 e.symm), if_pos rfl]
      rfl
    · rw [htype, if_neg (fun e => h0_3 e.symm), if_neg (fun e => h1_3 e.symm), if_neg (fun e => h2_3 e.symm), if_pos rfl]
      rfl
    · rw [htype, if_neg (fun e => h0_4 e.symm), if_neg (fun e => h1_4 e.symm), if_neg (fun e => h2_4 e.symm), if_neg (fun e => h3_4 e.symm), if_pos rfl]
      rfl
    · rw [htype, if_neg (fun e => h0_5 e.symm), if_neg (fun e => h1_5 e.symm), if_neg (fun e => h2_5 e.symm), if_neg (fun e => h3_5 e.symm), if_neg (fun e => h4_5 e.symm), if_pos rfl]
      rfl
    · rw [htype, if_neg (fun e => h0_6 e.symm), if_neg (fun e => h1_6 e.symm), if_neg (fun e => h2_6 e.symm), if_neg (fun e => h3_6 e.symm), if_neg (fun e => h4_6 e.symm), if_neg (fun e => h5_6 e.symm), if_pos rfl]
      rfl
    · rw [htype, if_neg (fun e => h0_7 e.symm), if_neg (fun e => h1_7 e.symm), if_neg (fun e => h2_7 e.symm), if_neg (fun e => h3_7 e.symm), if_neg (fun e => h4_7 e.symm), if_neg (fun e => h5_7 e.symm), if_neg (fun e => h6_7 e.symm), if_pos rfl]
      rfl
    · rw [htype, if_neg (fun e => h0_8 e.symm), if_neg (fun e => h1_8 e.symm), if_neg (fun e => h2_8 e.symm), if_neg (fun e => h3_8 e.symm), if_neg (fun e => h4_8 e.symm), if_neg (fun e => h5_8 e.symm), if_neg (fun e => h6_8 e.symm), if_neg (fun e => h7_8 e.symm), if_pos rfl]
      rfl
    · rw [htype, if_neg (fun e => h0_9 e.symm), if_neg (fun e => h1_9 e.symm), if_neg (fun e => h2_9 e.symm), if_neg (fun e => h3_9 e.symm), if_neg (fun e => h4_9 e.symm), if_neg (fun e => h5_9 e.symm), if_neg (fun e => h6_9 e.symm), if_neg (fun e => h7_9 e.symm), if_neg (fun e => h8_9 e.symm), if_pos rfl]
      rfl
  · intro hout
    simp only [handled_types, subscription_types, subscription_table, List.map_cons,
      List.map_nil, List.cons_append, List.nil_append, List.mem_cons, List.mem_singleton,
      not_or, List.not_mem_nil, not_false_eq_true, and_true] at hout
    obtain ⟨o0, o1, o2, o3, o4, o5, o6, o7, o8, o9, o10, o11⟩ := hout
    unfold handle_session_property
    dsimp only
    split_ifs
    · rfl
    · rfl

/-- Witness for C18: on a decoder, a crop-offsets property on the bitstream port
(the input port) replaces the two crop offsets of the input parameters by the
payload words and nothing else; a property of a type the function has no case
for is rejected with the state unchanged. -/
theorem handle_session_property_spec_witness :
    handle_session_property venus (sess_property 0x03000105) 0x1000 =
      (0, { mem := (sess_property 0x03000105).mem, inst := { (sess_property 0x03000105).inst with
          subcr_params := fun q =>
            if q = msm_vidc_port_type.INPUT_PORT then
              { (sess_property 0x03000105).inst.subcr_params msm_vidc_port_type.INPUT_PORT with
                crop_offsets0 := 0x00100020, crop_offsets1 := 0x00300040 }
            else (sess_property 0x03000105).inst.subcr_params q } }) ∧
    handle_session_property venus (sess_property 0x03000002) 0x1000 =
      (-EINVAL, sess_property 0x03000002) :=
  ⟨(handle_session_property_spec venus (sess_property 0x03000105) 0x1000 (by decide)).1
      (by decide)
      (venus.HFI_PROP_CROP_OFFSETS,
        fun s => { s with crop_offsets0 := 0x00100020, crop_offsets1 := 0x00300040 })
      (List.mem_cons_of_mem _ (List.mem_cons_self _ _)) rfl,
   (handle_session_property_spec venus (sess_property 0x03000002) 0x1000 (by decide)).2
      (by decide)⟩

theorem handle_system_init_effect (K : hfi_defs) (w : world) (pkt : Nat) :
    (handle_system_init K w pkt).1 = 0 ∧
    (handle_system_init K w pkt).2.mem = w.mem ∧
    (handle_system_init K w pkt).2.core =
      { w.core with events := w.core.events ++
          (if has_flag (read32 w.mem (pkt + K.pkt_flags)) K.HFI_FW_FLAGS_SUCCESS = true ∧
              has_flag (read32 w.mem (pkt + K.pkt_flags)) K.HFI_FW_FLAGS_SYSTEM_ERROR = false
            then [core_event.complete_init_done] else []) } := by
  unfold handle_system_init
  by_cases he : has_flag (read32 w.mem (pkt + K.pkt_flags)) K.HFI_FW_FLAGS_SYSTEM_ERROR = true
  · rw [if_pos he]
    simp [he]
  · rw [if_neg he]
    by_cases hs : has_flag (read32 w.mem (pkt + K.pkt_flags)) K.HFI_FW_FLAGS_SUCCESS = true
    · rw [if_pos hs]
      simp [he, hs]
    · rw [if_neg hs]
      simp [hs]

/-- Claim C19: `handle_system_init` never returns a failure; it leaves the memory
alone and signals `core->init_done` exactly when the packet's flags have
`HFI_FW_FLAGS_SUCCESS` set and `HFI_FW_FLAGS_SYSTEM_ERROR` clear, making no
other outbound call.  Hence for a valid system batch (session id 0) of one
`HFI_CMD_INIT` packet `handle_response` returns 0 and its outbound calls are
one signal of `init_done` when the packet is a success packet and none
otherwise: an init packet without the success flag causes no signal and no
core teardown. -/
theorem handle_system_init_spec (K : hfi_defs) (X : vidc_ops) (w : world) (response : Nat)
    (hresp : response ≠ 0)
    (hhdr : validate_packet w.mem response w.core.response_packet w.core.packet_size = 0)
    (hsys : read32 w.mem (response + K.hdr_session_id) = 0)
    (hone : read32 w.mem (response + K.hdr_num_packets) = 1)
    (hpkt : validate_packet w.mem (response + K.sizeof_hfi_header) w.core.response_packet
      w.core.packet_size = 0)
    (htype : read32 w.mem (response + K.sizeof_hfi_header + K.pkt_type) = K.HFI_CMD_INIT) :
    (∀ (v : world) (pkt : Nat),
      (handle_system_init K v pkt).1 = 0 ∧
      (handle_system_init K v pkt).2.mem = v.mem ∧
      (handle_system_init K v pkt).2.core =
        { v.core with events := v.core.events ++
            (if has_flag (read32 v.mem (pkt + K.pkt_flags)) K.HFI_FW_FLAGS_SUCCESS = true ∧
                has_flag (read32 v.mem (pkt + K.pkt_flags)) K.HFI_FW_FLAGS_SYSTEM_ERROR = false
              then [core_event.complete_init_done] else []) }) ∧
    (handle_response K X w response).1 = 0 ∧
    (handle_response K X w response).2.mem = w.mem ∧
    (handle_response K X w response).2.core.events =
      w.core.events ++
        (if has_flag (read32 w.mem (response + K.sizeof_hfi_header + K.pkt_flags))
              K.HFI_FW_FLAGS_SUCCESS = true ∧
            has_flag (read32 w.mem (response + K.sizeof_hfi_header + K.pkt_flags))
              K.HFI_FW_FLAGS_SYSTEM_ERROR = false
          then [core_event.complete_init_done] else []) := by
  refine ⟨fun v pkt => handle_system_init_effect K v pkt, ?_⟩
  have hres : handle_response K X w response =
      handle_system_init K (w.call system_handler.handle_system_init
        (response + K.sizeof_hfi_header)) (response + K.sizeof_hfi_header) := by
    unfold handle_response
    rw [if_neg hresp, if_neg (by rw [hhdr]; simp), if_pos hsys]
    unfold handle_system_response
    rw [hone]
    unfold system_packets
    dsimp only
    rw [if_neg (by rw [hpkt]; simp), if_pos htype]
    unfold system_packets
    rfl
  rw [hres]
  obtain ⟨h1, h2, h3⟩ := handle_system_init_effect K
    (w.call system_handler.handle_system_init (response + K.sizeof_hfi_header))
    (response + K.sizeof_hfi_header)
  refine ⟨h1, h2, ?_⟩
  rw [h3]
  rfl

/-- Witness for C19: the batch of one successful `HFI_CMD_INIT` packet signals
`init_done` once and returns 0; the batch of one `HFI_CMD_INIT` packet without
the success flag returns 0 with no outbound call. -/
theorem handle_system_init_spec_witness :
    ((handle_response venus ops_ok (world_with (batch_init 1)) 0x1000).1 = 0 ∧
      (handle_response venus ops_ok (world_with (batch_init 1)) 0x1000).2.core.events =
        [core_event.complete_init_done]) ∧
    ((handle_response venus ops_ok (world_with (batch_init 0)) 0x1000).1 = 0 ∧
      (handle_response venus ops_ok (world_with (batch_init 0)) 0x1000).2.core.events = []) :=
  ⟨⟨(handle_system_init_spec venus ops_ok (world_with (batch_init 1)) 0x1000 (by decide)
        (by decide) (by decide) (by decide) (by decide) (by decide)).2.1,
      (handle_system_init_spec venus ops_ok (world_with (batch_init 1)) 0x1000 (by decide)
        (by decide) (by decide) (by decide) (by decide) (by decide)).2.2.2.trans (by decide)⟩,
   ⟨(handle_system_init_spec venus ops_ok (world_with (batch_init 0)) 0x1000 (by decide)
        (by decide) (by decide) (by decide) (by decide) (by decide)).2.1,
      (handle_system_init_spec venus ops_ok (world_with (batch_init 0)) 0x1000 (by decide)
        (by decide) (by decide) (by decide) (by decide) (by decide)).2.2.2.trans (by decide)⟩⟩

/-- Claim C20, failing input: the packet of `batch_short_version` passes
`validate_packet` with a declared size of 8 bytes, so its payload (declared
size minus the 32 bytes of the header) is shorter than
`VENUS_VERSION_LENGTH - 1 = 127` bytes.  The subtraction
`pkt->size - sizeof(*pkt)` wraps in `u32` to `0xFFFFFFE8`, the length test
passes, and `handle_image_version_property` returns 0 and overwrites
`core->fw_version` with the bytes behind the packet header, where the claim
requires `-EINVAL` and an unchanged `fw_version`; the same happens through
`handle_response`. -/
theorem short_image_version_packet_accepted :
    validate_packet (world_with batch_short_version).mem 0x1020 0x1000 4096 = 0 ∧
    read32 (world_with batch_short_version).mem 0x1020 = 8 ∧
    venus.sizeof_hfi_packet = 32 ∧
    ((read32 (world_with batch_short_version).mem 0x1020 : Int) - venus.sizeof_hfi_packet <
      venus.VENUS_VERSION_LENGTH - 1) ∧
    (handle_image_version_property venus (world_with batch_short_version) 0x1020).1 = 0 ∧
    (world_with batch_short_version).core.fw_version 0 = 0 ∧
    (handle_image_version_property venus (world_with batch_short_version)
      0x1020).2.core.fw_version 0 = 0x56 ∧
    (handle_response venus ops_ok (world_with batch_short_version) 0x1000).1 = 0 ∧
    (handle_response venus ops_ok (world_with batch_short_version) 0x1000).2.core.fw_version 0 =
      0x56 := by
  decide

/-! ## Frame info, wire order, flags and the system handlers -/

theorem finish_dispatch_zero (K : hfi_defs) (r : dispatch_result)
    (h : (finish_dispatch K r).1 = 0) :
    (finish_dispatch K r).2.inst.hfi_frame_info = ⟨0, 0, 0⟩ := by
  unfold finish_dispatch at h ⊢
  split_ifs at h ⊢ with h1 h2 h3
  · exact absurd h h1
  · exact absurd h h3
  · rfl
  · rfl

/-- Claim C21, counterexample: in the valid batch `batch_picture_then_buffer 0x6000`
the property handler stores picture type 1 in the frame info and the command
handler then fails (no Output record at `0x6000`); `handle_session_response`
returns `-EINVAL` through `goto exit`, past the second `memset`, and the frame
info of the instance is not zero on return. -/
theorem frame_info_kept_on_failure :
    validate_packets (world_with (batch_picture_then_buffer 0x6000)).mem 0x1000 4096 2 0x1020 =
      true ∧
    (handle_session_response venus ops_ok (world_with (batch_picture_then_buffer 0x6000))
      0x1000).1 = -EINVAL ∧
    ((handle_session_response venus ops_ok (world_with (batch_picture_then_buffer 0x6000))
        0x1000).2.core.instances 7).map (fun i => i.calls) = some [(2, 0x1020), (3, 0x1048)] ∧
    ((handle_session_response venus ops_ok (world_with (batch_picture_then_buffer 0x6000))
        0x1000).2.core.instances 7).map (fun i => i.hfi_frame_info) = some ⟨1, 0, 0⟩ := by
  decide

/-- Claim C21 (amended): after `handle_session_response` (for a batch that is not
deferred) or `handle_session_response_work` has run its dispatch pass and
returned 0, the frame info of the instance (picture type, data corrupt, no
output) is all zero.  When a handler or the reconciliation pass fails the
function returns at once with the frame info as the handlers left it; the
dispatch pass of the next batch zeroes it before any handler runs, so its
outcome does not depend on the frame info it starts from. -/
theorem frame_info_zero_after_successful_pass (K : hfi_defs) (X : vidc_ops) (w : world)
    (hdr : Nat) (inst : msm_vidc_inst) (st : sess) (resp_work : response_work)
    (hinst : w.core.instances (read32 w.mem (hdr + K.hdr_session_id)) = some inst)
    (hnodefer : scan_response_work K X hdr (read32 w.mem (hdr + K.hdr_num_packets)) ⟨w.mem, inst⟩
      (hdr + K.sizeof_hfi_header) = none) :
    ((handle_session_response K X w hdr).1 = 0 →
      ((handle_session_response K X w hdr).2.core.instances
        (read32 w.mem (hdr + K.hdr_session_id))).map (fun i => i.hfi_frame_info) =
        some ⟨0, 0, 0⟩) ∧
    ((handle_session_response_work K X st resp_work).1 = 0 →
      (handle_session_response_work K X st resp_work).2.inst.hfi_frame_info = ⟨0, 0, 0⟩) ∧
    (∀ fi : msm_vidc_hfi_frame_info,
      session_dispatch K X ⟨w.mem, { inst with hfi_frame_info := fi }⟩ hdr =
        session_dispatch K X ⟨w.mem, inst⟩ hdr) := by
  refine ⟨?_, ?_, fun fi => rfl⟩
  · unfold handle_session_response
    rw [hinst]
    simp only [if_true, Option.map_some']
    intro h
    unfold session_response at h ⊢
    dsimp only at h ⊢
    split_ifs at h ⊢ with hv
    · exact absurd h (by simp [EINVAL])
    · rw [hnodefer] at h ⊢
      exact congrArg some (finish_dispatch_zero K _ h)
  · intro h
    unfold handle_session_response_work at h ⊢
    dsimp only at h ⊢
    split_ifs at h ⊢ with h0 hv
    · exact absurd h (by simp [EINVAL])
    · exact absurd h (by simp [EINVAL])
    · exact finish_dispatch_zero K _ h

/-- Witness for C21: in `batch_picture_then_buffer 0x5000` the property handler
stores picture type 1, the command handler finds its record and the pass
succeeds; the frame info is zero on return. -/
theorem frame_info_zero_after_successful_pass_witness :
    (handle_session_response venus ops_ok (world_with (batch_picture_then_buffer 0x5000))
      0x1000).1 = 0 ∧
    ((handle_session_response venus ops_ok (world_with (batch_picture_then_buffer 0x5000))
        0x1000).2.core.instances 7).map (fun i => i.hfi_frame_info) = some ⟨0, 0, 0⟩ :=
  ⟨by decide,
   (frame_info_zero_after_successful_pass venus ops_ok
      (world_with (batch_picture_then_buffer 0x5000)) 0x1000 (dec_inst (out_record 0x8) [])
      sess_abc ⟨response_work_type.RESP_WORK_OUTPUT_PSC, 0x2000, 64⟩ rfl rfl).1 (by decide)⟩

theorem print_sfr_message_core (K : hfi_defs) (w : world) :
    (print_sfr_message K w).core = w.core := by
  unfold print_sfr_message
  dsimp only
  split_ifs <;> rfl

theorem print_sfr_message_outside (K : hfi_defs) (w : world) (x : Nat)
    (hx : x ≠ sfr_last K w.core) : (print_sfr_message K w).mem x = w.mem x := by
  unfold print_sfr_message
  dsimp only
  split_ifs with h1 h2 h3
  · rfl
  · rfl
  · rfl
  · have h2' := not_not.mp h2
    rw [h2']
    unfold sfr_last at hx
    simp only [write8, if_neg hx]

theorem same_buffers_last (K : hfi_defs) (w v : world) (h : same_buffers K w v) :
    sfr_last K v.core = sfr_last K w.core := by
  unfold sfr_last
  rw [h.2.2.1, h.2.2.2.1]

theorem same_buffers_refl (K : hfi_defs) (w : world) : same_buffers K w w :=
  ⟨rfl, rfl, rfl, rfl, fun _ _ => rfl⟩

theorem same_buffers_call (K : hfi_defs) (w v : world) (s : system_handler) (pkt : Nat)
    (h : same_buffers K w v) : same_buffers K w (v.call s pkt) := h

theorem handle_system_error_buffers (K : hfi_defs) (w v : world) (pkt : Nat)
    (h : same_buffers K w v) :
    same_buffers K w (handle_system_error K v pkt).2 ∧
    (handle_system_error K v pkt).2.core.calls = v.core.calls := by
  unfold handle_system_error
  dsimp only
  rw [print_sfr_message_core]
  refine ⟨⟨h.1, h.2.1, h.2.2.1, h.2.2.2.1, fun x hx => ?_⟩, rfl⟩
  rw [print_sfr_message_outside K v x (by rw [same_buffers_last K w v h]; exact hx)]
  exact h.2.2.2.2 x hx

theorem handle_system_init_buffers (K : hfi_defs) (w v : world) (pkt : Nat)
    (h : same_buffers K w v) :
    same_buffers K w (handle_system_init K v pkt).2 ∧
    (handle_system_init K v pkt).2.core.calls = v.core.calls := by
  unfold handle_system_init
  split_ifs <;> exact ⟨h, rfl⟩

theorem handle_system_property_buffers (K : hfi_defs) (w v : world) (pkt : Nat)
    (h : same_buffers K w v) :
    same_buffers K w (handle_system_property K v pkt).2 ∧
    (handle_system_property K v pkt).2.core.calls = v.core.calls := by
  unfold handle_system_property
  split_ifs
  · exact handle_system_error_buffers K w v pkt h
  · unfold handle_image_version_property
    dsimp only
    split_ifs <;> exact ⟨h, rfl⟩
  · exact ⟨h, rfl⟩

theorem validate_packet_congr (m1 m2 : Mem) (p a b : Nat) (h : read32 m1 p = read32 m2 p) :
    validate_packet m1 p a b = validate_packet m2 p a b := by
  unfold validate_packet
  rw [h]

theorem system_packets_calls (K : hfi_defs) (w : world)
    (hty : K.pkt_type + 4 ≤ K.sizeof_hfi_packet) :
    ∀ (n : Nat) (rc : Int) (v : world) (pkt : Nat), same_buffers K w v →
      (∀ p ∈ packets w.mem pkt n,
        (sfr_last K w.core < p ∨ p + K.sizeof_hfi_packet ≤ sfr_last K w.core) ∧
        validate_packet w.mem p w.core.response_packet w.core.packet_size = 0 ∧
        unknown_system_type K (read32 w.mem (p + K.pkt_type)) = false) →
      (system_packets K n rc v pkt).2.core.calls =
        v.core.calls ++ (packets w.mem pkt n).map
          (fun p => (system_handler_of K (read32 w.mem (p + K.pkt_type)), p)) := by
  intro n
  induction n with
  | zero => intro rc v pkt _ _; simp [system_packets, packets]
  | succ n ih =>
    intro rc v pkt hv hp
    obtain ⟨hclear, hvalid, hknown⟩ := hp pkt (by simp [packets])
    have hrest : ∀ p ∈ packets w.mem (pkt + read32 w.mem pkt) n,
        (sfr_last K w.core < p ∨ p + K.sizeof_hfi_packet ≤ sfr_last K w.core) ∧
        validate_packet w.mem p w.core.response_packet w.core.packet_size = 0 ∧
        unknown_system_type K (read32 w.mem (p + K.pkt_type)) = false :=
      fun p hpm => hp p (by simp [packets, hpm])
    have hread : ∀ (u : world), same_buffers K w u → ∀ a, pkt ≤ a →
        a + 4 ≤ pkt + K.sizeof_hfi_packet → read32 u.mem a = read32 w.mem a := by
      intro u hu a ha1 ha2
      exact read32_congr _ _ _ (fun x hx1 hx2 => hu.2.2.2.2 x (by omega))
    have hsize : read32 v.mem pkt = read32 w.mem pkt := hread v hv pkt (le_refl _) (by omega)
    have htype : read32 v.mem (pkt + K.pkt_type) = read32 w.mem (pkt + K.pkt_type) :=
      hread v hv _ (by omega) (by omega)
    have hval : validate_packet v.mem pkt v.core.response_packet v.core.packet_size = 0 := by
      rw [hv.1, hv.2.1, validate_packet_congr _ _ _ _ _ hsize]; exact hvalid
    unfold system_packets
    unfold packets
    dsimp only
    rw [if_neg (by rw [hval]; simp), htype, List.map_cons]
    by_cases h1 : read32 w.mem (pkt + K.pkt_type) = K.HFI_CMD_INIT
    · rw [if_pos h1]
      have hh : system_handler_of K (read32 w.mem (pkt + K.pkt_type)) =
          system_handler.handle_system_init := by simp [system_handler_of, h1]
      obtain ⟨hb, hc⟩ := handle_system_init_buffers K w
        (v.call system_handler.handle_system_init pkt) pkt hv
      rw [hread _ hb pkt (le_refl _) (by omega), ih _ _ _ hb hrest, hc, hh]
      simp [world.call]
    · rw [if_neg h1]
      by_cases h2 : read32 w.mem (pkt + K.pkt_type) > K.HFI_SYSTEM_ERROR_BEGIN ∧
          read32 w.mem (pkt + K.pkt_type) < K.HFI_SYSTEM_ERROR_END
      · rw [if_pos h2]
        have hh : system_handler_of K (read32 w.mem (pkt + K.pkt_type)) =
            system_handler.handle_system_error := by
          unfold system_handler_of
          rw [if_neg h1, if_pos h2]
        obtain ⟨hb, hc⟩ := handle_system_error_buffers K w
          (v.call system_handler.handle_system_error pkt) pkt hv
        rw [hread _ hb pkt (le_refl _) (by omega), ih _ _ _ hb hrest, hc, hh]
        simp [world.call]
      · rw [if_neg h2]
        have hh : system_handler_of K (read32 w.mem (pkt + K.pkt_type)) =
            system_handler.handle_system_property := by
          unfold system_handler_of
          rw [if_neg h1, if_neg h2]
        have h3 : read32 w.mem (pkt + K.pkt_type) > K.HFI_PROP_BEGIN ∧
            read32 w.mem (pkt + K.pkt_type) < K.HFI_PROP_CODEC := by
          by_contra h3
          have : unknown_system_type K (read32 w.mem (pkt + K.pkt_type)) = true := by
            simp only [unknown_system_type, Bool.and_eq_true, Bool.not_eq_true',
              decide_eq_true_eq, Bool.and_eq_false_imp, decide_eq_false_iff_not]
            exact ⟨⟨h1, fun a b => h2 ⟨a, b⟩⟩, fun a b => h3 ⟨a, b⟩⟩
          rw [this] at hknown
          cases hknown
        rw [if_pos h3]
        obtain ⟨hb, hc⟩ := handle_system_property_buffers K w
          (v.call system_handler.handle_system_property pkt) pkt hv
        rw [hread _ hb pkt (le_refl _) (by omega), ih _ _ _ hb hrest, hc, hh]
        simp [world.call]

/-- Claim C22, counterexample: in the valid system batch
`batch_init_then_system_error` a `HFI_CMD_INIT` packet precedes a system-error
packet on the wire, and `handle_system_response` invokes `handle_system_init`
(signalling `init_done`) before `handle_system_error` (tearing the core down):
the system-error handler does not run first. -/
theorem system_dispatch_follows_wire_order :
    validate_packet (world_with batch_init_then_system_error).mem 0x1020 0x1000 4096 = 0 ∧
    validate_packet (world_with batch_init_then_system_error).mem 0x1040 0x1000 4096 = 0 ∧
    (handle_system_response venus (world_with batch_init_then_system_error) 0x1000).1 = 0 ∧
    (handle_system_response venus (world_with batch_init_then_system_error) 0x1000).2.core.calls =
      [(system_handler.handle_system_init, 0x1020),
       (system_handler.handle_system_error, 0x1040)] ∧
    (handle_system_response venus (world_with batch_init_then_system_error) 0x1000).2.core.events =
      [core_event.complete_init_done, core_event.core_deinit] := by
  decide

/-- Claim C22 (amended): system-scope dispatch is in wire order.  For a system
batch whose packets are all valid and of a type `handle_system_response` knows,
the function invokes exactly one handler per packet, in the wire order of the
packets: `handle_system_init` for `HFI_CMD_INIT`, `handle_system_error` for a
type inside the system-error range, `handle_system_property` for a type inside
the system property range.  The packet headers are taken to lie clear of the
one byte of the crash-report buffer that `print_sfr_message` may write. -/
theorem system_dispatch_wire_order (K : hfi_defs) (w : world) (hdr : Nat)
    (hlayout : K.pkt_type + 4 ≤ K.sizeof_hfi_packet)
    (hpackets : ∀ p ∈ packets w.mem (hdr + K.sizeof_hfi_header)
        (read32 w.mem (hdr + K.hdr_num_packets)),
      (sfr_last K w.core < p ∨ p + K.sizeof_hfi_packet ≤ sfr_last K w.core) ∧
      validate_packet w.mem p w.core.response_packet w.core.packet_size = 0 ∧
      unknown_system_type K (read32 w.mem (p + K.pkt_type)) = false) :
    (handle_system_response K w hdr).2.core.calls =
      w.core.calls ++ (packets w.mem (hdr + K.sizeof_hfi_header)
          (read32 w.mem (hdr + K.hdr_num_packets))).map
        (fun p => (system_handler_of K (read32 w.mem (p + K.pkt_type)), p)) := by
  unfold handle_system_response
  exact system_packets_calls K w hlayout _ 0 w _ (same_buffers_refl K w) hpackets

/-- Witness for C22: the batch `batch_init_then_system_error` is handled packet by
packet in wire order. -/
theorem system_dispatch_wire_order_witness :
    (handle_system_response venus (world_with batch_init_then_system_error) 0x1000).2.core.calls =
      [(system_handler.handle_system_init, 0x1020),
       (system_handler.handle_system_error, 0x1040)] :=
  (system_dispatch_wire_order venus (world_with batch_init_then_system_error) 0x1000
    (by decide) (by decide)).trans (by decide)

theorem mem_row_calls (K : hfi_defs) (m : Mem) (b e i : Nat) (pkts : List Nat) (j p : Nat) :
    (j, p) ∈ row_calls K m b e i pkts ↔
      j = i ∧ p ∈ pkts ∧ b < read32 m (p + K.pkt_type) ∧ read32 m (p + K.pkt_type) < e := by
  simp only [row_calls, List.mem_map, List.mem_filter, in_range, Bool.and_eq_true,
    decide_eq_true_eq, Prod.mk.injEq, gt_iff_lt]
  constructor
  · rintro ⟨a, ⟨ha, hb, he⟩, rfl, rfl⟩
    exact ⟨rfl, ha, hb, he⟩
  · rintro ⟨rfl, ha, hb, he⟩
    exact ⟨p, ⟨ha, hb, he⟩, rfl, rfl⟩

/-- Claim C24: with super-buffer mode enabled and non-zero frame and batch sizes,
for an Input or Input metadata completion that matches a record and has
`addr_offset / frame_size < batch_size - 1`, the handler returns 0 and leaves
the whole state, the matched record included, as it was.  With batches of four
frames of 1024 bytes, a completion at `addr_offset = 1024` leaves the record
(attributes `QUEUED`) as it was, and one at `addr_offset = 3072` dequeues it:
`QUEUED` is cleared and `DEQUEUED` is set. -/
theorem super_buffer_skips_earlier_frames (K : hfi_defs) (X : vidc_ops) (st : sess)
    (buffer : Nat) (caps : msm_vidc_inst_capability)
    (hbuf : buffer ≠ 0) (hcaps : st.inst.capabilities = some caps)
    (hcore : st.inst.has_core = true)
    (hsuper : X.msm_vidc_is_super_buffer st.inst = true)
    (hbatch : caps.SUPER_FRAME ≠ 0) :
    (∀ l idx b,
      st.inst.buffers msm_vidc_buffer_type.MSM_VIDC_BUF_INPUT = some l →
      find_buffer (read64 st.mem (buffer + K.buf_base_address)) l = some (idx, b) →
      X.buffer_size st.inst msm_vidc_buffer_type.MSM_VIDC_BUF_INPUT ≠ 0 →
      read32 st.mem (buffer + K.buf_addr_offset) /
          X.buffer_size st.inst msm_vidc_buffer_type.MSM_VIDC_BUF_INPUT < caps.SUPER_FRAME - 1 →
      handle_input_buffer K X st buffer = (0, st)) ∧
    (∀ l idx b,
      st.inst.buffers msm_vidc_buffer_type.MSM_VIDC_BUF_INPUT_META = some l →
      find_buffer (read64 st.mem (buffer + K.buf_base_address)) l = some (idx, b) →
      X.buffer_size st.inst msm_vidc_buffer_type.MSM_VIDC_BUF_INPUT_META ≠ 0 →
      read32 st.mem (buffer + K.buf_addr_offset) /
          X.buffer_size st.inst msm_vidc_buffer_type.MSM_VIDC_BUF_INPUT_META <
            caps.SUPER_FRAME - 1 →
      handle_input_metadata_buffer K X st buffer = (0, st)) ∧
    ((handle_input_buffer venus ops_super (sess_super 1024) 0x2000).1 = 0 ∧
      (handle_input_buffer venus ops_super (sess_super 1024) 0x2000).2.inst.buffers
        msm_vidc_buffer_type.MSM_VIDC_BUF_INPUT = some [out_record 0x8] ∧
      (handle_input_buffer venus ops_super (sess_super 3072) 0x2000).1 = 0 ∧
      ((handle_input_buffer venus ops_super (sess_super 3072) 0x2000).2.inst.buffers
          msm_vidc_buffer_type.MSM_VIDC_BUF_INPUT).map
        (fun l => l.map (fun b => (has_flag b.attr venus.MSM_VIDC_ATTR_QUEUED,
          has_flag b.attr venus.MSM_VIDC_ATTR_DEQUEUED))) = some [(false, true)]) ∧
    ((handle_input_metadata_buffer venus ops_super (sess_super 1024) 0x2000).1 = 0 ∧
      (handle_input_metadata_buffer venus ops_super (sess_super 1024) 0x2000).2.inst.buffers
        msm_vidc_buffer_type.MSM_VIDC_BUF_INPUT_META = some [out_record 0x8] ∧
      (handle_input_metadata_buffer venus ops_super (sess_super 3072) 0x2000).1 = 0 ∧
      ((handle_input_metadata_buffer venus ops_super (sess_super 3072) 0x2000).2.inst.buffers
          msm_vidc_buffer_type.MSM_VIDC_BUF_INPUT_META).map
        (fun l => l.map (fun b => (has_flag b.attr venus.MSM_VIDC_ATTR_QUEUED,
          has_flag b.attr venus.MSM_VIDC_ATTR_DEQUEUED))) = some [(false, true)]) := by
  refine ⟨?_, ?_, by decide, by decide⟩
  · intro l idx b hl hfind hfs hq
    simp [handle_input_buffer, hbuf, hcaps, hcore, hl, hfind, hsuper, hfs, hbatch, hq]
  · intro l idx b hl hfind hfs hq
    simp [handle_input_metadata_buffer, hbuf, hcaps, hcore, hl, hfind, hsuper, hfs, hbatch, hq]

/-- Witness for C24: with batches of four frames of 1024 bytes the Input
completion at `addr_offset = 1024` returns 0 and leaves the state as it was. -/
theorem super_buffer_skips_earlier_frames_witness :
    handle_input_buffer venus ops_super (sess_super 1024) 0x2000 = (0, sess_super 1024) :=
  (super_buffer_skips_earlier_frames venus ops_super (sess_super 1024) 0x2000 ⟨4, 0⟩
    (by decide) rfl rfl rfl (by decide)).1 [out_record 0x8] 0 (out_record 0x8)
    rfl (by decide) (by decide) (by decide)

theorem read32_lt (m : Mem) (a : Nat) : read32 m a < 4294967296 := by
  unfold read32 read8
  omega

theorem read32_write32_same (m : Mem) (a v : Nat) (hv : v < 4294967296) :
    read32 (write32 m a v) a = v := by
  unfold read32 read8 write32 write8
  simp
  omega

theorem clear_flag_le (a m : Nat) : clear_flag a m ≤ a := by
  unfold clear_flag
  exact Nat.and_le_left

theorem normalised_flags_eq (K : hfi_defs) (m : Mem) (buffer : Nat)
    (hfields : K.buf_data_size + 4 ≤ K.buf_flags ∨ K.buf_flags + 4 ≤ K.buf_data_size) :
    normalised_flags K m buffer =
      if has_flag (read32 m (buffer + K.buf_flags)) K.HFI_BUF_FW_FLAG_LAST = true ∧
          has_flag (read32 m (buffer + K.buf_flags)) K.HFI_BUF_FW_FLAG_READONLY = true then
        clear_flag (read32 m (buffer + K.buf_flags)) K.HFI_BUF_FW_FLAG_READONLY
      else read32 m (buffer + K.buf_flags) := by
  have h1 : read32 (write32 m (buffer + K.buf_data_size) 0) (buffer + K.buf_flags) =
      read32 m (buffer + K.buf_flags) :=
    read32_congr _ _ _ (fun x hx1 hx2 => write32_outside _ _ _ _ (by omega))
  have hlt : ∀ f, clear_flag (read32 m (buffer + K.buf_flags)) f < 4294967296 :=
    fun f => lt_of_le_of_lt (clear_flag_le _ _) (read32_lt _ _)
  unfold normalised_flags
  dsimp only
  have hm1 : read32 (if has_flag (read32 m (buffer + K.buf_flags)) K.HFI_BUF_FW_FLAG_LAST = true ∧
      read32 m (buffer + K.buf_data_size) ≠ 0 then write32 m (buffer + K.buf_data_size) 0
      else m) (buffer + K.buf_flags) = read32 m (buffer + K.buf_flags) := by
    split_ifs
    · exact h1
    · rfl
  rw [hm1]
  by_cases hc : has_flag (read32 m (buffer + K.buf_flags)) K.HFI_BUF_FW_FLAG_LAST = true ∧
      has_flag (read32 m (buffer + K.buf_flags)) K.HFI_BUF_FW_FLAG_READONLY = true
  · rw [if_pos hc, if_pos hc, read32_write32_same _ _ _ (hlt _)]
  · rw [if_neg hc, if_neg hc, hm1]

theorem get_driver_buffer_flags_last (K : hfi_defs) (inst : msm_vidc_inst) (hfi_flags : Nat)
    (h : has_flag hfi_flags K.HFI_BUF_FW_FLAG_LAST = true) (h0 : K.MSM_VIDC_BUF_FLAG_LAST ≠ 0) :
    has_flag (get_driver_buffer_flags K inst hfi_flags) K.MSM_VIDC_BUF_FLAG_LAST = true := by
  unfold get_driver_buffer_flags
  dsimp only
  rw [if_pos h]
  exact has_flag_set_self _ _ h0

theorem normalised_flags_read_only (K : hfi_defs) (m : Mem) (buffer : Nat)
    (hfields : K.buf_data_size + 4 ≤ K.buf_flags ∨ K.buf_flags + 4 ≤ K.buf_data_size)
    (hro : K.HFI_BUF_FW_FLAG_READONLY ≤ U32_MAX) :
    (has_flag (normalised_flags K m buffer) K.HFI_BUF_FW_FLAG_READONLY = true ↔
      has_flag (read32 m (buffer + K.buf_flags)) K.HFI_BUF_FW_FLAG_READONLY = true ∧
      has_flag (read32 m (buffer + K.buf_flags)) K.HFI_BUF_FW_FLAG_LAST = false) := by
  rw [normalised_flags_eq K m buffer hfields]
  by_cases hl : has_flag (read32 m (buffer + K.buf_flags)) K.HFI_BUF_FW_FLAG_LAST = true
  · by_cases hr : has_flag (read32 m (buffer + K.buf_flags)) K.HFI_BUF_FW_FLAG_READONLY = true
    · rw [if_pos ⟨hl, hr⟩, has_flag_clear_self _ _ hro]
      simp [hl]
    · rw [if_neg (fun h => hr h.2)]
      simp [hl, hr]
  · rw [if_neg (fun h => hl h.1)]
    simp [hl]

theorem normalised_flags_last (K : hfi_defs) (m : Mem) (buffer : Nat)
    (hfields : K.buf_data_size + 4 ≤ K.buf_flags ∨ K.buf_flags + 4 ≤ K.buf_data_size)
    (hlast : K.HFI_BUF_FW_FLAG_LAST ≤ U32_MAX)
    (hdisj : K.HFI_BUF_FW_FLAG_READONLY &&& K.HFI_BUF_FW_FLAG_LAST = 0) :
    has_flag (normalised_flags K m buffer) K.HFI_BUF_FW_FLAG_LAST =
      has_flag (read32 m (buffer + K.buf_flags)) K.HFI_BUF_FW_FLAG_LAST := by
  rw [normalised_flags_eq K m buffer hfields]
  split_ifs
  · exact has_flag_clear_other _ _ _ hlast hdisj
  · rfl

theorem handle_output_buffer_flags (K : hfi_defs) (X : vidc_ops) (st : sess) (buffer : Nat)
    (l : List msm_vidc_buffer) (idx : Nat) (b : msm_vidc_buffer)
    (hro0 : K.MSM_VIDC_ATTR_READ_ONLY ≠ 0) (hro32 : K.MSM_VIDC_ATTR_READ_ONLY ≤ U32_MAX)
    (hl : st.inst.buffers msm_vidc_buffer_type.MSM_VIDC_BUF_OUTPUT = some l)
    (hfind : find_buffer (read64 st.mem (buffer + K.buf_base_address)) l = some (idx, b)) :
    (handle_output_buffer K X st buffer).1 = 0 ∧
    ∃ b', (handle_output_buffer K X st buffer).2.inst.buffers
        msm_vidc_buffer_type.MSM_VIDC_BUF_OUTPUT = some (l.set idx b') ∧
      b'.device_addr = b.device_addr ∧
      (has_flag b'.attr K.MSM_VIDC_ATTR_READ_ONLY = true ↔
        has_flag (normalised_flags K st.mem buffer) K.HFI_BUF_FW_FLAG_READONLY = true) ∧
      ∃ inst', b'.flags = get_driver_buffer_flags K inst' (normalised_flags K st.mem buffer) := by
  have hattr : ∀ (c : Prop) [Decidable c] (a : Nat),
      (has_flag (if c then set_flag a K.MSM_VIDC_ATTR_READ_ONLY
        else clear_flag a K.MSM_VIDC_ATTR_READ_ONLY) K.MSM_VIDC_ATTR_READ_ONLY = true ↔ c) := by
    intro c _ a
    by_cases h : c
    · rw [if_pos h, has_flag_set_self _ _ hro0]; simp [h]
    · rw [if_neg h, has_flag_clear_self _ _ hro32]; simp [h]
  by_cases hc : st.inst.domain = msm_vidc_domain_type.MSM_VIDC_ENCODER ∧
      st.inst.hfi_frame_info.data_corrupt ≠ 0
  · refine ⟨by simp [handle_output_buffer, hl, hfind], ?_⟩
    simp only [handle_output_buffer, hl, hfind, set_buffer, hc, msm_vidc_change_inst_state,
      if_true, Option.map_some', List.set_set, and_self, ne_eq, not_false_eq_true]
    refine ⟨_, rfl, rfl, ?_, ⟨_, rfl⟩⟩
    exact hattr (has_flag (normalised_flags K st.mem buffer) K.HFI_BUF_FW_FLAG_READONLY = true) _
  · refine ⟨by simp [handle_output_buffer, hl, hfind], ?_⟩
    simp only [handle_output_buffer, hl, hfind, set_buffer, hc,
      if_true, if_false, Option.map_some', List.set_set]
    refine ⟨_, rfl, rfl, ?_, ⟨_, rfl⟩⟩
    exact hattr (has_flag (normalised_flags K st.mem buffer) K.HFI_BUF_FW_FLAG_READONLY = true) _

/-- Claim C25: for an Output completion that matches a record,
`handle_output_buffer` succeeds and afterwards the record carries the
`READ_ONLY` attribute if and only if the packet's flags (as they are on entry)
contain `HFI_BUF_FW_FLAG_READONLY` and do not contain `HFI_BUF_FW_FLAG_LAST`;
when the packet's flags contain the last flag, the record's derived flags,
computed after the normalisation, include `MSM_VIDC_BUF_FLAG_LAST`.  In
particular a packet with `LAST | READONLY` leaves the record without
`READ_ONLY` and with `LAST`.  The fields `data_size` and `flags` of
`struct hfi_buffer` do not overlap and the masks are distinct bits of a 32-bit
word. -/
theorem output_read_only_iff_not_last (K : hfi_defs) (X : vidc_ops) (st : sess) (buffer : Nat)
    (l : List msm_vidc_buffer) (idx : Nat) (b : msm_vidc_buffer)
    (hfields : K.buf_data_size + 4 ≤ K.buf_flags ∨ K.buf_flags + 4 ≤ K.buf_data_size)
    (hattr : K.MSM_VIDC_ATTR_READ_ONLY ≠ 0 ∧ K.MSM_VIDC_ATTR_READ_ONLY ≤ U32_MAX)
    (hbits : K.HFI_BUF_FW_FLAG_READONLY ≤ U32_MAX ∧ K.HFI_BUF_FW_FLAG_LAST ≤ U32_MAX ∧
      K.HFI_BUF_FW_FLAG_READONLY &&& K.HFI_BUF_FW_FLAG_LAST = 0 ∧ K.MSM_VIDC_BUF_FLAG_LAST ≠ 0)
    (hl : st.inst.buffers msm_vidc_buffer_type.MSM_VIDC_BUF_OUTPUT = some l)
    (hfind : find_buffer (read64 st.mem (buffer + K.buf_base_address)) l = some (idx, b)) :
    (handle_output_buffer K X st buffer).1 = 0 ∧
    ∃ b', (handle_output_buffer K X st buffer).2.inst.buffers
        msm_vidc_buffer_type.MSM_VIDC_BUF_OUTPUT = some (l.set idx b') ∧
      b'.device_addr = b.device_addr ∧
      (has_flag b'.attr K.MSM_VIDC_ATTR_READ_ONLY = true ↔
        has_flag (read32 st.mem (buffer + K.buf_flags)) K.HFI_BUF_FW_FLAG_READONLY = true ∧
        has_flag (read32 st.mem (buffer + K.buf_flags)) K.HFI_BUF_FW_FLAG_LAST = false) ∧
      (has_flag (read32 st.mem (buffer + K.buf_flags)) K.HFI_BUF_FW_FLAG_LAST = true →
        has_flag b'.flags K.MSM_VIDC_BUF_FLAG_LAST = true) := by
  obtain ⟨h0, b', hb, hd, hro, inst', hf⟩ :=
    handle_output_buffer_flags K X st buffer l idx b hattr.1 hattr.2 hl hfind
  refine ⟨h0, b', hb, hd, ?_, ?_⟩
  · rw [hro]
    exact normalised_flags_read_only K st.mem buffer hfields hbits.1
  · intro hlast
    rw [hf]
    apply get_driver_buffer_flags_last K inst' _ _ hbits.2.2.2
    rw [normalised_flags_last K st.mem buffer hfields hbits.2.1 hbits.2.2.1]
    exact hlast

/-- Witness for C25: the completion `last_readonly_buffer` carries
`LAST | READONLY`; afterwards the Output record is without `READ_ONLY` and its
derived flags include `LAST`. -/
theorem output_read_only_iff_not_last_witness :
    (∃ b', (handle_output_buffer venus ops_ok
          ⟨mem_of 0x1040 last_readonly_buffer, dec_inst (out_record 0x8) []⟩ 0x1040).2.inst.buffers
          msm_vidc_buffer_type.MSM_VIDC_BUF_OUTPUT = some ([out_record 0x8].set 0 b') ∧
        b'.device_addr = (out_record 0x8).device_addr ∧
        (has_flag b'.attr venus.MSM_VIDC_ATTR_READ_ONLY = true ↔
          has_flag (read32 (mem_of 0x1040 last_readonly_buffer) (0x1040 + venus.buf_flags))
            venus.HFI_BUF_FW_FLAG_READONLY = true ∧
          has_flag (read32 (mem_of 0x1040 last_readonly_buffer) (0x1040 + venus.buf_flags))
            venus.HFI_BUF_FW_FLAG_LAST = false) ∧
        (has_flag (read32 (mem_of 0x1040 last_readonly_buffer) (0x1040 + venus.buf_flags))
            venus.HFI_BUF_FW_FLAG_LAST = true →
          has_flag b'.flags venus.MSM_VIDC_BUF_FLAG_LAST = true)) ∧
    ((handle_output_buffer venus ops_ok
        ⟨mem_of 0x1040 last_readonly_buffer, dec_inst (out_record 0x8) []⟩ 0x1040).2.inst.buffers
        msm_vidc_buffer_type.MSM_VIDC_BUF_OUTPUT).map
      (fun l => l.map (fun r => (has_flag r.attr venus.MSM_VIDC_ATTR_READ_ONLY,
        has_flag r.flags venus.MSM_VIDC_BUF_FLAG_LAST))) = some [(false, true)] :=
  ⟨(output_read_only_iff_not_last venus ops_ok
      ⟨mem_of 0x1040 last_readonly_buffer, dec_inst (out_record 0x8) []⟩ 0x1040
      [out_record 0x8] 0 (out_record 0x8) (by decide) (by decide) (by decide) rfl
      (by decide)).2,
   by decide⟩

theorem get_driver_buffer_flags_eq (K : hfi_defs) (inst : msm_vidc_inst) (hfi_flags : Nat) :
    get_driver_buffer_flags K inst hfi_flags = driver_flags_spec K inst hfi_flags := by
  unfold get_driver_buffer_flags driver_flags_spec
  dsimp only
  have hf : (if has_flag inst.hfi_frame_info.picture_type K.HFI_PICTURE_IDR = true then
        K.MSM_VIDC_BUF_FLAG_KEYFRAME
      else if has_flag inst.hfi_frame_info.picture_type K.HFI_PICTURE_P = true then
        K.MSM_VIDC_BUF_FLAG_PFRAME
      else if has_flag inst.hfi_frame_info.picture_type K.HFI_PICTURE_B = true then
        K.MSM_VIDC_BUF_FLAG_BFRAME
      else if has_flag inst.hfi_frame_info.picture_type K.HFI_PICTURE_I = true then
        (if inst.codec = K.MSM_VIDC_VP9 then K.MSM_VIDC_BUF_FLAG_KEYFRAME else 0)
      else if has_flag inst.hfi_frame_info.picture_type K.HFI_PICTURE_CRA = true then
        K.MSM_VIDC_BUF_FLAG_KEYFRAME
      else if has_flag inst.hfi_frame_info.picture_type K.HFI_PICTURE_BLA = true then
        K.MSM_VIDC_BUF_FLAG_KEYFRAME
      else 0) = frame_type_flag K inst := rfl
  rw [hf]
  generalize frame_type_flag K inst = f0
  by_cases hdc : inst.hfi_frame_info.data_corrupt = 0 <;>
  by_cases hno : inst.hfi_frame_info.no_output = 0 <;>
  by_cases htag : (inst.capabilities.map (fun c => c.META_BUF_TAG)).getD 0 = 0 <;>
  by_cases hcc : has_flag hfi_flags K.HFI_BUF_FW_FLAG_CODEC_CONFIG = true <;>
  by_cases hla : has_flag hfi_flags K.HFI_BUF_FW_FLAG_LAST = true <;>
  simp [hdc, hno, htag, hcc, hla, set_flag, Nat.or_assoc]

theorem lor_eq_zero (a b : Nat) : a ||| b = 0 ↔ a = 0 ∧ b = 0 := by
  constructor
  · intro h
    constructor
    · apply Nat.eq_of_testBit_eq
      intro i
      have := congrArg (fun x => x.testBit i) h
      simp only [Nat.testBit_or, Nat.zero_testBit, Bool.or_eq_false_iff] at this
      simp [this.1]
    · apply Nat.eq_of_testBit_eq
      intro i
      have := congrArg (fun x => x.testBit i) h
      simp only [Nat.testBit_or, Nat.zero_testBit, Bool.or_eq_false_iff] at this
      simp [this.2]
  · rintro ⟨rfl, rfl⟩
    rfl

theorem has_flag_or (a b m : Nat) :
    has_flag (a ||| b) m = (has_flag a m || has_flag b m) := by
  unfold has_flag
  rw [Nat.land_comm (a ||| b) m, Nat.and_or_distrib_left, Nat.land_comm m a, Nat.land_comm m b]
  rw [Bool.eq_iff_iff]
  simp only [bne_iff_ne, ne_eq, Bool.or_eq_true, lor_eq_zero]
  tauto

theorem has_flag_ite_zero (c : Prop) [Decidable c] (g f : Nat) (h : g &&& f = 0) :
    has_flag (if c then g else 0) f = false := by
  unfold has_flag
  split_ifs <;> simp [h]

theorem has_flag_self (f : Nat) (h : f ≠ 0) : has_flag f f = true := by
  simp [has_flag, Nat.and_self, h]

theorem has_flag_disjoint (g f : Nat) (h : g &&& f = 0) : has_flag g f = false := by
  simp [has_flag, h]

theorem frame_type_flag_cases (K : hfi_defs) (inst : msm_vidc_inst) :
    frame_type_flag K inst = K.MSM_VIDC_BUF_FLAG_KEYFRAME ∨
    frame_type_flag K inst = K.MSM_VIDC_BUF_FLAG_PFRAME ∨
    frame_type_flag K inst = K.MSM_VIDC_BUF_FLAG_BFRAME ∨
    frame_type_flag K inst = 0 := by
  unfold frame_type_flag
  split_ifs <;> simp

theorem driver_flags_spec_frame (K : hfi_defs) (inst : msm_vidc_inst) (hfi_flags f : Nat)
    (he : K.MSM_VIDC_BUF_FLAG_ERROR &&& f = 0) (hc : K.MSM_VIDC_BUF_FLAG_CODECCONFIG &&& f = 0)
    (hl : K.MSM_VIDC_BUF_FLAG_LAST &&& f = 0) :
    has_flag (driver_flags_spec K inst hfi_flags) f = has_flag (frame_type_flag K inst) f := by
  unfold driver_flags_spec
  rw [has_flag_or, has_flag_or, has_flag_or, has_flag_ite_zero _ _ _ he,
    has_flag_ite_zero _ _ _ hc, has_flag_ite_zero _ _ _ hl]
  simp

/-- Claim C26: `get_driver_buffer_flags` returns the bitwise OR of the frame-type
flag chosen by first match on the picture type, `ERROR` iff `data_corrupt` is
set or `no_output` is set with a non-zero `META_BUF_TAG` capability and no
`CODEC_CONFIG` flag, `CODECCONFIG` iff the HFI flags have `CODEC_CONFIG`, and
`LAST` iff the HFI flags have `LAST`.  Consequently, the flag masks being
distinct bits, a plain intra picture (the I bit alone) yields `KEYFRAME` iff the
codec is VP9, and at most one of `KEYFRAME`, `PFRAME`, `BFRAME` is set. -/
theorem get_driver_buffer_flags_spec (K : hfi_defs) (inst : msm_vidc_inst) (hfi_flags : Nat)
    (hbits : driver_flag_bits K) :
    get_driver_buffer_flags K inst hfi_flags = driver_flags_spec K inst hfi_flags ∧
    (inst.hfi_frame_info.picture_type = K.HFI_PICTURE_I →
      (has_flag (get_driver_buffer_flags K inst hfi_flags) K.MSM_VIDC_BUF_FLAG_KEYFRAME = true ↔
        inst.codec = K.MSM_VIDC_VP9)) ∧
    ¬ (has_flag (get_driver_buffer_flags K inst hfi_flags) K.MSM_VIDC_BUF_FLAG_KEYFRAME = true ∧
      has_flag (get_driver_buffer_flags K inst hfi_flags) K.MSM_VIDC_BUF_FLAG_PFRAME = true) ∧
    ¬ (has_flag (get_driver_buffer_flags K inst hfi_flags) K.MSM_VIDC_BUF_FLAG_KEYFRAME = true ∧
      has_flag (get_driver_buffer_flags K inst hfi_flags) K.MSM_VIDC_BUF_FLAG_BFRAME = true) ∧
    ¬ (has_flag (get_driver_buffer_flags K inst hfi_flags) K.MSM_VIDC_BUF_FLAG_PFRAME = true ∧
      has_flag (get_driver_buffer_flags K inst hfi_flags) K.MSM_VIDC_BUF_FLAG_BFRAME = true) := by
  obtain ⟨⟨hk0, hp0, hb0⟩, ⟨hkp, hkb, hpb⟩, hrest, ⟨hi0, hiidr, hip, hib⟩⟩ := hbits
  have hpk : K.MSM_VIDC_BUF_FLAG_PFRAME &&& K.MSM_VIDC_BUF_FLAG_KEYFRAME = 0 := by
    rw [Nat.land_comm]; exact hkp
  have hbk : K.MSM_VIDC_BUF_FLAG_BFRAME &&& K.MSM_VIDC_BUF_FLAG_KEYFRAME = 0 := by
    rw [Nat.land_comm]; exact hkb
  have hbp : K.MSM_VIDC_BUF_FLAG_BFRAME &&& K.MSM_VIDC_BUF_FLAG_PFRAME = 0 := by
    rw [Nat.land_comm]; exact hpb
  have hK := driver_flags_spec_frame K inst hfi_flags K.MSM_VIDC_BUF_FLAG_KEYFRAME
    (hrest _ (by simp) _ (by simp)) (hrest _ (by simp) _ (by simp))
    (hrest _ (by simp) _ (by simp))
  have hP := driver_flags_spec_frame K inst hfi_flags K.MSM_VIDC_BUF_FLAG_PFRAME
    (hrest _ (by simp) _ (by simp)) (hrest _ (by simp) _ (by simp))
    (hrest _ (by simp) _ (by simp))
  have hB := driver_flags_spec_frame K inst hfi_flags K.MSM_VIDC_BUF_FLAG_BFRAME
    (hrest _ (by simp) _ (by simp)) (hrest _ (by simp) _ (by simp))
    (hrest _ (by simp) _ (by simp))
  rw [get_driver_buffer_flags_eq, hK, hP, hB]
  refine ⟨rfl, ?_, ?_, ?_, ?_⟩
  · intro hpt
    unfold frame_type_flag
    rw [hpt, has_flag_disjoint _ _ hiidr, has_flag_disjoint _ _ hip, has_flag_disjoint _ _ hib,
      has_flag_self _ hi0]
    simp only [Bool.false_eq_true, if_false, if_true]
    by_cases hv : inst.codec = K.MSM_VIDC_VP9
    · rw [if_pos hv, has_flag_self _ hk0]; simp [hv]
    · rw [if_neg hv]; simp [has_flag, hv]
  · rcases frame_type_flag_cases K inst with h | h | h | h <;> rw [h] <;>
      simp [has_flag_self, has_flag_disjoint, hk0, hp0, hb0, hkp, hkb, hpb, hpk, hbk, hbp,
        has_flag]
  · rcases frame_type_flag_cases K inst with h | h | h | h <;> rw [h] <;>
      simp [has_flag_self, has_flag_disjoint, hk0, hp0, hb0, hkp, hkb, hpb, hpk, hbk, hbp,
        has_flag]
  · rcases frame_type_flag_cases K inst with h | h | h | h <;> rw [h] <;>
      simp [has_flag_self, has_flag_disjoint, hk0, hp0, hb0, hkp, hkb, hpb, hpk, hbk, hbp,
        has_flag]

/-- Witness for C26: with the masks of `venus`, a plain intra picture gives
`KEYFRAME` (together with `LAST` for a last-flag buffer) on a VP9 session and
no frame-type flag on another codec. -/
theorem get_driver_buffer_flags_spec_witness :
    (has_flag (get_driver_buffer_flags venus (intra_inst 4) 0x10000000)
        venus.MSM_VIDC_BUF_FLAG_KEYFRAME = true ↔ (intra_inst 4).codec = venus.MSM_VIDC_VP9) ∧
    get_driver_buffer_flags venus (intra_inst 4) 0x10000000 = 0x00100008 ∧
    get_driver_buffer_flags venus (intra_inst 1) 0x10000000 = 0x00100000 :=
  ⟨(get_driver_buffer_flags_spec venus (intra_inst 4) 0x10000000 (by decide)).2.1 rfl,
   by decide, by decide⟩

/-- Claim C27: when `handle_image_version_property` accepts a packet (returns
0), `core->fw_version[i]` is payload byte `i` if that byte is non-zero and the
space character if it is zero, for every `i < VENUS_VERSION_LENGTH - 1`, and
`core->fw_version[VENUS_VERSION_LENGTH - 1]` is NUL: the stored string has no
NUL before position `VENUS_VERSION_LENGTH - 1`.  The memory and the rest of
the core are unchanged. -/
theorem image_version_stored (K : hfi_defs) (w : world) (pkt : Nat)
    (haccept : (handle_image_version_property K w pkt).1 = 0) :
    (∀ i, i < K.VENUS_VERSION_LENGTH - 1 →
      (handle_image_version_property K w pkt).2.core.fw_version i =
        if read8 w.mem (pkt + K.sizeof_hfi_packet + i) ≠ 0 then
          read8 w.mem (pkt + K.sizeof_hfi_packet + i)
        else 32) ∧
    (handle_image_version_property K w pkt).2.core.fw_version (K.VENUS_VERSION_LENGTH - 1) = 0 ∧
    (∀ i, i < K.VENUS_VERSION_LENGTH - 1 →
      (handle_image_version_property K w pkt).2.core.fw_version i ≠ 0) ∧
    (handle_image_version_property K w pkt).2.mem = w.mem ∧
    (handle_image_version_property K w pkt).2.core.events = w.core.events := by
  unfold handle_image_version_property at haccept ⊢
  dsimp only at haccept ⊢
  split_ifs at haccept ⊢ with h
  · exact absurd haccept (by simp [EINVAL])
  · refine ⟨?_, ?_, ?_, rfl, rfl⟩
    · intro i hi
      simp only [if_pos hi]
    · simp
    · intro i hi
      simp only [if_pos hi]
      split_ifs with hb
      · exact hb
      · decide

/-- Witness for C27: the packet of `batch_version` is accepted; the stored string
begins `V`, space, `I`, space and ends with NUL at position 127. -/
theorem image_version_stored_witness :
    (∀ i, i < venus.VENUS_VERSION_LENGTH - 1 →
      (handle_image_version_property venus (world_with batch_version) 0x1020).2.core.fw_version
          i ≠ 0) ∧
    (handle_image_version_property venus (world_with batch_version) 0x1020).1 = 0 ∧
    ((List.range 4).map
      (handle_image_version_property venus (world_with batch_version) 0x1020).2.core.fw_version) =
      [0x56, 32, 0x49, 32] ∧
    (handle_image_version_property venus (world_with batch_version) 0x1020).2.core.fw_version
      127 = 0 :=
  ⟨(image_version_stored venus (world_with batch_version) 0x1020 (by decide)).2.2.1,
   by decide, by decide, by decide⟩

theorem memchr_nul_iff (m : Mem) : ∀ (n a : Nat),
    memchr_nul m a n = true ↔ ∃ i, i < n ∧ read8 m (a + i) = 0 := by
  intro n
  induction n with
  | zero => intro a; simp [memchr_nul]
  | succ n ih =>
    intro a
    unfold memchr_nul
    by_cases h0 : read8 m a = 0
    · rw [if_pos h0]
      simp only [true_iff]
      exact ⟨0, by omega, by simpa using h0⟩
    · rw [if_neg h0, ih]
      constructor
      · rintro ⟨i, hi, hr⟩
        exact ⟨i + 1, by omega, by rw [← hr]; congr 1; omega⟩
      · rintro ⟨i, hi, hr⟩
        cases i with
        | zero => exact absurd (by simpa using hr) h0
        | succ j => exact ⟨j, by omega, by rw [← hr]; congr 1; omega⟩

/-- Claim C28: `print_sfr_message`.  When the `bufSize` the crash-report buffer
declares differs from `core->sfr.mem_size`, the world is left as it is,
whatever the message bytes are.  When the buffer is mapped, the two sizes are
equal and `bufSize > 4`, the message region `rg_data[0 .. bufSize - 4)` holds a
NUL byte on return: if it held one on entry the world is unchanged, otherwise
the last byte of the region, `rg_data[bufSize - 5]`, is overwritten with NUL
and no other byte changes. -/
theorem print_sfr_message_spec (K : hfi_defs) (w : world) :
    (read32 w.mem (w.core.sfr_align_virtual_addr + K.sfr_bufSize) ≠ w.core.sfr_mem_size →
      print_sfr_message K w = w) ∧
    (w.core.sfr_align_virtual_addr ≠ 0 →
      read32 w.mem (w.core.sfr_align_virtual_addr + K.sfr_bufSize) = w.core.sfr_mem_size →
      4 < read32 w.mem (w.core.sfr_align_virtual_addr + K.sfr_bufSize) →
      (∃ i, i < read32 w.mem (w.core.sfr_align_virtual_addr + K.sfr_bufSize) - 4 ∧
        read8 (print_sfr_message K w).mem
          (w.core.sfr_align_virtual_addr + K.sfr_rg_data + i) = 0) ∧
      ((∃ i, i < read32 w.mem (w.core.sfr_align_virtual_addr + K.sfr_bufSize) - 4 ∧
          read8 w.mem (w.core.sfr_align_virtual_addr + K.sfr_rg_data + i) = 0) →
        print_sfr_message K w = w) ∧
      ((¬ ∃ i, i < read32 w.mem (w.core.sfr_align_virtual_addr + K.sfr_bufSize) - 4 ∧
          read8 w.mem (w.core.sfr_align_virtual_addr + K.sfr_rg_data + i) = 0) →
        (print_sfr_message K w).core = w.core ∧
        (print_sfr_message K w).mem
          (w.core.sfr_align_virtual_addr + K.sfr_rg_data +
            (read32 w.mem (w.core.sfr_align_virtual_addr + K.sfr_bufSize) - 5)) = 0 ∧
        ∀ x, x ≠ w.core.sfr_align_virtual_addr + K.sfr_rg_data +
            (read32 w.mem (w.core.sfr_align_virtual_addr + K.sfr_bufSize) - 5) →
          (print_sfr_message K w).mem x = w.mem x)) := by
  refine ⟨?_, ?_⟩
  · intro hne
    unfold print_sfr_message
    dsimp only
    split_ifs <;> rfl
  · intro hv heq hgt
    have hlt := read32_lt w.mem (w.core.sfr_align_virtual_addr + K.sfr_bufSize)
    have hsize : (read32 w.mem (w.core.sfr_align_virtual_addr + K.sfr_bufSize) + 4294967296 - 4)
        % 4294967296 = read32 w.mem (w.core.sfr_align_virtual_addr + K.sfr_bufSize) - 4 := by
      omega
    have hidx : (read32 w.mem (w.core.sfr_align_virtual_addr + K.sfr_bufSize) - 4 + 4294967296
        - 1) % 4294967296 = read32 w.mem (w.core.sfr_align_virtual_addr + K.sfr_bufSize) - 5 := by
      omega
    by_cases hnul : ∃ i, i < read32 w.mem (w.core.sfr_align_virtual_addr + K.sfr_bufSize) - 4 ∧
        read8 w.mem (w.core.sfr_align_virtual_addr + K.sfr_rg_data + i) = 0
    · have hres : print_sfr_message K w = w := by
        unfold print_sfr_message
        dsimp only
        rw [if_neg hv, if_neg (not_not.mpr heq), hsize, if_pos ((memchr_nul_iff _ _ _).mpr hnul)]
      refine ⟨?_, fun _ => hres, fun h => absurd hnul h⟩
      rw [hres]; exact hnul
    · have hres : print_sfr_message K w =
          { w with mem := write8 w.mem (w.core.sfr_align_virtual_addr + K.sfr_rg_data +
            (read32 w.mem (w.core.sfr_align_virtual_addr + K.sfr_bufSize) - 5)) 0 } := by
        unfold print_sfr_message
        dsimp only
        rw [if_neg hv, if_neg (not_not.mpr heq), hsize,
          if_neg (fun h => hnul ((memchr_nul_iff _ _ _).mp h)), hidx]
      rw [hres]
      refine ⟨?_, fun h => absurd h hnul, fun _ => ⟨rfl, ?_, ?_⟩⟩
      · refine ⟨read32 w.mem (w.core.sfr_align_virtual_addr + K.sfr_bufSize) - 5, by omega, ?_⟩
        simp [read8, write8]
      · simp [write8]
      · intro x hx
        simp [write8, hx]

/-- Witness for C28: the crash report `sfr_unterminated` declares its true size
of 12 bytes and holds no NUL among its eight message bytes; on return the
region holds a NUL, the last message byte `H` at `0x800B` having been
overwritten and the first seven kept. -/
theorem print_sfr_message_spec_witness :
    (∃ i, i < read32 (world_sfr sfr_unterminated).mem
          ((world_sfr sfr_unterminated).core.sfr_align_virtual_addr + venus.sfr_bufSize) - 4 ∧
        read8 (print_sfr_message venus (world_sfr sfr_unterminated)).mem
          ((world_sfr sfr_unterminated).core.sfr_align_virtual_addr + venus.sfr_rg_data + i) =
          0) ∧
    (world_sfr sfr_unterminated).mem 0x800B = 0x48 ∧
    (print_sfr_message venus (world_sfr sfr_unterminated)).mem 0x800B = 0 ∧
    (List.range 7).map (fun i => (print_sfr_message venus (world_sfr sfr_unterminated)).mem
      (0x8004 + i)) = [0x41, 0x42, 0x43, 0x44, 0x45, 0x46, 0x47] :=
  ⟨((print_sfr_message_spec venus (world_sfr sfr_unterminated)).2 (by decide) (by decide)
      (by decide)).1,
   by decide, by decide, by decide⟩

theorem response_work_item_kept (K : hfi_defs) (X : vidc_ops) (st : sess)
    (resp_work : response_work) :
    ((response_work_item K X st resp_work).1 = true ↔
      resp_work.type = response_work_type.RESP_WORK_INPUT_PSC ∧
        X.msm_vidc_allow_input_psc st.inst = msm_vidc_allow.MSM_VIDC_DEFER) ∧
    ((response_work_item K X st resp_work).1 = true →
      (response_work_item K X st resp_work).2 = st) := by
  unfold response_work_item
  cases hty : resp_work.type <;> dsimp only
  · cases hal : X.msm_vidc_allow_input_psc st.inst <;> dsimp only
    · simp
    · simp
    · split_ifs <;> simp
  · split_ifs <;> simp
  · split_ifs <;> simp
  · simp

theorem response_work_loop_queue (K : hfi_defs) (X : vidc_ops) :
    ∀ (todo kept : List response_work) (st : sess),
      st.inst.response_works = kept ++ todo →
      (response_work_loop K X kept todo st).inst.response_works =
        kept ++ remaining_works K X kept todo st := by
  intro todo
  induction todo with
  | nil =>
    intro kept st h
    simpa [response_work_loop, remaining_works] using h
  | cons w rest ih =>
    intro kept st h
    obtain ⟨hiff, hsame⟩ := response_work_item_kept K X st w
    by_cases hc : w.type = response_work_type.RESP_WORK_INPUT_PSC ∧
        X.msm_vidc_allow_input_psc st.inst = msm_vidc_allow.MSM_VIDC_DEFER
    · have h1 := hiff.mpr hc
      simp only [response_work_loop, remaining_works, h1, if_true, if_pos hc]
      rw [hsame h1, ih (kept ++ [w]) st (by rw [h]; simp)]
      simp
    · have h1 : (response_work_item K X st w).1 = false := by
        cases hb : (response_work_item K X st w).1
        · rfl
        · exact absurd (hiff.mp hb) hc
      simp only [response_work_loop, remaining_works, h1, if_neg hc, Bool.false_eq_true,
        if_false]
      exact ih kept _ rfl

theorem remaining_works_sublist (K : hfi_defs) (X : vidc_ops) :
    ∀ (todo kept : List response_work) (st : sess),
      List.Sublist (remaining_works K X kept todo st) todo ∧
      ∀ w ∈ remaining_works K X kept todo st,
        w.type = response_work_type.RESP_WORK_INPUT_PSC := by
  intro todo
  induction todo with
  | nil => intro kept st; simp [remaining_works]
  | cons w rest ih =>
    intro kept st
    unfold remaining_works
    split_ifs with hc
    · refine ⟨List.Sublist.cons₂ _ (ih _ _).1, ?_⟩
      intro v hv
      rcases List.mem_cons.mp hv with h | h
      · rw [h]; exact hc.1
      · exact (ih _ _).2 v h
    · exact ⟨List.Sublist.cons _ (ih _ _).1, (ih _ _).2⟩

theorem remaining_works_always_defer (K : hfi_defs) (X : vidc_ops)
    (hdefer : ∀ inst, X.msm_vidc_allow_input_psc inst = msm_vidc_allow.MSM_VIDC_DEFER) :
    ∀ (todo kept : List response_work) (st : sess),
      remaining_works K X kept todo st =
        todo.filter (fun w => decide (w.type = response_work_type.RESP_WORK_INPUT_PSC)) := by
  intro todo
  induction todo with
  | nil => intro kept st; rfl
  | cons w rest ih =>
    intro kept st
    unfold remaining_works
    by_cases hty : w.type = response_work_type.RESP_WORK_INPUT_PSC
    · rw [if_pos ⟨hty, hdefer _⟩, ih, List.filter_cons_of_pos (by simpa using hty)]
    · rw [if_neg (fun h => hty h.1), ih, List.filter_cons_of_neg (by simpa using hty)]

theorem remaining_works_never_defer (K : hfi_defs) (X : vidc_ops)
    (hnever : ∀ inst, X.msm_vidc_allow_input_psc inst ≠ msm_vidc_allow.MSM_VIDC_DEFER) :
    ∀ (todo kept : List response_work) (st : sess), remaining_works K X kept todo st = [] := by
  intro todo
  induction todo with
  | nil => intro kept st; rfl
  | cons w rest ih =>
    intro kept st
    unfold remaining_works
    rw [if_neg (fun h => hnever _ h.2), ih]

theorem response_work_item_no_consult (K : hfi_defs) (X : vidc_ops)
    (f : msm_vidc_inst → msm_vidc_allow) (st : sess) (resp_work : response_work)
    (hty : resp_work.type ≠ response_work_type.RESP_WORK_INPUT_PSC) :
    response_work_item K { X with msm_vidc_allow_input_psc := f } st resp_work =
      response_work_item K X st resp_work := by
  unfold response_work_item
  cases h : resp_work.type
  · exact absurd h hty
  · rfl
  · rfl
  · rfl

/-- Claim C29: after one run of `handle_session_response_work_handler` the queue
is exactly the sub-list, in the original order, of the `INPUT_PSC` items for
which `msm_vidc_allow_input_psc`, asked when the loop reached the item,
answered Defer (`remaining_works`): it is a sub-list of the queue on entry and
holds `INPUT_PSC` items only, so every `OUTPUT_PSC` item, every `LAST_FLAG`
item, every item of unknown kind and every `INPUT_PSC` item that was allowed
or disallowed has been removed.  With a predicate that always defers the queue
afterwards is the `INPUT_PSC` items of the queue, and with one that never
defers it is empty.  The step for an item that is not an `INPUT_PSC` item does
not depend on the admission predicate. -/
theorem drain_cycle_leaves_deferred_items (K : hfi_defs) (X : vidc_ops) (st : sess) :
    (handle_session_response_work_handler K X st).inst.response_works =
      remaining_works K X [] st.inst.response_works st ∧
    List.Sublist (handle_session_response_work_handler K X st).inst.response_works
      st.inst.response_works ∧
    (∀ w ∈ (handle_session_response_work_handler K X st).inst.response_works,
      w.type = response_work_type.RESP_WORK_INPUT_PSC) ∧
    ((∀ inst, X.msm_vidc_allow_input_psc inst = msm_vidc_allow.MSM_VIDC_DEFER) →
      (handle_session_response_work_handler K X st).inst.response_works =
        st.inst.response_works.filter
          (fun w => decide (w.type = response_work_type.RESP_WORK_INPUT_PSC))) ∧
    ((∀ inst, X.msm_vidc_allow_input_psc inst ≠ msm_vidc_allow.MSM_VIDC_DEFER) →
      (handle_session_response_work_handler K X st).inst.response_works = []) ∧
    (∀ (f : msm_vidc_inst → msm_vidc_allow) (s : sess) (resp_work : response_work),
      resp_work.type ≠ response_work_type.RESP_WORK_INPUT_PSC →
      response_work_item K { X with msm_vidc_allow_input_psc := f } s resp_work =
        response_work_item K X s resp_work) := by
  have h : (handle_session_response_work_handler K X st).inst.response_works =
      remaining_works K X [] st.inst.response_works st := by
    unfold handle_session_response_work_handler
    rw [response_work_loop_queue K X _ [] st (by simp)]
    simp
  rw [h]
  exact ⟨rfl, (remaining_works_sublist K X _ _ _).1, (remaining_works_sublist K X _ _ _).2,
    fun hd => remaining_works_always_defer K X hd _ _ _,
    fun hn => remaining_works_never_defer K X hn _ _ _,
    fun f s w hty => response_work_item_no_consult K X f s w hty⟩

/-- Witness for C29: with a predicate that always defers, one drain cycle of the
queue `A, B, C` (an input port-settings change, an output port-settings change
and an end-of-stream item) leaves `A` alone in the queue. -/
theorem drain_cycle_leaves_deferred_items_witness :
    (handle_session_response_work_handler venus ops_defer sess_abc).inst.response_works =
      [⟨response_work_type.RESP_WORK_INPUT_PSC, 0x1800, 64⟩] :=
  ((drain_cycle_leaves_deferred_items venus ops_defer sess_abc).2.2.2.1 (fun _ => rfl)).trans
    (by decide)

theorem scan_packets_work_eq (K : hfi_defs) (row : msm_vidc_hfi_range) (i : Nat) :
    ∀ (n : Nat) (st : sess) (pkt c : Nat),
      scan_packets_work K row i n 0 st pkt c = scan_packets K row i n st pkt c := by
  intro n
  induction n with
  | zero => intro st pkt c; rfl
  | succ n ih =>
    intro st pkt c
    unfold scan_packets_work scan_packets
    dsimp only
    split_ifs with h1 h2
    · rfl
    · rw [not_not.mp h2]
      exact ih _ _ _
    · exact ih _ _ _

theorem dispatch_rows_work_eq (K : hfi_defs) (n start : Nat) :
    ∀ (rows : List msm_vidc_hfi_range) (i : Nat) (st : sess) (c : Nat),
      dispatch_rows_work K n start rows i 0 st c = dispatch_rows K n start rows i st c := by
  intro rows
  induction rows with
  | nil => intro i st c; rfl
  | cons row rows ih =>
    intro i st c
    unfold dispatch_rows_work dispatch_rows
    dsimp only
    rw [scan_packets_work_eq]
    split_ifs with h
    · rfl
    · rw [not_not.mp h]
      exact ih _ _ _

/-- Claim C30: in `handle_session_response_work` the `-EINVAL` assigned when a
packet is dispatched after a `HFI_CMD_SETTINGS_CHANGE` packet has no effect.
A packet inside the bounds of the row is handled whatever `rc` holds at that
point, and the loops of the pass are equal, in return code, state and
`hfi_cmd_type`, to the loops of `handle_session_response`, which are the same
loops without that check: the pass returns exactly what it would return if the
check were absent. -/
theorem settings_change_check_has_no_effect (K : hfi_defs) (X : vidc_ops) (st : sess)
    (resp_work : response_work) :
    (∀ (row : msm_vidc_hfi_range) (i n : Nat) (rc1 rc2 : Int) (s : sess) (pkt c : Nat),
      in_range row.range_begin row.range_end (read32 s.mem (pkt + K.pkt_type)) = true →
      scan_packets_work K row i (n + 1) rc1 s pkt c =
        scan_packets_work K row i (n + 1) rc2 s pkt c) ∧
    (∀ (row : msm_vidc_hfi_range) (i n : Nat) (s : sess) (pkt c : Nat),
      scan_packets_work K row i n 0 s pkt c = scan_packets K row i n s pkt c) ∧
    (∀ (rows : List msm_vidc_hfi_range) (i n start : Nat) (s : sess) (c : Nat),
      dispatch_rows_work K n start rows i 0 s c = dispatch_rows K n start rows i s c) ∧
    work_dispatch K X st resp_work =
      dispatch_rows K (read32 st.mem (resp_work.data + K.hdr_num_packets))
        (resp_work.data + K.sizeof_hfi_header) (be K X) 0
        (clear_frame_info
          (if resp_work.type = response_work_type.RESP_WORK_INPUT_PSC then
            { st with inst := { st.inst with
                subcr_params := fun p =>
                  if p = msm_vidc_port_type.INPUT_PORT then
                    X.msm_vdec_init_input_subcr_params st.inst
                  else st.inst.subcr_params p,
                events := st.inst.events ++ [vidc_event.init_input_subcr_params] } }
          else st)) 0 := by
  refine ⟨?_, fun row i n s pkt c => scan_packets_work_eq K row i n s pkt c,
    fun rows i n start s c => dispatch_rows_work_eq K n start rows i s c, ?_⟩
  · intro row i n rc1 rc2 s pkt c hin
    simp only [scan_packets_work, hin, if_true]
  · unfold work_dispatch
    dsimp only
    rw [dispatch_rows_work_eq]

/-- Witness for C30: in the snapshot `snapshot_psc_then_start` a
`HFI_CMD_START` packet follows a `HFI_CMD_SETTINGS_CHANGE` packet; both are
handled by the command handler and the pass returns 0, the return value of the
last handler. -/
theorem settings_change_check_has_no_effect_witness :
    scan_packets_work venus ⟨venus.HFI_CMD_BEGIN, venus.HFI_CMD_END,
        handle_session_command venus ops_ok⟩ 3 2 0 sess_psc_then_start 0x2020 0 =
      scan_packets venus ⟨venus.HFI_CMD_BEGIN, venus.HFI_CMD_END,
        handle_session_command venus ops_ok⟩ 3 2 sess_psc_then_start 0x2020 0 ∧
    (handle_session_response_work venus ops_ok sess_psc_then_start
      ⟨response_work_type.RESP_WORK_OUTPUT_PSC, 0x2000, 96⟩).1 = 0 ∧
    (handle_session_response_work venus ops_ok sess_psc_then_start
      ⟨response_work_type.RESP_WORK_OUTPUT_PSC, 0x2000, 96⟩).2.inst.calls =
      [(3, 0x2020), (3, 0x2040)] :=
  ⟨(settings_change_check_has_no_effect venus ops_ok sess_psc_then_start
      ⟨response_work_type.RESP_WORK_OUTPUT_PSC, 0x2000, 96⟩).2.1 _ 3 2 sess_psc_then_start
      0x2020 0,
   by decide, by decide⟩

/-! ## Stale frame info, dropped batches, short packets and the port test -/

/-- Claim C32: in `handle_session_response`, for a batch that passes validation
and whose first trigger packet in wire order is a `HFI_CMD_SETTINGS_CHANGE`
packet on a port that is neither `HFI_PORT_BITSTREAM` nor `HFI_PORT_RAW`, the
function returns 0 and the whole world is what it was: no work item was queued
and no handler was invoked for any packet of the batch, the session-error,
information and property packets included. -/
theorem settings_change_on_other_port_drops_batch (K : hfi_defs) (X : vidc_ops) (w : world)
    (hdr : Nat) (inst : msm_vidc_inst) (p : Nat)
    (hinst : w.core.instances (read32 w.mem (hdr + K.hdr_session_id)) = some inst)
    (hvalid : validate_packets w.mem w.core.response_packet w.core.packet_size
      (read32 w.mem (hdr + K.hdr_num_packets)) (hdr + K.sizeof_hfi_header) = true)
    (hfirst : (packets w.mem (hdr + K.sizeof_hfi_header)
      (read32 w.mem (hdr + K.hdr_num_packets))).find? (is_trigger K w.mem) = some p)
    (htype : read32 w.mem (p + K.pkt_type) = K.HFI_CMD_SETTINGS_CHANGE)
    (hport : read32 w.mem (p + K.pkt_port) ≠ K.HFI_PORT_BITSTREAM ∧
      read32 w.mem (p + K.pkt_port) ≠ K.HFI_PORT_RAW) :
    handle_session_response K X w hdr = (0, w) := by
  have hkind : trigger_kind K w.mem p = none := by
    unfold trigger_kind
    rw [if_pos htype, if_neg hport.1, if_neg hport.2]
  have hscan := scan_response_work_first K X hdr p _ ⟨w.mem, inst⟩ _ hfirst
  have hres : session_response K X w.core.response_packet w.core.packet_size ⟨w.mem, inst⟩ hdr =
      (0, ⟨w.mem, inst⟩) := by
    unfold session_response
    simp only [hvalid, hscan, hkind]
    rfl
  unfold handle_session_response
  rw [hinst]
  simp only [hres]
  congr 1
  apply world_eta
  funext sid
  by_cases h : sid = read32 w.mem (hdr + K.hdr_session_id)
  · simp [h, hinst]
  · simp [h]

/-- Witness for C32: in `batch_error_psc_none_buffer` the first trigger packet is
the settings change on `HFI_PORT_NONE` at `0x1040`; the session-error packet
before it and the buffer packet behind it are not handled, and 0 is
returned. -/
theorem settings_change_on_other_port_drops_batch_witness :
    handle_session_response venus ops_ok (world_with batch_error_psc_none_buffer) 0x1000 =
      (0, world_with batch_error_psc_none_buffer) ∧
    ((handle_session_response venus ops_ok (world_with batch_error_psc_none_buffer)
        0x1000).2.core.instances 7).map (fun i => (i.calls, i.events, i.response_works)) =
      some ([], [], []) :=
  ⟨settings_change_on_other_port_drops_batch venus ops_ok
      (world_with batch_error_psc_none_buffer) 0x1000 (dec_inst (out_record 0x8) []) 0x1040
      rfl (by decide) (by decide) (by decide) (by decide),
   by decide⟩

theorem ite_eq_of {α : Type} (c : Prop) [Decidable c] (a b x : α) (ha : c → a = x)
    (hb : ¬ c → b = x) : (if c then a else b) = x := by
  split
  · exact ha ‹_›
  · exact hb ‹_›

/-- Claim C34: `is_valid_hfi_port`, for a non-null instance, returns true if and
only if the port is `HFI_PORT_BITSTREAM` or `HFI_PORT_RAW`, whatever the buffer
type: `HFI_PORT_NONE` (a constant distinct from both) is rejected also for
`HFI_BUFFER_ARP` and `HFI_BUFFER_PERSIST`.  Consequently, for every
`HFI_CMD_BUFFER` packet that carries a payload and whose port is
`HFI_PORT_NONE`, `handle_session_buffer` moves the instance to the Error state
and returns 0, whatever the buffer type. -/
theorem port_none_is_never_valid (K : hfi_defs) (X : vidc_ops)
    (hnone : K.HFI_PORT_NONE ≠ K.HFI_PORT_BITSTREAM ∧ K.HFI_PORT_NONE ≠ K.HFI_PORT_RAW) :
    (∀ port buffer_type, is_valid_hfi_port K port buffer_type = true ↔
      port = K.HFI_PORT_BITSTREAM ∨ port = K.HFI_PORT_RAW) ∧
    is_valid_hfi_port K K.HFI_PORT_NONE K.HFI_BUFFER_ARP = false ∧
    is_valid_hfi_port K K.HFI_PORT_NONE K.HFI_BUFFER_PERSIST = false ∧
    (∀ (st : sess) (pkt : Nat),
      read32 st.mem (pkt + K.pkt_port) = K.HFI_PORT_NONE →
      read32 st.mem (pkt + K.pkt_payload_info) ≠ K.HFI_PAYLOAD_NONE →
      handle_session_buffer K X st pkt =
        (0, { mem := st.mem, inst := { st.inst with
            state := K.MSM_VIDC_ERROR,
            events := st.inst.events ++ [vidc_event.change_inst_state K.MSM_VIDC_ERROR] } })) := by
  have hiff : ∀ port buffer_type, is_valid_hfi_port K port buffer_type = true ↔
      port = K.HFI_PORT_BITSTREAM ∨ port = K.HFI_PORT_RAW := by
    intro port buffer_type
    unfold is_valid_hfi_port
    by_cases hb : port = K.HFI_PORT_BITSTREAM
    · have h1 : ¬ (port = K.HFI_PORT_NONE ∧ buffer_type ≠ K.HFI_BUFFER_ARP ∧
          buffer_type ≠ K.HFI_BUFFER_PERSIST) := fun h => hnone.1 (h.1.symm.trans hb)
      rw [if_neg h1, if_neg (fun h => h.1 hb)]
      simp [hb]
    · by_cases hr : port = K.HFI_PORT_RAW
      · have h1 : ¬ (port = K.HFI_PORT_NONE ∧ buffer_type ≠ K.HFI_BUFFER_ARP ∧
            buffer_type ≠ K.HFI_BUFFER_PERSIST) := fun h => hnone.2 (h.1.symm.trans hr)
        rw [if_neg h1, if_neg (fun h => h.2 hr)]
        simp [hr]
      · have h2 : port ≠ K.HFI_PORT_BITSTREAM ∧ port ≠ K.HFI_PORT_RAW := ⟨hb, hr⟩
        split_ifs <;> simp [hb, hr]
  have hfalse : ∀ buffer_type, is_valid_hfi_port K K.HFI_PORT_NONE buffer_type = false := by
    intro buffer_type
    cases h : is_valid_hfi_port K K.HFI_PORT_NONE buffer_type
    · rfl
    · rcases (hiff _ _).mp h with h1 | h1
      · exact absurd h1 hnone.1
      · exact absurd h1 hnone.2
  refine ⟨hiff, hfalse _, hfalse _, ?_⟩
  intro st pkt hport hpay
  unfold handle_session_buffer
  apply ite_eq_of
  · intro _; rfl
  · intro _
    rw [if_neg hpay]
    show (if is_valid_hfi_buffer_type K
          (read32 st.mem (pkt + K.sizeof_hfi_packet + K.buf_type)) = false then
        (0, (msm_vidc_change_inst_state X st K.MSM_VIDC_ERROR).2)
      else if is_valid_hfi_port K (read32 st.mem (pkt + K.pkt_port))
          (read32 st.mem (pkt + K.sizeof_hfi_packet + K.buf_type)) = false then
        (0, (msm_vidc_change_inst_state X st K.MSM_VIDC_ERROR).2)
      else _) = _
    apply ite_eq_of
    · intro _; rfl
    · intro _
      rw [hport, if_pos (hfalse _)]
      rfl

/-- Witness for C34: a payload-carrying `HFI_CMD_BUFFER` packet on `HFI_PORT_NONE`
for a buffer of type `HFI_BUFFER_ARP` moves the instance to the Error state
(tag 7) and returns 0; no ARP handler runs. -/
theorem port_none_is_never_valid_witness :
    is_valid_hfi_buffer_type venus 7 = true ∧
    handle_session_buffer venus ops_ok (sess_buffer_port_none 7) 0x1000 =
      (0, { mem := (sess_buffer_port_none 7).mem, inst := { (sess_buffer_port_none 7).inst with
          state := 7, events := [vidc_event.change_inst_state 7] } }) :=
  ⟨by decide,
   (port_none_is_never_valid venus ops_ok (by decide)).2.2.2 (sess_buffer_port_none 7) 0x1000
      (by decide) (by decide)⟩

/-- Claim C33: the verdict of `validate_packet` depends on the position of the
packet and on the `u32` declared size in its first four bytes only, and it
accepts every declared size from 1 up to the number of bytes that remain
before the limit, sizes below `sizeof(struct hfi_packet)` included.  Hence
passing validation does not imply that the header of every packet lies inside
the buffer: the batch `batch_short_packet` passes `handle_response` and the
whole validation pass of `handle_session_response` in a response buffer of 36
bytes, although its packet declares 4 bytes and its type field lies at the
limit `0x1024`; the dispatch pass reads the type there and calls the
session-error handler on the packet. -/
theorem validation_does_not_cover_packet_header :
    (∀ (m1 m2 : Mem) (p a b : Nat), read32 m1 p = read32 m2 p →
      validate_packet m1 p a b = validate_packet m2 p a b) ∧
    (∀ (m : Mem) (p a b : Nat), p ≠ 0 → a ≠ 0 → b ≠ 0 → a ≤ p → p ≤ a + b →
      1 ≤ read32 m p → p + read32 m p ≤ a + b → validate_packet m p a b = 0) ∧
    (validate_packet (world_small batch_short_packet).mem 0x1000
        (world_small batch_short_packet).core.response_packet
        (world_small batch_short_packet).core.packet_size = 0 ∧
      validate_packets (world_small batch_short_packet).mem
        (world_small batch_short_packet).core.response_packet
        (world_small batch_short_packet).core.packet_size 1 0x1020 = true ∧
      read32 (world_small batch_short_packet).mem 0x1020 = 4 ∧
      read32 (world_small batch_short_packet).mem 0x1020 < venus.sizeof_hfi_packet ∧
      (world_small batch_short_packet).core.response_packet +
        (world_small batch_short_packet).core.packet_size ≤ 0x1020 + venus.pkt_type ∧
      (handle_response venus ops_ok (world_small batch_short_packet) 0x1000).1 = 0 ∧
      ((handle_response venus ops_ok (world_small batch_short_packet) 0x1000).2.core.instances
        7).map (fun i => i.calls) = some [(0, 0x1020)]) := by
  refine ⟨?_, ?_, by decide⟩
  · intro m1 m2 p a b h
    unfold validate_packet
    rw [h]
  · intro m p a b hp ha hb hle hlim hsz hend
    unfold validate_packet
    dsimp only
    rw [if_neg (by tauto), if_neg (by omega), if_neg (by omega), if_neg (by omega)]

/-- Witness for C33: a packet of declared size 1 at the very limit of the buffer
is accepted, and the verdict on the short packet of `batch_short_packet` is the
same in every memory that holds the same declared size. -/
theorem validation_does_not_cover_packet_header_witness :
    validate_packet (mem_of 0x1000 (List.replicate 35 0 ++ [1])) 0x1023 0x1000 36 = 0 ∧
    validate_packet (mem_of 0x1020 [4]) 0x1020 0x1000 36 =
      validate_packet (world_small batch_short_packet).mem 0x1020 0x1000 36 :=
  ⟨validation_does_not_cover_packet_header.2.1 _ 0x1023 0x1000 36 (by decide) (by decide)
      (by decide) (by decide) (by decide) (by decide) (by decide),
   validation_does_not_cover_packet_header.1 _ _ 0x1020 0x1000 36 (by decide)⟩

theorem forget_frame_info_eq (a b : msm_vidc_inst)
    (h : forget_frame_info b = forget_frame_info a) :
    b = { a with hfi_frame_info := b.hfi_frame_info } := by
  cases a
  cases b
  simp only [forget_frame_info, msm_vidc_inst.mk.injEq] at h
  obtain ⟨h1, h2, h3, h4, h5, h6, _, h8, h9, h10, h11⟩ := h
  subst h1 h2 h3 h4 h5 h6 h8 h9 h10 h11
  rfl

theorem queue_response_work_stale (X : vidc_ops) (hblind : frame_info_blind X) (m : Mem)
    (inst : msm_vidc_inst) (fi : msm_vidc_hfi_frame_info) (type : response_work_type)
    (hdr hdr_size : Nat) :
    queue_response_work X ⟨m, { inst with hfi_frame_info := fi }⟩ type hdr hdr_size =
      ((queue_response_work X ⟨m, inst⟩ type hdr hdr_size).1,
       ⟨(queue_response_work X ⟨m, inst⟩ type hdr hdr_size).2.mem,
        { (queue_response_work X ⟨m, inst⟩ type hdr hdr_size).2.inst with
          hfi_frame_info := fi }⟩) := by
  obtain ⟨h1, h2, _⟩ := hblind inst fi
  unfold queue_response_work
  dsimp only
  rw [h1, h2]
  split_ifs <;> rfl

theorem scan_response_work_stale (K : hfi_defs) (X : vidc_ops) (hblind : frame_info_blind X)
    (m : Mem) (inst : msm_vidc_inst) (fi : msm_vidc_hfi_frame_info) (hdr : Nat) :
    ∀ (n pkt : Nat),
      scan_response_work K X hdr n ⟨m, { inst with hfi_frame_info := fi }⟩ pkt =
        (scan_response_work K X hdr n ⟨m, inst⟩ pkt).map
          (fun r => (r.1, ⟨r.2.mem, { r.2.inst with hfi_frame_info := fi }⟩)) := by
  intro n
  induction n with
  | zero => intro pkt; rfl
  | succ n ih =>
    intro pkt
    unfold scan_response_work
    dsimp only
    split_ifs
    · rw [queue_response_work_stale X hblind]; rfl
    · rw [queue_response_work_stale X hblind]; rfl
    · rfl
    · rw [queue_response_work_stale X hblind]; rfl
    · exact ih _

theorem session_response_stale (K : hfi_defs) (X : vidc_ops) (hblind : frame_info_blind X)
    (base size : Nat) (m : Mem) (inst : msm_vidc_inst) (fi : msm_vidc_hfi_frame_info)
    (hdr : Nat) :
    (session_response K X base size ⟨m, { inst with hfi_frame_info := fi }⟩ hdr).1 =
      (session_response K X base size ⟨m, inst⟩ hdr).1 ∧
    (session_response K X base size ⟨m, { inst with hfi_frame_info := fi }⟩ hdr).2.mem =
      (session_response K X base size ⟨m, inst⟩ hdr).2.mem ∧
    forget_frame_info
        (session_response K X base size ⟨m, { inst with hfi_frame_info := fi }⟩ hdr).2.inst =
      forget_frame_info (session_response K X base size ⟨m, inst⟩ hdr).2.inst := by
  unfold session_response
  dsimp only
  by_cases hv : validate_packets m base size (read32 m (hdr + K.hdr_num_packets))
      (hdr + K.sizeof_hfi_header) = false
  · rw [if_pos hv, if_pos hv]
    exact ⟨rfl, rfl, rfl⟩
  · rw [if_neg hv, if_neg hv, scan_response_work_stale K X hblind]
    cases scan_response_work K X hdr (read32 m (hdr + K.hdr_num_packets)) ⟨m, inst⟩
      (hdr + K.sizeof_hfi_header) with
    | none => exact ⟨rfl, rfl, rfl⟩
    | some r => exact ⟨rfl, rfl, rfl⟩

theorem work_dispatch_stale (K : hfi_defs) (X : vidc_ops) (hblind : frame_info_blind X)
    (m : Mem) (inst : msm_vidc_inst) (fi : msm_vidc_hfi_frame_info)
    (resp_work : response_work) :
    work_dispatch K X ⟨m, { inst with hfi_frame_info := fi }⟩ resp_work =
      work_dispatch K X ⟨m, inst⟩ resp_work := by
  obtain ⟨_, _, h3⟩ := hblind inst fi
  unfold work_dispatch
  dsimp only
  by_cases ht : resp_work.type = response_work_type.RESP_WORK_INPUT_PSC
  · rw [if_pos ht, if_pos ht, h3]
    rfl
  · rw [if_neg ht, if_neg ht]
    rfl

theorem handle_session_response_work_stale (K : hfi_defs) (X : vidc_ops)
    (hblind : frame_info_blind X) (m : Mem) (inst : msm_vidc_inst)
    (fi : msm_vidc_hfi_frame_info) (resp_work : response_work) :
    (handle_session_response_work K X ⟨m, { inst with hfi_frame_info := fi }⟩ resp_work).1 =
      (handle_session_response_work K X ⟨m, inst⟩ resp_work).1 ∧
    (handle_session_response_work K X ⟨m, { inst with hfi_frame_info := fi }⟩ resp_work).2.mem =
      (handle_session_response_work K X ⟨m, inst⟩ resp_work).2.mem ∧
    forget_frame_info
        (handle_session_response_work K X ⟨m, { inst with hfi_frame_info := fi }⟩
          resp_work).2.inst =
      forget_frame_info (handle_session_response_work K X ⟨m, inst⟩ resp_work).2.inst := by
  unfold handle_session_response_work
  dsimp only
  by_cases h0 : resp_work.data = 0
  · rw [if_pos h0, if_pos h0]
    exact ⟨rfl, rfl, rfl⟩
  · rw [if_neg h0, if_neg h0]
    by_cases hv : validate_packets m resp_work.data resp_work.data_size
        (read32 m (resp_work.data + K.hdr_num_packets))
        (resp_work.data + K.sizeof_hfi_header) = false
    · rw [if_pos hv, if_pos hv]
      exact ⟨rfl, rfl, rfl⟩
    · rw [if_neg hv, if_neg hv, work_dispatch_stale K X hblind]
      exact ⟨rfl, rfl, rfl⟩

/-- Claim C31: stale frame info never influences a batch.  For two worlds with
the same memory and response buffer whose instances agree on everything except
`hfi_frame_info`, `handle_session_response` on the same batch gives the same
return code, the same memory and instances that again agree on everything
except the frame info: the same outbound calls in the same order (state
transitions, completion notifications, releases, queued work), the same
handler calls, the same buffer records, subscription parameters and queue.
The same holds for `handle_session_response_work` on two session states.  The
outbound calls made before the frame info is zeroed, the two allocations and
`msm_vdec_init_input_subcr_params`, are taken not to read it. -/
theorem stale_frame_info_has_no_influence (K : hfi_defs) (X : vidc_ops) (w1 w2 : world)
    (hdr : Nat) (inst1 inst2 : msm_vidc_inst) (st1 st2 : sess) (resp_work : response_work)
    (hblind : frame_info_blind X)
    (hmem : w2.mem = w1.mem)
    (hbuf : w2.core.response_packet = w1.core.response_packet ∧
      w2.core.packet_size = w1.core.packet_size)
    (hinst1 : w1.core.instances (read32 w1.mem (hdr + K.hdr_session_id)) = some inst1)
    (hinst2 : w2.core.instances (read32 w1.mem (hdr + K.hdr_session_id)) = some inst2)
    (hagree : forget_frame_info inst2 = forget_frame_info inst1)
    (hst : st2.mem = st1.mem ∧ forget_frame_info st2.inst = forget_frame_info st1.inst) :
    ((handle_session_response K X w2 hdr).1 = (handle_session_response K X w1 hdr).1 ∧
      (handle_session_response K X w2 hdr).2.mem = (handle_session_response K X w1 hdr).2.mem ∧
      ((handle_session_response K X w2 hdr).2.core.instances
          (read32 w1.mem (hdr + K.hdr_session_id))).map forget_frame_info =
        ((handle_session_response K X w1 hdr).2.core.instances
          (read32 w1.mem (hdr + K.hdr_session_id))).map forget_frame_info) ∧
    ((handle_session_response_work K X st2 resp_work).1 =
        (handle_session_response_work K X st1 resp_work).1 ∧
      (handle_session_response_work K X st2 resp_work).2.mem =
        (handle_session_response_work K X st1 resp_work).2.mem ∧
      forget_frame_info (handle_session_response_work K X st2 resp_work).2.inst =
        forget_frame_info (handle_session_response_work K X st1 resp_work).2.inst) := by
  refine ⟨?_, ?_⟩
  · have h2 := forget_frame_info_eq inst1 inst2 hagree
    obtain ⟨r1, r2, r3⟩ := session_response_stale K X hblind w1.core.response_packet
      w1.core.packet_size w1.mem inst1 inst2.hfi_frame_info hdr
    unfold handle_session_response
    rw [hmem, hinst1, hinst2, hbuf.1, hbuf.2, h2]
    simp only [if_true, Option.map_some']
    exact ⟨r1, r2, congrArg some r3⟩
  · obtain ⟨m1, i1⟩ := st1
    obtain ⟨m2, i2⟩ := st2
    obtain ⟨hm, hi⟩ := hst
    simp only at hm hi
    subst hm
    rw [forget_frame_info_eq i1 i2 hi]
    exact handle_session_response_work_stale K X hblind m2 i1 i2.hfi_frame_info resp_work

/-- Witness for C31: the batch `batch_cmd_then_error` run on the instance with a
stale frame info (a B picture, data corrupt, no output) and on the instance
with a zero frame info gives the same return code, memory and instance up to
the frame info; the flags derived for the Output record carry no trace of the
stale values. -/
theorem stale_frame_info_has_no_influence_witness :
    ((handle_session_response venus ops_ok (world_stale batch_cmd_then_error) 0x1000).1 =
        (handle_session_response venus ops_ok (world_with batch_cmd_then_error) 0x1000).1 ∧
      (handle_session_response venus ops_ok (world_stale batch_cmd_then_error) 0x1000).2.mem =
        (handle_session_response venus ops_ok (world_with batch_cmd_then_error) 0x1000).2.mem ∧
      ((handle_session_response venus ops_ok (world_stale batch_cmd_then_error)
          0x1000).2.core.instances 7).map forget_frame_info =
        ((handle_session_response venus ops_ok (world_with batch_cmd_then_error)
          0x1000).2.core.instances 7).map forget_frame_info) ∧
    ((handle_session_response venus ops_ok (world_stale batch_cmd_then_error)
        0x1000).2.core.instances 7).map
      (fun i => (i.buffers msm_vidc_buffer_type.MSM_VIDC_BUF_OUTPUT).map
        (fun l => l.map (fun b => b.flags))) = some (some [0]) :=
  ⟨(stale_frame_info_has_no_influence venus ops_ok (world_with batch_cmd_then_error)
      (world_stale batch_cmd_then_error) 0x1000 (dec_inst (out_record 0x8) []) (stale_inst [])
      sess_abc sess_abc ⟨response_work_type.RESP_WORK_OUTPUT_PSC, 0x2000, 64⟩
      (fun _ _ => ⟨rfl, fun _ => rfl, rfl⟩) rfl ⟨rfl, rfl⟩ rfl rfl rfl ⟨rfl, rfl⟩).1,
   by decide⟩

/-! ## Released records and overlapping packets -/

/-- Claim C7: `handle_dequeue_buffers` on an instance whose InputMeta, Input,
OutputMeta and Output collections resolve returns 0, leaves the other
collections alone, and for each of the four collections, `l` on entry:
the records it keeps are those of `l`, in order, that are not released, a
record being released when it is `Dequeued` and not `READ_ONLY` on entry; a
kept record that was `Dequeued` has the flag cleared and `BUFFER_DONE` set, with
nothing but the attributes changed and `READ_ONLY` and `QUEUED` as they were,
and a record that was not `Dequeued` is unchanged (`reconciled`).  For the
record `b` at position `idx` of `l`, `msm_vidc_vb2_buffer_done` is called once
if `b` is `Dequeued` with `BUFFER_DONE` clear and not at all otherwise, and
`msm_vidc_put_driver_buf` is called once if `b` is `Dequeued` and not
`READ_ONLY` and not at all otherwise.  The four attribute masks are taken to be
distinct bits (`attr_bits`). -/
theorem handle_dequeue_buffers_spec (K : hfi_defs) (st : sess) (ty : msm_vidc_buffer_type)
    (l : List msm_vidc_buffer)
    (hK : attr_bits K)
    (hall : ∀ t ∈ dequeue_kinds, st.inst.buffers t ≠ none)
    (hty : ty ∈ dequeue_kinds)
    (hl : st.inst.buffers ty = some l) :
    (handle_dequeue_buffers K st).1 = 0 ∧
    (∀ t, t ∉ dequeue_kinds →
      (handle_dequeue_buffers K st).2.inst.buffers t = st.inst.buffers t) ∧
    (∃ l', (handle_dequeue_buffers K st).2.inst.buffers ty = some l' ∧
      List.Forall₂ (reconciled K) (l.filter (fun b => !released K b.attr)) l') ∧
    ∀ idx b, l[idx]? = some b →
      (handle_dequeue_buffers K st).2.inst.events.count (vidc_event.vb2_buffer_done ty idx) =
        st.inst.events.count (vidc_event.vb2_buffer_done ty idx) +
          (if has_flag b.attr K.MSM_VIDC_ATTR_DEQUEUED = true ∧
              has_flag b.attr K.MSM_VIDC_ATTR_BUFFER_DONE = false then 1 else 0) ∧
      (handle_dequeue_buffers K st).2.inst.events.count (vidc_event.put_driver_buf ty idx) =
        st.inst.events.count (vidc_event.put_driver_buf ty idx) +
          (if has_flag b.attr K.MSM_VIDC_ATTR_DEQUEUED = true ∧
              has_flag b.attr K.MSM_VIDC_ATTR_READ_ONLY = false then 1 else 0) := by
  obtain ⟨h0, _, hother, hbuf, hcount⟩ := dequeue_record_effect K st ty l hK hall hty hl
  refine ⟨h0, hother, ⟨_, hbuf, dequeue_list_reconciled K ty hK l 0⟩, ?_⟩
  intro idx b hb
  obtain ⟨hv, hp⟩ := hcount idx b hb
  refine ⟨hv, ?_⟩
  rw [hp]
  unfold released
  cases has_flag b.attr K.MSM_VIDC_ATTR_DEQUEUED <;>
    cases has_flag b.attr K.MSM_VIDC_ATTR_READ_ONLY <;> simp

/-- Witness for C7: of three Output records, the dequeued one that is not
read-only is notified and released, the dequeued read-only one is notified and
kept with `BUFFER_DONE` in place of `Dequeued`, and the queued one is left as
it is. -/
theorem handle_dequeue_buffers_spec_witness :
    (handle_dequeue_buffers venus ⟨mem_of 0 [], inst_three_outputs⟩).1 = 0 ∧
    (handle_dequeue_buffers venus ⟨mem_of 0 [], inst_three_outputs⟩).2.inst.events =
      [vidc_event.dequeue_buffers,
       vidc_event.vb2_buffer_done msm_vidc_buffer_type.MSM_VIDC_BUF_OUTPUT 0,
       vidc_event.put_driver_buf msm_vidc_buffer_type.MSM_VIDC_BUF_OUTPUT 0,
       vidc_event.vb2_buffer_done msm_vidc_buffer_type.MSM_VIDC_BUF_OUTPUT 1] ∧
    (handle_dequeue_buffers venus ⟨mem_of 0 [], inst_three_outputs⟩).2.inst.buffers
      msm_vidc_buffer_type.MSM_VIDC_BUF_OUTPUT = some [out_record 0x22, out_record 0x8] :=
  ⟨(handle_dequeue_buffers_spec venus ⟨mem_of 0 [], inst_three_outputs⟩
      msm_vidc_buffer_type.MSM_VIDC_BUF_OUTPUT [out_record 0x10, out_record 0x12, out_record 0x8]
      (by decide) (by decide) (by decide) rfl).1,
    by decide, by decide⟩

theorem dequeue_buffer_some_reconciled (K : hfi_defs) (ty : msm_vidc_buffer_type) (idx : Nat)
    (b b' : msm_vidc_buffer) (hK : attr_bits K) (h : (dequeue_buffer K ty idx b).1 = some b') :
    reconciled K b b' := by
  cases hd : has_flag b.attr K.MSM_VIDC_ATTR_DEQUEUED
  · rw [dequeue_buffer_skip K ty idx b hd] at h
    injection h with h
    subst h
    unfold reconciled
    rw [hd]
    simp
  · cases hro : has_flag b.attr K.MSM_VIDC_ATTR_READ_ONLY
    · rw [(dequeue_buffer_done K ty idx b hK hd).2.1 hro] at h
      cases h
    · obtain ⟨b2, hb2, hrec⟩ := (dequeue_buffer_done K ty idx b hK hd).2.2 hro
      rw [hb2] at h
      injection h with h
      subst h
      exact hrec

theorem reconciled_not_dequeued (K : hfi_defs) (b b' : msm_vidc_buffer)
    (h : reconciled K b b') : has_flag b'.attr K.MSM_VIDC_ATTR_DEQUEUED = false := by
  unfold reconciled at h
  split_ifs at h with hd
  · exact h.2.1
  · rw [h]
    simpa using hd

theorem reconciled_done (K : hfi_defs) (b b' : msm_vidc_buffer)
    (h : reconciled K b b') (hd : has_flag b.attr K.MSM_VIDC_ATTR_DEQUEUED = true) :
    has_flag b'.attr K.MSM_VIDC_ATTR_BUFFER_DONE = true := by
  unfold reconciled at h
  rw [if_pos hd] at h
  exact h.2.2.1

/-- After the loop of `handle_dequeue_buffers` no record of the collection is
`Dequeued`, and every record has the device address of a record that was there
before. -/
theorem dequeue_list_mem (K : hfi_defs) (ty : msm_vidc_buffer_type) (hK : attr_bits K) :
    ∀ (l : List msm_vidc_buffer) (i0 : Nat) (x : msm_vidc_buffer),
      x ∈ (dequeue_list K ty i0 l).1 →
      has_flag x.attr K.MSM_VIDC_ATTR_DEQUEUED = false ∧
      ∃ y ∈ l, x.device_addr = y.device_addr := by
  intro l
  induction l with
  | nil => intro i0 x h; simp [dequeue_list] at h
  | cons b bs ih =>
    intro i0 x h
    simp only [dequeue_list, List.mem_append, Option.mem_toList, Option.mem_def] at h
    rcases h with h | h
    · have hrec := dequeue_buffer_some_reconciled K ty i0 b x hK h
      exact ⟨reconciled_not_dequeued K b x hrec, b, List.mem_cons_self _ _,
        reconciled_addr K b x hrec⟩
    · obtain ⟨h1, y, hy, h2⟩ := ih _ x h
      exact ⟨h1, y, List.mem_cons_of_mem _ hy, h2⟩

/-- A record that is `Dequeued` with `BUFFER_DONE` set, or not `Dequeued`, is not
notified by the loop of `handle_dequeue_buffers`. -/
theorem dequeue_list_no_notify (K : hfi_defs) (ty : msm_vidc_buffer_type) (hK : attr_bits K)
    (ty2 : msm_vidc_buffer_type) (i : Nat) :
    ∀ (l : List msm_vidc_buffer) (i0 : Nat),
      (∀ x ∈ l, has_flag x.attr K.MSM_VIDC_ATTR_DEQUEUED = true →
        has_flag x.attr K.MSM_VIDC_ATTR_BUFFER_DONE = true) →
      (dequeue_list K ty i0 l).2.count (vidc_event.vb2_buffer_done ty2 i) = 0 := by
  intro l
  induction l with
  | nil => intro i0 _; simp [dequeue_list]
  | cons b bs ih =>
    intro i0 h
    simp only [dequeue_list, List.count_append]
    rw [ih _ (fun x hx => h x (List.mem_cons_of_mem _ hx))]
    cases hd : has_flag b.attr K.MSM_VIDC_ATTR_DEQUEUED
    · rw [dequeue_buffer_skip K ty i0 b hd]; simp
    · rw [(dequeue_buffer_done K ty i0 b hK hd).1]
      unfold dequeue_calls
      rw [if_pos (h b (List.mem_cons_self _ _) hd)]
      split_ifs <;> simp

/-- The record that `find_buffer` finds for `addr` is found again after the loop
of `handle_dequeue_buffers`, in the state the loop left it in, when the loop
keeps it. -/
theorem dequeue_list_find_kept (K : hfi_defs) (ty : msm_vidc_buffer_type) (hK : attr_bits K)
    (addr : Nat) :
    ∀ (l : List msm_vidc_buffer) (i0 idx : Nat) (b b' : msm_vidc_buffer),
      find_buffer addr l = some (idx, b) →
      (dequeue_buffer K ty (i0 + idx) b).1 = some b' →
      ∃ idx', find_buffer addr (dequeue_list K ty i0 l).1 = some (idx', b') := by
  intro l
  induction l with
  | nil => intro i0 idx b b' h; simp [find_buffer] at h
  | cons c cs ih =>
    intro i0 idx b b' h hk
    unfold find_buffer at h
    split_ifs at h with hc
    · injection h with h; injection h with h1 h2
      subst h1; subst h2
      rw [Nat.add_zero] at hk
      have haddr := reconciled_addr K c b' (dequeue_buffer_some_reconciled K ty i0 c b' hK hk)
      refine ⟨0, ?_⟩
      simp only [dequeue_list, hk, Option.toList, List.singleton_append]
      unfold find_buffer
      rw [if_pos (haddr.trans hc)]
    · cases hf : find_buffer addr cs with
      | none => rw [hf] at h; simp at h
      | some r =>
        rw [hf] at h
        simp only [Option.map_some', Option.some.injEq, Prod.mk.injEq] at h
        obtain ⟨h1, h2⟩ := h
        subst h1; subst h2
        have hk2 : (dequeue_buffer K ty (i0 + 1 + r.1) r.2).1 = some b' := by
          rw [← hk]; congr 2; omega
        obtain ⟨j, hj⟩ := ih (i0 + 1) r.1 r.2 b' hf hk2
        cases hcd : (dequeue_buffer K ty i0 c).1 with
        | none =>
          refine ⟨j, ?_⟩
          simp only [dequeue_list, hcd, Option.toList, List.nil_append]
          exact hj
        | some c' =>
          have haddr := reconciled_addr K c c' (dequeue_buffer_some_reconciled K ty i0 c c' hK hcd)
          refine ⟨j + 1, ?_⟩
          simp only [dequeue_list, hcd, Option.toList, List.singleton_append]
          unfold find_buffer
          rw [if_neg (by rw [haddr]; exact hc), hj]
          rfl

/-- When the only record with the device address `addr` is released by the loop
of `handle_dequeue_buffers`, no record with that address is left. -/
theorem dequeue_list_find_released (K : hfi_defs) (ty : msm_vidc_buffer_type) (hK : attr_bits K)
    (addr : Nat) :
    ∀ (l : List msm_vidc_buffer) (i0 idx : Nat) (b : msm_vidc_buffer),
      find_buffer addr l = some (idx, b) →
      (l.map (fun x => x.device_addr)).count addr = 1 →
      (dequeue_buffer K ty (i0 + idx) b).1 = none →
      ∀ x ∈ (dequeue_list K ty i0 l).1, x.device_addr ≠ addr := by
  intro l
  induction l with
  | nil => intro i0 idx b h; simp [find_buffer] at h
  | cons c cs ih =>
    intro i0 idx b h hone hk x hx
    unfold find_buffer at h
    simp only [List.map_cons, List.count_cons] at hone
    split_ifs at h with hc
    · injection h with h; injection h with h1 h2
      subst h1; subst h2
      rw [Nat.add_zero] at hk
      simp only [dequeue_list, hk, Option.toList, List.nil_append] at hx
      obtain ⟨_, y, hy, hxy⟩ := dequeue_list_mem K ty hK cs _ x hx
      have h0 : (cs.map (fun x => x.device_addr)).count addr = 0 := by
        simp only [hc, beq_self_eq_true, if_true] at hone
        omega
      intro hxa
      have : addr ∈ cs.map (fun x => x.device_addr) :=
        List.mem_map.mpr ⟨y, hy, hxy.symm.trans hxa⟩
      exact (List.count_eq_zero.mp h0) this
    · cases hf : find_buffer addr cs with
      | none => rw [hf] at h; simp at h
      | some r =>
        rw [hf] at h
        simp only [Option.map_some', Option.some.injEq, Prod.mk.injEq] at h
        obtain ⟨h1, h2⟩ := h
        subst h1; subst h2
        have hk2 : (dequeue_buffer K ty (i0 + 1 + r.1) r.2).1 = none := by
          rw [← hk]; congr 2; omega
        have hone2 : (cs.map (fun x => x.device_addr)).count addr = 1 := by
          have : (c.device_addr == addr) = false := by simpa using hc
          simpa [this] using hone
        simp only [dequeue_list, List.mem_append, Option.mem_toList, Option.mem_def] at hx
        rcases hx with hx | hx
        · rw [reconciled_addr K c x (dequeue_buffer_some_reconciled K ty i0 c x hK hx)]
          exact hc
        · exact ih (i0 + 1) r.1 r.2 hf hone2 hk2 x hx

theorem handle_dequeue_buffers_no_notify (K : hfi_defs) (st : sess) (hK : attr_bits K)
    (hall : ∀ t ∈ dequeue_kinds, ∃ lt, st.inst.buffers t = some lt ∧
      ∀ x ∈ lt, has_flag x.attr K.MSM_VIDC_ATTR_DEQUEUED = true →
        has_flag x.attr K.MSM_VIDC_ATTR_BUFFER_DONE = true) :
    (handle_dequeue_buffers K st).1 = 0 ∧
    ∀ ty i, (handle_dequeue_buffers K st).2.inst.events.count (vidc_event.vb2_buffer_done ty i) =
      st.inst.events.count (vidc_event.vb2_buffer_done ty i) := by
  obtain ⟨l1, h1, c1⟩ := hall msm_vidc_buffer_type.MSM_VIDC_BUF_INPUT_META (by simp [dequeue_kinds])
  obtain ⟨l2, h2, c2⟩ := hall msm_vidc_buffer_type.MSM_VIDC_BUF_INPUT (by simp [dequeue_kinds])
  obtain ⟨l3, h3, c3⟩ := hall msm_vidc_buffer_type.MSM_VIDC_BUF_OUTPUT_META (by simp [dequeue_kinds])
  obtain ⟨l4, h4, c4⟩ := hall msm_vidc_buffer_type.MSM_VIDC_BUF_OUTPUT (by simp [dequeue_kinds])
  obtain ⟨e0, _, _, ee⟩ := handle_dequeue_buffers_eq K st l1 l2 l3 l4 h1 h2 h3 h4
  refine ⟨e0, fun ty i => ?_⟩
  rw [ee]
  simp only [List.count_append]
  rw [dequeue_list_no_notify K _ hK ty i l1 0 c1, dequeue_list_no_notify K _ hK ty i l2 0 c2,
    dequeue_list_no_notify K _ hK ty i l3 0 c3, dequeue_list_no_notify K _ hK ty i l4 0 c4]
  simp

theorem handle_dequeue_buffers_clean (K : hfi_defs) (st : sess) (hK : attr_bits K)
    (hall : ∀ t ∈ dequeue_kinds, st.inst.buffers t ≠ none) :
    ∀ t ∈ dequeue_kinds, ∃ lt, (handle_dequeue_buffers K st).2.inst.buffers t = some lt ∧
      ∀ x ∈ lt, has_flag x.attr K.MSM_VIDC_ATTR_DEQUEUED = false := by
  intro t ht
  obtain ⟨l0, hl0⟩ := Option.ne_none_iff_exists'.mp (hall t ht)
  exact ⟨_, (dequeue_record_effect K st t l0 hK hall ht hl0).2.2.2.1,
    fun x hx => (dequeue_list_mem K t hK l0 0 x hx).1⟩

/-- Claim C8 (amended): a completion for the Output record `b`, the only record
of the Output collection with its device address and not yet `BUFFER_DONE`, is
delivered twice, the second time from a response memory `m2` whose packet names
the same device address.  The first delivery (`handle_output_buffer` followed by
`handle_dequeue_buffers`) succeeds and adds exactly one
`msm_vidc_vb2_buffer_done` call for the record; the second delivery adds no
`msm_vidc_vb2_buffer_done` call at all.  When the first packet's flags contain
`HFI_BUF_FW_FLAG_READONLY` and not the last flag, the record stays in the
collection, and the second delivery succeeds and finds it with `BUFFER_DONE`
set; otherwise the first reconciliation pass released the record, no record
with that address is left, and the second delivery fails in
`handle_output_buffer` with `-EINVAL`, leaving the instance as it was. -/
theorem duplicate_completion_notified_once (K : hfi_defs) (X : vidc_ops) (st : sess) (m2 : Mem)
    (buffer1 buffer2 : Nat) (l : List msm_vidc_buffer) (idx : Nat) (b : msm_vidc_buffer)
    (hK : attr_bits K)
    (hfields : K.buf_data_size + 4 ≤ K.buf_flags ∨ K.buf_flags + 4 ≤ K.buf_data_size)
    (hro32 : K.HFI_BUF_FW_FLAG_READONLY ≤ U32_MAX)
    (hall : ∀ t ∈ dequeue_kinds, st.inst.buffers t ≠ none)
    (hl : st.inst.buffers msm_vidc_buffer_type.MSM_VIDC_BUF_OUTPUT = some l)
    (hfind : find_buffer (read64 st.mem (buffer1 + K.buf_base_address)) l = some (idx, b))
    (hone : (l.map (fun x => x.device_addr)).count
      (read64 st.mem (buffer1 + K.buf_base_address)) = 1)
    (hsame : read64 m2 (buffer2 + K.buf_base_address) =
      read64 st.mem (buffer1 + K.buf_base_address))
    (hfresh : has_flag b.attr K.MSM_VIDC_ATTR_BUFFER_DONE = false) :
    (deliver_output K X st buffer1).1 = 0 ∧
    (deliver_output K X st buffer1).2.inst.events.count
        (vidc_event.vb2_buffer_done msm_vidc_buffer_type.MSM_VIDC_BUF_OUTPUT idx) =
      st.inst.events.count
        (vidc_event.vb2_buffer_done msm_vidc_buffer_type.MSM_VIDC_BUF_OUTPUT idx) + 1 ∧
    (∀ ty i,
      (deliver_output K X ⟨m2, (deliver_output K X st buffer1).2.inst⟩ buffer2).2.inst.events.count
          (vidc_event.vb2_buffer_done ty i) =
        (deliver_output K X st buffer1).2.inst.events.count (vidc_event.vb2_buffer_done ty i)) ∧
    ((has_flag (read32 st.mem (buffer1 + K.buf_flags)) K.HFI_BUF_FW_FLAG_READONLY = true ∧
        has_flag (read32 st.mem (buffer1 + K.buf_flags)) K.HFI_BUF_FW_FLAG_LAST = false) →
      (deliver_output K X ⟨m2, (deliver_output K X st buffer1).2.inst⟩ buffer2).1 = 0 ∧
      ∃ l' idx' b',
        (deliver_output K X st buffer1).2.inst.buffers msm_vidc_buffer_type.MSM_VIDC_BUF_OUTPUT =
          some l' ∧
        find_buffer (read64 m2 (buffer2 + K.buf_base_address)) l' = some (idx', b') ∧
        has_flag b'.attr K.MSM_VIDC_ATTR_BUFFER_DONE = true) ∧
    (¬ (has_flag (read32 st.mem (buffer1 + K.buf_flags)) K.HFI_BUF_FW_FLAG_READONLY = true ∧
        has_flag (read32 st.mem (buffer1 + K.buf_flags)) K.HFI_BUF_FW_FLAG_LAST = false) →
      no_match K ⟨m2, (deliver_output K X st buffer1).2.inst⟩ buffer2
        msm_vidc_buffer_type.MSM_VIDC_BUF_OUTPUT ∧
      deliver_output K X ⟨m2, (deliver_output K X st buffer1).2.inst⟩ buffer2 =
        (-EINVAL, ⟨m2, (deliver_output K X st buffer1).2.inst⟩)) := by
  have hO : msm_vidc_buffer_type.MSM_VIDC_BUF_OUTPUT ∈ dequeue_kinds := by simp [dequeue_kinds]
  have hget := (find_buffer_some _ l idx b hfind).1
  have hlen : idx < l.length := by
    by_contra hc
    rw [List.getElem?_eq_none (by omega)] at hget
    cases hget
  -- first delivery
  obtain ⟨d1rc, d1oth, d1cnt, b1, d1buf, b1addr, b1deq, b1done⟩ :=
    handle_output_buffer_found K X st buffer1 l idx b hK hl hfind
  obtain ⟨_, b1x, d1bufx, _, b1ro, _⟩ :=
    handle_output_buffer_flags K X st buffer1 l idx b hK.1.2.2.2 hK.2.1.2.2.2 hl hfind
  have hb1x : b1x = b1 := by
    rw [d1buf] at d1bufx
    injection d1bufx with h
    have h2 := congrArg (fun z => z[idx]?) h
    simp only [List.getElem?_set_self hlen, Option.some.injEq] at h2
    exact h2.symm
  rw [hb1x, normalised_flags_read_only K st.mem buffer1 hfields hro32] at b1ro
  have e1 : deliver_output K X st buffer1 =
      handle_dequeue_buffers K (handle_output_buffer K X st buffer1).2 := by
    unfold deliver_output; rw [d1rc]; simp
  have hall1 : ∀ t ∈ dequeue_kinds, (handle_output_buffer K X st buffer1).2.inst.buffers t ≠ none := by
    intro t ht
    by_cases h : t = msm_vidc_buffer_type.MSM_VIDC_BUF_OUTPUT
    · subst h; rw [d1buf]; simp
    · rw [d1oth t h]; exact hall t ht
  have hget1 : (l.set idx b1)[idx]? = some b1 := by simp [hlen]
  have haddrs := set_addrs l idx b b1 hget b1addr
  have hfind1 : find_buffer (read64 st.mem (buffer1 + K.buf_base_address)) (l.set idx b1) =
      some (idx, b1) :=
    find_buffer_congr _ l (l.set idx b1) idx b b1 haddrs.symm hfind hget1
  obtain ⟨r1rc, _, _, r1buf, r1count⟩ :=
    dequeue_record_effect K (handle_output_buffer K X st buffer1).2
      msm_vidc_buffer_type.MSM_VIDC_BUF_OUTPUT (l.set idx b1) hK hall1 hO d1buf
  have r1cnt := (r1count idx b1 hget1).1
  rw [b1deq, b1done, hfresh] at r1cnt
  simp only [and_self, if_true] at r1cnt
  rw [d1cnt] at r1cnt
  have hclean := handle_dequeue_buffers_clean K (handle_output_buffer K X st buffer1).2 hK hall1
  rw [e1]
  by_cases hro : has_flag (read32 st.mem (buffer1 + K.buf_flags)) K.HFI_BUF_FW_FLAG_READONLY = true ∧
      has_flag (read32 st.mem (buffer1 + K.buf_flags)) K.HFI_BUF_FW_FLAG_LAST = false
  · -- the record stays
    have hb1ro : has_flag b1.attr K.MSM_VIDC_ATTR_READ_ONLY = true := b1ro.mpr hro
    have hrel : released K b1.attr = false := by
      unfold released; rw [hb1ro]; simp
    obtain ⟨c1, hc1, hrec⟩ :=
      dequeue_buffer_kept K msm_vidc_buffer_type.MSM_VIDC_BUF_OUTPUT (0 + idx) b1 hK hrel
    obtain ⟨idx2, hfind2⟩ := dequeue_list_find_kept K msm_vidc_buffer_type.MSM_VIDC_BUF_OUTPUT hK
      _ (l.set idx b1) 0 idx b1 c1 hfind1 hc1
    have c1done := reconciled_done K b1 c1 hrec b1deq
    rw [← hsame] at hfind2
    obtain ⟨d2rc, d2oth, d2cnt, b2, d2buf, _, b2deq, b2done⟩ :=
      handle_output_buffer_found K X
        ⟨m2, (handle_dequeue_buffers K (handle_output_buffer K X st buffer1).2).2.inst⟩
        buffer2 _ idx2 c1 hK r1buf hfind2
    have e2 : deliver_output K X
        ⟨m2, (handle_dequeue_buffers K (handle_output_buffer K X st buffer1).2).2.inst⟩ buffer2 =
        handle_dequeue_buffers K (handle_output_buffer K X
          ⟨m2, (handle_dequeue_buffers K (handle_output_buffer K X st buffer1).2).2.inst⟩
          buffer2).2 := by
      unfold deliver_output; rw [d2rc]; simp
    have hnn := handle_dequeue_buffers_no_notify K (handle_output_buffer K X
        ⟨m2, (handle_dequeue_buffers K (handle_output_buffer K X st buffer1).2).2.inst⟩
        buffer2).2 hK (by
      intro t ht
      by_cases h : t = msm_vidc_buffer_type.MSM_VIDC_BUF_OUTPUT
      · subst h
        refine ⟨_, d2buf, ?_⟩
        intro x hx hxd
        rcases List.mem_or_eq_of_mem_set hx with hx | hx
        · have := (dequeue_list_mem K _ hK _ 0 x hx).1
          rw [this] at hxd
          cases hxd
        · rw [hx, b2done]; exact c1done
      · obtain ⟨lt, hlt, hc⟩ := hclean t ht
        refine ⟨lt, (d2oth t h).trans hlt, ?_⟩
        intro x hx hxd
        rw [hc x hx] at hxd
        cases hxd)
    rw [e2]
    refine ⟨r1rc, r1cnt, ?_, ?_, ?_⟩
    · intro ty i
      rw [hnn.2 ty i, d2cnt]
    · intro _
      exact ⟨hnn.1, _, idx2, c1, r1buf, hfind2, c1done⟩
    · intro h
      exact absurd hro h
  · -- the record was released
    have hb1ro : has_flag b1.attr K.MSM_VIDC_ATTR_READ_ONLY = false := by
      cases h : has_flag b1.attr K.MSM_VIDC_ATTR_READ_ONLY
      · rfl
      · exact absurd (b1ro.mp h) hro
    have hrel : released K b1.attr = true := by
      unfold released; rw [hb1ro, b1deq]; rfl
    have hnone :=
      dequeue_buffer_released K msm_vidc_buffer_type.MSM_VIDC_BUF_OUTPUT (0 + idx) b1 hK hrel
    have hone1 : ((l.set idx b1).map (fun x => x.device_addr)).count
        (read64 st.mem (buffer1 + K.buf_base_address)) = 1 := by
      rw [haddrs]; exact hone
    have hno := dequeue_list_find_released K msm_vidc_buffer_type.MSM_VIDC_BUF_OUTPUT hK
      _ (l.set idx b1) 0 idx b1 hfind1 hone1 hnone
    have hnm : no_match K
        ⟨m2, (handle_dequeue_buffers K (handle_output_buffer K X st buffer1).2).2.inst⟩ buffer2
        msm_vidc_buffer_type.MSM_VIDC_BUF_OUTPUT := by
      unfold no_match
      rw [r1buf, hsame]
      exact hno
    have e2 : deliver_output K X
        ⟨m2, (handle_dequeue_buffers K (handle_output_buffer K X st buffer1).2).2.inst⟩ buffer2 =
        (-EINVAL,
          ⟨m2, (handle_dequeue_buffers K (handle_output_buffer K X st buffer1).2).2.inst⟩) := by
      unfold deliver_output
      rw [handle_output_buffer_not_found K X _ buffer2 hnm]
      simp [EINVAL]
    rw [e2]
    refine ⟨r1rc, r1cnt, fun _ _ => rfl, ?_, ?_⟩
    · intro h
      exact absurd h hro
    · intro _
      exact ⟨hnm, rfl⟩

/-- Counterexample to C8: the completion `last_readonly_buffer` (flags
`LAST | READONLY`, which leave the record without `READ_ONLY`) delivered twice
for the queued Output record at `0x5000`.  The first delivery notifies once and
releases the record, so the Output collection is empty; the second delivery
does not find `BUFFER_DONE` set, it finds no record: `handle_output_buffer`
returns `-EINVAL` and no reconciliation pass follows. -/
theorem released_record_is_not_found_again :
    (deliver_output venus ops_ok
      ⟨mem_of 0x1040 last_readonly_buffer, dec_inst (out_record 0x8) []⟩ 0x1040).1 = 0 ∧
    (deliver_output venus ops_ok
      ⟨mem_of 0x1040 last_readonly_buffer, dec_inst (out_record 0x8) []⟩ 0x1040).2.inst.events =
      [vidc_event.dequeue_buffers,
       vidc_event.vb2_buffer_done msm_vidc_buffer_type.MSM_VIDC_BUF_OUTPUT 0,
       vidc_event.put_driver_buf msm_vidc_buffer_type.MSM_VIDC_BUF_OUTPUT 0] ∧
    (deliver_output venus ops_ok
      ⟨mem_of 0x1040 last_readonly_buffer, dec_inst (out_record 0x8) []⟩ 0x1040).2.inst.buffers
      msm_vidc_buffer_type.MSM_VIDC_BUF_OUTPUT = some [] ∧
    (handle_output_buffer venus ops_ok ⟨mem_of 0x1040 last_readonly_buffer,
      (deliver_output venus ops_ok ⟨mem_of 0x1040 last_readonly_buffer,
        dec_inst (out_record 0x8) []⟩ 0x1040).2.inst⟩ 0x1040).1 = -EINVAL ∧
    (deliver_output venus ops_ok ⟨mem_of 0x1040 last_readonly_buffer,
      (deliver_output venus ops_ok ⟨mem_of 0x1040 last_readonly_buffer,
        dec_inst (out_record 0x8) []⟩ 0x1040).2.inst⟩ 0x1040).2.inst.events =
      [vidc_event.dequeue_buffers,
       vidc_event.vb2_buffer_done msm_vidc_buffer_type.MSM_VIDC_BUF_OUTPUT 0,
       vidc_event.put_driver_buf msm_vidc_buffer_type.MSM_VIDC_BUF_OUTPUT 0] := by
  refine ⟨by decide, by decide, by decide, by decide, by decide⟩

/-- Witness for C8 (amended): the read-only completion `readonly_buffer`
delivered twice for the queued Output record at `0x5000`: one completion
notification after the first delivery, none after the second, which succeeds
and leaves the record in the collection. -/
theorem duplicate_completion_notified_once_witness :
    ((deliver_output venus ops_ok
        ⟨mem_of 0x1040 readonly_buffer, dec_inst (out_record 0x8) []⟩ 0x1040).2.inst.events.count
        (vidc_event.vb2_buffer_done msm_vidc_buffer_type.MSM_VIDC_BUF_OUTPUT 0) =
      (dec_inst (out_record 0x8) []).events.count
        (vidc_event.vb2_buffer_done msm_vidc_buffer_type.MSM_VIDC_BUF_OUTPUT 0) + 1) ∧
    (deliver_output venus ops_ok ⟨mem_of 0x1040 readonly_buffer,
      (deliver_output venus ops_ok ⟨mem_of 0x1040 readonly_buffer,
        dec_inst (out_record 0x8) []⟩ 0x1040).2.inst⟩ 0x1040).1 = 0 ∧
    (deliver_output venus ops_ok ⟨mem_of 0x1040 readonly_buffer,
      (deliver_output venus ops_ok ⟨mem_of 0x1040 readonly_buffer,
        dec_inst (out_record 0x8) []⟩ 0x1040).2.inst⟩ 0x1040).2.inst.events =
      [vidc_event.dequeue_buffers,
       vidc_event.vb2_buffer_done msm_vidc_buffer_type.MSM_VIDC_BUF_OUTPUT 0,
       vidc_event.dequeue_buffers] :=
  ⟨(duplicate_completion_notified_once venus ops_ok
      ⟨mem_of 0x1040 readonly_buffer, dec_inst (out_record 0x8) []⟩
      (mem_of 0x1040 readonly_buffer) 0x1040 0x1040 [out_record 0x8] 0 (out_record 0x8)
      (by decide) (by decide) (by decide) (by decide) rfl (by decide) (by decide) rfl
      (by decide)).2.1,
   ((duplicate_completion_notified_once venus ops_ok
      ⟨mem_of 0x1040 readonly_buffer, dec_inst (out_record 0x8) []⟩
      (mem_of 0x1040 readonly_buffer) 0x1040 0x1040 [out_record 0x8] 0 (out_record 0x8)
      (by decide) (by decide) (by decide) (by decide) rfl (by decide) (by decide) rfl
      (by decide)).2.2.2.1 (by decide)).1,
   by decide⟩

/-- Counterexample to C5: `batch_overlapping_buffer` passes validation, triggers
no deferral, and all handlers return 0, but the handlers invoked are not those
of the claim.  On the wire the command range holds the packets at `0x1020`
(`HFI_CMD_BUFFER`) and `0x1058` (`HFI_CMD_START`); `handle_session_command` is
invoked on the first only.  The first packet declares 56 bytes, less than its
header and `hfi_buffer`; its handler resets the `data_size` field of that
`hfi_buffer` for the last flag, and the field is the type word of the second
packet, which the command scan then finds to be 0. -/
theorem overlapping_buffer_packet_hides_command :
    validate_packets world_overlap.mem world_overlap.core.response_packet
      world_overlap.core.packet_size (read32 world_overlap.mem (0x1000 + venus.hdr_num_packets))
      (0x1000 + venus.sizeof_hfi_header) = true ∧
    scan_response_work venus ops_ok 0x1000
      (read32 world_overlap.mem (0x1000 + venus.hdr_num_packets)) ⟨world_overlap.mem, enc_inst⟩
      (0x1000 + venus.sizeof_hfi_header) = none ∧
    (session_dispatch venus ops_ok ⟨world_overlap.mem, enc_inst⟩ 0x1000).rc = 0 ∧
    (handle_session_response venus ops_ok world_overlap 0x1000).1 = 0 ∧
    row_calls venus world_overlap.mem venus.HFI_CMD_BEGIN venus.HFI_CMD_END 3
      (packets world_overlap.mem (0x1000 + venus.sizeof_hfi_header)
        (read32 world_overlap.mem (0x1000 + venus.hdr_num_packets))) =
      [(3, 0x1020), (3, 0x1058)] ∧
    ((handle_session_response venus ops_ok world_overlap 0x1000).2.core.instances 7).map
      (fun i => i.calls) = some [(3, 0x1020)] ∧
    read32 (handle_session_response venus ops_ok world_overlap 0x1000).2.mem
      (0x1058 + venus.pkt_type) = 0 := by
  refine ⟨by decide, rfl, by decide, by decide, by decide, by decide, by decide⟩

/-- One scan of the packets keeps the local `hfi_cmd_type` equal to the type
field, as the memory holds it, of the packet of the last call: a handler
leaves the header of its own packet as it is. -/
theorem scan_packets_last (K : hfi_defs) (row : msm_vidc_hfi_range) (i : Nat)
    (base : List (Nat × Nat)) (c0 : Nat) (htype : K.pkt_type + 4 ≤ K.sizeof_hfi_packet)
    (hrow : ∀ st pkt,
      (∀ x, x < pkt + K.sizeof_hfi_packet → (row.handle st pkt).2.mem x = st.mem x) ∧
      (row.handle st pkt).2.inst.calls = st.inst.calls) :
    ∀ (n : Nat) (st : sess) (pkt c : Nat) (L : List (Nat × Nat)),
      st.inst.calls = base ++ L → c = last_type K st.mem c0 L →
      ∃ L', (scan_packets K row i n st pkt c).st.inst.calls = base ++ L' ∧
        (scan_packets K row i n st pkt c).hfi_cmd_type =
          last_type K (scan_packets K row i n st pkt c).st.mem c0 L' := by
  intro n
  induction n with
  | zero => intro st pkt c L h1 h2; exact ⟨L, h1, h2⟩
  | succ n ih =>
    intro st pkt c L h1 h2
    unfold scan_packets
    dsimp only
    by_cases hin : in_range row.range_begin row.range_end (read32 st.mem (pkt + K.pkt_type)) = true
    · rw [if_pos hin]
      have hcalls : (row.handle (st.call i pkt) pkt).2.inst.calls = base ++ (L ++ [(i, pkt)]) := by
        rw [(hrow (st.call i pkt) pkt).2]
        simp only [sess.call]
        rw [h1, List.append_assoc]
      have hty : read32 st.mem (pkt + K.pkt_type) =
          last_type K (row.handle (st.call i pkt) pkt).2.mem c0 (L ++ [(i, pkt)]) := by
        rw [last_type_append]
        simp only [last_type, List.foldl_cons, List.foldl_nil]
        exact (read32_congr _ _ _
          (fun x _ hx => (hrow (st.call i pkt) pkt).1 x (by omega))).symm
      by_cases hh : (row.handle (st.call i pkt) pkt).1 ≠ 0
      · rw [if_pos hh]
        exact ⟨L ++ [(i, pkt)], hcalls, hty⟩
      · rw [if_neg hh]
        exact ih _ _ _ _ hcalls hty
    · rw [if_neg hin]
      exact ih _ _ _ _ h1 h2

theorem dispatch_rows_last (K : hfi_defs) (n start : Nat) (base : List (Nat × Nat)) (c0 : Nat)
    (htype : K.pkt_type + 4 ≤ K.sizeof_hfi_packet) :
    ∀ (rows : List msm_vidc_hfi_range) (i : Nat) (st : sess) (c : Nat) (L : List (Nat × Nat)),
      (∀ row ∈ rows, ∀ st pkt,
        (∀ x, x < pkt + K.sizeof_hfi_packet → (row.handle st pkt).2.mem x = st.mem x) ∧
        (row.handle st pkt).2.inst.calls = st.inst.calls) →
      st.inst.calls = base ++ L → c = last_type K st.mem c0 L →
      ∃ L', (dispatch_rows K n start rows i st c).st.inst.calls = base ++ L' ∧
        (dispatch_rows K n start rows i st c).hfi_cmd_type =
          last_type K (dispatch_rows K n start rows i st c).st.mem c0 L' := by
  intro rows
  induction rows with
  | nil => intro i st c L _ h1 h2; exact ⟨L, h1, h2⟩
  | cons row rows ih =>
    intro i st c L hrows h1 h2
    obtain ⟨L1, g1, g2⟩ := scan_packets_last K row i base c0 htype
      (hrows row (List.mem_cons_self _ _)) n st start c L h1 h2
    unfold dispatch_rows
    dsimp only
    split_ifs with hrc
    · exact ⟨L1, g1, g2⟩
    · exact ih _ _ _ L1 (fun r hr => hrows r (List.mem_cons_of_mem _ hr)) g1 g2

/-- Every handler of the session table leaves the header of its own packet and
the ghost call log as they are. -/
theorem be_header (K : hfi_defs) (X : vidc_ops) (row : msm_vidc_hfi_range) (hrow : row ∈ be K X)
    (st : sess) (pkt : Nat) :
    (∀ x, x < pkt + K.sizeof_hfi_packet → (row.handle st pkt).2.mem x = st.mem x) ∧
    (row.handle st pkt).2.inst.calls = st.inst.calls := by
  refine ⟨?_, be_calls K X row hrow st pkt⟩
  simp only [be, List.mem_cons, List.mem_singleton, List.not_mem_nil, or_false] at hrow
  rcases hrow with h | h | h | h <;> subst h
  · intro x _; rw [(handle_session_error_frame K X st pkt).1]
  · intro x _; rw [(handle_session_info_frame K st pkt).1]
  · intro x _; rw [(handle_session_property_frame K st pkt).1]
  · intro x hx
    exact (handle_session_command_confined K X st pkt (pkt + K.sizeof_hfi_packet)
      (pkt + K.sizeof_hfi_packet + K.buf_data_size + K.buf_flags + 4)
      ⟨by omega, by omega⟩ ⟨by omega, by omega⟩).1 x (Or.inl hx)

/-- The local `hfi_cmd_type` at the end of the dispatch pass is the type of the
packet dispatched last, and 0 when the pass dispatched no packet. -/
theorem session_dispatch_last (K : hfi_defs) (X : vidc_ops) (st : sess) (hdr : Nat)
    (htype : K.pkt_type + 4 ≤ K.sizeof_hfi_packet) :
    (session_dispatch K X st hdr).hfi_cmd_type =
      last_type K (session_dispatch K X st hdr).st.mem 0
        (new_calls st.inst.calls (session_dispatch K X st hdr).st.inst.calls) := by
  obtain ⟨L, h1, h2⟩ := dispatch_rows_last K (read32 st.mem (hdr + K.hdr_num_packets))
    (hdr + K.sizeof_hfi_header) st.inst.calls 0 htype (be K X) 0 (clear_frame_info st) 0 []
    (fun row hrow => be_header K X row hrow) (by simp [clear_frame_info]) rfl
  unfold session_dispatch new_calls
  rw [h2, h1, List.drop_left]

/-- Claim C12 (amended): after a successful dispatch pass of a valid session
batch that triggers no deferral, `handle_session_response` runs the
reconciliation pass `handle_dequeue_buffers` exactly once if the packet
dispatched last in that pass (the packet of the last handler call, in
category-major order) has the type `HFI_CMD_BUFFER`, and does not run it
otherwise; when the pass dispatched no packet, the value compared with
`HFI_CMD_BUFFER` is 0.  The type is the type field of that packet as the
response memory holds it after the pass, which is what it held when the packet
was dispatched: the type field lies inside the packet header, and no handler
writes to the header of its own packet. -/
theorem dequeue_runs_iff_last_dispatched_is_buffer (K : hfi_defs) (X : vidc_ops) (w : world)
    (hdr : Nat) (inst : msm_vidc_inst)
    (htype : K.pkt_type + 4 ≤ K.sizeof_hfi_packet)
    (hinst : w.core.instances (read32 w.mem (hdr + K.hdr_session_id)) = some inst)
    (hvalid : validate_packets w.mem w.core.response_packet w.core.packet_size
      (read32 w.mem (hdr + K.hdr_num_packets)) (hdr + K.sizeof_hfi_header) = true)
    (hnodefer : scan_response_work K X hdr (read32 w.mem (hdr + K.hdr_num_packets)) ⟨w.mem, inst⟩
      (hdr + K.sizeof_hfi_header) = none)
    (hzero : (session_dispatch K X ⟨w.mem, inst⟩ hdr).rc = 0) :
    ((handle_session_response K X w hdr).2.core.instances
        (read32 w.mem (hdr + K.hdr_session_id))).map
      (fun i => i.events.count vidc_event.dequeue_buffers) =
      some (inst.events.count vidc_event.dequeue_buffers +
        (if last_type K (session_dispatch K X ⟨w.mem, inst⟩ hdr).st.mem 0
            (new_calls inst.calls (session_dispatch K X ⟨w.mem, inst⟩ hdr).st.inst.calls)
          = K.HFI_CMD_BUFFER then 1 else 0)) := by
  unfold handle_session_response
  rw [hinst]
  simp only [if_true, Option.map_some']
  rw [session_response_dispatch K X _ _ ⟨w.mem, inst⟩ hdr hvalid hnodefer,
    finish_dispatch_count K _ hzero, session_dispatch_no_dequeue,
    ← session_dispatch_last K X ⟨w.mem, inst⟩ hdr htype]

/-- Witness for C12: in `batch_overlapping_buffer` the only packet dispatched is
the `HFI_CMD_BUFFER` packet at `0x1020`, and the reconciliation pass runs
once. -/
theorem dequeue_runs_iff_last_dispatched_is_buffer_witness :
    (session_dispatch venus ops_ok ⟨world_overlap.mem, enc_inst⟩ 0x1000).st.inst.calls =
      [(3, 0x1020)] ∧
    ((handle_session_response venus ops_ok world_overlap 0x1000).2.core.instances 7).map
      (fun i => i.events.count vidc_event.dequeue_buffers) = some 1 :=
  ⟨by decide,
   (dequeue_runs_iff_last_dispatched_is_buffer venus ops_ok world_overlap
    0x1000 enc_inst (by decide) rfl (by decide) rfl (by decide)).trans (by decide)⟩

/-- One scan of a well-formed batch, whatever its return code: the calls it adds
are an initial part of the calls on the packets of the wire walk whose type is
strictly inside the bounds of the row. -/
theorem scan_packets_prefix (K : hfi_defs) (row : msm_vidc_hfi_range) (i : Nat) (m0 : Mem)
    (h4 : 4 ≤ K.sizeof_hfi_packet)
    (hrow : ∀ st pkt, confined st (pkt + K.sizeof_hfi_packet)
      (pkt + K.sizeof_hfi_packet + K.sizeof_hfi_buffer) (row.handle st pkt))
    (hrow2 : ∀ st pkt, (read32 st.mem (pkt + K.pkt_type) = K.HFI_CMD_BUFFER →
      read32 st.mem (pkt + K.pkt_payload_info) = K.HFI_PAYLOAD_NONE) →
      frame st (row.handle st pkt)) :
    ∀ (n : Nat) (st : sess) (pkt c : Nat), (∀ x, pkt ≤ x → st.mem x = m0 x) →
      (∀ p ∈ packets m0 pkt n, covers_payload K m0 p) →
      ∃ L, (scan_packets K row i n st pkt c).st.inst.calls = st.inst.calls ++ L ∧
        L <+: row_calls K m0 row.range_begin row.range_end i (packets m0 pkt n) := by
  intro n
  induction n with
  | zero =>
    intro st pkt c _ _
    exact ⟨[], by simp [scan_packets], List.nil_prefix⟩
  | succ n ih =>
    intro st pkt c hag hwf
    have hty : read32 st.mem (pkt + K.pkt_type) = read32 m0 (pkt + K.pkt_type) :=
      read32_congr _ _ _ (fun x hx _ => hag x (by omega))
    have hpi : read32 st.mem (pkt + K.pkt_payload_info) = read32 m0 (pkt + K.pkt_payload_info) :=
      read32_congr _ _ _ (fun x hx _ => hag x (by omega))
    have hsz : read32 st.mem pkt = read32 m0 pkt :=
      read32_congr _ _ _ (fun x hx _ => hag x (by omega))
    have hcov : covers_payload K m0 pkt := hwf pkt (by simp [packets])
    have hwf' : ∀ p ∈ packets m0 (pkt + read32 m0 pkt) n, covers_payload K m0 p :=
      fun p hp => hwf p (by simp [packets, hp])
    unfold scan_packets
    unfold packets row_calls
    dsimp only
    by_cases hin : in_range row.range_begin row.range_end (read32 st.mem (pkt + K.pkt_type)) = true
    · rw [if_pos hin]
      have hcalls : (row.handle (st.call i pkt) pkt).2.inst.calls = st.inst.calls ++ [(i, pkt)] :=
        (hrow (st.call i pkt) pkt).2.1
      have hin0 : in_range row.range_begin row.range_end (read32 m0 (pkt + K.pkt_type)) = true := by
        rw [← hty]; exact hin
      by_cases hh : (row.handle (st.call i pkt) pkt).1 ≠ 0
      · rw [if_pos hh]
        refine ⟨[(i, pkt)], hcalls, ?_⟩
        simp only [List.filter_cons, hin0, if_true, List.map_cons]
        exact List.prefix_iff_eq_append.mpr (by simp)
      · rw [if_neg hh]
        have hmem : ∀ x, (x < pkt + 4 ∨ pkt + read32 m0 pkt ≤ x) → pkt ≤ x →
            (row.handle (st.call i pkt) pkt).2.mem x = m0 x := by
          intro x hx hle
          by_cases hb : read32 st.mem (pkt + K.pkt_type) = K.HFI_CMD_BUFFER →
              read32 st.mem (pkt + K.pkt_payload_info) = K.HFI_PAYLOAD_NONE
          · have := (hrow2 (st.call i pkt) pkt hb).1
            rw [this]; exact hag x hle
          · have hb' : read32 m0 (pkt + K.pkt_type) = K.HFI_CMD_BUFFER ∧
                read32 m0 (pkt + K.pkt_payload_info) ≠ K.HFI_PAYLOAD_NONE := by
              rw [← hty, ← hpi]
              exact Classical.not_imp.mp hb
            have hc := hcov hb'.1 hb'.2
            have := (hrow (st.call i pkt) pkt).1 x (by omega)
            rw [this]; exact hag x hle
        have hsz' : read32 (row.handle (st.call i pkt) pkt).2.mem pkt = read32 m0 pkt :=
          read32_congr _ _ _ (fun x hx1 hx2 => hmem x (Or.inl hx2) hx1)
        rw [hsz']
        obtain ⟨L, hL, hpre⟩ := ih (row.handle (st.call i pkt) pkt).2 (pkt + read32 m0 pkt)
          (read32 st.mem (pkt + K.pkt_type))
          (fun x hx => hmem x (Or.inr hx) (by omega)) hwf'
        refine ⟨(i, pkt) :: L, ?_, ?_⟩
        · rw [hL, hcalls]; simp
        · simp only [List.filter_cons, hin0, if_true, List.map_cons]
          exact (List.prefix_cons_inj (i, pkt)).mpr hpre
    · rw [if_neg hin]
      rw [hsz]
      obtain ⟨L, hL, hpre⟩ := ih st (pkt + read32 m0 pkt) c (fun x hx => hag x (by omega)) hwf'
      refine ⟨L, hL, ?_⟩
      have hin0 : in_range row.range_begin row.range_end (read32 m0 (pkt + K.pkt_type)) = false := by
        rw [← hty]; simpa using hin
      simp only [List.filter_cons, hin0, Bool.false_eq_true, if_false]
      exact hpre

/-- The dispatch pass over a well-formed batch, whatever its return code: the
calls it adds are an initial part of the category-major list of calls. -/
theorem dispatch_rows_prefix (K : hfi_defs) (X : vidc_ops) (n start : Nat) (st : sess)
    (h4 : 4 ≤ K.sizeof_hfi_packet)
    (h1 : K.buf_data_size + 4 ≤ K.sizeof_hfi_buffer) (h2 : K.buf_flags + 4 ≤ K.sizeof_hfi_buffer)
    (hwf : ∀ p ∈ packets st.mem start n, covers_payload K st.mem p) :
    ∃ L, (dispatch_rows K n start (be K X) 0 st 0).st.inst.calls = st.inst.calls ++ L ∧
      L <+: row_calls K st.mem K.HFI_SESSION_ERROR_BEGIN K.HFI_SESSION_ERROR_END 0
            (packets st.mem start n)
        ++ row_calls K st.mem K.HFI_INFORMATION_BEGIN K.HFI_INFORMATION_END 1
            (packets st.mem start n)
        ++ row_calls K st.mem K.HFI_PROP_BEGIN K.HFI_PROP_END 2 (packets st.mem start n)
        ++ row_calls K st.mem K.HFI_CMD_BEGIN K.HFI_CMD_END 3 (packets st.mem start n) := by
  simp only [be, dispatch_rows]
  obtain ⟨L0, p0, q0⟩ := scan_packets_prefix K ⟨_, _, handle_session_error K X⟩ 0 st.mem h4
    (fun s p => frame_confined _ _ _ _ (handle_session_error_frame K X s p))
    (fun s p _ => handle_session_error_frame K X s p) n st start 0 (fun x _ => rfl) hwf
  split_ifs with e0 e1 e2 e3
  · exact ⟨L0, p0, q0.trans (by
      simp only [List.append_assoc]; exact List.prefix_append _ _)⟩
  · obtain ⟨m0, c0⟩ := scan_packets_frame K ⟨_, _, handle_session_error K X⟩ 0
      (handle_session_error_frame K X) n st start 0 (not_not.mp e0)
    obtain ⟨L1, p1, q1⟩ := scan_packets_prefix K ⟨_, _, handle_session_info K⟩ 1 st.mem h4
      (fun s p => frame_confined _ _ _ _ (handle_session_info_frame K s p))
      (fun s p _ => handle_session_info_frame K s p) n _ start _
      (fun x _ => by rw [m0]) hwf
    dsimp only at m0 c0 p1 q1 ⊢
    refine ⟨row_calls K st.mem K.HFI_SESSION_ERROR_BEGIN K.HFI_SESSION_ERROR_END 0 (packets st.mem start n) ++ L1,
      by rw [p1, c0, List.append_assoc], ?_⟩
    simp only [List.append_assoc]
    exact (List.prefix_append_right_inj _).mpr (q1.trans (List.prefix_append _ _))
  · obtain ⟨m0, c0⟩ := scan_packets_frame K ⟨_, _, handle_session_error K X⟩ 0
      (handle_session_error_frame K X) n st start 0 (not_not.mp e0)
    obtain ⟨m1, c1⟩ := scan_packets_frame K ⟨_, _, handle_session_info K⟩ 1
      (handle_session_info_frame K) n _ start _ (not_not.mp e1)
    obtain ⟨L2, p2, q2⟩ := scan_packets_prefix K ⟨_, _, handle_session_property K⟩ 2 st.mem h4
      (fun s p => frame_confined _ _ _ _ (handle_session_property_frame K s p))
      (fun s p _ => handle_session_property_frame K s p) n _ start _
      (fun x _ => by rw [m1, m0]) hwf
    dsimp only at m0 c0 m1 c1 p2 q2 ⊢
    refine ⟨row_calls K st.mem K.HFI_SESSION_ERROR_BEGIN K.HFI_SESSION_ERROR_END 0 (packets st.mem start n)
        ++ (row_calls K st.mem K.HFI_INFORMATION_BEGIN K.HFI_INFORMATION_END 1 (packets st.mem start n) ++ L2),
      by rw [p2, c1, c0, m0]; simp only [List.append_assoc], ?_⟩
    simp only [List.append_assoc]
    exact (List.prefix_append_right_inj _).mpr ((List.prefix_append_right_inj _).mpr
      (q2.trans (List.prefix_append _ _)))
  all_goals
    obtain ⟨m0, c0⟩ := scan_packets_frame K ⟨_, _, handle_session_error K X⟩ 0
      (handle_session_error_frame K X) n st start 0 (not_not.mp e0)
    obtain ⟨m1, c1⟩ := scan_packets_frame K ⟨_, _, handle_session_info K⟩ 1
      (handle_session_info_frame K) n _ start _ (not_not.mp e1)
    obtain ⟨m2, c2⟩ := scan_packets_frame K ⟨_, _, handle_session_property K⟩ 2
      (handle_session_property_frame K) n _ start _ (not_not.mp e2)
    obtain ⟨L3, p3, q3⟩ := scan_packets_prefix K ⟨_, _, handle_session_command K X⟩ 3 st.mem h4
      (fun s p => handle_session_command_confined K X s p _ _ ⟨by omega, by omega⟩
        ⟨by omega, by omega⟩)
      (fun s p h => handle_session_command_frame K X s p h) n _ start _
      (fun x _ => by rw [m2, m1, m0]) hwf
    dsimp only at m0 c0 m1 c1 m2 c2 p3 q3 ⊢
    refine ⟨row_calls K st.mem K.HFI_SESSION_ERROR_BEGIN K.HFI_SESSION_ERROR_END 0 (packets st.mem start n)
        ++ (row_calls K st.mem K.HFI_INFORMATION_BEGIN K.HFI_INFORMATION_END 1 (packets st.mem start n)
        ++ (row_calls K st.mem K.HFI_PROP_BEGIN K.HFI_PROP_END 2 (packets st.mem start n) ++ L3)),
      by rw [p3, c2, c1, c0, m1, m0]; simp only [List.append_assoc], ?_⟩
    simp only [List.append_assoc]
    exact (List.prefix_append_right_inj _).mpr ((List.prefix_append_right_inj _).mpr
      ((List.prefix_append_right_inj _).mpr q3))

/-- Counterexample to C23: two batches the code can receive in which a packet
whose type is strictly inside the command bounds is not dispatched.  In
`batch_overlapping_buffer` the pass ends with code 0: the handler of the
`HFI_CMD_BUFFER` packet at `0x1020`, whose declared size does not cover its
`hfi_buffer`, resets `data_size` in the response memory, which is the type field
of the `HFI_CMD_START` packet at `0x1058`, before the command scan reaches it.
In `batch_bad_property_then_cmd` the property handler fails on the first
packet, the pass ends with `-EINVAL`, and the command packet at `0x1040` is
never reached. -/
theorem in_range_packet_not_dispatched :
    (0x1058 ∈ packets world_overlap.mem (0x1000 + venus.sizeof_hfi_header)
        (read32 world_overlap.mem (0x1000 + venus.hdr_num_packets)) ∧
      venus.HFI_CMD_BEGIN < read32 world_overlap.mem (0x1058 + venus.pkt_type) ∧
      read32 world_overlap.mem (0x1058 + venus.pkt_type) < venus.HFI_CMD_END ∧
      (session_dispatch venus ops_ok ⟨world_overlap.mem, enc_inst⟩ 0x1000).rc = 0 ∧
      (3, 0x1058) ∉ new_calls enc_inst.calls
        (session_dispatch venus ops_ok ⟨world_overlap.mem, enc_inst⟩ 0x1000).st.inst.calls) ∧
    (0x1040 ∈ packets (world_with batch_bad_property_then_cmd).mem
        (0x1000 + venus.sizeof_hfi_header)
        (read32 (world_with batch_bad_property_then_cmd).mem (0x1000 + venus.hdr_num_packets)) ∧
      venus.HFI_CMD_BEGIN <
        read32 (world_with batch_bad_property_then_cmd).mem (0x1040 + venus.pkt_type) ∧
      read32 (world_with batch_bad_property_then_cmd).mem (0x1040 + venus.pkt_type) <
        venus.HFI_CMD_END ∧
      (session_dispatch venus ops_ok
        ⟨(world_with batch_bad_property_then_cmd).mem, dec_inst (out_record 0x8) []⟩
        0x1000).rc = -EINVAL ∧
      (3, 0x1040) ∉ new_calls (dec_inst (out_record 0x8) []).calls
        (session_dispatch venus ops_ok
          ⟨(world_with batch_bad_property_then_cmd).mem, dec_inst (out_record 0x8) []⟩
          0x1000).st.inst.calls) := by
  refine ⟨⟨by decide, by decide, by decide, by decide, by decide⟩,
    ⟨by decide, by decide, by decide, by decide, by decide⟩⟩

/-- Claim C23 (amended): in the session dispatch pass over a batch in which every
`HFI_CMD_BUFFER` packet with a payload declares at least the packet header plus
one `hfi_buffer` (`covers_payload`), the handler of a category is invoked on a
packet only if the packet's type lies strictly inside the bounds of the
category, `begin < type < end`: a call of row 0 (`handle_session_error`) on the
packet at `p` implies that `p` is a packet of the walk with
`HFI_SESSION_ERROR_BEGIN < type < HFI_SESSION_ERROR_END`, likewise for row 1
(information), row 2 (property) and row 3 (command), and there is no other
row; so a packet whose type equals the begin or the end marker of a row is
never dispatched to that row.  When the pass ends with code 0, the converse
holds as well: each row is called on the packet if and only if its type is
strictly inside the bounds of the row.  The layout is taken such that the
fields the output handler rewrites lie inside `struct hfi_buffer`. -/
theorem dispatch_strictly_inside_bounds (K : hfi_defs) (X : vidc_ops) (st : sess) (hdr p : Nat)
    (hlayout : 4 ≤ K.sizeof_hfi_packet ∧ K.buf_data_size + 4 ≤ K.sizeof_hfi_buffer ∧
      K.buf_flags + 4 ≤ K.sizeof_hfi_buffer)
    (hcover : ∀ q ∈ packets st.mem (hdr + K.sizeof_hfi_header)
      (read32 st.mem (hdr + K.hdr_num_packets)), covers_payload K st.mem q) :
    (((0, p) ∈ new_calls st.inst.calls (session_dispatch K X st hdr).st.inst.calls →
        p ∈ packets st.mem (hdr + K.sizeof_hfi_header) (read32 st.mem (hdr + K.hdr_num_packets)) ∧
        K.HFI_SESSION_ERROR_BEGIN < read32 st.mem (p + K.pkt_type) ∧
        read32 st.mem (p + K.pkt_type) < K.HFI_SESSION_ERROR_END) ∧
      ((1, p) ∈ new_calls st.inst.calls (session_dispatch K X st hdr).st.inst.calls →
        p ∈ packets st.mem (hdr + K.sizeof_hfi_header) (read32 st.mem (hdr + K.hdr_num_packets)) ∧
        K.HFI_INFORMATION_BEGIN < read32 st.mem (p + K.pkt_type) ∧
        read32 st.mem (p + K.pkt_type) < K.HFI_INFORMATION_END) ∧
      ((2, p) ∈ new_calls st.inst.calls (session_dispatch K X st hdr).st.inst.calls →
        p ∈ packets st.mem (hdr + K.sizeof_hfi_header) (read32 st.mem (hdr + K.hdr_num_packets)) ∧
        K.HFI_PROP_BEGIN < read32 st.mem (p + K.pkt_type) ∧
        read32 st.mem (p + K.pkt_type) < K.HFI_PROP_END) ∧
      ((3, p) ∈ new_calls st.inst.calls (session_dispatch K X st hdr).st.inst.calls →
        p ∈ packets st.mem (hdr + K.sizeof_hfi_header) (read32 st.mem (hdr + K.hdr_num_packets)) ∧
        K.HFI_CMD_BEGIN < read32 st.mem (p + K.pkt_type) ∧
        read32 st.mem (p + K.pkt_type) < K.HFI_CMD_END) ∧
      (∀ i, 4 ≤ i →
        (i, p) ∉ new_calls st.inst.calls (session_dispatch K X st hdr).st.inst.calls)) ∧
    ((session_dispatch K X st hdr).rc = 0 →
      ((0, p) ∈ new_calls st.inst.calls (session_dispatch K X st hdr).st.inst.calls ↔
        p ∈ packets st.mem (hdr + K.sizeof_hfi_header) (read32 st.mem (hdr + K.hdr_num_packets)) ∧
        K.HFI_SESSION_ERROR_BEGIN < read32 st.mem (p + K.pkt_type) ∧
        read32 st.mem (p + K.pkt_type) < K.HFI_SESSION_ERROR_END) ∧
      ((1, p) ∈ new_calls st.inst.calls (session_dispatch K X st hdr).st.inst.calls ↔
        p ∈ packets st.mem (hdr + K.sizeof_hfi_header) (read32 st.mem (hdr + K.hdr_num_packets)) ∧
        K.HFI_INFORMATION_BEGIN < read32 st.mem (p + K.pkt_type) ∧
        read32 st.mem (p + K.pkt_type) < K.HFI_INFORMATION_END) ∧
      ((2, p) ∈ new_calls st.inst.calls (session_dispatch K X st hdr).st.inst.calls ↔
        p ∈ packets st.mem (hdr + K.sizeof_hfi_header) (read32 st.mem (hdr + K.hdr_num_packets)) ∧
        K.HFI_PROP_BEGIN < read32 st.mem (p + K.pkt_type) ∧
        read32 st.mem (p + K.pkt_type) < K.HFI_PROP_END) ∧
      ((3, p) ∈ new_calls st.inst.calls (session_dispatch K X st hdr).st.inst.calls ↔
        p ∈ packets st.mem (hdr + K.sizeof_hfi_header) (read32 st.mem (hdr + K.hdr_num_packets)) ∧
        K.HFI_CMD_BEGIN < read32 st.mem (p + K.pkt_type) ∧
        read32 st.mem (p + K.pkt_type) < K.HFI_CMD_END)) := by
  constructor
  · obtain ⟨L, hL, hpre⟩ := dispatch_rows_prefix K X (read32 st.mem (hdr + K.hdr_num_packets))
      (hdr + K.sizeof_hfi_header) (clear_frame_info st) hlayout.1 hlayout.2.1 hlayout.2.2 hcover
    have hnew : new_calls st.inst.calls (session_dispatch K X st hdr).st.inst.calls = L := by
      unfold new_calls session_dispatch
      rw [hL]
      simp only [clear_frame_info, List.drop_left]
    rw [hnew]
    have hsub : ∀ x, x ∈ L → x ∈ _ := fun x hx => hpre.subset hx
    simp only [clear_frame_info] at hsub
    refine ⟨?_, ?_, ?_, ?_, ?_⟩
    · intro h
      have := hsub _ h
      simp only [List.mem_append, mem_row_calls] at this
      rcases this with ((⟨_, h⟩ | ⟨h0, _⟩) | ⟨h0, _⟩) | ⟨h0, _⟩
      · exact h
      · cases h0
      · cases h0
      · cases h0
    · intro h
      have := hsub _ h
      simp only [List.mem_append, mem_row_calls] at this
      rcases this with ((⟨h0, _⟩ | ⟨_, h⟩) | ⟨h0, _⟩) | ⟨h0, _⟩
      · cases h0
      · exact h
      · cases h0
      · cases h0
    · intro h
      have := hsub _ h
      simp only [List.mem_append, mem_row_calls] at this
      rcases this with ((⟨h0, _⟩ | ⟨h0, _⟩) | ⟨_, h⟩) | ⟨h0, _⟩
      · cases h0
      · cases h0
      · exact h
      · cases h0
    · intro h
      have := hsub _ h
      simp only [List.mem_append, mem_row_calls] at this
      rcases this with ((⟨h0, _⟩ | ⟨h0, _⟩) | ⟨h0, _⟩) | ⟨_, h⟩
      · cases h0
      · cases h0
      · cases h0
      · exact h
    · intro i hi h
      have := hsub _ h
      simp only [List.mem_append, mem_row_calls] at this
      rcases this with ((⟨h0, _⟩ | ⟨h0, _⟩) | ⟨h0, _⟩) | ⟨h0, _⟩ <;> omega
  · intro hzero
    have hc := dispatch_rows_calls K X _ _ (clear_frame_info st) hlayout.1 hlayout.2.1
      hlayout.2.2 hcover hzero
    have hnew : new_calls st.inst.calls (session_dispatch K X st hdr).st.inst.calls =
        row_calls K st.mem K.HFI_SESSION_ERROR_BEGIN K.HFI_SESSION_ERROR_END 0
            (packets st.mem (hdr + K.sizeof_hfi_header) (read32 st.mem (hdr + K.hdr_num_packets)))
          ++ row_calls K st.mem K.HFI_INFORMATION_BEGIN K.HFI_INFORMATION_END 1
            (packets st.mem (hdr + K.sizeof_hfi_header) (read32 st.mem (hdr + K.hdr_num_packets)))
          ++ row_calls K st.mem K.HFI_PROP_BEGIN K.HFI_PROP_END 2
            (packets st.mem (hdr + K.sizeof_hfi_header) (read32 st.mem (hdr + K.hdr_num_packets)))
          ++ row_calls K st.mem K.HFI_CMD_BEGIN K.HFI_CMD_END 3
            (packets st.mem (hdr + K.sizeof_hfi_header)
              (read32 st.mem (hdr + K.hdr_num_packets))) := by
      unfold new_calls session_dispatch
      rw [hc]
      simp only [clear_frame_info, List.append_assoc, List.drop_left]
    rw [hnew]
    simp only [List.mem_append, mem_row_calls]
    refine ⟨?_, ?_, ?_, ?_⟩
    · constructor
      · rintro (((⟨_, h⟩ | ⟨h0, _⟩) | ⟨h0, _⟩) | ⟨h0, _⟩)
        · exact h
        · cases h0
        · cases h0
        · cases h0
      · intro h; exact Or.inl (Or.inl (Or.inl ⟨trivial, h⟩))
    · constructor
      · rintro (((⟨h0, _⟩ | ⟨_, h⟩) | ⟨h0, _⟩) | ⟨h0, _⟩)
        · cases h0
        · exact h
        · cases h0
        · cases h0
      · intro h; exact Or.inl (Or.inl (Or.inr ⟨trivial, h⟩))
    · constructor
      · rintro (((⟨h0, _⟩ | ⟨h0, _⟩) | ⟨_, h⟩) | ⟨h0, _⟩)
        · cases h0
        · cases h0
        · exact h
        · cases h0
      · intro h; exact Or.inl (Or.inr ⟨trivial, h⟩)
    · constructor
      · rintro (((⟨h0, _⟩ | ⟨h0, _⟩) | ⟨h0, _⟩) | ⟨_, h⟩)
        · cases h0
        · cases h0
        · cases h0
        · exact h
      · intro h; exact Or.inr ⟨trivial, h⟩

/-- Witness for C23: in `batch_marker_then_error` the first packet, at `0x1020`,
has the type `HFI_PROP_END`, the end marker of the property range; the pass
ends with code 0 and calls the session-error handler on the second packet
only, and the property handler (row 2) is called on the first packet iff its
type is strictly inside the property range, which it is not. -/
theorem dispatch_strictly_inside_bounds_witness :
    read32 (world_with batch_marker_then_error).mem (0x1020 + venus.pkt_type) =
      venus.HFI_PROP_END ∧
    (session_dispatch venus ops_ok
      ⟨(world_with batch_marker_then_error).mem, dec_inst (out_record 0x8) []⟩
      0x1000).st.inst.calls = [(0, 0x1040)] ∧
    ((2, 0x1020) ∈ new_calls (dec_inst (out_record 0x8) []).calls
        (session_dispatch venus ops_ok
          ⟨(world_with batch_marker_then_error).mem, dec_inst (out_record 0x8) []⟩
          0x1000).st.inst.calls ↔
      0x1020 ∈ packets (world_with batch_marker_then_error).mem (0x1000 + venus.sizeof_hfi_header)
        (read32 (world_with batch_marker_then_error).mem (0x1000 + venus.hdr_num_packets)) ∧
      venus.HFI_PROP_BEGIN < read32 (world_with batch_marker_then_error).mem
        (0x1020 + venus.pkt_type) ∧
      read32 (world_with batch_marker_then_error).mem (0x1020 + venus.pkt_type) <
        venus.HFI_PROP_END) :=
  ⟨by decide, by decide,
   ((dispatch_strictly_inside_bounds venus ops_ok
      ⟨(world_with batch_marker_then_error).mem, dec_inst (out_record 0x8) []⟩ 0x1000 0x1020
      (by decide) (by decide)).2 (by decide)).2.2.1⟩
end Vidc
